import Mathlib

/-!
# EEPROM File System (EEFS): file engine

A shallow embedding of `src/tools/eefstool/src/eefs_fileapi.c` together with the
codec of `src/tools/eefstool/src/eefs_swap.c`.

* The medium (EEPROM) is a byte-addressed memory `Nat → Nat`; a byte is the stored
  value modulo 256.  `uint32` values are natural numbers reduced modulo `2^32`.
* Pointers of the 32-bit target are natural numbers below `2^32`; the null pointer
  is `0`.  Inode tables live in RAM and are referred to by their address.
* `EEFS_LIB_EEPROM_WRITE` and `EEFS_LIB_EEPROM_FLUSH` also append to a record of
  medium events, which is what a recording medium would observe.
* The platform macros `EEFS_LIB_IS_WRITE_PROTECTED` and `EEFS_LIB_TIME`, and the
  byte order of the host, are fields of `Env`.
-/

set_option linter.unusedVariables false

namespace EEFS

/-! ## Constants (eefs_config.h, eefs_fileapi.h, fcntl.h, stdio.h) -/

def EEFS_MAX_FILES : Nat := 64
def EEFS_MAX_OPEN_FILES : Nat := 20
def EEFS_DEFAULT_CREAT_SPARE_BYTES : Nat := 512
def EEFS_FILESYS_MAGIC : Nat := 0xEEF51234
def EEFS_MAX_FILENAME_SIZE : Nat := 40

def EEFS_ATTRIBUTE_NONE : Nat := 0
def EEFS_ATTRIBUTE_READONLY : Nat := 1

def EEFS_FREAD : Nat := 1
def EEFS_FWRITE : Nat := 2
def EEFS_FCREAT : Nat := 4

def EEFS_SUCCESS : Int := 0
def EEFS_ERROR : Int := -1
def EEFS_INVALID_ARGUMENT : Int := -2
def EEFS_UNSUPPORTED_OPTION : Int := -3
def EEFS_PERMISSION_DENIED : Int := -4
def EEFS_FILE_NOT_FOUND : Int := -5
def EEFS_NO_FREE_FILE_DESCRIPTOR : Int := -6
def EEFS_NO_SPACE_LEFT_ON_DEVICE : Int := -7
def EEFS_NO_SUCH_DEVICE : Int := -8
def EEFS_DEVICE_IS_BUSY : Int := -9
def EEFS_READ_ONLY_FILE_SYSTEM : Int := -10

def TRUE : Nat := 1
def FALSE : Nat := 0

/-- Access modes and open flags of `<fcntl.h>` (values of the Linux host of eefstool). -/
def O_RDONLY : Nat := 0
def O_WRONLY : Nat := 1
def O_RDWR : Nat := 2
def O_ACCMODE : Nat := 3
def O_CREAT : Nat := 0x40
def O_TRUNC : Nat := 0x200

def SEEK_SET : Nat := 0
def SEEK_CUR : Nat := 1
def SEEK_END : Nat := 2

/-- The value of `sizeof(EEFS_FileAllocationTableHeader_t)`: six 32-bit words. -/
def sizeofFileAllocationTableHeader : Nat := 24
/-- The value of `sizeof(EEFS_FileAllocationTableEntry_t)`: two 32-bit words. -/
def sizeofFileAllocationTableEntry : Nat := 8
/-- The value of `sizeof(EEFS_FileAllocationTable_t)`: header plus `EEFS_MAX_FILES` entries. -/
def sizeofFileAllocationTable : Nat := 24 + 8 * 64
/-- The value of `sizeof(EEFS_FileHeader_t)`: six 32-bit words and the 40 byte name. -/
def sizeofFileHeader : Nat := 64

/-! ## Machine integers -/

/-- Reduction of a natural number to a `uint32`. -/
def u32 (n : Nat) : Nat := n % 4294967296

/-- Subtraction of two `uint32` values, wrapping around like the C operator. -/
def u32sub (a b : Nat) : Nat := (a % 4294967296 + (4294967296 - b % 4294967296)) % 4294967296

/-- Conversion of a `uint32` bit pattern to `int32` (two's complement). -/
def toInt32 (n : Nat) : Int :=
  if n % 4294967296 < 2147483648 then ((n % 4294967296 : Nat) : Int)
  else ((n % 4294967296 : Nat) : Int) - 4294967296

/-- Conversion of an `int32` to the `uint32` with the same bit pattern. -/
def ofInt32 (x : Int) : Nat := (x % 4294967296).toNat

/-- Bitwise complement of a `uint32`, the C operator `~`. -/
def u32not (n : Nat) : Nat := 4294967295 - n % 4294967296

def EEFS_MAX (x y : Nat) : Nat := if x > y then x else y
def EEFS_MIN (x y : Nat) : Nat := if x < y then x else y

/-- The macro `EEFS_ROUND_UP(x, align)`, `(((int)(x) + (align - 1)) & ~(align - 1))`, on
32-bit patterns: the result is stored in a `uint32`. -/
def EEFS_ROUND_UP (x align : Nat) : Nat :=
  Nat.land (u32 (u32 x + (align - 1))) (u32not (align - 1))

/-! ## The medium -/

/-- Byte-addressed memory. -/
abbrev Mem : Type := Nat → Nat

/-- Result of `memcpy(Dest, Src, n)` on the memory, `Src` being the `n` bytes copied. -/
def memWrite (m : Mem) (Dest : Nat) (Src : List Nat) : Mem :=
  fun a => if Dest ≤ a ∧ a < Dest + Src.length then Src.getD (a - Dest) 0 else m a

/-- The `Length` bytes found in memory from `Src` on. -/
def memRead (m : Mem) (Src : Nat) (Length : Nat) : List Nat :=
  (List.range Length).map (fun i => m (Src + i) % 256)

/-- Memory image of a `uint32` in the byte order of the host. -/
def storeU32 (le : Bool) (v : Nat) : List Nat :=
  if le then [v % 256, v / 256 % 256, v / 65536 % 256, v / 16777216 % 256]
  else [v / 16777216 % 256, v / 65536 % 256, v / 256 % 256, v % 256]

/-- The `uint32` the host sees in the four bytes at `a`. -/
def loadU32 (le : Bool) (m : Mem) (a : Nat) : Nat :=
  if le then m a % 256 + 256 * (m (a + 1) % 256) + 65536 * (m (a + 2) % 256)
    + 16777216 * (m (a + 3) % 256)
  else m (a + 3) % 256 + 256 * (m (a + 2) % 256) + 65536 * (m (a + 1) % 256)
    + 16777216 * (m a % 256)

/-- Byte swap of a 32-bit integer: exchanges bytes 0 and 3, and bytes 1 and 2 (eefs_swap.c). -/
def SwapUInt32 (v : Nat) : Nat :=
  (v % 256) * 16777216 + (v / 256 % 256) * 65536 + (v / 65536 % 256) * 256
    + (v / 16777216 % 256)

/-- One event seen by the medium: a block write or a flush. -/
inductive MediumEvent where
  | write (Dest : Nat) (Src : List Nat)
  | flush
deriving DecidableEq, Repr

/-- Applies the writes of a record of medium events, in order, to a memory. -/
def replay (m : Mem) : List MediumEvent → Mem
  | [] => m
  | MediumEvent.write d bs :: rest => replay (memWrite m d bs) rest
  | MediumEvent.flush :: rest => replay m rest

/-! ## C strings -/

/-- The characters of a C string: what precedes the first NUL. -/
def cstr (s : List Nat) : List Nat := s.takeWhile (fun c => c ≠ 0)

def strlen (s : List Nat) : Nat := (cstr s).length

/-- The `n` bytes that `strncpy(dst, src, n)` leaves in `dst`. -/
def strncpy (src : List Nat) (n : Nat) : List Nat :=
  (cstr src).take n ++ List.replicate (n - ((cstr src).take n).length) 0

/-- Truth of `strncmp(s1, s2, n) == 0`; bytes past the end of a list read as NUL. -/
def strncmpEq (s1 s2 : List Nat) : Nat → Bool
  | 0 => true
  | n + 1 =>
    if s1.headD 0 ≠ s2.headD 0 then false
    else if s1.headD 0 = 0 then true
    else strncmpEq s1.tail s2.tail n

/-! ## Records (eefs_fileapi.h) -/

structure EEFS_FileAllocationTableHeader_t where
  Crc : Nat
  Magic : Nat
  Version : Nat
  FreeMemoryOffset : Nat
  FreeMemorySize : Nat
  NumberOfFiles : Nat
deriving DecidableEq, Repr

structure EEFS_FileAllocationTableEntry_t where
  FileHeaderOffset : Nat
  MaxFileSize : Nat
deriving DecidableEq, Repr

structure EEFS_FileHeader_t where
  Crc : Nat
  InUse : Nat
  Attributes : Nat
  FileSize : Nat
  ModificationDate : Nat
  CreationDate : Nat
  Filename : List Nat
deriving DecidableEq, Repr

structure EEFS_InodeTableEntry_t where
  FileHeaderPointer : Nat
  MaxFileSize : Nat
deriving DecidableEq, Repr

structure EEFS_InodeTable_t where
  BaseAddress : Nat
  FreeMemoryPointer : Nat
  FreeMemorySize : Nat
  NumberOfFiles : Nat
  File : Nat → EEFS_InodeTableEntry_t

structure EEFS_FileDescriptor_t where
  InUse : Nat
  Mode : Nat
  FileHeaderPointer : Nat
  FileDataPointer : Nat
  ByteOffset : Nat
  FileSize : Nat
  MaxFileSize : Nat
  InodeTable : Nat
  InodeIndex : Nat
deriving DecidableEq, Repr

structure EEFS_DirectoryDescriptor_t where
  InUse : Nat
  InodeIndex : Nat
  InodeTable : Nat
deriving DecidableEq, Repr

structure EEFS_DirectoryEntry_t where
  InodeIndex : Nat
  Filename : List Nat
  InUse : Nat
  FileHeaderPointer : Nat
  MaxFileSize : Nat
deriving DecidableEq, Repr

structure EEFS_Stat_t where
  InodeIndex : Nat
  Crc : Nat
  Attributes : Nat
  FileSize : Nat
  ModificationDate : Nat
  CreationDate : Nat
  Filename : List Nat
deriving DecidableEq, Repr

/-- Result of `memset(&x, 0, sizeof x)` on each record. -/
def zeroInodeTableEntry : EEFS_InodeTableEntry_t := ⟨0, 0⟩
def zeroInodeTable : EEFS_InodeTable_t := ⟨0, 0, 0, 0, fun _ => zeroInodeTableEntry⟩
def zeroFileDescriptor : EEFS_FileDescriptor_t := ⟨0, 0, 0, 0, 0, 0, 0, 0, 0⟩
def zeroDirectoryDescriptor : EEFS_DirectoryDescriptor_t := ⟨0, 0, 0⟩
def zeroDirectoryEntry : EEFS_DirectoryEntry_t := ⟨0, List.replicate 40 0, 0, 0, 0⟩
def zeroFileHeader : EEFS_FileHeader_t := ⟨0, 0, 0, 0, 0, 0, List.replicate 40 0⟩

/-! ## Codec (eefs_swap.c) and record access -/

def EEFS_SwapFileHeader (h : EEFS_FileHeader_t) : EEFS_FileHeader_t :=
  { h with
    Crc := SwapUInt32 h.Crc
    InUse := SwapUInt32 h.InUse
    Attributes := SwapUInt32 h.Attributes
    FileSize := SwapUInt32 h.FileSize
    ModificationDate := SwapUInt32 h.ModificationDate
    CreationDate := SwapUInt32 h.CreationDate }

def EEFS_SwapFileAllocationTableEntry (e : EEFS_FileAllocationTableEntry_t) :
    EEFS_FileAllocationTableEntry_t :=
  { FileHeaderOffset := SwapUInt32 e.FileHeaderOffset
    MaxFileSize := SwapUInt32 e.MaxFileSize }

def EEFS_SwapFileAllocationTableHeader (h : EEFS_FileAllocationTableHeader_t) :
    EEFS_FileAllocationTableHeader_t :=
  { Crc := SwapUInt32 h.Crc
    Magic := SwapUInt32 h.Magic
    Version := SwapUInt32 h.Version
    FreeMemoryOffset := SwapUInt32 h.FreeMemoryOffset
    FreeMemorySize := SwapUInt32 h.FreeMemorySize
    NumberOfFiles := SwapUInt32 h.NumberOfFiles }

/-- The record a `memcpy` of 64 bytes from the medium at `p` leaves in a host
`EEFS_FileHeader_t`. -/
def readFileHeader (le : Bool) (m : Mem) (p : Nat) : EEFS_FileHeader_t :=
  { Crc := loadU32 le m p
    InUse := loadU32 le m (p + 4)
    Attributes := loadU32 le m (p + 8)
    FileSize := loadU32 le m (p + 12)
    ModificationDate := loadU32 le m (p + 16)
    CreationDate := loadU32 le m (p + 20)
    Filename := memRead m (p + 24) 40 }

/-- The 64 bytes of a host `EEFS_FileHeader_t`. -/
def fileHeaderBytes (le : Bool) (h : EEFS_FileHeader_t) : List Nat :=
  storeU32 le h.Crc ++ storeU32 le h.InUse ++ storeU32 le h.Attributes ++
  storeU32 le h.FileSize ++ storeU32 le h.ModificationDate ++ storeU32 le h.CreationDate ++
  ((h.Filename.take 40) ++ List.replicate (40 - (h.Filename.take 40).length) 0)

def readFileAllocationTableHeader (le : Bool) (m : Mem) (p : Nat) :
    EEFS_FileAllocationTableHeader_t :=
  { Crc := loadU32 le m p
    Magic := loadU32 le m (p + 4)
    Version := loadU32 le m (p + 8)
    FreeMemoryOffset := loadU32 le m (p + 12)
    FreeMemorySize := loadU32 le m (p + 16)
    NumberOfFiles := loadU32 le m (p + 20) }

def fileAllocationTableHeaderBytes (le : Bool) (h : EEFS_FileAllocationTableHeader_t) :
    List Nat :=
  storeU32 le h.Crc ++ storeU32 le h.Magic ++ storeU32 le h.Version ++
  storeU32 le h.FreeMemoryOffset ++ storeU32 le h.FreeMemorySize ++ storeU32 le h.NumberOfFiles

def readFileAllocationTableEntry (le : Bool) (m : Mem) (p : Nat) :
    EEFS_FileAllocationTableEntry_t :=
  { FileHeaderOffset := loadU32 le m p
    MaxFileSize := loadU32 le m (p + 4) }

def fileAllocationTableEntryBytes (le : Bool) (e : EEFS_FileAllocationTableEntry_t) :
    List Nat :=
  storeU32 le e.FileHeaderOffset ++ storeU32 le e.MaxFileSize

/-- Address of `FileAllocationTable->File[i]` for the table at `BaseAddress`. -/
def fatEntryAddress (BaseAddress i : Nat) : Nat := BaseAddress + 24 + 8 * i

/-! ## Engine state -/

/-- Platform interface of eefs_macros.h and the byte order of the host. -/
structure Env where
  hostLittleEndian : Bool
  writeProtected : Bool
  time : Nat

/-- The medium, the inode tables in RAM (by address) and the module-level data of
eefs_fileapi.c. -/
structure State where
  mem : Mem
  events : List MediumEvent
  InodeTables : Nat → EEFS_InodeTable_t
  EEFS_FileDescriptorsInUse : Nat
  EEFS_FileDescriptorsHighWaterMark : Nat
  EEFS_FileDescriptorTable : Nat → EEFS_FileDescriptor_t
  EEFS_DirectoryDescriptor : EEFS_DirectoryDescriptor_t
  EEFS_DirectoryEntry : EEFS_DirectoryEntry_t

def EEFS_LIB_EEPROM_WRITE (s : State) (Dest : Nat) (Src : List Nat) : State :=
  { s with mem := memWrite s.mem Dest Src, events := s.events ++ [MediumEvent.write Dest Src] }

def EEFS_LIB_EEPROM_FLUSH (s : State) : State :=
  { s with events := s.events ++ [MediumEvent.flush] }

def setInodeTable (s : State) (InodeTable : Nat) (t : EEFS_InodeTable_t) : State :=
  { s with InodeTables := Function.update s.InodeTables InodeTable t }

def setFileDescriptor (s : State) (i : Nat) (d : EEFS_FileDescriptor_t) : State :=
  { s with EEFS_FileDescriptorTable := Function.update s.EEFS_FileDescriptorTable i d }

/-- Decoded file header at `p`: `EEFS_LIB_EEPROM_READ` followed by `EEFS_SwapFileHeader`. -/
def loadFileHeader (env : Env) (m : Mem) (p : Nat) : EEFS_FileHeader_t :=
  EEFS_SwapFileHeader (readFileHeader env.hostLittleEndian m p)

/-- Decoded FAT header at `p`: `EEFS_LIB_EEPROM_READ` followed by
`EEFS_SwapFileAllocationTableHeader`. -/
def loadFileAllocationTableHeader (env : Env) (m : Mem) (p : Nat) :
    EEFS_FileAllocationTableHeader_t :=
  EEFS_SwapFileAllocationTableHeader (readFileAllocationTableHeader env.hostLittleEndian m p)

/-- Decoded FAT entry at `p`: `EEFS_LIB_EEPROM_READ` followed by
`EEFS_SwapFileAllocationTableEntry`. -/
def loadFileAllocationTableEntry (env : Env) (m : Mem) (p : Nat) :
    EEFS_FileAllocationTableEntry_t :=
  EEFS_SwapFileAllocationTableEntry (readFileAllocationTableEntry env.hostLittleEndian m p)

/-! ## Internal functions of eefs_fileapi.c -/

def EEFS_LibHasOpenFiles (s : State) (InodeTable : Nat) : Bool :=
  (List.range EEFS_MAX_OPEN_FILES).any (fun i =>
    decide ((s.EEFS_FileDescriptorTable i).InUse = TRUE) &&
    decide ((s.EEFS_FileDescriptorTable i).InodeTable = InodeTable))

def EEFS_LibHasOpenDir (s : State) (InodeTable : Nat) : Bool :=
  decide (s.EEFS_DirectoryDescriptor.InUse = TRUE) &&
  decide (s.EEFS_DirectoryDescriptor.InodeTable = InodeTable)

def EEFS_LibHasOpenCreat (s : State) (InodeTable : Nat) : Bool :=
  (List.range EEFS_MAX_OPEN_FILES).any (fun i =>
    decide ((s.EEFS_FileDescriptorTable i).InUse = TRUE) &&
    decide ((s.EEFS_FileDescriptorTable i).InodeTable = InodeTable) &&
    decide (Nat.land (s.EEFS_FileDescriptorTable i).Mode EEFS_FCREAT ≠ 0))

def EEFS_LibFmode (s : State) (InodeTable InodeIndex : Nat) : Nat :=
  (List.range EEFS_MAX_OPEN_FILES).foldl (fun Mode i =>
    if (s.EEFS_FileDescriptorTable i).InUse = TRUE ∧
       (s.EEFS_FileDescriptorTable i).InodeTable = InodeTable ∧
       (s.EEFS_FileDescriptorTable i).InodeIndex = InodeIndex
    then Nat.lor Mode (s.EEFS_FileDescriptorTable i).Mode else Mode) 0

/-- Test of the loop body of `EEFS_LibFindFile` at slot `i`. -/
def findFileMatch (env : Env) (m : Mem) (t : EEFS_InodeTable_t) (Filename : List Nat)
    (i : Nat) : Bool :=
  decide ((loadFileHeader env m (t.File i).FileHeaderPointer).InUse = TRUE) &&
  strncmpEq Filename (loadFileHeader env m (t.File i).FileHeaderPointer).Filename
    EEFS_MAX_FILENAME_SIZE

def EEFS_LibFindFile (env : Env) (s : State) (InodeTable : Nat) (Filename : List Nat) : Int :=
  match (List.range (s.InodeTables InodeTable).NumberOfFiles).find?
      (findFileMatch env s.mem (s.InodeTables InodeTable) Filename) with
  | some i => toInt32 i
  | none => EEFS_FILE_NOT_FOUND

/-- Allocates a free entry of the descriptor table; returns its index or
`EEFS_NO_FREE_FILE_DESCRIPTOR`. -/
def EEFS_LibGetFileDescriptor (s : State) : Int × State :=
  match (List.range EEFS_MAX_OPEN_FILES).find?
      (fun i => decide ((s.EEFS_FileDescriptorTable i).InUse = FALSE)) with
  | some i =>
    (toInt32 i,
     { s with
       EEFS_FileDescriptorTable := Function.update s.EEFS_FileDescriptorTable i
         { s.EEFS_FileDescriptorTable i with InUse := TRUE }
       EEFS_FileDescriptorsInUse := u32 (s.EEFS_FileDescriptorsInUse + 1)
       EEFS_FileDescriptorsHighWaterMark :=
         if u32 (s.EEFS_FileDescriptorsInUse + 1) > s.EEFS_FileDescriptorsHighWaterMark
         then u32 (s.EEFS_FileDescriptorsInUse + 1)
         else s.EEFS_FileDescriptorsHighWaterMark })
  | none => (EEFS_NO_FREE_FILE_DESCRIPTOR, s)

def EEFS_LibIsValidFileDescriptor (s : State) (FileDescriptor : Int) : Bool :=
  decide (FileDescriptor ≥ 0) && decide (FileDescriptor < (EEFS_MAX_OPEN_FILES : Int)) &&
  decide ((s.EEFS_FileDescriptorTable FileDescriptor.toNat).InUse = TRUE)

def EEFS_LibFreeFileDescriptor (s : State) (FileDescriptor : Int) : Int × State :=
  if EEFS_LibIsValidFileDescriptor s FileDescriptor = true then
    (EEFS_SUCCESS,
     { s with
       EEFS_FileDescriptorTable :=
         Function.update s.EEFS_FileDescriptorTable FileDescriptor.toNat zeroFileDescriptor
       EEFS_FileDescriptorsInUse := u32sub s.EEFS_FileDescriptorsInUse 1 })
  else (EEFS_INVALID_ARGUMENT, s)

/-- Validity of a filename pointer; `none` is the null pointer. -/
def EEFS_LibIsValidFilename (Filename : Option (List Nat)) : Bool :=
  match Filename with
  | some f => decide (strlen f < EEFS_MAX_FILENAME_SIZE) && decide (strlen f > 0)
  | none => false

/-- Internal function to open a file (eefs_fileapi.c, `EEFS_LibOpenFile`). -/
def EEFS_LibOpenFile (env : Env) (s : State) (InodeTable : Nat) (InodeIndex : Int)
    (Flags Attributes : Nat) : Int × State :=
  let e := (s.InodeTables InodeTable).File InodeIndex.toNat
  if Nat.land Flags
      (u32not (Nat.lor (Nat.lor (Nat.lor (Nat.lor O_RDONLY O_WRONLY) O_RDWR) O_TRUNC) O_CREAT))
      = 0 then
    if Nat.land Flags O_ACCMODE = O_RDONLY ∨ env.writeProtected = false then
      let FileHeader := loadFileHeader env s.mem e.FileHeaderPointer
      if Nat.land Flags O_ACCMODE = O_RDONLY ∨
          Nat.land FileHeader.Attributes EEFS_ATTRIBUTE_READONLY = 0 then
        let Fmode := EEFS_LibFmode s InodeTable (ofInt32 InodeIndex)
        if Nat.land Flags O_ACCMODE = O_RDONLY ∨ Nat.land Fmode EEFS_FWRITE = 0 then
          if (EEFS_LibGetFileDescriptor s).1 ≠ EEFS_NO_FREE_FILE_DESCRIPTOR then
            let FileDescriptor := (EEFS_LibGetFileDescriptor s).1
            let s1 := (EEFS_LibGetFileDescriptor s).2
            let d := s1.EEFS_FileDescriptorTable FileDescriptor.toNat
            if (Nat.land Flags O_ACCMODE = O_WRONLY ∨ Nat.land Flags O_ACCMODE = O_RDWR) ∧
                Nat.land Flags O_TRUNC ≠ 0 then
              (FileDescriptor, setFileDescriptor s1 FileDescriptor.toNat
                { d with
                  Mode := u32 (Nat.land Flags O_ACCMODE + 1)
                  FileHeaderPointer := e.FileHeaderPointer
                  MaxFileSize := e.MaxFileSize
                  InodeTable := InodeTable
                  InodeIndex := ofInt32 InodeIndex
                  FileDataPointer := u32 (e.FileHeaderPointer + sizeofFileHeader)
                  ByteOffset := 0
                  FileSize := 0 })
            else
              (FileDescriptor, setFileDescriptor s1 FileDescriptor.toNat
                { d with
                  Mode := u32 (Nat.land Flags O_ACCMODE + 1)
                  FileHeaderPointer := e.FileHeaderPointer
                  MaxFileSize := e.MaxFileSize
                  InodeTable := InodeTable
                  InodeIndex := ofInt32 InodeIndex
                  FileDataPointer := u32 (e.FileHeaderPointer + sizeofFileHeader)
                  ByteOffset := 0
                  FileSize := FileHeader.FileSize })
          else (EEFS_NO_FREE_FILE_DESCRIPTOR, s)
        else (EEFS_PERMISSION_DENIED, s)
      else (EEFS_PERMISSION_DENIED, s)
    else (EEFS_READ_ONLY_FILE_SYSTEM, s)
  else (EEFS_INVALID_ARGUMENT, s)

/-- Internal function to create a new file (eefs_fileapi.c, `EEFS_LibCreatFile`). -/
def EEFS_LibCreatFile (env : Env) (s : State) (InodeTable : Nat) (Filename : List Nat)
    (Attributes : Nat) : Int × State :=
  let t := s.InodeTables InodeTable
  if env.writeProtected = false then
    if t.NumberOfFiles < EEFS_MAX_FILES then
      if EEFS_LibHasOpenCreat s InodeTable = false then
        if t.FreeMemorySize > sizeofFileHeader then
          if Attributes = EEFS_ATTRIBUTE_NONE ∨ Attributes = EEFS_ATTRIBUTE_READONLY then
            if (EEFS_LibGetFileDescriptor s).1 ≠ EEFS_NO_FREE_FILE_DESCRIPTOR then
              let FileDescriptor := (EEFS_LibGetFileDescriptor s).1
              let s1 := (EEFS_LibGetFileDescriptor s).2
              let InodeIndex := t.NumberOfFiles
              let t1 : EEFS_InodeTable_t :=
                { t with
                  NumberOfFiles := u32 (t.NumberOfFiles + 1)
                  File := Function.update t.File InodeIndex
                    { FileHeaderPointer := t.FreeMemoryPointer
                      MaxFileSize := u32sub t.FreeMemorySize sizeofFileHeader } }
              let s2 := setInodeTable s1 InodeTable t1
              let FileHeader : EEFS_FileHeader_t :=
                { Crc := 0
                  InUse := TRUE
                  Attributes := Attributes
                  FileSize := 0
                  ModificationDate := u32 env.time
                  CreationDate := u32 env.time
                  Filename := strncpy Filename EEFS_MAX_FILENAME_SIZE }
              let s3 := EEFS_LIB_EEPROM_FLUSH
                (EEFS_LIB_EEPROM_WRITE s2 (t1.File InodeIndex).FileHeaderPointer
                  (fileHeaderBytes env.hostLittleEndian FileHeader))
              let d := s3.EEFS_FileDescriptorTable FileDescriptor.toNat
              (FileDescriptor, setFileDescriptor s3 FileDescriptor.toNat
                { d with
                  Mode := Nat.lor EEFS_FCREAT EEFS_FWRITE
                  FileHeaderPointer := (t1.File InodeIndex).FileHeaderPointer
                  FileDataPointer := u32 ((t1.File InodeIndex).FileHeaderPointer + sizeofFileHeader)
                  ByteOffset := 0
                  FileSize := 0
                  MaxFileSize := (t1.File InodeIndex).MaxFileSize
                  InodeTable := InodeTable
                  InodeIndex := InodeIndex })
            else (EEFS_NO_FREE_FILE_DESCRIPTOR, s)
          else (EEFS_INVALID_ARGUMENT, s)
        else (EEFS_NO_SPACE_LEFT_ON_DEVICE, s)
      else (EEFS_PERMISSION_DENIED, s)
    else (EEFS_NO_SPACE_LEFT_ON_DEVICE, s)
  else (EEFS_READ_ONLY_FILE_SYSTEM, s)

/-! ## Public functions of eefs_fileapi.c -/

/-- Initialises the global data shared by all file systems. -/
def EEFS_LibInit (s : State) : State :=
  { s with
    EEFS_FileDescriptorsInUse := 0
    EEFS_FileDescriptorsHighWaterMark := 0
    EEFS_FileDescriptorTable := fun _ => zeroFileDescriptor
    EEFS_DirectoryDescriptor := zeroDirectoryDescriptor
    EEFS_DirectoryEntry := zeroDirectoryEntry }

/-- One iteration of the loop of `EEFS_LibInitFS`: loads FAT entry `i` into the table. -/
def initFSEntry (env : Env) (m : Mem) (BaseAddress : Nat)
    (File : Nat → EEFS_InodeTableEntry_t) (i : Nat) : Nat → EEFS_InodeTableEntry_t :=
  Function.update File i
    { FileHeaderPointer :=
        u32 (BaseAddress + (loadFileAllocationTableEntry env m
          (fatEntryAddress BaseAddress i)).FileHeaderOffset)
      MaxFileSize :=
        (loadFileAllocationTableEntry env m (fatEntryAddress BaseAddress i)).MaxFileSize }

def EEFS_LibInitFS (env : Env) (s : State) (InodeTable BaseAddress : Nat) : Int × State :=
  if InodeTable ≠ 0 then
    let h := loadFileAllocationTableHeader env s.mem BaseAddress
    if h.Magic = EEFS_FILESYS_MAGIC ∧ h.Version = 1 ∧ h.NumberOfFiles ≤ EEFS_MAX_FILES then
      (EEFS_SUCCESS, setInodeTable s InodeTable
        { BaseAddress := BaseAddress
          FreeMemoryPointer := u32 (BaseAddress + h.FreeMemoryOffset)
          FreeMemorySize := h.FreeMemorySize
          NumberOfFiles := h.NumberOfFiles
          File := (List.range h.NumberOfFiles).foldl (initFSEntry env s.mem BaseAddress)
            (fun _ => zeroInodeTableEntry) })
    else (EEFS_NO_SUCH_DEVICE, s)
  else (EEFS_INVALID_ARGUMENT, s)

def EEFS_LibFreeFS (s : State) (InodeTable : Nat) : Int × State :=
  if InodeTable ≠ 0 then
    if EEFS_LibHasOpenFiles s InodeTable = false ∧ EEFS_LibHasOpenDir s InodeTable = false then
      (EEFS_SUCCESS, setInodeTable s InodeTable zeroInodeTable)
    else (EEFS_DEVICE_IS_BUSY, s)
  else (EEFS_INVALID_ARGUMENT, s)

def EEFS_LibOpen (env : Env) (s : State) (InodeTable : Nat) (Filename : Option (List Nat))
    (Flags Attributes : Nat) : Int × State :=
  if InodeTable ≠ 0 then
    if EEFS_LibIsValidFilename Filename = true then
      let f := Filename.getD []
      if EEFS_LibFindFile env s InodeTable f ≠ EEFS_FILE_NOT_FOUND then
        EEFS_LibOpenFile env s InodeTable (EEFS_LibFindFile env s InodeTable f) Flags Attributes
      else if Nat.land Flags O_CREAT ≠ 0 then
        EEFS_LibCreatFile env s InodeTable f EEFS_ATTRIBUTE_NONE
      else (EEFS_FILE_NOT_FOUND, s)
    else (EEFS_INVALID_ARGUMENT, s)
  else (EEFS_INVALID_ARGUMENT, s)

def EEFS_LibCreat (env : Env) (s : State) (InodeTable : Nat) (Filename : Option (List Nat))
    (Attributes : Nat) : Int × State :=
  if InodeTable ≠ 0 then
    if EEFS_LibIsValidFilename Filename = true then
      let f := Filename.getD []
      if EEFS_LibFindFile env s InodeTable f ≠ EEFS_FILE_NOT_FOUND then
        EEFS_LibOpenFile env s InodeTable (EEFS_LibFindFile env s InodeTable f)
          (Nat.lor O_WRONLY O_TRUNC) Attributes
      else EEFS_LibCreatFile env s InodeTable f Attributes
    else (EEFS_INVALID_ARGUMENT, s)
  else (EEFS_INVALID_ARGUMENT, s)

/-- The branch of `EEFS_LibClose` for a descriptor whose mode has `EEFS_FCREAT`. -/
def closeCreat (env : Env) (s : State) (FileDescriptor : Nat) : State :=
  let d := s.EEFS_FileDescriptorTable FileDescriptor
  let InodeTable := d.InodeTable
  let InodeIndex := d.InodeIndex
  let t := s.InodeTables InodeTable
  let MaxFileSize := EEFS_MIN
    (EEFS_ROUND_UP (u32 (d.FileSize + EEFS_DEFAULT_CREAT_SPARE_BYTES)) 4)
    (u32sub t.FreeMemorySize sizeofFileHeader)
  let t1 : EEFS_InodeTable_t :=
    { t with
      FreeMemoryPointer := u32 (t.FreeMemoryPointer + u32 (sizeofFileHeader + MaxFileSize))
      FreeMemorySize := u32sub t.FreeMemorySize (u32 (sizeofFileHeader + MaxFileSize))
      File := Function.update t.File InodeIndex
        { t.File InodeIndex with MaxFileSize := MaxFileSize } }
  let s1 := setInodeTable s InodeTable t1
  let FileHeader := loadFileHeader env s1.mem d.FileHeaderPointer
  let s2 := EEFS_LIB_EEPROM_FLUSH (EEFS_LIB_EEPROM_WRITE s1 d.FileHeaderPointer
    (fileHeaderBytes env.hostLittleEndian
      (EEFS_SwapFileHeader { FileHeader with FileSize := d.FileSize, Crc := 0 })))
  let FileAllocationTableEntry : EEFS_FileAllocationTableEntry_t :=
    { FileHeaderOffset := u32sub (t1.File InodeIndex).FileHeaderPointer t1.BaseAddress
      MaxFileSize := (t1.File InodeIndex).MaxFileSize }
  let s3 := EEFS_LIB_EEPROM_FLUSH (EEFS_LIB_EEPROM_WRITE s2
    (fatEntryAddress t1.BaseAddress InodeIndex)
    (fileAllocationTableEntryBytes env.hostLittleEndian
      (EEFS_SwapFileAllocationTableEntry FileAllocationTableEntry)))
  let FileAllocationTableHeader := loadFileAllocationTableHeader env s3.mem t1.BaseAddress
  EEFS_LIB_EEPROM_FLUSH (EEFS_LIB_EEPROM_WRITE s3 t1.BaseAddress
    (fileAllocationTableHeaderBytes env.hostLittleEndian
      (EEFS_SwapFileAllocationTableHeader
        { FileAllocationTableHeader with
          FreeMemoryOffset := u32sub t1.FreeMemoryPointer t1.BaseAddress
          FreeMemorySize := t1.FreeMemorySize
          NumberOfFiles := t1.NumberOfFiles })))

/-- The branch of `EEFS_LibClose` for a descriptor with `EEFS_FWRITE` and without
`EEFS_FCREAT`. -/
def closeWrite (env : Env) (s : State) (FileDescriptor : Nat) : State :=
  let d := s.EEFS_FileDescriptorTable FileDescriptor
  let FileHeader := loadFileHeader env s.mem d.FileHeaderPointer
  EEFS_LIB_EEPROM_FLUSH (EEFS_LIB_EEPROM_WRITE s d.FileHeaderPointer
    (fileHeaderBytes env.hostLittleEndian
      (EEFS_SwapFileHeader
        { FileHeader with
          FileSize := d.FileSize
          ModificationDate := u32 env.time
          Crc := 0 })))

def EEFS_LibClose (env : Env) (s : State) (FileDescriptor : Int) : Int × State :=
  if EEFS_LibIsValidFileDescriptor s FileDescriptor = true then
    let s1 :=
      if Nat.land (s.EEFS_FileDescriptorTable FileDescriptor.toNat).Mode EEFS_FCREAT ≠ 0 then
        closeCreat env s FileDescriptor.toNat
      else if Nat.land (s.EEFS_FileDescriptorTable FileDescriptor.toNat).Mode EEFS_FWRITE ≠ 0 then
        closeWrite env s FileDescriptor.toNat
      else s
    (EEFS_SUCCESS, (EEFS_LibFreeFileDescriptor s1 FileDescriptor).2)
  else (EEFS_INVALID_ARGUMENT, s)

/-- Read from a file: return code, the bytes copied to `Buffer`, and the new state.
`Buffer = none` is the null pointer. -/
def EEFS_LibRead (s : State) (FileDescriptor : Int) (Buffer : Option (List Nat))
    (Length : Nat) : Int × List Nat × State :=
  if EEFS_LibIsValidFileDescriptor s FileDescriptor = true then
    if Buffer ≠ none then
      let d := s.EEFS_FileDescriptorTable FileDescriptor.toNat
      if Nat.land d.Mode EEFS_FREAD ≠ 0 then
        let BytesToRead := EEFS_MIN (u32sub d.FileSize d.ByteOffset) Length
        (toInt32 BytesToRead, memRead s.mem d.FileDataPointer BytesToRead,
          setFileDescriptor s FileDescriptor.toNat
            { d with
              FileDataPointer := u32 (d.FileDataPointer + BytesToRead)
              ByteOffset := u32 (d.ByteOffset + BytesToRead) })
      else (EEFS_PERMISSION_DENIED, [], s)
    else (EEFS_INVALID_ARGUMENT, [], s)
  else (EEFS_INVALID_ARGUMENT, [], s)

/-- Write to a file.  `Buffer = none` is the null pointer; bytes of the caller's
memory past the end of the list read as zero. -/
def EEFS_LibWrite (s : State) (FileDescriptor : Int) (Buffer : Option (List Nat))
    (Length : Nat) : Int × State :=
  if EEFS_LibIsValidFileDescriptor s FileDescriptor = true then
    if Buffer ≠ none then
      let d := s.EEFS_FileDescriptorTable FileDescriptor.toNat
      if Nat.land d.Mode EEFS_FWRITE ≠ 0 then
        let BytesToWrite := EEFS_MIN (u32sub d.MaxFileSize d.ByteOffset) Length
        let s1 := EEFS_LIB_EEPROM_WRITE s d.FileDataPointer
          ((List.range BytesToWrite).map (fun i => (Buffer.getD []).getD i 0))
        let ByteOffset := u32 (d.ByteOffset + BytesToWrite)
        (toInt32 BytesToWrite,
          setFileDescriptor s1 FileDescriptor.toNat
            { d with
              FileDataPointer := u32 (d.FileDataPointer + BytesToWrite)
              ByteOffset := ByteOffset
              FileSize := if ByteOffset > d.FileSize then ByteOffset else d.FileSize })
      else (EEFS_PERMISSION_DENIED, s)
    else (EEFS_INVALID_ARGUMENT, s)
  else (EEFS_INVALID_ARGUMENT, s)

/-- Set the file pointer.  `ByteOffset` is the `int32` argument, `Origin` the `uint16` one. -/
def EEFS_LibLSeek (s : State) (FileDescriptor : Int) (ByteOffset : Int) (Origin : Nat) :
    Int × State :=
  if EEFS_LibIsValidFileDescriptor s FileDescriptor = true then
    let d := s.EEFS_FileDescriptorTable FileDescriptor.toNat
    let BeginningOfFilePointer := u32 (d.FileHeaderPointer + sizeofFileHeader)
    let EndOfFilePointer := u32 (BeginningOfFilePointer + d.FileSize)
    if Origin = SEEK_SET then
      if ByteOffset < 0 then (EEFS_INVALID_ARGUMENT, s)
      else if ByteOffset > toInt32 d.FileSize then
        (toInt32 d.FileSize, setFileDescriptor s FileDescriptor.toNat
          { d with FileDataPointer := EndOfFilePointer, ByteOffset := d.FileSize })
      else
        (toInt32 (ofInt32 ByteOffset), setFileDescriptor s FileDescriptor.toNat
          { d with
            FileDataPointer := u32 (BeginningOfFilePointer + ofInt32 ByteOffset)
            ByteOffset := ofInt32 ByteOffset })
    else if Origin = SEEK_CUR then
      if toInt32 (ofInt32 ByteOffset + d.ByteOffset) < 0 then (EEFS_INVALID_ARGUMENT, s)
      else if toInt32 (ofInt32 ByteOffset + d.ByteOffset) > toInt32 d.FileSize then
        (toInt32 d.FileSize, setFileDescriptor s FileDescriptor.toNat
          { d with FileDataPointer := EndOfFilePointer, ByteOffset := d.FileSize })
      else
        (toInt32 (u32 (d.ByteOffset + ofInt32 ByteOffset)),
          setFileDescriptor s FileDescriptor.toNat
          { d with
            FileDataPointer := u32 (d.FileDataPointer + ofInt32 ByteOffset)
            ByteOffset := u32 (d.ByteOffset + ofInt32 ByteOffset) })
    else if Origin = SEEK_END then
      if toInt32 (ofInt32 ByteOffset + d.FileSize) < 0 then (EEFS_INVALID_ARGUMENT, s)
      else if ByteOffset > 0 then
        (toInt32 d.FileSize, setFileDescriptor s FileDescriptor.toNat
          { d with FileDataPointer := EndOfFilePointer, ByteOffset := d.FileSize })
      else
        (toInt32 (u32 (d.FileSize + ofInt32 ByteOffset)),
          setFileDescriptor s FileDescriptor.toNat
          { d with
            FileDataPointer := u32 (EndOfFilePointer + ofInt32 ByteOffset)
            ByteOffset := u32 (d.FileSize + ofInt32 ByteOffset) })
    else (EEFS_INVALID_ARGUMENT, s)
  else (EEFS_INVALID_ARGUMENT, s)

def EEFS_LibRemove (env : Env) (s : State) (InodeTable : Nat) (Filename : Option (List Nat)) :
    Int × State :=
  if InodeTable ≠ 0 then
    if EEFS_LibIsValidFilename Filename = true then
      if env.writeProtected = false then
        let InodeIndex := EEFS_LibFindFile env s InodeTable (Filename.getD [])
        if InodeIndex ≠ EEFS_FILE_NOT_FOUND then
          let p := ((s.InodeTables InodeTable).File InodeIndex.toNat).FileHeaderPointer
          let FileHeader := loadFileHeader env s.mem p
          if Nat.land FileHeader.Attributes EEFS_ATTRIBUTE_READONLY = 0 then
            if EEFS_LibFmode s InodeTable (ofInt32 InodeIndex) = 0 then
              (EEFS_SUCCESS, EEFS_LIB_EEPROM_FLUSH (EEFS_LIB_EEPROM_WRITE s p
                (fileHeaderBytes env.hostLittleEndian (EEFS_SwapFileHeader zeroFileHeader))))
            else (EEFS_PERMISSION_DENIED, s)
          else (EEFS_PERMISSION_DENIED, s)
        else (EEFS_FILE_NOT_FOUND, s)
      else (EEFS_READ_ONLY_FILE_SYSTEM, s)
    else (EEFS_INVALID_ARGUMENT, s)
  else (EEFS_INVALID_ARGUMENT, s)

def EEFS_LibRename (env : Env) (s : State) (InodeTable : Nat)
    (OldFilename NewFilename : Option (List Nat)) : Int × State :=
  if InodeTable ≠ 0 then
    if EEFS_LibIsValidFilename OldFilename = true ∧
        EEFS_LibIsValidFilename NewFilename = true then
      if env.writeProtected = false then
        if EEFS_LibFindFile env s InodeTable (NewFilename.getD []) = EEFS_FILE_NOT_FOUND then
          let InodeIndex := EEFS_LibFindFile env s InodeTable (OldFilename.getD [])
          if InodeIndex ≠ EEFS_FILE_NOT_FOUND then
            let p := ((s.InodeTables InodeTable).File InodeIndex.toNat).FileHeaderPointer
            let FileHeader := loadFileHeader env s.mem p
            if Nat.land FileHeader.Attributes EEFS_ATTRIBUTE_READONLY = 0 then
              (EEFS_SUCCESS, EEFS_LIB_EEPROM_FLUSH (EEFS_LIB_EEPROM_WRITE s p
                (fileHeaderBytes env.hostLittleEndian
                  (EEFS_SwapFileHeader
                    { FileHeader with
                      Filename := strncpy (NewFilename.getD []) EEFS_MAX_FILENAME_SIZE }))))
            else (EEFS_PERMISSION_DENIED, s)
          else (EEFS_FILE_NOT_FOUND, s)
        else (EEFS_PERMISSION_DENIED, s)
      else (EEFS_READ_ONLY_FILE_SYSTEM, s)
    else (EEFS_INVALID_ARGUMENT, s)
  else (EEFS_INVALID_ARGUMENT, s)

/-- The `EEFS_Stat_t` that `EEFS_LibStat` and `EEFS_LibFstat` fill from a decoded header. -/
def statOfHeader (InodeIndex : Nat) (FileHeader : EEFS_FileHeader_t) : EEFS_Stat_t :=
  { InodeIndex := InodeIndex
    Attributes := FileHeader.Attributes
    FileSize := FileHeader.FileSize
    ModificationDate := FileHeader.ModificationDate
    CreationDate := FileHeader.CreationDate
    Crc := FileHeader.Crc
    Filename := strncpy FileHeader.Filename EEFS_MAX_FILENAME_SIZE }

/-- File information by name.  `StatBuffer = none` is the null pointer; the second
component is the buffer after the call. -/
def EEFS_LibStat (env : Env) (s : State) (InodeTable : Nat) (Filename : Option (List Nat))
    (StatBuffer : Option EEFS_Stat_t) : Int × Option EEFS_Stat_t :=
  if InodeTable ≠ 0 then
    if StatBuffer ≠ none then
      if EEFS_LibIsValidFilename Filename = true then
        let InodeIndex := EEFS_LibFindFile env s InodeTable (Filename.getD [])
        if InodeIndex ≠ EEFS_FILE_NOT_FOUND then
          (EEFS_SUCCESS, some (statOfHeader (ofInt32 InodeIndex)
            (loadFileHeader env s.mem
              ((s.InodeTables InodeTable).File InodeIndex.toNat).FileHeaderPointer)))
        else (EEFS_FILE_NOT_FOUND, StatBuffer)
      else (EEFS_INVALID_ARGUMENT, StatBuffer)
    else (EEFS_INVALID_ARGUMENT, StatBuffer)
  else (EEFS_INVALID_ARGUMENT, StatBuffer)

def EEFS_LibFstat (env : Env) (s : State) (FileDescriptor : Int)
    (StatBuffer : Option EEFS_Stat_t) : Int × Option EEFS_Stat_t :=
  if EEFS_LibIsValidFileDescriptor s FileDescriptor = true then
    if StatBuffer ≠ none then
      (EEFS_SUCCESS, some (statOfHeader
        (s.EEFS_FileDescriptorTable FileDescriptor.toNat).InodeIndex
        (loadFileHeader env s.mem
          (s.EEFS_FileDescriptorTable FileDescriptor.toNat).FileHeaderPointer)))
    else (EEFS_INVALID_ARGUMENT, StatBuffer)
  else (EEFS_INVALID_ARGUMENT, StatBuffer)

def EEFS_LibSetFileAttributes (env : Env) (s : State) (InodeTable : Nat)
    (Filename : Option (List Nat)) (Attributes : Nat) : Int × State :=
  if InodeTable ≠ 0 then
    if Attributes = EEFS_ATTRIBUTE_NONE ∨ Attributes = EEFS_ATTRIBUTE_READONLY then
      if EEFS_LibIsValidFilename Filename = true then
        if env.writeProtected = false then
          let InodeIndex := EEFS_LibFindFile env s InodeTable (Filename.getD [])
          if InodeIndex ≠ EEFS_FILE_NOT_FOUND then
            let p := ((s.InodeTables InodeTable).File InodeIndex.toNat).FileHeaderPointer
            let FileHeader := loadFileHeader env s.mem p
            (EEFS_SUCCESS, EEFS_LIB_EEPROM_FLUSH (EEFS_LIB_EEPROM_WRITE s p
              (fileHeaderBytes env.hostLittleEndian
                (EEFS_SwapFileHeader { FileHeader with Attributes := Attributes }))))
          else (EEFS_FILE_NOT_FOUND, s)
        else (EEFS_READ_ONLY_FILE_SYSTEM, s)
      else (EEFS_INVALID_ARGUMENT, s)
    else (EEFS_INVALID_ARGUMENT, s)
  else (EEFS_INVALID_ARGUMENT, s)

/-- Opens the directory of a file system.  The result `true` stands for the pointer to the
single directory descriptor, `false` for the null pointer. -/
def EEFS_LibOpenDir (s : State) (InodeTable : Nat) : Bool × State :=
  if InodeTable ≠ 0 then
    if s.EEFS_DirectoryDescriptor.InUse = FALSE then
      (true, { s with
        EEFS_DirectoryDescriptor := { InUse := TRUE, InodeIndex := 0, InodeTable := InodeTable } })
    else (false, s)
  else (false, s)

/-- Reads the next directory entry.  `DirectoryDescriptor = true` stands for the pointer to
the single directory descriptor, `false` for the null pointer; the result `none` is the
null pointer. -/
def EEFS_LibReadDir (env : Env) (s : State) (DirectoryDescriptor : Bool) :
    Option EEFS_DirectoryEntry_t × State :=
  if DirectoryDescriptor = true then
    let dd := s.EEFS_DirectoryDescriptor
    let t := s.InodeTables dd.InodeTable
    if dd.InodeIndex < t.NumberOfFiles then
      let FileHeader := loadFileHeader env s.mem (t.File dd.InodeIndex).FileHeaderPointer
      let DirectoryEntry : EEFS_DirectoryEntry_t :=
        { InodeIndex := dd.InodeIndex
          FileHeaderPointer := (t.File dd.InodeIndex).FileHeaderPointer
          MaxFileSize := (t.File dd.InodeIndex).MaxFileSize
          InUse := FileHeader.InUse
          Filename := strncpy FileHeader.Filename EEFS_MAX_FILENAME_SIZE }
      (some DirectoryEntry,
        { s with
          EEFS_DirectoryEntry := DirectoryEntry
          EEFS_DirectoryDescriptor := { dd with InodeIndex := u32 (dd.InodeIndex + 1) } })
    else (none, s)
  else (none, s)

def EEFS_LibCloseDir (s : State) (DirectoryDescriptor : Bool) : Int × State :=
  if DirectoryDescriptor = true then
    if s.EEFS_DirectoryDescriptor.InUse = TRUE then
      (EEFS_SUCCESS, { s with
        EEFS_DirectoryDescriptor := zeroDirectoryDescriptor
        EEFS_DirectoryEntry := zeroDirectoryEntry })
    else (EEFS_INVALID_ARGUMENT, s)
  else (EEFS_INVALID_ARGUMENT, s)


/-! ## Properties of states -/

/-- In-use test of the engine on descriptor `i`. -/
def fdInUse (s : State) (i : Nat) : Prop := (s.EEFS_FileDescriptorTable i).InUse = TRUE

instance (s : State) (i : Nat) : Decidable (fdInUse s i) := by
  unfold fdInUse; infer_instance

/-- Two distinct in-use descriptors on the same inode table and inode index which both
have `EEFS_FWRITE`. -/
def writersClash (s : State) (i j : Nat) : Prop :=
  i ≠ j ∧ fdInUse s i ∧ fdInUse s j ∧
  (s.EEFS_FileDescriptorTable i).InodeTable = (s.EEFS_FileDescriptorTable j).InodeTable ∧
  (s.EEFS_FileDescriptorTable i).InodeIndex = (s.EEFS_FileDescriptorTable j).InodeIndex ∧
  Nat.land (s.EEFS_FileDescriptorTable i).Mode EEFS_FWRITE ≠ 0 ∧
  Nat.land (s.EEFS_FileDescriptorTable j).Mode EEFS_FWRITE ≠ 0

instance (s : State) (i j : Nat) : Decidable (writersClash s i j) := by
  unfold writersClash; infer_instance

/-- Single-writer: for every inode table and inode index at most one in-use descriptor has
`EEFS_FWRITE`. -/
def SingleWriter (s : State) : Prop :=
  ∀ i, i < EEFS_MAX_OPEN_FILES → ∀ j, j < EEFS_MAX_OPEN_FILES → ¬ writersClash s i j

instance (s : State) : Decidable (SingleWriter s) := by
  unfold SingleWriter; infer_instance

/-- Two distinct in-use descriptors on the same inode table which both have
`EEFS_FCREAT`. -/
def creatorsClash (s : State) (i j : Nat) : Prop :=
  i ≠ j ∧ fdInUse s i ∧ fdInUse s j ∧
  (s.EEFS_FileDescriptorTable i).InodeTable = (s.EEFS_FileDescriptorTable j).InodeTable ∧
  Nat.land (s.EEFS_FileDescriptorTable i).Mode EEFS_FCREAT ≠ 0 ∧
  Nat.land (s.EEFS_FileDescriptorTable j).Mode EEFS_FCREAT ≠ 0

instance (s : State) (i j : Nat) : Decidable (creatorsClash s i j) := by
  unfold creatorsClash; infer_instance

/-- Single-creator: for every inode table at most one in-use descriptor has
`EEFS_FCREAT`. -/
def SingleCreator (s : State) : Prop :=
  ∀ i, i < EEFS_MAX_OPEN_FILES → ∀ j, j < EEFS_MAX_OPEN_FILES → ¬ creatorsClash s i j

instance (s : State) : Decidable (SingleCreator s) := by
  unfold SingleCreator; infer_instance

/-- Bound: every in-use descriptor has `ByteOffset ≤ FileSize ≤ MaxFileSize`. -/
def Bound (s : State) : Prop :=
  ∀ i, i < EEFS_MAX_OPEN_FILES → fdInUse s i →
    (s.EEFS_FileDescriptorTable i).ByteOffset ≤ (s.EEFS_FileDescriptorTable i).FileSize ∧
    (s.EEFS_FileDescriptorTable i).FileSize ≤ (s.EEFS_FileDescriptorTable i).MaxFileSize

instance (s : State) : Decidable (Bound s) := by
  unfold Bound; infer_instance

/-- Every slot of the table whose decoded header has `InUse == TRUE` has
`FileSize ≤ MaxFileSize`. -/
def LiveFilesFit (env : Env) (s : State) (InodeTable : Nat) : Prop :=
  ∀ i, i < (s.InodeTables InodeTable).NumberOfFiles →
    (loadFileHeader env s.mem ((s.InodeTables InodeTable).File i).FileHeaderPointer).InUse ≠ 0 →
    (loadFileHeader env s.mem ((s.InodeTables InodeTable).File i).FileHeaderPointer).FileSize
      ≤ ((s.InodeTables InodeTable).File i).MaxFileSize

instance (env : Env) (s : State) (t : Nat) : Decidable (LiveFilesFit env s t) := by
  unfold LiveFilesFit; infer_instance

/-- Pack, on the decoded on-medium FAT at `BaseAddress`: each slot ends where the next one
begins, and the last one ends at `FreeMemoryOffset`. -/
def PackInvariant (env : Env) (m : Mem) (BaseAddress : Nat) : Prop :=
  ∀ i, i < (loadFileAllocationTableHeader env m BaseAddress).NumberOfFiles →
    (loadFileAllocationTableEntry env m (fatEntryAddress BaseAddress i)).FileHeaderOffset
      + sizeofFileHeader
      + (loadFileAllocationTableEntry env m (fatEntryAddress BaseAddress i)).MaxFileSize
    = if i + 1 < (loadFileAllocationTableHeader env m BaseAddress).NumberOfFiles
      then (loadFileAllocationTableEntry env m
        (fatEntryAddress BaseAddress (i + 1))).FileHeaderOffset
      else (loadFileAllocationTableHeader env m BaseAddress).FreeMemoryOffset

instance (env : Env) (m : Mem) (b : Nat) : Decidable (PackInvariant env m b) := by
  unfold PackInvariant; infer_instance

/-- Two distinct slots of an inode table whose decoded `InUse` is non-zero and which carry
the same filename. -/
def namesClash (env : Env) (s : State) (InodeTable i j : Nat) : Prop :=
  i ≠ j ∧
  (loadFileHeader env s.mem ((s.InodeTables InodeTable).File i).FileHeaderPointer).InUse ≠ 0 ∧
  (loadFileHeader env s.mem ((s.InodeTables InodeTable).File j).FileHeaderPointer).InUse ≠ 0 ∧
  (loadFileHeader env s.mem ((s.InodeTables InodeTable).File i).FileHeaderPointer).Filename =
    (loadFileHeader env s.mem ((s.InodeTables InodeTable).File j).FileHeaderPointer).Filename

instance (env : Env) (s : State) (t i j : Nat) : Decidable (namesClash env s t i j) := by
  unfold namesClash; infer_instance

/-- Name-unique, on the slots of an inode table: no two live slots carry the same
filename. -/
def NameUnique (env : Env) (s : State) (InodeTable : Nat) : Prop :=
  ∀ i, i < (s.InodeTables InodeTable).NumberOfFiles →
    ∀ j, j < (s.InodeTables InodeTable).NumberOfFiles → ¬ namesClash env s InodeTable i j

instance (env : Env) (s : State) (t : Nat) : Decidable (NameUnique env s t) := by
  unfold NameUnique; infer_instance

/-- Volume size as the inode table records it:
`(FreeMemoryPointer - BaseAddress) + FreeMemorySize`. -/
def tableVolumeSize (t : EEFS_InodeTable_t) : Nat :=
  (t.FreeMemoryPointer - t.BaseAddress) + t.FreeMemorySize

/-- Volume size as the on-medium FAT header records it:
`FreeMemoryOffset + FreeMemorySize`. -/
def mediumVolumeSize (env : Env) (m : Mem) (BaseAddress : Nat) : Nat :=
  (loadFileAllocationTableHeader env m BaseAddress).FreeMemoryOffset
    + (loadFileAllocationTableHeader env m BaseAddress).FreeMemorySize

/-! ## Example volumes -/

/-- Environment of the examples: medium writable, clock at 1000 s. -/
def exEnv (le : Bool) : Env := ⟨le, false, 1000⟩

def exBase : Nat := 4096

/-- All-zero medium and RAM, module data as `EEFS_LibInit` leaves it. -/
def exBlank : State :=
  EEFS_LibInit ⟨fun _ => 0, [], fun _ => zeroInodeTable, 0, 0, fun _ => zeroFileDescriptor,
    zeroDirectoryDescriptor, zeroDirectoryEntry⟩

/-- A volume of 4096 bytes at `exBase` holding no file. -/
def exEmptyVolume (le : Bool) : State :=
  { exBlank with
    mem := memWrite (fun _ => 0) exBase
      (fileAllocationTableHeaderBytes le (EEFS_SwapFileAllocationTableHeader
        ⟨0, EEFS_FILESYS_MAGIC, 1, 536, 3560, 0⟩)) }

/-- A volume at `exBase` holding the file "a" (1000 bytes in a slot of 1000 bytes), with
`fms` bytes of free memory behind it. -/
def exOneFileVolume (le : Bool) (fms : Nat) : State :=
  { exBlank with
    mem :=
      memWrite
        (memWrite
          (memWrite (fun _ => 0) exBase
            (fileAllocationTableHeaderBytes le (EEFS_SwapFileAllocationTableHeader
              ⟨0, EEFS_FILESYS_MAGIC, 1, 1600, fms, 1⟩)))
          (fatEntryAddress exBase 0)
          (fileAllocationTableEntryBytes le (EEFS_SwapFileAllocationTableEntry ⟨536, 1000⟩)))
        (exBase + 536)
        (fileHeaderBytes le (EEFS_SwapFileHeader ⟨0, 1, 0, 1000, 7, 7, strncpy [97] 40⟩)) }

/-- The empty volume mounted on the inode table at address 1. -/
def exMountedEmpty (le : Bool) : State :=
  (EEFS_LibInitFS (exEnv le) (exEmptyVolume le) 1 exBase).2

/-- The one-file volume mounted on the inode table at address 1. -/
def exMountedOneFile (le : Bool) (fms : Nat) : State :=
  (EEFS_LibInitFS (exEnv le) (exOneFileVolume le fms) 1 exBase).2

/-- Trace on the empty volume: `Creat("a")`, `Write("hello", 5)`, `Close`,
`Open("a", O_RDONLY)`. -/
def exCreat (le : Bool) : Int × State :=
  EEFS_LibCreat (exEnv le) (exMountedEmpty le) 1 (some [97]) EEFS_ATTRIBUTE_NONE
def exWrite (le : Bool) : Int × State :=
  EEFS_LibWrite (exCreat le).2 (exCreat le).1 (some [104, 101, 108, 108, 111]) 5
def exClose (le : Bool) : Int × State :=
  EEFS_LibClose (exEnv le) (exWrite le).2 (exCreat le).1
def exReopen (le : Bool) : Int × State :=
  EEFS_LibOpen (exEnv le) (exClose le).2 1 (some [97]) O_RDONLY 0

/-- Trace continued: a second `Creat("a")` after the close, and its `Close`. -/
def exCreatAgain (le : Bool) : Int × State :=
  EEFS_LibCreat (exEnv le) (exClose le).2 1 (some [97]) EEFS_ATTRIBUTE_NONE
def exCloseAgain (le : Bool) : Int × State :=
  EEFS_LibClose (exEnv le) (exCreatAgain le).2 (exCreatAgain le).1

/-- Trace on the one-file volume: `Open("a", O_WRONLY | O_RDWR)` twice. -/
def exOpen3 (le : Bool) (fms : Nat) : Int × State :=
  EEFS_LibOpen (exEnv le) (exMountedOneFile le fms) 1 (some [97]) (Nat.lor O_WRONLY O_RDWR) 0
def exOpen3Twice (le : Bool) (fms : Nat) : Int × State :=
  EEFS_LibOpen (exEnv le) (exOpen3 le fms).2 1 (some [97]) (Nat.lor O_WRONLY O_RDWR) 0

/-- Trace on the one-file volume: `Open("a", O_WRONLY | O_RDWR)`, `Close`, then
`Open("a", O_RDONLY)`. -/
def exOpen3Close (le : Bool) (fms : Nat) : Int × State :=
  EEFS_LibClose (exEnv le) (exOpen3 le fms).2 (exOpen3 le fms).1
def exOpen3CloseOpen (le : Bool) (fms : Nat) : Int × State :=
  EEFS_LibOpen (exEnv le) (exOpen3Close le fms).2 1 (some [97]) O_RDONLY 0


/-! ## Calls of the public functions and reachable states -/

/-- A call of a public function of eefs_fileapi.c with its arguments. -/
inductive Call where
  | LibInit
  | LibInitFS (InodeTable BaseAddress : Nat)
  | LibFreeFS (InodeTable : Nat)
  | LibOpen (InodeTable : Nat) (Filename : Option (List Nat)) (Flags Attributes : Nat)
  | LibCreat (InodeTable : Nat) (Filename : Option (List Nat)) (Attributes : Nat)
  | LibClose (FileDescriptor : Int)
  | LibRead (FileDescriptor : Int) (Buffer : Option (List Nat)) (Length : Nat)
  | LibWrite (FileDescriptor : Int) (Buffer : Option (List Nat)) (Length : Nat)
  | LibLSeek (FileDescriptor : Int) (ByteOffset : Int) (Origin : Nat)
  | LibRemove (InodeTable : Nat) (Filename : Option (List Nat))
  | LibRename (InodeTable : Nat) (OldFilename NewFilename : Option (List Nat))
  | LibStat (InodeTable : Nat) (Filename : Option (List Nat)) (StatBuffer : Option EEFS_Stat_t)
  | LibFstat (FileDescriptor : Int) (StatBuffer : Option EEFS_Stat_t)
  | LibSetFileAttributes (InodeTable : Nat) (Filename : Option (List Nat)) (Attributes : Nat)
  | LibOpenDir (InodeTable : Nat)
  | LibReadDir (DirectoryDescriptor : Bool)
  | LibCloseDir (DirectoryDescriptor : Bool)

/-- State of the engine after a call. -/
def Call.run (env : Env) (s : State) : Call → State
  | Call.LibInit => EEFS_LibInit s
  | Call.LibInitFS t b => (EEFS_LibInitFS env s t b).2
  | Call.LibFreeFS t => (EEFS_LibFreeFS s t).2
  | Call.LibOpen t f fl a => (EEFS_LibOpen env s t f fl a).2
  | Call.LibCreat t f a => (EEFS_LibCreat env s t f a).2
  | Call.LibClose fd => (EEFS_LibClose env s fd).2
  | Call.LibRead fd b l => (EEFS_LibRead s fd b l).2.2
  | Call.LibWrite fd b l => (EEFS_LibWrite s fd b l).2
  | Call.LibLSeek fd o w => (EEFS_LibLSeek s fd o w).2
  | Call.LibRemove t f => (EEFS_LibRemove env s t f).2
  | Call.LibRename t f g => (EEFS_LibRename env s t f g).2
  | Call.LibStat _ _ _ => s
  | Call.LibFstat _ _ => s
  | Call.LibSetFileAttributes t f a => (EEFS_LibSetFileAttributes env s t f a).2
  | Call.LibOpenDir t => (EEFS_LibOpenDir s t).2
  | Call.LibReadDir d => (EEFS_LibReadDir env s d).2
  | Call.LibCloseDir d => (EEFS_LibCloseDir s d).2

/-- States reachable from `EEFS_LibInit` by calls of the public functions that satisfy the
side condition `ok` in the state in which they are made. -/
inductive ReachableBy (ok : State → Call → Prop) : State → Prop where
  | init (s : State) : ReachableBy ok (EEFS_LibInit s)
  | call (env : Env) (s : State) (c : Call) :
      ReachableBy ok s → ok s c → ReachableBy ok (c.run env s)

/-- No side condition: every call is allowed. -/
def anyCall (_ : State) (_ : Call) : Prop := True

/-- Side condition under which `EEFS_LibInitFS` is applied only to an inode table that no
in-use file descriptor refers to (what `EEFS_LibFreeFS` checks before it clears a table). -/
def initFSOnIdleTable (s : State) : Call → Prop
  | Call.LibInitFS t _ => EEFS_LibHasOpenFiles s t = false
  | _ => True


/-! ## Results of the internal functions, in closed form -/

/-- The descriptor that `EEFS_LibOpenFile` initialises. -/
def openedDescriptor (env : Env) (s : State) (InodeTable : Nat) (InodeIndex : Int)
    (Flags : Nat) : EEFS_FileDescriptor_t :=
  { InUse := TRUE
    Mode := u32 (Nat.land Flags O_ACCMODE + 1)
    FileHeaderPointer := ((s.InodeTables InodeTable).File InodeIndex.toNat).FileHeaderPointer
    FileDataPointer :=
      u32 (((s.InodeTables InodeTable).File InodeIndex.toNat).FileHeaderPointer + sizeofFileHeader)
    ByteOffset := 0
    FileSize :=
      if (Nat.land Flags O_ACCMODE = O_WRONLY ∨ Nat.land Flags O_ACCMODE = O_RDWR) ∧
          Nat.land Flags O_TRUNC ≠ 0 then 0
      else (loadFileHeader env s.mem
        ((s.InodeTables InodeTable).File InodeIndex.toNat).FileHeaderPointer).FileSize
    MaxFileSize := ((s.InodeTables InodeTable).File InodeIndex.toNat).MaxFileSize
    InodeTable := InodeTable
    InodeIndex := ofInt32 InodeIndex }

/-- The inode table after `EEFS_LibCreatFile` has added the new slot. -/
def createdTable (t : EEFS_InodeTable_t) : EEFS_InodeTable_t :=
  { t with
    NumberOfFiles := u32 (t.NumberOfFiles + 1)
    File := Function.update t.File t.NumberOfFiles
      { FileHeaderPointer := t.FreeMemoryPointer
        MaxFileSize := u32sub t.FreeMemorySize sizeofFileHeader } }

/-- The file header that `EEFS_LibCreatFile` writes. -/
def createdHeader (env : Env) (Filename : List Nat) (Attributes : Nat) : EEFS_FileHeader_t :=
  { Crc := 0
    InUse := TRUE
    Attributes := Attributes
    FileSize := 0
    ModificationDate := u32 env.time
    CreationDate := u32 env.time
    Filename := strncpy Filename EEFS_MAX_FILENAME_SIZE }

/-- The descriptor that `EEFS_LibCreatFile` initialises. -/
def createdDescriptor (s : State) (InodeTable : Nat) : EEFS_FileDescriptor_t :=
  { InUse := TRUE
    Mode := Nat.lor EEFS_FCREAT EEFS_FWRITE
    FileHeaderPointer := (s.InodeTables InodeTable).FreeMemoryPointer
    FileDataPointer := u32 ((s.InodeTables InodeTable).FreeMemoryPointer + sizeofFileHeader)
    ByteOffset := 0
    FileSize := 0
    MaxFileSize := u32sub (s.InodeTables InodeTable).FreeMemorySize sizeofFileHeader
    InodeTable := InodeTable
    InodeIndex := (s.InodeTables InodeTable).NumberOfFiles }

/-- In-use descriptors refer to slots of their inode table. -/
def IndexInRange (s : State) : Prop :=
  ∀ k, k < EEFS_MAX_OPEN_FILES → fdInUse s k →
    (s.EEFS_FileDescriptorTable k).InodeIndex
      < (s.InodeTables (s.EEFS_FileDescriptorTable k).InodeTable).NumberOfFiles

/-- Every in-use descriptor of the second state is an in-use descriptor of the first one,
with the same mode, table and index, and its table has the same number of files. -/
def DescriptorsKept (s s' : State) : Prop :=
  ∀ k, k < EEFS_MAX_OPEN_FILES → fdInUse s' k →
    fdInUse s k ∧
    (s'.EEFS_FileDescriptorTable k).Mode = (s.EEFS_FileDescriptorTable k).Mode ∧
    (s'.EEFS_FileDescriptorTable k).InodeTable = (s.EEFS_FileDescriptorTable k).InodeTable ∧
    (s'.EEFS_FileDescriptorTable k).InodeIndex = (s.EEFS_FileDescriptorTable k).InodeIndex ∧
    (s'.InodeTables (s.EEFS_FileDescriptorTable k).InodeTable).NumberOfFiles =
      (s.InodeTables (s.EEFS_FileDescriptorTable k).InodeTable).NumberOfFiles

/-- The fields of a descriptor that the sharing rules depend on. -/
def fdCore (d : EEFS_FileDescriptor_t) : Nat × Nat × Nat × Nat :=
  (d.InUse, d.Mode, d.InodeTable, d.InodeIndex)

/-- The medium and inode-table part of `EEFS_LibClose`, before the descriptor is freed. -/
def closeBody (env : Env) (s : State) (k : Nat) : State :=
  if Nat.land (s.EEFS_FileDescriptorTable k).Mode EEFS_FCREAT ≠ 0 then closeCreat env s k
  else if Nat.land (s.EEFS_FileDescriptorTable k).Mode EEFS_FWRITE ≠ 0 then closeWrite env s k
  else s

/-- The state after `EEFS_LibFreeFileDescriptor` on a valid descriptor `k`. -/
def freedDescriptor (s : State) (k : Nat) : State :=
  { s with
    EEFS_FileDescriptorTable := Function.update s.EEFS_FileDescriptorTable k zeroFileDescriptor
    EEFS_FileDescriptorsInUse := u32sub s.EEFS_FileDescriptorsInUse 1 }

/-! ## Example runs for the sharing rules -/

def exBase2 : Nat := 8192

/-- The one-file volume at `exBase` and an empty volume at `exBase2`, in one memory. -/
def exTwoVolumes (le : Bool) : State :=
  { exOneFileVolume le 100 with
    mem := memWrite (exOneFileVolume le 100).mem exBase2
      (fileAllocationTableHeaderBytes le (EEFS_SwapFileAllocationTableHeader
        ⟨0, EEFS_FILESYS_MAGIC, 1, 536, 3560, 0⟩)) }

/-- Run: mount the one-file volume on table 1 and open "a" for writing. -/
def exRunOpenWrite (le : Bool) : State :=
  (Call.LibOpen 1 (some [97]) O_WRONLY 0).run (exEnv le)
    ((Call.LibInitFS 1 exBase).run (exEnv le) (EEFS_LibInit (exTwoVolumes le)))

/-- Run continued: `EEFS_LibInitFS` of the same table on the empty volume while the
descriptor is open, then `Creat("b")`. -/
def exRunRemountCreat (le : Bool) : State :=
  (Call.LibCreat 1 (some [98]) EEFS_ATTRIBUTE_NONE).run (exEnv le)
    ((Call.LibInitFS 1 exBase2).run (exEnv le) (exRunOpenWrite le))

/-! ## Closed form of the close of a created file -/

/-- `Creat`, one `Write` and `Close` on the descriptor that `Creat` returned. -/
def creatWriteClose (env : Env) (s : State) (T : Nat) (f : List Nat) (A : Nat)
    (Buffer : List Nat) (Length : Nat) : Int × State :=
  EEFS_LibClose env
    (EEFS_LibWrite (EEFS_LibCreat env s T (some f) A).2 (EEFS_LibCreat env s T (some f) A).1
      (some Buffer) Length).2
    (EEFS_LibCreat env s T (some f) A).1

/-- The final `MaxFileSize` that `EEFS_LibClose` computes for a descriptor with
`EEFS_FCREAT`. -/
def closeCreatMaxFileSize (s : State) (k : Nat) : Nat :=
  EEFS_MIN
    (EEFS_ROUND_UP (u32 ((s.EEFS_FileDescriptorTable k).FileSize
      + EEFS_DEFAULT_CREAT_SPARE_BYTES)) 4)
    (u32sub (s.InodeTables (s.EEFS_FileDescriptorTable k).InodeTable).FreeMemorySize
      sizeofFileHeader)

/-- The inode table after that `EEFS_LibClose`. -/
def closeCreatTable (s : State) (k : Nat) : EEFS_InodeTable_t :=
  { s.InodeTables (s.EEFS_FileDescriptorTable k).InodeTable with
    FreeMemoryPointer :=
      u32 ((s.InodeTables (s.EEFS_FileDescriptorTable k).InodeTable).FreeMemoryPointer
        + u32 (sizeofFileHeader + closeCreatMaxFileSize s k))
    FreeMemorySize :=
      u32sub (s.InodeTables (s.EEFS_FileDescriptorTable k).InodeTable).FreeMemorySize
        (u32 (sizeofFileHeader + closeCreatMaxFileSize s k))
    File := Function.update (s.InodeTables (s.EEFS_FileDescriptorTable k).InodeTable).File
      (s.EEFS_FileDescriptorTable k).InodeIndex
      { (s.InodeTables (s.EEFS_FileDescriptorTable k).InodeTable).File
          (s.EEFS_FileDescriptorTable k).InodeIndex with
        MaxFileSize := closeCreatMaxFileSize s k } }

/-- The file header, decoded, that this `EEFS_LibClose` writes back. -/
def closeCreatHeader (env : Env) (s : State) (k : Nat) : EEFS_FileHeader_t :=
  { loadFileHeader env s.mem (s.EEFS_FileDescriptorTable k).FileHeaderPointer with
    FileSize := (s.EEFS_FileDescriptorTable k).FileSize
    Crc := 0 }

/-- The FAT entry, decoded, that this `EEFS_LibClose` writes. -/
def closeCreatEntry (s : State) (k : Nat) : EEFS_FileAllocationTableEntry_t :=
  { FileHeaderOffset :=
      u32sub ((closeCreatTable s k).File (s.EEFS_FileDescriptorTable k).InodeIndex).FileHeaderPointer
        (closeCreatTable s k).BaseAddress
    MaxFileSize :=
      ((closeCreatTable s k).File (s.EEFS_FileDescriptorTable k).InodeIndex).MaxFileSize }

/-- The medium after the first two writes of this `EEFS_LibClose`. -/
def closeCreatMem2 (env : Env) (s : State) (k : Nat) : Mem :=
  memWrite
    (memWrite s.mem (s.EEFS_FileDescriptorTable k).FileHeaderPointer
      (fileHeaderBytes env.hostLittleEndian (EEFS_SwapFileHeader (closeCreatHeader env s k))))
    (fatEntryAddress (closeCreatTable s k).BaseAddress (s.EEFS_FileDescriptorTable k).InodeIndex)
    (fileAllocationTableEntryBytes env.hostLittleEndian
      (EEFS_SwapFileAllocationTableEntry (closeCreatEntry s k)))

/-- The FAT header, decoded, that this `EEFS_LibClose` writes last. -/
def closeCreatFatHeader (env : Env) (s : State) (k : Nat) : EEFS_FileAllocationTableHeader_t :=
  { loadFileAllocationTableHeader env (closeCreatMem2 env s k) (closeCreatTable s k).BaseAddress with
    FreeMemoryOffset := u32sub (closeCreatTable s k).FreeMemoryPointer
      (closeCreatTable s k).BaseAddress
    FreeMemorySize := (closeCreatTable s k).FreeMemorySize
    NumberOfFiles := (closeCreatTable s k).NumberOfFiles }

/-- The medium events of `Creat`, one `Write` and `Close` of a new file, in the order in
which they are issued: file header (at `Creat`), data, file header, FAT entry of the new
slot, FAT header, with the flushes in between. -/
def creatCloseEvents (FreeMemoryPointer BaseAddress NumberOfFiles : Nat)
    (hdr0 data hdr1 ent fat : List Nat) : List MediumEvent :=
  [MediumEvent.write FreeMemoryPointer hdr0,
   MediumEvent.flush,
   MediumEvent.write (FreeMemoryPointer + sizeofFileHeader) data,
   MediumEvent.write FreeMemoryPointer hdr1,
   MediumEvent.flush,
   MediumEvent.write (fatEntryAddress BaseAddress NumberOfFiles) ent,
   MediumEvent.flush,
   MediumEvent.write BaseAddress fat,
   MediumEvent.flush]

/-- The state `s` restarted on the medium `m`. -/
def withMedium (s : State) (m : Mem) : State := { s with mem := m }

/-! ## A volume mounted on one inode table -/

/-- Well-formedness of the volume of `V` bytes at `B` on the medium `m`, on the decoded
FAT: the volume fits the address space, magic and version are right, at most
`EEFS_MAX_FILES` slots, `FreeMemoryOffset + FreeMemorySize` is `V`, the slots lie between
the FAT and the free memory and do not overlap, and every slot whose header has
`InUse == TRUE` has `FileSize ≤ MaxFileSize`. -/
structure VolumeOK (env : Env) (m : Mem) (B V : Nat) : Prop where
  fits : B + V < 4294967296
  magic : (loadFileAllocationTableHeader env m B).Magic = EEFS_FILESYS_MAGIC
  version : (loadFileAllocationTableHeader env m B).Version = 1
  count : (loadFileAllocationTableHeader env m B).NumberOfFiles ≤ EEFS_MAX_FILES
  tail : (loadFileAllocationTableHeader env m B).FreeMemoryOffset
    + (loadFileAllocationTableHeader env m B).FreeMemorySize = V
  fat : sizeofFileAllocationTable ≤ (loadFileAllocationTableHeader env m B).FreeMemoryOffset
  slot : ∀ i, i < (loadFileAllocationTableHeader env m B).NumberOfFiles →
    sizeofFileAllocationTable
      ≤ (loadFileAllocationTableEntry env m (fatEntryAddress B i)).FileHeaderOffset ∧
    (loadFileAllocationTableEntry env m (fatEntryAddress B i)).FileHeaderOffset
      + sizeofFileHeader
      + (loadFileAllocationTableEntry env m (fatEntryAddress B i)).MaxFileSize
      ≤ (loadFileAllocationTableHeader env m B).FreeMemoryOffset
  apart : ∀ i, i < (loadFileAllocationTableHeader env m B).NumberOfFiles →
    ∀ j, j < (loadFileAllocationTableHeader env m B).NumberOfFiles → i ≠ j →
    (loadFileAllocationTableEntry env m (fatEntryAddress B i)).FileHeaderOffset
      + sizeofFileHeader
      + (loadFileAllocationTableEntry env m (fatEntryAddress B i)).MaxFileSize
      ≤ (loadFileAllocationTableEntry env m (fatEntryAddress B j)).FileHeaderOffset ∨
    (loadFileAllocationTableEntry env m (fatEntryAddress B j)).FileHeaderOffset
      + sizeofFileHeader
      + (loadFileAllocationTableEntry env m (fatEntryAddress B j)).MaxFileSize
      ≤ (loadFileAllocationTableEntry env m (fatEntryAddress B i)).FileHeaderOffset
  live : ∀ i, i < (loadFileAllocationTableHeader env m B).NumberOfFiles →
    (loadFileHeader env m
      (B + (loadFileAllocationTableEntry env m (fatEntryAddress B i)).FileHeaderOffset)).InUse
      = TRUE →
    (loadFileHeader env m
      (B + (loadFileAllocationTableEntry env m (fatEntryAddress B i)).FileHeaderOffset)).FileSize
      ≤ (loadFileAllocationTableEntry env m (fatEntryAddress B i)).MaxFileSize

/-- What a medium write that is no FAT update keeps, from `m` to `m'`: the decoded FAT
header and entries, `FileSize ≤ MaxFileSize` in the slots whose header has
`InUse == TRUE`, and, when the free memory has room for a header, a header at its start
that has not `InUse == TRUE`. -/
structure MediumKept (env : Env) (B : Nat) (m m' : Mem) : Prop where
  header : loadFileAllocationTableHeader env m' B = loadFileAllocationTableHeader env m B
  entries : ∀ i, i < EEFS_MAX_FILES →
    loadFileAllocationTableEntry env m' (fatEntryAddress B i)
      = loadFileAllocationTableEntry env m (fatEntryAddress B i)
  live : ∀ i, i < (loadFileAllocationTableHeader env m B).NumberOfFiles →
    (loadFileHeader env m'
      (B + (loadFileAllocationTableEntry env m (fatEntryAddress B i)).FileHeaderOffset)).InUse
      = TRUE →
    (loadFileHeader env m'
      (B + (loadFileAllocationTableEntry env m (fatEntryAddress B i)).FileHeaderOffset)).FileSize
      ≤ (loadFileAllocationTableEntry env m (fatEntryAddress B i)).MaxFileSize
  free : sizeofFileHeader < (loadFileAllocationTableHeader env m B).FreeMemorySize →
    (loadFileHeader env m'
      (B + (loadFileAllocationTableHeader env m B).FreeMemoryOffset)).InUse = TRUE →
    (loadFileHeader env m
      (B + (loadFileAllocationTableHeader env m B).FreeMemoryOffset)).InUse = TRUE

/-- Geometry of an in-use descriptor `d` of the inode table `t` at address `T`, `N` being
the number of files that the medium records: `d` copies the slot it refers to,
`ByteOffset ≤ FileSize ≤ MaxFileSize`, the data pointer is `ByteOffset` bytes behind the
header, a descriptor with `EEFS_FCREAT` is on slot `N` and one without is on a slot below
`N`. -/
structure DescriptorOK (T : Nat) (t : EEFS_InodeTable_t) (N : Nat)
    (d : EEFS_FileDescriptor_t) : Prop where
  table : d.InodeTable = T
  index : d.InodeIndex < t.NumberOfFiles
  header : d.FileHeaderPointer = (t.File d.InodeIndex).FileHeaderPointer
  max : d.MaxFileSize = (t.File d.InodeIndex).MaxFileSize
  offset : d.ByteOffset ≤ d.FileSize
  size : d.FileSize ≤ d.MaxFileSize
  data : d.FileDataPointer = d.FileHeaderPointer + sizeofFileHeader + d.ByteOffset
  creat : Nat.land d.Mode EEFS_FCREAT ≠ 0 →
    d.InodeIndex = N ∧ Nat.land d.Mode EEFS_FWRITE ≠ 0
  plain : Nat.land d.Mode EEFS_FCREAT = 0 → d.InodeIndex < N

/-- The inode table at `T` is the mount of the well-formed volume of `V` bytes at `B`:
the table agrees with the decoded FAT, except that while a descriptor with `EEFS_FCREAT`
is open on `T` the table has one more slot, which covers the whole free memory; the
in-use descriptors of `T` lie on its slots and at most one of them has `EEFS_FCREAT`.
Descriptors of other inode tables are not constrained. -/
structure Mounted (env : Env) (s : State) (T B V : Nat) : Prop where
  vol : VolumeOK env s.mem B V
  table : T ≠ 0
  base : (s.InodeTables T).BaseAddress = B
  fmp : (s.InodeTables T).FreeMemoryPointer
    = B + (loadFileAllocationTableHeader env s.mem B).FreeMemoryOffset
  fms : (s.InodeTables T).FreeMemorySize
    = (loadFileAllocationTableHeader env s.mem B).FreeMemorySize
  files : ∀ i, i < (loadFileAllocationTableHeader env s.mem B).NumberOfFiles →
    ((s.InodeTables T).File i).FileHeaderPointer
      = B + (loadFileAllocationTableEntry env s.mem (fatEntryAddress B i)).FileHeaderOffset ∧
    ((s.InodeTables T).File i).MaxFileSize
      = (loadFileAllocationTableEntry env s.mem (fatEntryAddress B i)).MaxFileSize
  idle : EEFS_LibHasOpenCreat s T = false →
    (s.InodeTables T).NumberOfFiles
      = (loadFileAllocationTableHeader env s.mem B).NumberOfFiles
  creating : EEFS_LibHasOpenCreat s T = true →
    (s.InodeTables T).NumberOfFiles
      = (loadFileAllocationTableHeader env s.mem B).NumberOfFiles + 1 ∧
    (loadFileAllocationTableHeader env s.mem B).NumberOfFiles < EEFS_MAX_FILES ∧
    ((s.InodeTables T).File
      (loadFileAllocationTableHeader env s.mem B).NumberOfFiles).FileHeaderPointer
      = (s.InodeTables T).FreeMemoryPointer ∧
    ((s.InodeTables T).File
      (loadFileAllocationTableHeader env s.mem B).NumberOfFiles).MaxFileSize
      = (s.InodeTables T).FreeMemorySize - sizeofFileHeader ∧
    sizeofFileHeader < (s.InodeTables T).FreeMemorySize ∧
    (loadFileHeader env s.mem (s.InodeTables T).FreeMemoryPointer).InUse ≠ TRUE
  fds : ∀ k, k < EEFS_MAX_OPEN_FILES → fdInUse s k →
    (s.EEFS_FileDescriptorTable k).InodeTable = T →
    DescriptorOK T (s.InodeTables T)
      (loadFileAllocationTableHeader env s.mem B).NumberOfFiles
      (s.EEFS_FileDescriptorTable k)
  single : ∀ j, j < EEFS_MAX_OPEN_FILES → ∀ k, k < EEFS_MAX_OPEN_FILES →
    fdInUse s j → fdInUse s k →
    (s.EEFS_FileDescriptorTable j).InodeTable = T →
    (s.EEFS_FileDescriptorTable k).InodeTable = T →
    Nat.land (s.EEFS_FileDescriptorTable j).Mode EEFS_FCREAT ≠ 0 →
    Nat.land (s.EEFS_FileDescriptorTable k).Mode EEFS_FCREAT ≠ 0 → j = k

/-- The descriptor `fd`, when it is valid, is a descriptor of the inode table `T`. -/
def onTable (s : State) (T : Nat) (fd : Int) : Prop :=
  EEFS_LibIsValidFileDescriptor s fd = true →
    (s.EEFS_FileDescriptorTable fd.toNat).InodeTable = T

/-- The descriptor `fd`, when it is valid, is a descriptor of another inode table than
`T`. -/
def offTable (s : State) (T : Nat) (fd : Int) : Prop :=
  EEFS_LibIsValidFileDescriptor s fd = true →
    (s.EEFS_FileDescriptorTable fd.toNat).InodeTable ≠ T

/-- Calls of a session on the inode table `T` mounted at `B`, in the state `s`: the public
functions given `T` or a descriptor of `T`, and the functions that take neither.
`EEFS_LibInit` and a remount of `T` at `B` are calls of the session while no descriptor
with `EEFS_FCREAT` is open on `T`, `EEFS_LibFreeFS` of `T` while it is refused,
`EEFS_LibOpen` with one of the access modes `O_RDONLY`, `O_WRONLY`, `O_RDWR`, and
`EEFS_LibLSeek` with an offset that is an `int32`. -/
def mountedCall (T B : Nat) (s : State) : Call → Prop
  | Call.LibInit => EEFS_LibHasOpenCreat s T = false
  | Call.LibInitFS t b => t = T ∧ b = B ∧ EEFS_LibHasOpenCreat s T = false
  | Call.LibFreeFS t => t = T ∧ (EEFS_LibFreeFS s T).1 ≠ EEFS_SUCCESS
  | Call.LibOpen t _ fl _ => t = T ∧ Nat.land fl O_ACCMODE ≠ Nat.lor O_WRONLY O_RDWR
  | Call.LibCreat t _ _ => t = T
  | Call.LibClose fd => onTable s T fd
  | Call.LibRead fd _ _ => onTable s T fd
  | Call.LibWrite fd _ _ => onTable s T fd
  | Call.LibLSeek fd o _ => onTable s T fd ∧ -2147483648 ≤ o ∧ o < 2147483648
  | Call.LibRemove t _ => t = T
  | Call.LibRename t _ _ => t = T
  | Call.LibSetFileAttributes t _ _ => t = T
  | _ => True

/-- Calls on the other inode tables, in the state `s`: the public functions given an
inode table other than `T` or a descriptor of such a table. -/
def foreignCall (T : Nat) (s : State) : Call → Prop
  | Call.LibInitFS t _ => t ≠ T
  | Call.LibFreeFS t => t ≠ T
  | Call.LibOpen t _ _ _ => t ≠ T
  | Call.LibCreat t _ _ => t ≠ T
  | Call.LibClose fd => offTable s T fd
  | Call.LibRead fd _ _ => offTable s T fd
  | Call.LibWrite fd _ _ => offTable s T fd
  | Call.LibLSeek fd _ _ => offTable s T fd
  | Call.LibRemove t _ => t ≠ T
  | Call.LibRename t _ _ => t ≠ T
  | Call.LibSetFileAttributes t _ _ => t ≠ T
  | _ => False

/-- What a call on another inode table keeps of `T`, from `s` to `s2`: the inode table,
and the records of the descriptors of `T`; no descriptor of `T` comes or goes. -/
def ForeignKept (T : Nat) (s s2 : State) : Prop :=
  s2.InodeTables T = s.InodeTables T ∧
  ∀ j, (fdInUse s2 j ∧ (s2.EEFS_FileDescriptorTable j).InodeTable = T) ∨
      (fdInUse s j ∧ (s.EEFS_FileDescriptorTable j).InodeTable = T) →
    s2.EEFS_FileDescriptorTable j = s.EEFS_FileDescriptorTable j

/-- States of a session on the inode table `T` mounted on the volume of `V` bytes at `B`,
on a host of byte order `le`. The session starts in any state with `EEFS_LibInitFS` of `T`
on a well-formed volume while no descriptor of `T` is open; it continues with calls on
`T`, and with calls on other inode tables that leave the bytes of the volume as they
are. -/
inductive MountedRun (le : Bool) (T B V : Nat) : State → Prop where
  | mount (env : Env) (s : State) :
      env.hostLittleEndian = le → T ≠ 0 → VolumeOK env s.mem B V →
      EEFS_LibHasOpenFiles s T = false →
      MountedRun le T B V (EEFS_LibInitFS env s T B).2
  | call (env : Env) (s : State) (c : Call) :
      MountedRun le T B V s → env.hostLittleEndian = le → mountedCall T B s c →
      MountedRun le T B V (c.run env s)
  | other (env : Env) (s : State) (c : Call) :
      MountedRun le T B V s → foreignCall T s c →
      (∀ a, B ≤ a → a < B + V → (c.run env s).mem a = s.mem a) →
      MountedRun le T B V (c.run env s)

/-! ## Example sessions -/

/-- Session on the empty example volume: `EEFS_LibInit`, `EEFS_LibInitFS` of table 1,
`Creat("a")` and `Write("hello", 5)` on the descriptor 0 that `Creat` returns. -/
def exSessionOpen (le : Bool) : State :=
  (Call.LibWrite 0 (some [104, 101, 108, 108, 111]) 5).run (exEnv le)
    ((Call.LibCreat 1 (some [97]) EEFS_ATTRIBUTE_NONE).run (exEnv le)
      (EEFS_LibInitFS (exEnv le) (EEFS_LibInit (exEmptyVolume le)) 1 exBase).2)

/-- `Creat("a")` on the mounted empty volume, followed by `EEFS_LibInit`. -/
def exCreatThenInit (le : Bool) : State := EEFS_LibInit (exCreat le).2

/-- Session on the one-file example volume with 100 bytes of free memory: `EEFS_LibInit`,
`EEFS_LibInitFS` of table 1, then `Open("a", O_RDWR)`, which returns descriptor 0. -/
def exFileSession (le : Bool) : State :=
  (Call.LibOpen 1 (some [97]) O_RDWR 0).run (exEnv le)
    (EEFS_LibInitFS (exEnv le) (EEFS_LibInit (exOneFileVolume le 100)) 1 exBase).2

/-- A volume at `exBase` holding the file "a" of `2^31` bytes in a slot of `2^31` bytes,
with 100 bytes of free memory behind it. -/
def exBigFileVolume (le : Bool) : State :=
  { exBlank with
    mem :=
      memWrite
        (memWrite
          (memWrite (fun _ => 0) exBase
            (fileAllocationTableHeaderBytes le (EEFS_SwapFileAllocationTableHeader
              ⟨0, EEFS_FILESYS_MAGIC, 1, 2147484248, 100, 1⟩)))
          (fatEntryAddress exBase 0)
          (fileAllocationTableEntryBytes le
            (EEFS_SwapFileAllocationTableEntry ⟨536, 2147483648⟩)))
        (exBase + 536)
        (fileHeaderBytes le
          (EEFS_SwapFileHeader ⟨0, 1, 0, 2147483648, 7, 7, strncpy [97] 40⟩)) }

/-- Session on that volume: `EEFS_LibInit`, `EEFS_LibInitFS` of table 1, then
`Open("a", O_RDWR)`, which returns descriptor 0. -/
def exBigFileSession (le : Bool) : State :=
  (Call.LibOpen 1 (some [97]) O_RDWR 0).run (exEnv le)
    (EEFS_LibInitFS (exEnv le) (EEFS_LibInit (exBigFileVolume le)) 1 exBase).2

/-- Every in-use descriptor has a non-zero mode. -/
def ModesSet (s : State) : Prop :=
  ∀ k, k < EEFS_MAX_OPEN_FILES → fdInUse s k → (s.EEFS_FileDescriptorTable k).Mode ≠ 0

/-- The one-file example volume with 100 bytes of free memory after `EEFS_LibInit` and
`EEFS_LibInitFS` of table 1. -/
def exFileMounted (le : Bool) : State :=
  (EEFS_LibInitFS (exEnv le) (EEFS_LibInit (exOneFileVolume le 100)) 1 exBase).2

/-- Environment with the write protection of the medium asserted. -/
def exProtectedEnv : Env := ⟨true, true, 1000⟩

/-- The mounted one-file example volume after `EEFS_LibOpen("a", O_RDONLY)` on the
write-protected medium, which returns descriptor 0. -/
def exProtectedSession : State :=
  (EEFS_LibOpen exProtectedEnv (exFileMounted true) 1 (some [97]) O_RDONLY 0).2

/-- The mounted one-file example volume after `EEFS_LibOpen("a", O_WRONLY)`, which returns
descriptor 0. -/
def exWriteOnlySession : State :=
  (EEFS_LibOpen (exEnv true) (exFileMounted true) 1 (some [97]) O_WRONLY 0).2

/-- The mounted one-file example volume after `EEFS_LibOpen("a", O_RDONLY)`, which returns
descriptor 0. -/
def exReadOnlySession : State :=
  (EEFS_LibOpen (exEnv true) (exFileMounted true) 1 (some [97]) O_RDONLY 0).2

/-- State after `k` calls of `EEFS_LibReadDir` on the directory descriptor. -/
def readDirTimes (env : Env) (s : State) : Nat → State
  | 0 => s
  | k + 1 => (EEFS_LibReadDir env (readDirTimes env s k) true).2

/-- The directory entry of slot `k` of the inode table `T`: index, the slot's
`FileHeaderPointer` and `MaxFileSize`, and `InUse` and `Filename` of the decoded file
header. -/
def slotEntry (env : Env) (s : State) (T k : Nat) : EEFS_DirectoryEntry_t :=
  { InodeIndex := k
    FileHeaderPointer := ((s.InodeTables T).File k).FileHeaderPointer
    MaxFileSize := ((s.InodeTables T).File k).MaxFileSize
    InUse := (loadFileHeader env s.mem ((s.InodeTables T).File k).FileHeaderPointer).InUse
    Filename := strncpy
      (loadFileHeader env s.mem ((s.InodeTables T).File k).FileHeaderPointer).Filename
      EEFS_MAX_FILENAME_SIZE }

/-! ## The image builder (geneepromfs.c) -/

def LITTLE_ENDIAN : Nat := 0
def BIG_ENDIAN : Nat := 1

/-- The command line options that the image depends on (cmdlineopt.h). -/
structure CommandLineOptions_t where
  Endian : Nat
  EEPromSize : Nat
  FillEEProm : Bool
  TimeStamp : Nat

/-- One record of the manifest, as `GetInputParameters` returns it (parser.h). -/
structure InputParameters_t where
  InputFilename : List Nat
  EEFSFilename : List Nat
  SpareBytes : Nat
  Attributes : Nat

/-- The image buffer of the builder: its address and the memory of the builder process.
The file allocation table is at `BaseAddress`; the builder accesses it in host byte order. -/
structure FileSystem_t where
  BaseAddress : Nat
  mem : Mem

/-- Result of `memset(Dest, c, n)` on the memory. -/
def memSet (m : Mem) (Dest c n : Nat) : Mem :=
  fun a => if Dest ≤ a ∧ a < Dest + n then c else m a

/-- The macro `ROUND_UP(x, align)` of geneepromfs.c, `(((int) (x) + (align - 1)) & ~(align -
1))`, on 32-bit patterns: the result is stored in a `uint32`. -/
def ROUND_UP (x align : Nat) : Nat :=
  Nat.land (u32 (u32 x + (align - 1))) (u32not (align - 1))

/-- Truth of `strcmp(s1, s2) == 0` for the string `s1` in memory at `p`; the comparison
reads at most `strlen(s2) + 1` bytes of `s1`. -/
def strcmpEq (m : Mem) (p : Nat) (s2 : List Nat) : Bool :=
  strncmpEq (memRead m p (strlen s2 + 1)) s2 (strlen s2 + 1)

/-- Byte order of the machine that runs the builder. -/
def ThisMachineDataEncoding (le : Bool) : Nat := if le then LITTLE_ENDIAN else BIG_ENDIAN

/-- Search of the image for a stored name equal to `Filename`. -/
def IsDuplicateFilename (le : Bool) (fs : FileSystem_t) (Filename : List Nat) : Bool :=
  (List.range (readFileAllocationTableHeader le fs.mem fs.BaseAddress).NumberOfFiles).any
    (fun i => strcmpEq fs.mem
      (fs.BaseAddress
        + (readFileAllocationTableEntry le fs.mem
            (fatEntryAddress fs.BaseAddress i)).FileHeaderOffset + 24)
      Filename)

/-- Adds a file to the image.  `hostFiles` gives the content of the host file of a name
(`none`: the file cannot be opened); the result `none` is `UglyExit`. -/
def AddFile (le : Bool) (opts : CommandLineOptions_t) (hostFiles : List Nat → Option (List Nat))
    (fs : FileSystem_t) (InputFilename EEFSFilename : List Nat) (SpareBytes Attributes : Nat) :
    Option FileSystem_t :=
  let B := fs.BaseAddress
  if (readFileAllocationTableHeader le fs.mem B).NumberOfFiles < EEFS_MAX_FILES then
    if IsDuplicateFilename le fs EEFSFilename = false then
      match hostFiles InputFilename with
      | some content =>
        let FileSize := u32 content.length
        let MaxFileSize := ROUND_UP (u32 (FileSize + SpareBytes)) 4
        if (readFileAllocationTableHeader le fs.mem B).FreeMemorySize
            ≥ u32 (sizeofFileHeader + MaxFileSize) then
          let m1 := memWrite fs.mem
            (fatEntryAddress B (readFileAllocationTableHeader le fs.mem B).NumberOfFiles)
            (storeU32 le (readFileAllocationTableHeader le fs.mem B).FreeMemoryOffset)
          let m2 := memWrite m1
            (fatEntryAddress B (readFileAllocationTableHeader le m1 B).NumberOfFiles + 4)
            (storeU32 le MaxFileSize)
          let FileHeader := B + (readFileAllocationTableEntry le m2
            (fatEntryAddress B (readFileAllocationTableHeader le m2 B).NumberOfFiles)).FileHeaderOffset
          let m3 := memWrite m2 FileHeader
            (fileHeaderBytes le
              { Crc := 0
                InUse := TRUE
                Attributes := Attributes
                FileSize := FileSize
                ModificationDate := u32 opts.TimeStamp
                CreationDate := u32 opts.TimeStamp
                Filename := strncpy EEFSFilename EEFS_MAX_FILENAME_SIZE })
          let FileData := B + (readFileAllocationTableEntry le m3
            (fatEntryAddress B (readFileAllocationTableHeader le m3 B).NumberOfFiles)).FileHeaderOffset
            + sizeofFileHeader
          let m4 := memWrite m3 FileData (content.take FileSize)
          let m5 := memWrite m4 (B + 12)
            (storeU32 le (u32 ((readFileAllocationTableHeader le m4 B).FreeMemoryOffset
              + u32 (sizeofFileHeader + MaxFileSize))))
          let m6 := memWrite m5 (B + 16)
            (storeU32 le (u32sub (readFileAllocationTableHeader le m5 B).FreeMemorySize
              (u32 (sizeofFileHeader + MaxFileSize))))
          let m7 := memWrite m6 (B + 20)
            (storeU32 le (u32 ((readFileAllocationTableHeader le m6 B).NumberOfFiles + 1)))
          some { fs with mem := m7 }
        else none
      | none => none
    else none
  else none

/-- Byte swap of the 32-bit integer at address `a`, in place (`SwapUInt32` of
geneepromfs.c). -/
def SwapUInt32InPlace (m : Mem) (a : Nat) : Mem :=
  memWrite m a [m (a + 3) % 256, m (a + 2) % 256, m (a + 1) % 256, m a % 256]

/-- Body of the loop of `ByteSwapFileSystem` for slot `i`. -/
def byteSwapSlot (le : Bool) (B : Nat) (m : Mem) (i : Nat) : Mem :=
  let FileHeader := B + (readFileAllocationTableEntry le m (fatEntryAddress B i)).FileHeaderOffset
  let m1 := SwapUInt32InPlace m FileHeader
  let m2 := SwapUInt32InPlace m1 (FileHeader + 4)
  let m3 := SwapUInt32InPlace m2 (FileHeader + 8)
  let m4 := SwapUInt32InPlace m3 (FileHeader + 12)
  let m5 := SwapUInt32InPlace m4 (FileHeader + 16)
  let m6 := SwapUInt32InPlace m5 (FileHeader + 20)
  let m7 := SwapUInt32InPlace m6 (fatEntryAddress B i)
  SwapUInt32InPlace m7 (fatEntryAddress B i + 4)

/-- Byte swap of the file allocation table and of all file headers. -/
def ByteSwapFileSystem (le : Bool) (fs : FileSystem_t) : FileSystem_t :=
  let B := fs.BaseAddress
  let NumberOfFiles := (readFileAllocationTableHeader le fs.mem B).NumberOfFiles
  let m1 := SwapUInt32InPlace fs.mem B
  let m2 := SwapUInt32InPlace m1 (B + 4)
  let m3 := SwapUInt32InPlace m2 (B + 8)
  let m4 := SwapUInt32InPlace m3 (B + 12)
  let m5 := SwapUInt32InPlace m4 (B + 16)
  let m6 := SwapUInt32InPlace m5 (B + 20)
  { fs with mem := (List.range NumberOfFiles).foldl (byteSwapSlot le B) m6 }

/-- The table `CrcTable` of `CalculateCRC`. -/
def CrcTable : List Nat :=
  [0x0000, 0xC0C1, 0xC181, 0x0140, 0xC301, 0x03C0, 0x0280, 0xC241,
   0xC601, 0x06C0, 0x0780, 0xC741, 0x0500, 0xC5C1, 0xC481, 0x0440,
   0xCC01, 0x0CC0, 0x0D80, 0xCD41, 0x0F00, 0xCFC1, 0xCE81, 0x0E40,
   0x0A00, 0xCAC1, 0xCB81, 0x0B40, 0xC901, 0x09C0, 0x0880, 0xC841,
   0xD801, 0x18C0, 0x1980, 0xD941, 0x1B00, 0xDBC1, 0xDA81, 0x1A40,
   0x1E00, 0xDEC1, 0xDF81, 0x1F40, 0xDD01, 0x1DC0, 0x1C80, 0xDC41,
   0x1400, 0xD4C1, 0xD581, 0x1540, 0xD701, 0x17C0, 0x1680, 0xD641,
   0xD201, 0x12C0, 0x1380, 0xD341, 0x1100, 0xD1C1, 0xD081, 0x1040,
   0xF001, 0x30C0, 0x3180, 0xF141, 0x3300, 0xF3C1, 0xF281, 0x3240,
   0x3600, 0xF6C1, 0xF781, 0x3740, 0xF501, 0x35C0, 0x3480, 0xF441,
   0x3C00, 0xFCC1, 0xFD81, 0x3D40, 0xFF01, 0x3FC0, 0x3E80, 0xFE41,
   0xFA01, 0x3AC0, 0x3B80, 0xFB41, 0x3900, 0xF9C1, 0xF881, 0x3840,
   0x2800, 0xE8C1, 0xE981, 0x2940, 0xEB01, 0x2BC0, 0x2A80, 0xEA41,
   0xEE01, 0x2EC0, 0x2F80, 0xEF41, 0x2D00, 0xEDC1, 0xEC81, 0x2C40,
   0xE401, 0x24C0, 0x2580, 0xE541, 0x2700, 0xE7C1, 0xE681, 0x2640,
   0x2200, 0xE2C1, 0xE381, 0x2340, 0xE101, 0x21C0, 0x2080, 0xE041,
   0xA001, 0x60C0, 0x6180, 0xA141, 0x6300, 0xA3C1, 0xA281, 0x6240,
   0x6600, 0xA6C1, 0xA781, 0x6740, 0xA501, 0x65C0, 0x6480, 0xA441,
   0x6C00, 0xACC1, 0xAD81, 0x6D40, 0xAF01, 0x6FC0, 0x6E80, 0xAE41,
   0xAA01, 0x6AC0, 0x6B80, 0xAB41, 0x6900, 0xA9C1, 0xA881, 0x6840,
   0x7800, 0xB8C1, 0xB981, 0x7940, 0xBB01, 0x7BC0, 0x7A80, 0xBA41,
   0xBE01, 0x7EC0, 0x7F80, 0xBF41, 0x7D00, 0xBDC1, 0xBC81, 0x7C40,
   0xB401, 0x74C0, 0x7580, 0xB541, 0x7700, 0xB7C1, 0xB681, 0x7640,
   0x7200, 0xB2C1, 0xB381, 0x7340, 0xB101, 0x71C0, 0x7080, 0xB041,
   0x5000, 0x90C1, 0x9181, 0x5140, 0x9301, 0x53C0, 0x5280, 0x9241,
   0x9601, 0x56C0, 0x5780, 0x9741, 0x5500, 0x95C1, 0x9481, 0x5440,
   0x9C01, 0x5CC0, 0x5D80, 0x9D41, 0x5F00, 0x9FC1, 0x9E81, 0x5E40,
   0x5A00, 0x9AC1, 0x9B81, 0x5B40, 0x9901, 0x59C0, 0x5880, 0x9841,
   0x8801, 0x48C0, 0x4980, 0x8941, 0x4B00, 0x8BC1, 0x8A81, 0x4A40,
   0x4E00, 0x8EC1, 0x8F81, 0x4F40, 0x8D01, 0x4DC0, 0x4C80, 0x8C41,
   0x4400, 0x84C1, 0x8581, 0x4540, 0x8701, 0x47C0, 0x4680, 0x8641,
   0x8201, 0x42C0, 0x4380, 0x8341, 0x4100, 0x81C1, 0x8081, 0x4040]

/-- One step of the loop of `CalculateCRC` on the bit pattern of the `int16` variable
`Crc`: `Index = (Crc ^ byte) & 0x00FF; Crc = ((Crc >> 8) & 0x00FF) ^ CrcTable[Index]`. -/
def crcStep (Crc byte : Nat) : Nat :=
  Nat.xor (Nat.land (Crc / 256) 255)
    (CrcTable.getD (Nat.land (Nat.xor Crc (byte % 256)) 255) 0) % 65536

/-- Conversion of the bit pattern of an `int16` to `uint32`, with sign extension. -/
def int16ToUInt32 (c : Nat) : Nat :=
  if c % 65536 < 32768 then c % 65536 else c % 65536 + 4294901760

/-- The function `CalculateCRC`: the CRC of the `DataLength` bytes (an `int`) at `DataPtr`,
returned as `uint32` from the `int16` accumulator. -/
def CalculateCRC (m : Mem) (DataPtr : Nat) (DataLength : Int) (InputCrc : Nat) : Nat :=
  int16ToUInt32
    ((List.range DataLength.toNat).foldl (fun Crc i => crcStep Crc (m (DataPtr + i)))
      (Nat.land 65535 InputCrc))

/-- The image in the buffer when `main` has initialised it: `memset` to zero and the
header of the file allocation table. -/
def newFileSystem (le : Bool) (opts : CommandLineOptions_t) (B : Nat) (m : Mem) :
    FileSystem_t :=
  let m0 := memSet m B 0 opts.EEPromSize
  let m1 := memWrite m0 B (storeU32 le 0)
  let m2 := memWrite m1 (B + 4) (storeU32 le EEFS_FILESYS_MAGIC)
  let m3 := memWrite m2 (B + 8) (storeU32 le 1)
  let m4 := memWrite m3 (B + 12) (storeU32 le sizeofFileAllocationTable)
  let m5 := memWrite m4 (B + 16) (storeU32 le (u32sub opts.EEPromSize sizeofFileAllocationTable))
  let m6 := memWrite m5 (B + 20) (storeU32 le 0)
  { BaseAddress := B, mem := m6 }

/-- The loop of `main` over the records of the manifest. -/
def addFiles (le : Bool) (opts : CommandLineOptions_t) (hostFiles : List Nat → Option (List Nat))
    (fs : FileSystem_t) : List InputParameters_t → Option FileSystem_t
  | [] => some fs
  | r :: rest =>
    match AddFile le opts hostFiles fs r.InputFilename r.EEFSFilename r.SpareBytes
        r.Attributes with
    | some fs1 => addFiles le opts hostFiles fs1 rest
    | none => none

/-- The image in the buffer when `main` writes the output file: byte-swapped when the
output encoding differs from the host, with the CRC in the header. -/
def finishFileSystem (le : Bool) (opts : CommandLineOptions_t) (fs : FileSystem_t) :
    FileSystem_t :=
  let fs1 := if ThisMachineDataEncoding le ≠ opts.Endian then ByteSwapFileSystem le fs else fs
  let Crc := CalculateCRC fs1.mem (fs1.BaseAddress + 4)
    (toInt32 (u32sub opts.EEPromSize 4)) 0
  let m1 := memWrite fs1.mem fs1.BaseAddress (storeU32 le Crc)
  let m2 := if ThisMachineDataEncoding le ≠ opts.Endian
    then SwapUInt32InPlace m1 fs1.BaseAddress else m1
  { fs1 with mem := m2 }

/-- The program: the bytes of the output file for the manifest `records`, the buffer
being allocated at `B` in the memory `m`; `none` is `UglyExit`. -/
def main (le : Bool) (opts : CommandLineOptions_t) (hostFiles : List Nat → Option (List Nat))
    (B : Nat) (m : Mem) (records : List InputParameters_t) : Option (List Nat) :=
  match addFiles le opts hostFiles (newFileSystem le opts B m) records with
  | some fs =>
    let FreeMemoryOffset := (readFileAllocationTableHeader le fs.mem B).FreeMemoryOffset
    let fs1 := finishFileSystem le opts fs
    if opts.FillEEProm = true then some (memRead fs1.mem B opts.EEPromSize)
    else some (memRead fs1.mem B FreeMemoryOffset)
  | none => none

/-- Options of the example build: big-endian output, 1024 bytes of EEPROM, output
truncated at the free memory, time stamp 1000. -/
def exOptions : CommandLineOptions_t := ⟨BIG_ENDIAN, 1024, false, 1000⟩

/-- Host file system of the examples: the file "f" (name `[102]`) of five bytes. -/
def exHostFiles : List Nat → Option (List Nat) :=
  fun n => if n = [102] then some [1, 2, 3, 4, 5] else none

/-- The image that the builder makes on a little-endian host from the empty manifest. -/
def exEmptyImage : List Nat :=
  (main true exOptions exHostFiles 0 (fun _ => 0) []).getD []

/-- Byte order of the image that the builder writes: the host order, reversed when the
output encoding differs from the host encoding. -/
def imageLittleEndian (le : Bool) (opts : CommandLineOptions_t) : Bool :=
  if ThisMachineDataEncoding le ≠ opts.Endian then !le else le

/-- The image of the example build after `AddFile` of the host file "f" (five bytes) under
the name "a" with `spare` spare bytes and no attributes, on a little-endian host. -/
def exAdded (spare : Nat) : Option FileSystem_t :=
  AddFile true exOptions exHostFiles (newFileSystem true exOptions 0 (fun _ => 0))
    [102] [97] spare EEFS_ATTRIBUTE_NONE

/-- The memory of an image, zero when there is none. -/
def imageMem (fs : Option FileSystem_t) : Mem :=
  match fs with
  | some f => f.mem
  | none => fun _ => 0

/-! ## The EEPROM page window (eeprom_pagewindow.c) -/

def EEPROM_BANK1_SIZE : Nat := 0x200000
def EEPROM_BANK1_START_ADDR : Nat := 0x03400000
def EEPROM_BANK1_END_ADDR : Nat := EEPROM_BANK1_START_ADDR + EEPROM_BANK1_SIZE - 1
def EEPROM_BANK2_SIZE : Nat := 0x200000
def EEPROM_BANK2_START_ADDR : Nat := 0x03600000
def EEPROM_BANK2_END_ADDR : Nat := EEPROM_BANK2_START_ADDR + EEPROM_BANK2_SIZE - 1

/-- Checks that the address range is in EEPROM and does not span banks; `Address` and
`Size` are `uint32`, the result is `TRUE` or `FALSE`. -/
def EEPROM_IsValidAddressRange (Address Size : Nat) : Nat :=
  if Address ≥ EEPROM_BANK1_START_ADDR ∧ Address ≤ EEPROM_BANK1_END_ADDR then
    if u32sub (u32 (Address + Size)) 1 ≤ EEPROM_BANK1_END_ADDR then TRUE else FALSE
  else if Address ≥ EEPROM_BANK2_START_ADDR ∧ Address ≤ EEPROM_BANK2_END_ADDR then
    if u32sub (u32 (Address + Size)) 1 ≤ EEPROM_BANK2_END_ADDR then TRUE else FALSE
  else FALSE

/-- The byte addresses `Address, ..., Address + Size - 1`, computed without wrap-around,
all lie in the bank `[lo, hi]`. -/
def rangeInBank (Address Size lo hi : Nat) : Prop :=
  ∀ a, Address ≤ a → a < Address + Size → lo ≤ a ∧ a ≤ hi

/-! ## The reflected CRC-16, bit by bit (specification side) -/

/-- Specification side: one bit step of the reflected CRC-16 with polynomial `0xA001`:
shift right, and xor the polynomial in when the bit shifted out is 1. -/
def crc16BitStep (c : Nat) : Nat :=
  if c % 2 = 1 then Nat.xor (c / 2) 0xA001 else c / 2

/-- Specification side: feeding one byte: xor it into the low byte, then eight bit steps. -/
def crc16Byte (c b : Nat) : Nat :=
  crc16BitStep^[8] (Nat.xor c (b % 256))

/-- Specification side: the bit-serial reflected CRC-16 of the byte sequence `d` with
polynomial `0xA001`, initial value `init` and no final XOR. -/
def crc16Bitwise (init : Nat) (d : List Nat) : Nat :=
  d.foldl crc16Byte init

/-! ## Paths of the standalone driver (eefs_filesys.c) -/

def EEFS_MAX_PATH_SIZE : Nat := 64

/-- The two character arrays of `EEFS_SplitPath_t`, of `EEFS_MAX_PATH_SIZE` bytes each. -/
structure EEFS_SplitPath_t where
  MountPoint : List Nat
  Filename : List Nat
deriving DecidableEq, Repr

/-- Value of `i` after the loop `for (i=1; i < strlen(InputPath); i++) if (InputPath[i] ==
'/') break;` for the string with the characters `p`: the first position from 1 on that
holds a '/', or the point where the loop runs out. -/
def splitIndex (p : List Nat) : Nat :=
  match (List.range p.length).find? (fun i => decide (1 ≤ i) && decide (p.getD i 0 = 47)) with
  | some i => i
  | none => max 1 p.length

/-- Splits a path into mount point and file name.  `InputPath = none` and `SplitPath =
none` are the null pointers; the second component is the record behind `SplitPath` after
the call. -/
def EEFS_SplitPath (InputPath : Option (List Nat)) (SplitPath : Option EEFS_SplitPath_t) :
    Int × Option EEFS_SplitPath_t :=
  match InputPath, SplitPath with
  | some l, some _ =>
    let p := cstr l
    if p.length < EEFS_MAX_PATH_SIZE then
      let zero : EEFS_SplitPath_t :=
        ⟨List.replicate EEFS_MAX_PATH_SIZE 0, List.replicate EEFS_MAX_PATH_SIZE 0⟩
      if p.getD 0 0 = 47 then
        let i := splitIndex p
        if i < p.length then
          (EEFS_SUCCESS, some
            { MountPoint := strncpy p i ++ List.replicate (EEFS_MAX_PATH_SIZE - i) 0
              Filename := strncpy (p.drop (i + 1)) EEFS_MAX_PATH_SIZE })
        else (EEFS_ERROR, some zero)
      else (EEFS_ERROR, some zero)
    else (EEFS_ERROR, SplitPath)
  | _, _ => (EEFS_ERROR, SplitPath)

/-! ## The boot lookup (microeefs.c) -/

/-- Test of the loop body of `MicroEEFS_FindFile` at slot `i`: the FAT entry and the file
header are read in the byte order of the machine, without the codec. -/
def microMatch (le : Bool) (m : Mem) (BaseAddress : Nat) (Filename : List Nat) (i : Nat) :
    Bool :=
  decide ((readFileHeader le m
    (u32 (BaseAddress + (readFileAllocationTableEntry le m
      (u32 (BaseAddress + sizeofFileAllocationTableHeader) + 8 * i)).FileHeaderOffset))).InUse
    = TRUE) &&
  strncmpEq Filename (readFileHeader le m
    (u32 (BaseAddress + (readFileAllocationTableEntry le m
      (u32 (BaseAddress + sizeofFileAllocationTableHeader) + 8 * i)).FileHeaderOffset))).Filename
    EEFS_MAX_FILENAME_SIZE

/-- Returns the address of the file header of the named file, or 0 for `NULL`.  `le` is
the byte order of the machine; `Filename = none` is the null pointer. -/
def MicroEEFS_FindFile (le : Bool) (m : Mem) (BaseAddress : Nat)
    (Filename : Option (List Nat)) : Nat :=
  match Filename with
  | some f =>
    if (readFileAllocationTableHeader le m BaseAddress).Magic = EEFS_FILESYS_MAGIC ∧
        (readFileAllocationTableHeader le m BaseAddress).Version = 1 then
      match (List.range (readFileAllocationTableHeader le m BaseAddress).NumberOfFiles).find?
          (microMatch le m BaseAddress f) with
      | some i =>
        u32 (BaseAddress + (readFileAllocationTableEntry le m
          (u32 (BaseAddress + sizeofFileAllocationTableHeader) + 8 * i)).FileHeaderOffset)
      | none => 0
    else 0
  | none => 0

/-- Command line of the builder with an EEPROM size of 100 bytes. -/
def exSmallOptions : CommandLineOptions_t := ⟨BIG_ENDIAN, 100, false, 1000⟩

/-- The image in the 100-byte buffer at address 0 after one `AddFile` of the host file "f"
as "a" without spare bytes, on a little-endian host. -/
def exSmallAdded : Option FileSystem_t :=
  AddFile true exSmallOptions exHostFiles (newFileSystem true exSmallOptions 0 (fun _ => 0))
    [102] [97] 0 EEFS_ATTRIBUTE_NONE

/-- The image after two `AddFile` calls on a little-endian host: the host file "f" as "a"
with `SpareBytes = 4294967230`, then the same host file as "b" without spare bytes. -/
def exOverlapImage : Option FileSystem_t :=
  match exAdded 4294967230 with
  | some fs => AddFile true exOptions exHostFiles fs [102] [98] 0 EEFS_ATTRIBUTE_NONE
  | none => none

/-- That image after `ByteSwapFileSystem`. -/
def exOverlapSwapped : Option FileSystem_t :=
  match exOverlapImage with
  | some fs => some (ByteSwapFileSystem true fs)
  | none => none

/-! ## Descriptors and their slots -/

/-- A descriptor that lies inside its slot: `ByteOffset ≤ FileSize ≤ MaxFileSize`, the data
pointer is `ByteOffset` bytes behind the 64 bytes of the file header, and the slot ends
below `2^32`. -/
structure InSlot (d : EEFS_FileDescriptor_t) : Prop where
  offset : d.ByteOffset ≤ d.FileSize
  size : d.FileSize ≤ d.MaxFileSize
  data : d.FileDataPointer = d.FileHeaderPointer + sizeofFileHeader + d.ByteOffset
  fits : d.FileHeaderPointer + sizeofFileHeader + d.MaxFileSize < 4294967296

/-- Geometry of the inode table `T` that `Open` and `Creat` rely on: at most
`EEFS_MAX_FILES` slots, every slot and the free memory end below `2^32`, and every slot
whose decoded header has `InUse == TRUE` has `FileSize ≤ MaxFileSize`. -/
structure SlotsFit (env : Env) (s : State) (T : Nat) : Prop where
  count : (s.InodeTables T).NumberOfFiles ≤ EEFS_MAX_FILES
  slot : ∀ i, i < (s.InodeTables T).NumberOfFiles →
    ((s.InodeTables T).File i).FileHeaderPointer + sizeofFileHeader
      + ((s.InodeTables T).File i).MaxFileSize < 4294967296
  live : ∀ i, i < (s.InodeTables T).NumberOfFiles →
    (loadFileHeader env s.mem ((s.InodeTables T).File i).FileHeaderPointer).InUse = TRUE →
    (loadFileHeader env s.mem ((s.InodeTables T).File i).FileHeaderPointer).FileSize
      ≤ ((s.InodeTables T).File i).MaxFileSize
  free : (s.InodeTables T).FreeMemoryPointer + (s.InodeTables T).FreeMemorySize < 4294967296

/-- Typing of the arguments of a call: the `ByteOffset` argument of `EEFS_LibLSeek` is an
`int32`. -/
def typedCall : Call → Prop
  | Call.LibLSeek _ o _ => -2147483648 ≤ o ∧ o < 2147483648
  | _ => True

/-- States in which descriptor `k` is open: `EEFS_LibOpen` or `EEFS_LibCreat` on an inode
table with the geometry `SlotsFit` returned `k`, and since then any public functions were
called, in any number and on any inode tables and descriptors, after each of which
descriptor `k` was still in use (so it was neither closed nor cleared by `EEFS_LibInit`). -/
inductive DescriptorRun (k : Nat) : State → Prop where
  | opened (env : Env) (s : State) (T : Nat) (f : Option (List Nat)) (Flags A : Nat) :
      SlotsFit env s T → (EEFS_LibOpen env s T f Flags A).1 = (k : Int) →
      DescriptorRun k (EEFS_LibOpen env s T f Flags A).2
  | created (env : Env) (s : State) (T : Nat) (f : Option (List Nat)) (A : Nat) :
      SlotsFit env s T → (EEFS_LibCreat env s T f A).1 = (k : Int) →
      DescriptorRun k (EEFS_LibCreat env s T f A).2
  | call (env : Env) (s : State) (c : Call) :
      DescriptorRun k s → typedCall c → fdInUse (c.run env s) k →
      DescriptorRun k (c.run env s)

/-! ## The Pack equation on an inode table -/

/-- Pack equation on the slots of an inode table: the first slot lies behind the file
allocation table, and every slot ends (header, then `MaxFileSize` bytes) where the next
slot begins. The slot of a file being created is the last slot of the table. -/
structure TablePacked (t : EEFS_InodeTable_t) : Prop where
  first : 0 < t.NumberOfFiles →
    t.BaseAddress + sizeofFileAllocationTable ≤ (t.File 0).FileHeaderPointer
  chain : ∀ i, i + 1 < t.NumberOfFiles →
    (t.File i).FileHeaderPointer + sizeofFileHeader + (t.File i).MaxFileSize
      = (t.File (i + 1)).FileHeaderPointer

/-- The chain of slots of an inode table ends at the free memory: the last slot ends at
`FreeMemoryPointer`, and with no slot the free memory begins behind the file allocation
table. -/
def TableTail (t : EEFS_InodeTable_t) : Prop :=
  if t.NumberOfFiles = 0 then t.BaseAddress + sizeofFileAllocationTable ≤ t.FreeMemoryPointer
  else (t.File (t.NumberOfFiles - 1)).FileHeaderPointer + sizeofFileHeader
    + (t.File (t.NumberOfFiles - 1)).MaxFileSize = t.FreeMemoryPointer

/-- `Creat("b")` on the mounted one-file example volume with 100 bytes of free memory: the
new file gets descriptor 0 and the slot 1 of the inode table, behind the slot of "a". -/
def exCreatSecond (le : Bool) : Int × State :=
  EEFS_LibCreat (exEnv le) (exMountedOneFile le 100) 1 (some [98]) EEFS_ATTRIBUTE_NONE

/-! ## From the `Creat` of a new file to its `Close` -/

/-- Calls between the `Creat` of a new file on the inode table `T` and its `Close`: every
public function with any arguments, except that `EEFS_LibInitFS` does not mount `T` again
and `EEFS_LibOpen` on `T` is not given the access mode `O_WRONLY | O_RDWR`; the
`ByteOffset` argument of `EEFS_LibLSeek` is an `int32`. -/
def creatingCall (T : Nat) : Call → Prop
  | Call.LibInitFS t _ => t ≠ T
  | Call.LibOpen t _ fl _ => t = T → Nat.land fl O_ACCMODE ≠ Nat.lor O_WRONLY O_RDWR
  | Call.LibLSeek _ o _ => -2147483648 ≤ o ∧ o < 2147483648
  | _ => True

/-- Descriptor `k` is that of a file being created on the inode table `T`: it has
`EEFS_FCREAT` and lies inside its slot, the slot begins at the `FreeMemoryPointer` of `T`
and its capacity is the free memory less the header, the free memory lies behind the file
allocation table and ends below `2^32`, and no other descriptor on `T` has
`EEFS_FCREAT`. -/
structure CreatPending (s : State) (T k : Nat) : Prop where
  lt : k < EEFS_MAX_OPEN_FILES
  inuse : fdInUse s k
  table : (s.EEFS_FileDescriptorTable k).InodeTable = T
  creat : Nat.land (s.EEFS_FileDescriptorTable k).Mode EEFS_FCREAT ≠ 0
  slot : InSlot (s.EEFS_FileDescriptorTable k)
  pointer : (s.EEFS_FileDescriptorTable k).FileHeaderPointer = (s.InodeTables T).FreeMemoryPointer
  header : ((s.InodeTables T).File (s.EEFS_FileDescriptorTable k).InodeIndex).FileHeaderPointer
    = (s.InodeTables T).FreeMemoryPointer
  max : (s.EEFS_FileDescriptorTable k).MaxFileSize + sizeofFileHeader
    = (s.InodeTables T).FreeMemorySize
  index : (s.EEFS_FileDescriptorTable k).InodeIndex < EEFS_MAX_FILES
  fat : (s.InodeTables T).BaseAddress + sizeofFileAllocationTable
    ≤ (s.InodeTables T).FreeMemoryPointer
  fits : (s.InodeTables T).FreeMemoryPointer + (s.InodeTables T).FreeMemorySize < 4294967296
  count : (s.InodeTables T).NumberOfFiles ≤ EEFS_MAX_FILES
  only : ∀ j, j < EEFS_MAX_OPEN_FILES → fdInUse s j →
    (s.EEFS_FileDescriptorTable j).InodeTable = T →
    Nat.land (s.EEFS_FileDescriptorTable j).Mode EEFS_FCREAT ≠ 0 → j = k

/-- States between the `Creat` of a new file and its `Close`: `EEFS_LibCreat` of a name that
is not found returned descriptor `k` on the inode table `T`, whose free memory lies behind
the file allocation table and ends below `2^32`, and since then public functions were
called as `creatingCall` describes, after each of which descriptor `k` was still in
use. -/
inductive CreatingRun (T k : Nat) : State → Prop where
  | created (env : Env) (s : State) (f : List Nat) (A : Nat) :
      (s.InodeTables T).BaseAddress + sizeofFileAllocationTable
        ≤ (s.InodeTables T).FreeMemoryPointer →
      (s.InodeTables T).FreeMemoryPointer + (s.InodeTables T).FreeMemorySize < 4294967296 →
      EEFS_LibFindFile env s T f = EEFS_FILE_NOT_FOUND →
      (EEFS_LibCreat env s T (some f) A).1 = (k : Int) →
      CreatingRun T k (EEFS_LibCreat env s T (some f) A).2
  | call (env : Env) (s : State) (c : Call) :
      CreatingRun T k s → creatingCall T c → fdInUse (c.run env s) k →
      CreatingRun T k (c.run env s)

/-- With the one-file volume at `exBase` and the empty volume at `exBase2` in one memory:
the inode table 1 is mounted on the empty volume and `Creat("b")` returns descriptor 0. -/
def exCreatOther (le : Bool) : Int × State :=
  EEFS_LibCreat (exEnv le) (EEFS_LibInitFS (exEnv le) (exTwoVolumes le) 1 exBase2).2 1
    (some [98]) EEFS_ATTRIBUTE_NONE

/-- Then 40 bytes are written to the new file. -/
def exCreatOtherWrite (le : Bool) : Int × State :=
  EEFS_LibWrite (exCreatOther le).2 0 (some (List.replicate 40 1)) 40

/-- Then `EEFS_LibInitFS` mounts the same inode table on the one-file volume, which has
100 bytes of free memory, while the file is being created. -/
def exCreatOtherRemount (le : Bool) : Int × State :=
  EEFS_LibInitFS (exEnv le) (exCreatOtherWrite le).2 1 exBase

/-- Then the descriptor of "b" is closed. -/
def exCreatOtherClose (le : Bool) : Int × State :=
  EEFS_LibClose (exEnv le) (exCreatOtherRemount le).2 0

/-! ## Rewriting one file header of an inode table -/

/-- The file headers of the slots of an inode table do not overlap. -/
def HeadersApart (t : EEFS_InodeTable_t) : Prop :=
  ∀ i, i < t.NumberOfFiles → ∀ j, j < t.NumberOfFiles → j ≠ i →
    (t.File i).FileHeaderPointer + sizeofFileHeader ≤ (t.File j).FileHeaderPointer ∨
    (t.File j).FileHeaderPointer + sizeofFileHeader ≤ (t.File i).FileHeaderPointer

/-- A volume at `exBase` with two live files: "a" (1000 bytes in a slot of 1000 bytes at
offset 536) and a file named `second` (50 bytes in a slot of 100 bytes at offset 1600),
and 100 bytes of free memory behind them. -/
def exTwoFileVolume (le : Bool) (second : List Nat) : State :=
  { exBlank with
    mem :=
      memWrite
        (memWrite
          (memWrite
            (memWrite
              (memWrite (fun _ => 0) exBase
                (fileAllocationTableHeaderBytes le (EEFS_SwapFileAllocationTableHeader
                  ⟨0, EEFS_FILESYS_MAGIC, 1, 1764, 100, 2⟩)))
              (fatEntryAddress exBase 0)
              (fileAllocationTableEntryBytes le
                (EEFS_SwapFileAllocationTableEntry ⟨536, 1000⟩)))
            (fatEntryAddress exBase 1)
            (fileAllocationTableEntryBytes le (EEFS_SwapFileAllocationTableEntry ⟨1600, 100⟩)))
          (exBase + 536)
          (fileHeaderBytes le (EEFS_SwapFileHeader ⟨0, 1, 0, 1000, 7, 7, strncpy [97] 40⟩)))
        (exBase + 1600)
        (fileHeaderBytes le (EEFS_SwapFileHeader ⟨0, 1, 0, 50, 7, 7, strncpy second 40⟩)) }

/-- That volume mounted on the inode table at address 1. -/
def exTwoFileMounted (le : Bool) (second : List Nat) : State :=
  (EEFS_LibInitFS (exEnv le) (exTwoFileVolume le second) 1 exBase).2

/-! ## Example session on two volumes -/

/-- Session on the two example volumes: table 1 is mounted on the empty volume at
`exBase2`, table 2 on the one-file volume at `exBase`, and "a" is opened on table 2 for
reading and writing (descriptor 0). -/
def exTwoMounted (le : Bool) : State :=
  (Call.LibOpen 2 (some [97]) O_RDWR 0).run (exEnv le)
    ((Call.LibInitFS 2 exBase).run (exEnv le)
      (EEFS_LibInitFS (exEnv le) (exTwoVolumes le) 1 exBase2).2)

/-- The session continued: `Creat("b")` on table 1 (descriptor 1), three bytes written to
"a" through descriptor 0, five bytes written to "b" through descriptor 1. -/
def exTwoWritten (le : Bool) : State :=
  (Call.LibWrite 1 (some [104, 101, 108, 108, 111]) 5).run (exEnv le)
    ((Call.LibWrite 0 (some [120, 121, 122]) 3).run (exEnv le)
      ((Call.LibCreat 1 (some [98]) EEFS_ATTRIBUTE_NONE).run (exEnv le) (exTwoMounted le)))

/-- The session continued by the `Close` of descriptor 1. -/
def exTwoSession (le : Bool) : State := (Call.LibClose 1).run (exEnv le) (exTwoWritten le)

/-- Two inode tables on one volume: table 2 is mounted on the empty example volume that
table 1 is mounted on, and "b" is created and closed through table 2. -/
def exTwoTables (le : Bool) : State :=
  (Call.LibClose 0).run (exEnv le)
    ((Call.LibCreat 2 (some [98]) EEFS_ATTRIBUTE_NONE).run (exEnv le)
      ((Call.LibInitFS 2 exBase).run (exEnv le) (exMountedEmpty le)))

/-- A volume inside a file: on the mounted one-file example volume "a" is opened for
writing (descriptor 0) and the first 16 bytes of the header of an empty volume are
written to its payload, which starts at `exBase + 600`; `EEFS_LibInitFS` then mounts
table 1 there, while the descriptor is open. -/
def exNestedMount (le : Bool) : Int × State :=
  EEFS_LibInitFS (exEnv le)
    ((Call.LibWrite 0
        (some ((fileAllocationTableHeaderBytes le (EEFS_SwapFileAllocationTableHeader
          ⟨0, EEFS_FILESYS_MAGIC, 1, 536, 0, 0⟩)).take 16)) 16).run (exEnv le)
      ((Call.LibOpen 1 (some [97]) O_WRONLY 0).run (exEnv le) (exMountedOneFile le 100)))
    1 (exBase + 600)

/-- The run continued: four more bytes are written through the descriptor, onto the
`FreeMemorySize` field of the header at `exBase + 600`. -/
def exNestedWrite (le : Bool) : State :=
  (Call.LibWrite 0 (some [1, 1, 1, 1]) 4).run (exEnv le) (exNestedMount le).2

/-! ## Lemmas on machine integers and the descriptor table -/

theorem land_two_eq_zero_iff (x : Nat) : Nat.land x 2 = 0 ↔ x.testBit 1 = false := by
  have h := Nat.and_two_pow x 1
  simp only [pow_one] at h
  show x &&& 2 = 0 ↔ _
  rw [h]
  cases hb : x.testBit 1 <;> simp

theorem land_four_eq_zero_iff (x : Nat) : Nat.land x 4 = 0 ↔ x.testBit 2 = false := by
  have h := Nat.and_two_pow x 2
  norm_num at h
  show x &&& 4 = 0 ↔ _
  rw [h]
  cases hb : x.testBit 2 <;> simp

theorem land_lor_two (a b : Nat) :
    Nat.land (Nat.lor a b) 2 = 0 ↔ Nat.land a 2 = 0 ∧ Nat.land b 2 = 0 := by
  rw [land_two_eq_zero_iff, land_two_eq_zero_iff, land_two_eq_zero_iff]
  show (a ||| b).testBit 1 = false ↔ _
  rw [Nat.testBit_or]
  simp

/-- Step of the loop of `EEFS_LibFmode`. -/
theorem fmode_foldl_no_write (s : State) (T idx : Nat) (l : List Nat) (acc : Nat)
    (h : Nat.land (l.foldl (fun Mode i =>
      if (s.EEFS_FileDescriptorTable i).InUse = TRUE ∧
         (s.EEFS_FileDescriptorTable i).InodeTable = T ∧
         (s.EEFS_FileDescriptorTable i).InodeIndex = idx
      then Nat.lor Mode (s.EEFS_FileDescriptorTable i).Mode else Mode) acc) EEFS_FWRITE = 0) :
    Nat.land acc EEFS_FWRITE = 0 ∧
    ∀ k ∈ l, (s.EEFS_FileDescriptorTable k).InUse = TRUE →
      (s.EEFS_FileDescriptorTable k).InodeTable = T →
      (s.EEFS_FileDescriptorTable k).InodeIndex = idx →
      Nat.land (s.EEFS_FileDescriptorTable k).Mode EEFS_FWRITE = 0 := by
  induction l generalizing acc with
  | nil => exact ⟨by simpa using h, by simp⟩
  | cons a l ih =>
    simp only [List.foldl_cons] at h
    have h1 := ih _ h
    by_cases hc : (s.EEFS_FileDescriptorTable a).InUse = TRUE ∧
         (s.EEFS_FileDescriptorTable a).InodeTable = T ∧
         (s.EEFS_FileDescriptorTable a).InodeIndex = idx
    · rw [if_pos hc] at h1
      have h2 := (land_lor_two _ _).1 h1.1
      refine ⟨h2.1, ?_⟩
      intro k hk hu ht hi
      rcases List.mem_cons.1 hk with rfl | hk
      · exact h2.2
      · exact h1.2 k hk hu ht hi
    · rw [if_neg hc] at h1
      refine ⟨h1.1, ?_⟩
      intro k hk hu ht hi
      rcases List.mem_cons.1 hk with rfl | hk
      · exact absurd ⟨hu, ht, hi⟩ hc
      · exact h1.2 k hk hu ht hi

theorem fmode_no_write (s : State) (T idx : Nat)
    (h : Nat.land (EEFS_LibFmode s T idx) EEFS_FWRITE = 0) (k : Nat)
    (hk : k < EEFS_MAX_OPEN_FILES) (hu : fdInUse s k)
    (ht : (s.EEFS_FileDescriptorTable k).InodeTable = T)
    (hi : (s.EEFS_FileDescriptorTable k).InodeIndex = idx) :
    Nat.land (s.EEFS_FileDescriptorTable k).Mode EEFS_FWRITE = 0 :=
  (fmode_foldl_no_write s T idx _ 0 h).2 k (List.mem_range.2 hk) hu ht hi

theorem toInt32_small (k : Nat) (h : k < 2147483648) : toInt32 k = (k : Int) := by
  unfold toInt32
  have : k % 4294967296 = k := Nat.mod_eq_of_lt (by omega)
  rw [this, if_pos h]

theorem ofInt32_toInt32 (n : Nat) : ofInt32 (toInt32 n) = n % 4294967296 := by
  unfold ofInt32 toInt32
  split <;> omega


theorem getFD_cases (s : State) :
    (∃ k, k < EEFS_MAX_OPEN_FILES ∧ (s.EEFS_FileDescriptorTable k).InUse = FALSE ∧
      (EEFS_LibGetFileDescriptor s).1 = (k : Int) ∧
      (EEFS_LibGetFileDescriptor s).2.EEFS_FileDescriptorTable =
        Function.update s.EEFS_FileDescriptorTable k
          { s.EEFS_FileDescriptorTable k with InUse := TRUE } ∧
      (EEFS_LibGetFileDescriptor s).2.InodeTables = s.InodeTables ∧
      (EEFS_LibGetFileDescriptor s).2.mem = s.mem ∧
      (EEFS_LibGetFileDescriptor s).2.events = s.events ∧
      (EEFS_LibGetFileDescriptor s).2.EEFS_DirectoryDescriptor = s.EEFS_DirectoryDescriptor) ∨
    EEFS_LibGetFileDescriptor s = (EEFS_NO_FREE_FILE_DESCRIPTOR, s) := by
  unfold EEFS_LibGetFileDescriptor
  cases hf : (List.range EEFS_MAX_OPEN_FILES).find?
      (fun i => decide ((s.EEFS_FileDescriptorTable i).InUse = FALSE)) with
  | none => right; rfl
  | some k =>
    left
    have hk : k < EEFS_MAX_OPEN_FILES := List.mem_range.1 (List.mem_of_find?_eq_some hf)
    have hp := List.find?_some hf
    simp only [decide_eq_true_eq] at hp
    refine ⟨k, hk, hp, ?_, rfl, rfl, rfl, rfl, rfl⟩
    exact toInt32_small k (by unfold EEFS_MAX_OPEN_FILES at hk; omega)

theorem openFile_cases (env : Env) (s : State) (T : Nat) (idx : Int) (Flags A : Nat) :
    ((EEFS_LibOpenFile env s T idx Flags A).2 = s ∧ (EEFS_LibOpenFile env s T idx Flags A).1 < 0) ∨
    ∃ k, k < EEFS_MAX_OPEN_FILES ∧ (s.EEFS_FileDescriptorTable k).InUse = FALSE ∧
      (EEFS_LibGetFileDescriptor s).1 = (k : Int) ∧
      (EEFS_LibOpenFile env s T idx Flags A).1 = (k : Int) ∧
      (Nat.land Flags O_ACCMODE = O_RDONLY ∨
        Nat.land (EEFS_LibFmode s T (ofInt32 idx)) EEFS_FWRITE = 0) ∧
      (Nat.land Flags O_ACCMODE = O_RDONLY ∨ env.writeProtected = false) ∧
      (EEFS_LibOpenFile env s T idx Flags A).2 =
        setFileDescriptor (EEFS_LibGetFileDescriptor s).2 k (openedDescriptor env s T idx Flags) := by
  unfold EEFS_LibOpenFile
  simp only []
  split_ifs with h1 h2 h3 h4 h5 h6
  · right
    rcases getFD_cases s with ⟨k, hk, hfree, hret, htab, -⟩ | hno
    · refine ⟨k, hk, hfree, hret, hret, h4, h2, ?_⟩
      simp only [hret, Int.toNat_ofNat, htab, Function.update_same, openedDescriptor, if_pos h6]
    · exact absurd (by rw [hno]) h5
  · right
    rcases getFD_cases s with ⟨k, hk, hfree, hret, htab, -⟩ | hno
    · refine ⟨k, hk, hfree, hret, hret, h4, h2, ?_⟩
      simp only [hret, Int.toNat_ofNat, htab, Function.update_same, openedDescriptor, if_neg h6]
    · exact absurd (by rw [hno]) h5
  · left; exact ⟨rfl, by dsimp only; decide⟩
  · left; exact ⟨rfl, by dsimp only; decide⟩
  · left; exact ⟨rfl, by dsimp only; decide⟩
  · left; exact ⟨rfl, by dsimp only; decide⟩
  · left; exact ⟨rfl, by dsimp only; decide⟩


theorem creatFile_cases (env : Env) (s : State) (T : Nat) (f : List Nat) (A : Nat) :
    ((EEFS_LibCreatFile env s T f A).2 = s ∧ (EEFS_LibCreatFile env s T f A).1 < 0) ∨
    ∃ k, k < EEFS_MAX_OPEN_FILES ∧ (s.EEFS_FileDescriptorTable k).InUse = FALSE ∧
      (EEFS_LibGetFileDescriptor s).1 = (k : Int) ∧
      (EEFS_LibCreatFile env s T f A).1 = (k : Int) ∧
      env.writeProtected = false ∧
      (s.InodeTables T).NumberOfFiles < EEFS_MAX_FILES ∧
      EEFS_LibHasOpenCreat s T = false ∧
      (s.InodeTables T).FreeMemorySize > sizeofFileHeader ∧
      (A = EEFS_ATTRIBUTE_NONE ∨ A = EEFS_ATTRIBUTE_READONLY) ∧
      (EEFS_LibCreatFile env s T f A).2 =
        setFileDescriptor
          (EEFS_LIB_EEPROM_FLUSH (EEFS_LIB_EEPROM_WRITE
            (setInodeTable (EEFS_LibGetFileDescriptor s).2 T (createdTable (s.InodeTables T)))
            (s.InodeTables T).FreeMemoryPointer
            (fileHeaderBytes env.hostLittleEndian (createdHeader env f A))))
          k (createdDescriptor s T) := by
  unfold EEFS_LibCreatFile
  simp only []
  split_ifs with h1 h2 h3 h4 h5 h6
  · right
    rcases getFD_cases s with ⟨k, hk, hfree, hret, htab, -⟩ | hno
    · refine ⟨k, hk, hfree, hret, hret, h1, h2, h3, h4, h5, ?_⟩
      simp only [hret, Int.toNat_ofNat, createdTable, createdHeader, createdDescriptor,
        Function.update_same]
      congr 1
      simp [EEFS_LIB_EEPROM_FLUSH, EEFS_LIB_EEPROM_WRITE, setInodeTable, htab]
    · exact absurd (by rw [hno]) h6
  · left; exact ⟨rfl, by dsimp only; decide⟩
  · left; exact ⟨rfl, by dsimp only; decide⟩
  · left; exact ⟨rfl, by dsimp only; decide⟩
  · left; exact ⟨rfl, by dsimp only; decide⟩
  · left; exact ⟨rfl, by dsimp only; decide⟩
  · left; exact ⟨rfl, by dsimp only; decide⟩

theorem hasOpenFiles_false (s : State) (T : Nat) (h : EEFS_LibHasOpenFiles s T = false)
    (k : Nat) (hk : k < EEFS_MAX_OPEN_FILES) (hu : fdInUse s k) :
    (s.EEFS_FileDescriptorTable k).InodeTable ≠ T := by
  unfold EEFS_LibHasOpenFiles at h
  rw [List.any_eq_false] at h
  have := h k (List.mem_range.2 hk)
  intro ht
  apply this
  unfold fdInUse at hu
  simp [hu, ht]

theorem hasOpenCreat_false (s : State) (T : Nat) (h : EEFS_LibHasOpenCreat s T = false)
    (k : Nat) (hk : k < EEFS_MAX_OPEN_FILES) (hu : fdInUse s k)
    (ht : (s.EEFS_FileDescriptorTable k).InodeTable = T) :
    Nat.land (s.EEFS_FileDescriptorTable k).Mode EEFS_FCREAT = 0 := by
  unfold EEFS_LibHasOpenCreat at h
  rw [List.any_eq_false] at h
  have := h k (List.mem_range.2 hk)
  unfold fdInUse at hu
  by_contra hc
  apply this
  simp [hu, ht, hc]


theorem indexInRange_kept {s s' : State} (h : IndexInRange s) (hk : DescriptorsKept s s') :
    IndexInRange s' := by
  intro k hk20 hu
  obtain ⟨hu0, -, ht, hi, hn⟩ := hk k hk20 hu
  have := h k hk20 hu0
  rw [hi, ht, hn]
  exact this

theorem singleWriter_kept {s s' : State} (h : SingleWriter s) (hk : DescriptorsKept s s') :
    SingleWriter s' := by
  intro i hi j hj hc
  obtain ⟨hne, hui, huj, ht, hx, hwi, hwj⟩ := hc
  obtain ⟨hui0, hmi, hti, hii, -⟩ := hk i hi hui
  obtain ⟨huj0, hmj, htj, hij, -⟩ := hk j hj huj
  apply h i hi j hj
  refine ⟨hne, hui0, huj0, ?_, ?_, ?_, ?_⟩
  · rw [← hti, ← htj]; exact ht
  · rw [← hii, ← hij]; exact hx
  · rw [← hmi]; exact hwi
  · rw [← hmj]; exact hwj

theorem kept_of_core {s s' : State}
    (hfd : ∀ k, fdCore (s'.EEFS_FileDescriptorTable k) = fdCore (s.EEFS_FileDescriptorTable k))
    (ht : ∀ T, (s'.InodeTables T).NumberOfFiles = (s.InodeTables T).NumberOfFiles) :
    DescriptorsKept s s' := by
  intro k _ hu
  have h := hfd k
  simp only [fdCore, Prod.mk.injEq] at h
  obtain ⟨h1, h2, h3, h4⟩ := h
  unfold fdInUse at hu ⊢
  exact ⟨by rw [← h1]; exact hu, h2, h3, h4, ht _⟩

theorem kept_read (s : State) (fd : Int) (b : Option (List Nat)) (l : Nat) :
    DescriptorsKept s (EEFS_LibRead s fd b l).2.2 := by
  apply kept_of_core
  · intro k
    unfold EEFS_LibRead
    simp only []
    split_ifs <;> simp only [setFileDescriptor, Function.update_apply] <;> split_ifs <;>
      simp_all [fdCore]
  · intro T
    unfold EEFS_LibRead
    simp only []
    split_ifs <;> rfl

theorem kept_write (s : State) (fd : Int) (b : Option (List Nat)) (l : Nat) :
    DescriptorsKept s (EEFS_LibWrite s fd b l).2 := by
  apply kept_of_core
  · intro k
    unfold EEFS_LibWrite
    simp only []
    split_ifs <;> simp only [setFileDescriptor, EEFS_LIB_EEPROM_WRITE, Function.update_apply] <;>
      split_ifs <;> simp_all [fdCore]
  · intro T
    unfold EEFS_LibWrite
    simp only []
    split_ifs <;> rfl

theorem kept_lseek (s : State) (fd : Int) (o : Int) (w : Nat) :
    DescriptorsKept s (EEFS_LibLSeek s fd o w).2 := by
  apply kept_of_core
  · intro k
    unfold EEFS_LibLSeek
    simp only []
    split_ifs <;> simp only [setFileDescriptor, Function.update_apply] <;> split_ifs <;>
      simp_all [fdCore]
  · intro T
    unfold EEFS_LibLSeek
    simp only []
    split_ifs <;> rfl

theorem kept_remove (env : Env) (s : State) (T : Nat) (f : Option (List Nat)) :
    DescriptorsKept s (EEFS_LibRemove env s T f).2 := by
  apply kept_of_core
  · intro k
    unfold EEFS_LibRemove
    simp only []
    split_ifs <;> rfl
  · intro T
    unfold EEFS_LibRemove
    simp only []
    split_ifs <;> rfl

theorem kept_rename (env : Env) (s : State) (T : Nat) (f g : Option (List Nat)) :
    DescriptorsKept s (EEFS_LibRename env s T f g).2 := by
  apply kept_of_core
  · intro k
    unfold EEFS_LibRename
    simp only []
    split_ifs <;> rfl
  · intro T
    unfold EEFS_LibRename
    simp only []
    split_ifs <;> rfl

theorem kept_setFileAttributes (env : Env) (s : State) (T : Nat) (f : Option (List Nat))
    (A : Nat) : DescriptorsKept s (EEFS_LibSetFileAttributes env s T f A).2 := by
  apply kept_of_core
  · intro k
    unfold EEFS_LibSetFileAttributes
    simp only []
    split_ifs <;> rfl
  · intro T
    unfold EEFS_LibSetFileAttributes
    simp only []
    split_ifs <;> rfl

theorem kept_openDir (s : State) (T : Nat) : DescriptorsKept s (EEFS_LibOpenDir s T).2 := by
  apply kept_of_core
  · intro k
    unfold EEFS_LibOpenDir
    split_ifs <;> rfl
  · intro T
    unfold EEFS_LibOpenDir
    split_ifs <;> rfl

theorem kept_readDir (env : Env) (s : State) (d : Bool) :
    DescriptorsKept s (EEFS_LibReadDir env s d).2 := by
  apply kept_of_core
  · intro k
    unfold EEFS_LibReadDir
    simp only []
    split_ifs <;> rfl
  · intro T
    unfold EEFS_LibReadDir
    simp only []
    split_ifs <;> rfl

theorem kept_closeDir (s : State) (d : Bool) : DescriptorsKept s (EEFS_LibCloseDir s d).2 := by
  apply kept_of_core
  · intro k
    unfold EEFS_LibCloseDir
    split_ifs <;> rfl
  · intro T
    unfold EEFS_LibCloseDir
    split_ifs <;> rfl


theorem closeCreat_fds (env : Env) (s : State) (k : Nat) :
    (closeCreat env s k).EEFS_FileDescriptorTable = s.EEFS_FileDescriptorTable := rfl

theorem closeCreat_numberOfFiles (env : Env) (s : State) (k T : Nat) :
    ((closeCreat env s k).InodeTables T).NumberOfFiles = (s.InodeTables T).NumberOfFiles := by
  unfold closeCreat
  simp only [EEFS_LIB_EEPROM_FLUSH, EEFS_LIB_EEPROM_WRITE, setInodeTable, Function.update_apply]
  split_ifs with h
  · rw [h]
  · rfl

theorem closeWrite_fds (env : Env) (s : State) (k : Nat) :
    (closeWrite env s k).EEFS_FileDescriptorTable = s.EEFS_FileDescriptorTable := rfl

theorem closeWrite_tables (env : Env) (s : State) (k : Nat) :
    (closeWrite env s k).InodeTables = s.InodeTables := rfl

theorem closeBody_fds (env : Env) (s : State) (k : Nat) :
    (closeBody env s k).EEFS_FileDescriptorTable = s.EEFS_FileDescriptorTable := by
  unfold closeBody
  split_ifs <;> rfl

theorem closeBody_numberOfFiles (env : Env) (s : State) (k T : Nat) :
    ((closeBody env s k).InodeTables T).NumberOfFiles = (s.InodeTables T).NumberOfFiles := by
  unfold closeBody
  split_ifs
  · exact closeCreat_numberOfFiles env s k T
  · rfl
  · rfl

theorem isValid_iff (s : State) (fd : Int) :
    EEFS_LibIsValidFileDescriptor s fd = true ↔
      0 ≤ fd ∧ fd < (EEFS_MAX_OPEN_FILES : Int) ∧ fdInUse s fd.toNat := by
  unfold EEFS_LibIsValidFileDescriptor fdInUse
  simp [and_assoc]

theorem close_eq (env : Env) (s : State) (fd : Int) :
    EEFS_LibClose env s fd =
      if EEFS_LibIsValidFileDescriptor s fd = true then
        (EEFS_SUCCESS, freedDescriptor (closeBody env s fd.toNat) fd.toNat)
      else (EEFS_INVALID_ARGUMENT, s) := by
  by_cases hv : EEFS_LibIsValidFileDescriptor s fd = true
  · have hv1 : EEFS_LibIsValidFileDescriptor (closeBody env s fd.toNat) fd = true := by
      rw [isValid_iff] at hv ⊢
      unfold fdInUse at hv ⊢
      rw [closeBody_fds]
      exact hv
    have hfree : (EEFS_LibFreeFileDescriptor (closeBody env s fd.toNat) fd).2 =
        freedDescriptor (closeBody env s fd.toNat) fd.toNat := by
      unfold EEFS_LibFreeFileDescriptor
      rw [if_pos hv1]
      rfl
    unfold EEFS_LibClose
    rw [if_pos hv, if_pos hv]
    show (EEFS_SUCCESS, (EEFS_LibFreeFileDescriptor (closeBody env s fd.toNat) fd).2) = _
    rw [hfree]
  · unfold EEFS_LibClose
    rw [if_neg hv, if_neg hv]

theorem kept_close (env : Env) (s : State) (fd : Int) :
    DescriptorsKept s (EEFS_LibClose env s fd).2 := by
  rw [close_eq]
  split_ifs with hv
  · intro k hk hu
    unfold fdInUse at hu ⊢
    simp only [freedDescriptor, Function.update_apply] at hu ⊢
    by_cases hkf : k = fd.toNat
    · rw [if_pos hkf] at hu
      exact absurd hu (by decide)
    · rw [if_neg hkf] at hu ⊢
      rw [closeBody_fds] at hu ⊢
      exact ⟨hu, rfl, rfl, rfl, closeBody_numberOfFiles env s _ _⟩
  · exact fun k _ hu => ⟨hu, rfl, rfl, rfl, rfl⟩

theorem kept_refl (s : State) : DescriptorsKept s s := fun _ _ hu => ⟨hu, rfl, rfl, rfl, rfl⟩

theorem kept_initFS (env : Env) (s : State) (T b : Nat) (h : EEFS_LibHasOpenFiles s T = false) :
    DescriptorsKept s (EEFS_LibInitFS env s T b).2 := by
  unfold EEFS_LibInitFS
  simp only []
  split_ifs
  · intro k hk hu
    have hu0 : fdInUse s k := hu
    refine ⟨hu0, rfl, rfl, rfl, ?_⟩
    have hne := hasOpenFiles_false s T h k hk hu0
    simp only [setInodeTable, Function.update_apply, if_neg hne]
  · exact kept_refl s
  · exact kept_refl s

theorem kept_freeFS (s : State) (T : Nat) : DescriptorsKept s (EEFS_LibFreeFS s T).2 := by
  unfold EEFS_LibFreeFS
  split_ifs with h0 h
  · intro k hk hu
    have hu0 : fdInUse s k := hu
    refine ⟨hu0, rfl, rfl, rfl, ?_⟩
    have hne := hasOpenFiles_false s T h.1 k hk hu0
    simp only [setInodeTable, Function.update_apply, if_neg hne]
  · exact kept_refl s
  · exact kept_refl s

theorem indexInRange_init (s : State) : IndexInRange (EEFS_LibInit s) := by
  intro k _ hu
  exact absurd hu (by simp [fdInUse, EEFS_LibInit, zeroFileDescriptor, TRUE])

theorem singleWriter_init (s : State) : SingleWriter (EEFS_LibInit s) := by
  intro i _ j _ hc
  exact absurd hc.2.1 (by simp [fdInUse, EEFS_LibInit, zeroFileDescriptor, TRUE])

/-! ## Open and Creat keep the descriptor invariants -/

theorem findFile_cases (env : Env) (s : State) (T : Nat) (f : List Nat) :
    EEFS_LibFindFile env s T f = EEFS_FILE_NOT_FOUND ∨
    ∃ i, i < (s.InodeTables T).NumberOfFiles ∧ EEFS_LibFindFile env s T f = toInt32 i ∧
      findFileMatch env s.mem (s.InodeTables T) f i = true := by
  unfold EEFS_LibFindFile
  cases hf : (List.range (s.InodeTables T).NumberOfFiles).find?
      (findFileMatch env s.mem (s.InodeTables T) f) with
  | none => left; rfl
  | some i =>
    right
    exact ⟨i, List.mem_range.1 (List.mem_of_find?_eq_some hf), rfl, List.find?_some hf⟩

theorem findFile_index_lt (env : Env) (s : State) (T : Nat) (f : List Nat)
    (h : EEFS_LibFindFile env s T f ≠ EEFS_FILE_NOT_FOUND) :
    ofInt32 (EEFS_LibFindFile env s T f) < (s.InodeTables T).NumberOfFiles := by
  rcases findFile_cases env s T f with h0 | ⟨i, hi, he, -⟩
  · exact absurd h0 h
  · rw [he, ofInt32_toInt32]
    exact lt_of_le_of_lt (Nat.mod_le _ _) hi

theorem land_one_two : Nat.land 1 2 = 0 := by decide

theorem getFD_of_ret (s : State) (k : Nat) (h : (EEFS_LibGetFileDescriptor s).1 = (k : Int)) :
    k < EEFS_MAX_OPEN_FILES ∧ (s.EEFS_FileDescriptorTable k).InUse = FALSE ∧
    (EEFS_LibGetFileDescriptor s).2.EEFS_FileDescriptorTable =
      Function.update s.EEFS_FileDescriptorTable k
        { s.EEFS_FileDescriptorTable k with InUse := TRUE } ∧
    (EEFS_LibGetFileDescriptor s).2.InodeTables = s.InodeTables ∧
    (EEFS_LibGetFileDescriptor s).2.mem = s.mem ∧
    (EEFS_LibGetFileDescriptor s).2.events = s.events ∧
    (EEFS_LibGetFileDescriptor s).2.EEFS_DirectoryDescriptor = s.EEFS_DirectoryDescriptor := by
  rcases getFD_cases s with ⟨k', hk, hfree, hret, h1, h2, h3, h4, h5⟩ | hno
  · have : k' = k := by rw [hret] at h; exact_mod_cast h
    subst this
    exact ⟨hk, hfree, h1, h2, h3, h4, h5⟩
  · rw [hno] at h
    exact absurd h (by simp [EEFS_NO_FREE_FILE_DESCRIPTOR])

theorem setFD_getFD_fds (s : State) (k : Nat) (d : EEFS_FileDescriptor_t)
    (h : (EEFS_LibGetFileDescriptor s).1 = (k : Int)) :
    (setFileDescriptor (EEFS_LibGetFileDescriptor s).2 k d).EEFS_FileDescriptorTable =
      Function.update s.EEFS_FileDescriptorTable k d := by
  obtain ⟨-, -, htab, -⟩ := getFD_of_ret s k h
  simp only [setFileDescriptor, htab, Function.update_idem]

theorem inv_openFile (env : Env) (s : State) (T : Nat) (idx : Int) (Flags A : Nat)
    (hidx : ofInt32 idx < (s.InodeTables T).NumberOfFiles)
    (h : IndexInRange s ∧ SingleWriter s) :
    IndexInRange (EEFS_LibOpenFile env s T idx Flags A).2 ∧
    SingleWriter (EEFS_LibOpenFile env s T idx Flags A).2 := by
  rcases openFile_cases env s T idx Flags A with ⟨he, -⟩ | ⟨k, hk, hfree, hret, -, hshare, -, he⟩
  · rw [he]; exact h
  · rw [he]
    have hfds := setFD_getFD_fds s k (openedDescriptor env s T idx Flags) hret
    have htabs : (setFileDescriptor (EEFS_LibGetFileDescriptor s).2 k
        (openedDescriptor env s T idx Flags)).InodeTables = s.InodeTables :=
      (getFD_of_ret s k hret).2.2.2.1
    have hnotused : ¬ fdInUse s k := by
      unfold fdInUse; rw [hfree]; decide
    constructor
    · intro j hj hu
      unfold fdInUse at hu
      rw [hfds, htabs] at *
      simp only [Function.update_apply] at hu ⊢
      by_cases hjk : j = k
      · simp only [if_pos hjk, openedDescriptor]
        exact hidx
      · simp only [if_neg hjk] at hu ⊢
        exact h.1 j hj hu
    · intro i hi j hj hc
      obtain ⟨hne, hui, huj, ht, hx, hwi, hwj⟩ := hc
      unfold fdInUse at hui huj
      rw [hfds] at hui huj ht hx hwi hwj
      simp only [Function.update_apply] at hui huj ht hx hwi hwj
      have hmode : Nat.land (openedDescriptor env s T idx Flags).Mode EEFS_FWRITE ≠ 0 →
          Nat.land (EEFS_LibFmode s T (ofInt32 idx)) EEFS_FWRITE = 0 := by
        intro hw
        rcases hshare with h0 | h0
        · exfalso; apply hw
          simp only [openedDescriptor, h0]
          decide
        · exact h0
      by_cases hik : i = k
      · have hjk : j ≠ k := fun e => hne (hik.trans e.symm)
        simp only [if_pos hik, if_neg hjk] at hui huj ht hx hwi hwj
        exact hwj (fmode_no_write s T (ofInt32 idx) (hmode hwi) j hj huj ht.symm hx.symm)
      · by_cases hjk : j = k
        · simp only [if_neg hik, if_pos hjk] at hui huj ht hx hwi hwj
          exact hwi (fmode_no_write s T (ofInt32 idx) (hmode hwj) i hi hui ht hx)
        · simp only [if_neg hik, if_neg hjk] at hui huj ht hx hwi hwj
          exact h.2 i hi j hj ⟨hne, hui, huj, ht, hx, hwi, hwj⟩

/-! ## Single-writer (C2) -/

theorem land_creat_write : Nat.land (Nat.lor EEFS_FCREAT EEFS_FWRITE) EEFS_FWRITE ≠ 0 := by decide

theorem inv_creatFile (env : Env) (s : State) (T : Nat) (f : List Nat) (A : Nat)
    (h : IndexInRange s ∧ SingleWriter s) :
    IndexInRange (EEFS_LibCreatFile env s T f A).2 ∧
    SingleWriter (EEFS_LibCreatFile env s T f A).2 := by
  rcases creatFile_cases env s T f A with ⟨he, -⟩ |
    ⟨k, hk, hfree, hret, -, -, hn, -, -, -, he⟩
  · rw [he]; exact h
  · rw [he]
    obtain ⟨-, -, htab, htabs, -⟩ := getFD_of_ret s k hret
    have hfds : ∀ j, (setFileDescriptor
          (EEFS_LIB_EEPROM_FLUSH (EEFS_LIB_EEPROM_WRITE
            (setInodeTable (EEFS_LibGetFileDescriptor s).2 T (createdTable (s.InodeTables T)))
            (s.InodeTables T).FreeMemoryPointer
            (fileHeaderBytes env.hostLittleEndian (createdHeader env f A))))
          k (createdDescriptor s T)).EEFS_FileDescriptorTable j =
        if j = k then createdDescriptor s T else s.EEFS_FileDescriptorTable j := by
      intro j
      simp only [setFileDescriptor, EEFS_LIB_EEPROM_FLUSH, EEFS_LIB_EEPROM_WRITE, setInodeTable,
        htab, Function.update_idem, Function.update_apply]
    have hnum : ∀ T', ((setFileDescriptor
          (EEFS_LIB_EEPROM_FLUSH (EEFS_LIB_EEPROM_WRITE
            (setInodeTable (EEFS_LibGetFileDescriptor s).2 T (createdTable (s.InodeTables T)))
            (s.InodeTables T).FreeMemoryPointer
            (fileHeaderBytes env.hostLittleEndian (createdHeader env f A))))
          k (createdDescriptor s T)).InodeTables T').NumberOfFiles =
        if T' = T then (s.InodeTables T).NumberOfFiles + 1
        else (s.InodeTables T').NumberOfFiles := by
      intro T'
      simp only [setFileDescriptor, EEFS_LIB_EEPROM_FLUSH, EEFS_LIB_EEPROM_WRITE, setInodeTable,
        htabs, Function.update_apply]
      split_ifs
      · simp only [createdTable, u32]
        unfold EEFS_MAX_FILES at hn
        omega
      · rfl
    constructor
    · intro j hj hu
      unfold fdInUse at hu
      rw [hfds] at hu ⊢
      rw [hnum]
      by_cases hjk : j = k
      · simp only [if_pos hjk, createdDescriptor, if_true]
        omega
      · simp only [if_neg hjk] at hu ⊢
        have := h.1 j hj hu
        split_ifs with hT
        · rw [hT] at this; omega
        · exact this
    · intro i hi j hj hc
      obtain ⟨hne, hui, huj, ht, hx, hwi, hwj⟩ := hc
      unfold fdInUse at hui huj
      simp only [hfds] at hui huj ht hx hwi hwj
      by_cases hik : i = k
      · have hjk : j ≠ k := fun e => hne (hik.trans e.symm)
        simp only [if_pos hik, if_neg hjk, createdDescriptor] at hui huj ht hx hwi hwj
        have := h.1 j hj huj
        rw [← ht, ← hx] at this
        omega
      · by_cases hjk : j = k
        · simp only [if_neg hik, if_pos hjk, createdDescriptor] at hui huj ht hx hwi hwj
          have := h.1 i hi hui
          rw [ht, hx] at this
          omega
        · simp only [if_neg hik, if_neg hjk] at hui huj ht hx hwi hwj
          exact h.2 i hi j hj ⟨hne, hui, huj, ht, hx, hwi, hwj⟩

theorem inv_open (env : Env) (s : State) (T : Nat) (f : Option (List Nat)) (Flags A : Nat)
    (h : IndexInRange s ∧ SingleWriter s) :
    IndexInRange (EEFS_LibOpen env s T f Flags A).2 ∧
    SingleWriter (EEFS_LibOpen env s T f Flags A).2 := by
  unfold EEFS_LibOpen
  simp only []
  split_ifs with h1 h2 h3 h4
  · exact inv_openFile env s T _ Flags A (findFile_index_lt env s T _ h3) h
  · exact inv_creatFile env s T _ _ h
  · exact h
  · exact h
  · exact h

theorem inv_creat (env : Env) (s : State) (T : Nat) (f : Option (List Nat)) (A : Nat)
    (h : IndexInRange s ∧ SingleWriter s) :
    IndexInRange (EEFS_LibCreat env s T f A).2 ∧
    SingleWriter (EEFS_LibCreat env s T f A).2 := by
  unfold EEFS_LibCreat
  simp only []
  split_ifs with h1 h2 h3
  · exact inv_openFile env s T _ _ A (findFile_index_lt env s T _ h3) h
  · exact inv_creatFile env s T _ _ h
  · exact h
  · exact h

theorem inv_kept {s s' : State} (h : IndexInRange s ∧ SingleWriter s)
    (hk : DescriptorsKept s s') : IndexInRange s' ∧ SingleWriter s' :=
  ⟨indexInRange_kept h.1 hk, singleWriter_kept h.2 hk⟩

theorem inv_call (env : Env) (s : State) (c : Call) (hok : initFSOnIdleTable s c)
    (h : IndexInRange s ∧ SingleWriter s) :
    IndexInRange (c.run env s) ∧ SingleWriter (c.run env s) := by
  cases c with
  | LibInit => exact ⟨indexInRange_init s, singleWriter_init s⟩
  | LibInitFS t b => exact inv_kept h (kept_initFS env s t b hok)
  | LibFreeFS t => exact inv_kept h (kept_freeFS s t)
  | LibOpen t f fl a => exact inv_open env s t f fl a h
  | LibCreat t f a => exact inv_creat env s t f a h
  | LibClose fd => exact inv_kept h (kept_close env s fd)
  | LibRead fd b l => exact inv_kept h (kept_read s fd b l)
  | LibWrite fd b l => exact inv_kept h (kept_write s fd b l)
  | LibLSeek fd o w => exact inv_kept h (kept_lseek s fd o w)
  | LibRemove t f => exact inv_kept h (kept_remove env s t f)
  | LibRename t f g => exact inv_kept h (kept_rename env s t f g)
  | LibStat t f b => exact h
  | LibFstat fd b => exact h
  | LibSetFileAttributes t f a => exact inv_kept h (kept_setFileAttributes env s t f a)
  | LibOpenDir t => exact inv_kept h (kept_openDir s t)
  | LibReadDir d => exact inv_kept h (kept_readDir env s d)
  | LibCloseDir d => exact inv_kept h (kept_closeDir s d)

theorem inv_reachable (s : State) (h : ReachableBy initFSOnIdleTable s) :
    IndexInRange s ∧ SingleWriter s := by
  induction h with
  | init s0 => exact ⟨indexInRange_init s0, singleWriter_init s0⟩
  | call env s c _ hok ih => exact inv_call env s c hok ih


/-- C2, amended: in every state reachable from `EEFS_LibInit` by calls of the public
functions in which `EEFS_LibInitFS` is only applied to an inode table that no in-use file
descriptor refers to, at most one in-use descriptor per inode table and inode index has
`EEFS_FWRITE`. -/
theorem single_writer_reachable (s : State) (h : ReachableBy initFSOnIdleTable s) :
    SingleWriter s :=
  (inv_reachable s h).2

set_option maxRecDepth 100000 in
/-- Instance of `single_writer_reachable`: the state after mounting the one-file volume and
opening "a" for writing. -/
theorem single_writer_reachable_witness :
    ReachableBy initFSOnIdleTable (exRunOpenWrite true) ∧ SingleWriter (exRunOpenWrite true) :=
  ⟨ReachableBy.call _ _ _ (ReachableBy.call _ _ _ (ReachableBy.init _)
      (by show EEFS_LibHasOpenFiles _ 1 = false; decide)) trivial,
   single_writer_reachable _
    (ReachableBy.call _ _ _ (ReachableBy.call _ _ _ (ReachableBy.init _)
      (by show EEFS_LibHasOpenFiles _ 1 = false; decide)) trivial)⟩

set_option maxRecDepth 100000 in
/-- C2 as stated fails: the run `InitFS(T, A)`, `Open("a", O_WRONLY)`, `InitFS(T, B)`,
`Creat("b")` consists of public calls and ends with descriptors 0 and 1 in use on inode
table `T`, inode index 0, both with `EEFS_FWRITE`. -/
theorem single_writer_remount_counterexample :
    ReachableBy anyCall (exRunRemountCreat true) ∧
    writersClash (exRunRemountCreat true) 0 1 ∧
    ¬ SingleWriter (exRunRemountCreat true) :=
  ⟨ReachableBy.call _ _ _ (ReachableBy.call _ _ _ (ReachableBy.call _ _ _
      (ReachableBy.call _ _ _ (ReachableBy.init _) trivial) trivial) trivial) trivial,
   by decide, by decide⟩

/-! ## Medium writes and the records they leave alone -/

theorem memWrite_out (m : Mem) (d : Nat) (bs : List Nat) (a : Nat)
    (h : a < d ∨ d + bs.length ≤ a) : memWrite m d bs a = m a := by
  unfold memWrite
  rw [if_neg]
  omega

theorem memWrite_in (m : Mem) (d : Nat) (bs : List Nat) (a : Nat)
    (h1 : d ≤ a) (h2 : a < d + bs.length) : memWrite m d bs a = bs.getD (a - d) 0 := by
  unfold memWrite
  rw [if_pos ⟨h1, h2⟩]

theorem loadU32_frame (le : Bool) (m : Mem) (d : Nat) (bs : List Nat) (a : Nat)
    (h : a + 4 ≤ d ∨ d + bs.length ≤ a) : loadU32 le (memWrite m d bs) a = loadU32 le m a := by
  unfold loadU32
  rw [memWrite_out m d bs a (by omega), memWrite_out m d bs (a + 1) (by omega),
    memWrite_out m d bs (a + 2) (by omega), memWrite_out m d bs (a + 3) (by omega)]

theorem memRead_frame (m : Mem) (d : Nat) (bs : List Nat) (a n : Nat)
    (h : a + n ≤ d ∨ d + bs.length ≤ a) : memRead (memWrite m d bs) a n = memRead m a n := by
  unfold memRead
  apply List.map_congr_left
  intro i hi
  have := List.mem_range.1 hi
  rw [memWrite_out m d bs (a + i) (by omega)]

theorem storeU32_length (le : Bool) (v : Nat) : (storeU32 le v).length = 4 := by
  cases le <;> rfl

theorem fileHeaderBytes_length (le : Bool) (h : EEFS_FileHeader_t) :
    (fileHeaderBytes le h).length = 64 := by
  unfold fileHeaderBytes
  simp only [List.length_append, storeU32_length, List.length_replicate, List.length_take]
  omega

theorem fatHeaderBytes_length (le : Bool) (h : EEFS_FileAllocationTableHeader_t) :
    (fileAllocationTableHeaderBytes le h).length = 24 := by
  unfold fileAllocationTableHeaderBytes
  simp only [List.length_append, storeU32_length]

theorem fatEntryBytes_length (le : Bool) (e : EEFS_FileAllocationTableEntry_t) :
    (fileAllocationTableEntryBytes le e).length = 8 := by
  unfold fileAllocationTableEntryBytes
  simp only [List.length_append, storeU32_length]

theorem loadFatHeader_frame (env : Env) (m : Mem) (d : Nat) (bs : List Nat) (p : Nat)
    (h : p + 24 ≤ d ∨ d + bs.length ≤ p) :
    loadFileAllocationTableHeader env (memWrite m d bs) p =
      loadFileAllocationTableHeader env m p := by
  unfold loadFileAllocationTableHeader readFileAllocationTableHeader
  rw [loadU32_frame _ m d bs p (by omega), loadU32_frame _ m d bs (p + 4) (by omega),
    loadU32_frame _ m d bs (p + 8) (by omega), loadU32_frame _ m d bs (p + 12) (by omega),
    loadU32_frame _ m d bs (p + 16) (by omega), loadU32_frame _ m d bs (p + 20) (by omega)]

theorem loadFatEntry_frame (env : Env) (m : Mem) (d : Nat) (bs : List Nat) (p : Nat)
    (h : p + 8 ≤ d ∨ d + bs.length ≤ p) :
    loadFileAllocationTableEntry env (memWrite m d bs) p =
      loadFileAllocationTableEntry env m p := by
  unfold loadFileAllocationTableEntry readFileAllocationTableEntry
  rw [loadU32_frame _ m d bs p (by omega), loadU32_frame _ m d bs (p + 4) (by omega)]

theorem loadFileHeader_frame (env : Env) (m : Mem) (d : Nat) (bs : List Nat) (p : Nat)
    (h : p + 64 ≤ d ∨ d + bs.length ≤ p) :
    loadFileHeader env (memWrite m d bs) p = loadFileHeader env m p := by
  unfold loadFileHeader readFileHeader
  rw [loadU32_frame _ m d bs p (by omega), loadU32_frame _ m d bs (p + 4) (by omega),
    loadU32_frame _ m d bs (p + 8) (by omega), loadU32_frame _ m d bs (p + 12) (by omega),
    loadU32_frame _ m d bs (p + 16) (by omega), loadU32_frame _ m d bs (p + 20) (by omega),
    memRead_frame m d bs (p + 24) 40 (by omega)]


/-- Closed form of the loop of `EEFS_LibInitFS`. -/
theorem initFS_file (env : Env) (m : Mem) (B N i : Nat) :
    (List.range N).foldl (initFSEntry env m B) (fun _ => zeroInodeTableEntry) i =
      if i < N then
        { FileHeaderPointer :=
            u32 (B + (loadFileAllocationTableEntry env m (fatEntryAddress B i)).FileHeaderOffset)
          MaxFileSize := (loadFileAllocationTableEntry env m (fatEntryAddress B i)).MaxFileSize }
      else zeroInodeTableEntry := by
  induction N with
  | zero => simp
  | succ n ih =>
    rw [List.range_succ, List.foldl_append]
    simp only [List.foldl_cons, List.foldl_nil, initFSEntry, Function.update_apply]
    by_cases hin : i = n
    · subst hin; simp
    · rw [if_neg hin, ih]
      by_cases h2 : i < n
      · rw [if_pos h2, if_pos (by omega)]
      · rw [if_neg h2, if_neg (by omega)]

theorem initFS_congr (env : Env) (s1 s2 : State) (T B : Nat)
    (htab : s1.InodeTables = s2.InodeTables)
    (hh : loadFileAllocationTableHeader env s1.mem B =
      loadFileAllocationTableHeader env s2.mem B)
    (he : ∀ i, i < (loadFileAllocationTableHeader env s2.mem B).NumberOfFiles →
      loadFileAllocationTableEntry env s1.mem (fatEntryAddress B i) =
        loadFileAllocationTableEntry env s2.mem (fatEntryAddress B i)) :
    (EEFS_LibInitFS env s1 T B).1 = (EEFS_LibInitFS env s2 T B).1 ∧
    (EEFS_LibInitFS env s1 T B).2.InodeTables = (EEFS_LibInitFS env s2 T B).2.InodeTables := by
  unfold EEFS_LibInitFS
  simp only [hh]
  split_ifs with h1 h2
  · refine ⟨rfl, ?_⟩
    have hf : (List.range (loadFileAllocationTableHeader env s2.mem B).NumberOfFiles).foldl
          (initFSEntry env s1.mem B) (fun _ => zeroInodeTableEntry) =
        (List.range (loadFileAllocationTableHeader env s2.mem B).NumberOfFiles).foldl
          (initFSEntry env s2.mem B) (fun _ => zeroInodeTableEntry) := by
      funext i
      rw [initFS_file, initFS_file]
      split_ifs with hi
      · rw [he i hi]
      · rfl
    simp only [setInodeTable, htab, hf]
  · exact ⟨rfl, htab⟩
  · exact ⟨rfl, htab⟩

/-! ## Shapes of successful calls -/

theorem state_ext (a b : State) (h1 : a.mem = b.mem) (h2 : a.events = b.events)
    (h3 : a.InodeTables = b.InodeTables)
    (h4 : a.EEFS_FileDescriptorsInUse = b.EEFS_FileDescriptorsInUse)
    (h5 : a.EEFS_FileDescriptorsHighWaterMark = b.EEFS_FileDescriptorsHighWaterMark)
    (h6 : a.EEFS_FileDescriptorTable = b.EEFS_FileDescriptorTable)
    (h7 : a.EEFS_DirectoryDescriptor = b.EEFS_DirectoryDescriptor)
    (h8 : a.EEFS_DirectoryEntry = b.EEFS_DirectoryEntry) : a = b := by
  cases a; cases b
  simp only at h1 h2 h3 h4 h5 h6 h7 h8
  subst h1 h2 h3 h4 h5 h6 h7 h8
  rfl

theorem closeCreat_eq (env : Env) (s : State) (k : Nat) :
    closeCreat env s k =
      { s with
        InodeTables := Function.update s.InodeTables (s.EEFS_FileDescriptorTable k).InodeTable
          (closeCreatTable s k)
        mem := memWrite (closeCreatMem2 env s k) (closeCreatTable s k).BaseAddress
          (fileAllocationTableHeaderBytes env.hostLittleEndian
            (EEFS_SwapFileAllocationTableHeader (closeCreatFatHeader env s k)))
        events := s.events ++
          [MediumEvent.write (s.EEFS_FileDescriptorTable k).FileHeaderPointer
             (fileHeaderBytes env.hostLittleEndian
               (EEFS_SwapFileHeader (closeCreatHeader env s k))),
           MediumEvent.flush,
           MediumEvent.write
             (fatEntryAddress (closeCreatTable s k).BaseAddress
               (s.EEFS_FileDescriptorTable k).InodeIndex)
             (fileAllocationTableEntryBytes env.hostLittleEndian
               (EEFS_SwapFileAllocationTableEntry (closeCreatEntry s k))),
           MediumEvent.flush,
           MediumEvent.write (closeCreatTable s k).BaseAddress
             (fileAllocationTableHeaderBytes env.hostLittleEndian
               (EEFS_SwapFileAllocationTableHeader (closeCreatFatHeader env s k))),
           MediumEvent.flush] } := by
  apply state_ext
  · unfold closeCreat
    simp only [EEFS_LIB_EEPROM_FLUSH, EEFS_LIB_EEPROM_WRITE, setInodeTable]
    unfold closeCreatMem2 closeCreatFatHeader closeCreatMem2 closeCreatHeader closeCreatEntry
      closeCreatTable closeCreatMaxFileSize
    rfl
  · unfold closeCreat
    simp only [EEFS_LIB_EEPROM_FLUSH, EEFS_LIB_EEPROM_WRITE, setInodeTable, List.append_assoc,
      List.cons_append, List.nil_append]
    unfold closeCreatFatHeader closeCreatMem2 closeCreatHeader closeCreatEntry
      closeCreatTable closeCreatMaxFileSize
    rfl
  · rfl
  · rfl
  · rfl
  · rfl
  · rfl
  · rfl

theorem write_success (s : State) (k : Nat) (Buffer : List Nat) (Length : Nat)
    (hk : k < EEFS_MAX_OPEN_FILES) (hu : fdInUse s k)
    (hm : Nat.land (s.EEFS_FileDescriptorTable k).Mode EEFS_FWRITE ≠ 0) :
    EEFS_LibWrite s (k : Int) (some Buffer) Length =
      (toInt32 (EEFS_MIN (u32sub (s.EEFS_FileDescriptorTable k).MaxFileSize
          (s.EEFS_FileDescriptorTable k).ByteOffset) Length),
        setFileDescriptor
          (EEFS_LIB_EEPROM_WRITE s (s.EEFS_FileDescriptorTable k).FileDataPointer
            ((List.range (EEFS_MIN (u32sub (s.EEFS_FileDescriptorTable k).MaxFileSize
              (s.EEFS_FileDescriptorTable k).ByteOffset) Length)).map
              (fun i => Buffer.getD i 0)))
          k
          { s.EEFS_FileDescriptorTable k with
            FileDataPointer := u32 ((s.EEFS_FileDescriptorTable k).FileDataPointer +
              EEFS_MIN (u32sub (s.EEFS_FileDescriptorTable k).MaxFileSize
                (s.EEFS_FileDescriptorTable k).ByteOffset) Length)
            ByteOffset := u32 ((s.EEFS_FileDescriptorTable k).ByteOffset +
              EEFS_MIN (u32sub (s.EEFS_FileDescriptorTable k).MaxFileSize
                (s.EEFS_FileDescriptorTable k).ByteOffset) Length)
            FileSize :=
              if u32 ((s.EEFS_FileDescriptorTable k).ByteOffset +
                  EEFS_MIN (u32sub (s.EEFS_FileDescriptorTable k).MaxFileSize
                    (s.EEFS_FileDescriptorTable k).ByteOffset) Length)
                  > (s.EEFS_FileDescriptorTable k).FileSize
              then u32 ((s.EEFS_FileDescriptorTable k).ByteOffset +
                  EEFS_MIN (u32sub (s.EEFS_FileDescriptorTable k).MaxFileSize
                    (s.EEFS_FileDescriptorTable k).ByteOffset) Length)
              else (s.EEFS_FileDescriptorTable k).FileSize }) := by
  have hv : EEFS_LibIsValidFileDescriptor s (k : Int) = true := by
    rw [isValid_iff]
    exact ⟨by omega, by exact_mod_cast hk, by simpa using hu⟩
  unfold EEFS_LibWrite
  rw [if_pos hv, if_pos (by simp)]
  simp only [Int.toNat_ofNat, Option.getD_some]
  rw [if_pos hm]

/-- Shape of a successful `EEFS_LibCreat` of a name that is not found. -/
theorem creat_new_cases (env : Env) (s : State) (T : Nat) (f : List Nat) (A : Nat)
    (hnew : EEFS_LibFindFile env s T f = EEFS_FILE_NOT_FOUND)
    (hcreat : 0 ≤ (EEFS_LibCreat env s T (some f) A).1) :
    ∃ k, k < EEFS_MAX_OPEN_FILES ∧ (s.EEFS_FileDescriptorTable k).InUse = FALSE ∧
      (EEFS_LibGetFileDescriptor s).1 = (k : Int) ∧
      (EEFS_LibCreat env s T (some f) A).1 = (k : Int) ∧
      env.writeProtected = false ∧
      (s.InodeTables T).NumberOfFiles < EEFS_MAX_FILES ∧
      EEFS_LibHasOpenCreat s T = false ∧
      (s.InodeTables T).FreeMemorySize > sizeofFileHeader ∧
      (A = EEFS_ATTRIBUTE_NONE ∨ A = EEFS_ATTRIBUTE_READONLY) ∧
      (EEFS_LibCreat env s T (some f) A).2 =
        setFileDescriptor
          (EEFS_LIB_EEPROM_FLUSH (EEFS_LIB_EEPROM_WRITE
            (setInodeTable (EEFS_LibGetFileDescriptor s).2 T (createdTable (s.InodeTables T)))
            (s.InodeTables T).FreeMemoryPointer
            (fileHeaderBytes env.hostLittleEndian (createdHeader env f A))))
          k (createdDescriptor s T) := by
  have hcf : EEFS_LibCreat env s T (some f) A = EEFS_LibCreatFile env s T f A := by
    by_cases h1 : T ≠ 0
    · by_cases h2 : EEFS_LibIsValidFilename (some f) = true
      · unfold EEFS_LibCreat
        rw [if_pos h1, if_pos h2]
        simp only [Option.getD_some]
        rw [if_neg (by rw [hnew]; simp)]
      · unfold EEFS_LibCreat at hcreat
        rw [if_pos h1, if_neg h2] at hcreat
        exact absurd hcreat (by dsimp only; decide)
    · unfold EEFS_LibCreat at hcreat
      rw [if_neg h1] at hcreat
      exact absurd hcreat (by dsimp only; decide)
  rw [hcf] at hcreat ⊢
  rcases creatFile_cases env s T f A with ⟨-, hneg⟩ | h
  · omega
  · exact h

/-! ## Crash consistency of create-close (C5) -/



/-- C5: for a table mounted at `B` whose free memory lies behind the FAT and inside the
32-bit address space, `Creat` of a new file, a `Write` and `Close` issue as their last
three medium writes the file header, the FAT entry of the new slot and the FAT header, in
this order; and on the medium that has received every write but the last one,
`EEFS_LibInitFS` returns what it returned before the `Creat` and yields the same inode
table. -/
theorem creat_close_crash_invisible (env : Env) (s : State) (T B : Nat) (f : List Nat)
    (A : Nat) (Buffer : List Nat) (Length T' : Nat)
    (hbase : (s.InodeTables T).BaseAddress = B)
    (hfat : B + sizeofFileAllocationTable ≤ (s.InodeTables T).FreeMemoryPointer)
    (hfit : (s.InodeTables T).FreeMemoryPointer + (s.InodeTables T).FreeMemorySize
      ≤ 4294967296)
    (hnum : (loadFileAllocationTableHeader env s.mem B).NumberOfFiles
      ≤ (s.InodeTables T).NumberOfFiles)
    (hnew : EEFS_LibFindFile env s T f = EEFS_FILE_NOT_FOUND)
    (hcreat : 0 ≤ (EEFS_LibCreat env s T (some f) A).1) :
    ∃ hdr0 data hdr1 ent fat,
      (creatWriteClose env s T f A Buffer Length).1 = EEFS_SUCCESS ∧
      (creatWriteClose env s T f A Buffer Length).2.events = s.events ++
        creatCloseEvents (s.InodeTables T).FreeMemoryPointer B (s.InodeTables T).NumberOfFiles
          hdr0 data hdr1 ent fat ∧
      (creatWriteClose env s T f A Buffer Length).2.mem = replay s.mem
        (creatCloseEvents (s.InodeTables T).FreeMemoryPointer B (s.InodeTables T).NumberOfFiles
          hdr0 data hdr1 ent fat) ∧
      (EEFS_LibInitFS env (withMedium s (replay s.mem
        ((creatCloseEvents (s.InodeTables T).FreeMemoryPointer B
          (s.InodeTables T).NumberOfFiles hdr0 data hdr1 ent fat).take 7))) T' B).1
        = (EEFS_LibInitFS env s T' B).1 ∧
      (EEFS_LibInitFS env (withMedium s (replay s.mem
        ((creatCloseEvents (s.InodeTables T).FreeMemoryPointer B
          (s.InodeTables T).NumberOfFiles hdr0 data hdr1 ent fat).take 7))) T' B).2.InodeTables
        = (EEFS_LibInitFS env s T' B).2.InodeTables := by
  obtain ⟨k, hk, hfree, hret, hc1, hwp, hn, hoc, hfms, hA, hc2⟩ :=
    creat_new_cases env s T f A hnew hcreat
  obtain ⟨-, -, hgtab, hgtabs, hgmem, hgev, -⟩ := getFD_of_ret s k hret
  unfold sizeofFileAllocationTable at hfat
  unfold sizeofFileHeader at hfms
  unfold EEFS_MAX_FILES at hn
  -- the state after Creat
  have hS1fd : (EEFS_LibCreat env s T (some f) A).2.EEFS_FileDescriptorTable k
      = createdDescriptor s T := by
    rw [hc2]; simp only [setFileDescriptor, Function.update_same]
  have hS1mem : (EEFS_LibCreat env s T (some f) A).2.mem = memWrite s.mem
      (s.InodeTables T).FreeMemoryPointer
      (fileHeaderBytes env.hostLittleEndian (createdHeader env f A)) := by
    rw [hc2]; simp only [setFileDescriptor, EEFS_LIB_EEPROM_FLUSH, EEFS_LIB_EEPROM_WRITE,
      setInodeTable, hgmem]
  have hS1ev : (EEFS_LibCreat env s T (some f) A).2.events = s.events ++
      [MediumEvent.write (s.InodeTables T).FreeMemoryPointer
        (fileHeaderBytes env.hostLittleEndian (createdHeader env f A)), MediumEvent.flush] := by
    rw [hc2]; simp only [setFileDescriptor, EEFS_LIB_EEPROM_FLUSH, EEFS_LIB_EEPROM_WRITE,
      setInodeTable, hgev, List.append_assoc, List.cons_append, List.nil_append]
  have hS1tab : (EEFS_LibCreat env s T (some f) A).2.InodeTables T
      = createdTable (s.InodeTables T) := by
    rw [hc2]; simp only [setFileDescriptor, EEFS_LIB_EEPROM_FLUSH, EEFS_LIB_EEPROM_WRITE,
      setInodeTable, Function.update_same]
  -- the Write
  have hu1 : fdInUse (EEFS_LibCreat env s T (some f) A).2 k := by
    unfold fdInUse; rw [hS1fd]; rfl
  have hm1 : Nat.land ((EEFS_LibCreat env s T (some f) A).2.EEFS_FileDescriptorTable k).Mode
      EEFS_FWRITE ≠ 0 := by
    rw [hS1fd]
    simp only [createdDescriptor]
    decide
  have hW := write_success (EEFS_LibCreat env s T (some f) A).2 k Buffer Length hk hu1 hm1
  have hfdp : (createdDescriptor s T).FileDataPointer
      = (s.InodeTables T).FreeMemoryPointer + sizeofFileHeader := by
    simp only [createdDescriptor, u32, sizeofFileHeader]
    omega
  unfold creatWriteClose
  rw [hc1, hW]
  simp only []
  rw [close_eq]
  -- the state after Write
  generalize hdata : (List.range (EEFS_MIN (u32sub
      ((EEFS_LibCreat env s T (some f) A).2.EEFS_FileDescriptorTable k).MaxFileSize
      ((EEFS_LibCreat env s T (some f) A).2.EEFS_FileDescriptorTable k).ByteOffset) Length)).map
      (fun i => Buffer.getD i 0) = data
  generalize hd2 : ({ (EEFS_LibCreat env s T (some f) A).2.EEFS_FileDescriptorTable k with
      FileDataPointer := _, ByteOffset := _, FileSize := _ } : EEFS_FileDescriptor_t) = d2
  have hd2c : d2.InUse = TRUE ∧ d2.Mode = Nat.lor EEFS_FCREAT EEFS_FWRITE ∧
      d2.FileHeaderPointer = (s.InodeTables T).FreeMemoryPointer ∧ d2.InodeTable = T ∧
      d2.InodeIndex = (s.InodeTables T).NumberOfFiles := by
    rw [← hd2, hS1fd]
    simp only [createdDescriptor, and_self]
  obtain ⟨hd2u, hd2m, hd2p, hd2t, hd2i⟩ := hd2c
  generalize hS2 : setFileDescriptor (EEFS_LIB_EEPROM_WRITE (EEFS_LibCreat env s T (some f) A).2
      ((EEFS_LibCreat env s T (some f) A).2.EEFS_FileDescriptorTable k).FileDataPointer data)
      k d2 = S2
  have hS2fd : S2.EEFS_FileDescriptorTable k = d2 := by
    rw [← hS2]; simp only [setFileDescriptor, Function.update_same]
  have hS2mem : S2.mem = memWrite (memWrite s.mem (s.InodeTables T).FreeMemoryPointer
      (fileHeaderBytes env.hostLittleEndian (createdHeader env f A)))
      ((s.InodeTables T).FreeMemoryPointer + sizeofFileHeader) data := by
    rw [← hS2]
    simp only [setFileDescriptor, EEFS_LIB_EEPROM_WRITE, hS1mem, hS1fd, hfdp]
  have hS2ev : S2.events = s.events ++
      [MediumEvent.write (s.InodeTables T).FreeMemoryPointer
        (fileHeaderBytes env.hostLittleEndian (createdHeader env f A)), MediumEvent.flush,
       MediumEvent.write ((s.InodeTables T).FreeMemoryPointer + sizeofFileHeader) data] := by
    rw [← hS2]
    simp only [setFileDescriptor, EEFS_LIB_EEPROM_WRITE, hS1ev, hS1fd, hfdp, List.append_assoc,
      List.cons_append, List.nil_append]
  have hS2tab : S2.InodeTables T = createdTable (s.InodeTables T) := by
    rw [← hS2]
    simp only [setFileDescriptor, EEFS_LIB_EEPROM_WRITE, hS1tab]
  have hv2 : EEFS_LibIsValidFileDescriptor S2 (k : Int) = true := by
    rw [isValid_iff]
    refine ⟨by omega, by exact_mod_cast hk, ?_⟩
    simp only [Int.toNat_ofNat]
    unfold fdInUse
    rw [hS2fd, hd2u]
  rw [if_pos hv2]
  simp only [Int.toNat_ofNat]
  have hcb : closeBody env S2 k = closeCreat env S2 k := by
    unfold closeBody
    rw [if_pos]
    rw [hS2fd, hd2m]
    decide
  rw [hcb, closeCreat_eq]
  have hbase2 : (closeCreatTable S2 k).BaseAddress = B := by
    simp only [closeCreatTable, hS2fd, hd2t, hS2tab, createdTable, hbase]
  refine ⟨fileHeaderBytes env.hostLittleEndian (createdHeader env f A), data,
    fileHeaderBytes env.hostLittleEndian (EEFS_SwapFileHeader (closeCreatHeader env S2 k)),
    fileAllocationTableEntryBytes env.hostLittleEndian
      (EEFS_SwapFileAllocationTableEntry (closeCreatEntry S2 k)),
    fileAllocationTableHeaderBytes env.hostLittleEndian
      (EEFS_SwapFileAllocationTableHeader (closeCreatFatHeader env S2 k)),
    trivial, ?_, ?_, ?_⟩
  · simp only [freedDescriptor, creatCloseEvents, hS2ev, hS2fd, hd2p, hd2i, hbase2,
      List.append_assoc, List.cons_append, List.nil_append]
  · simp only [freedDescriptor, creatCloseEvents, replay, closeCreatMem2, hS2mem, hS2fd, hd2p,
      hd2i, hbase2]
  · simp only [creatCloseEvents, List.take_succ_cons, List.take_zero, replay, withMedium]
    apply initFS_congr
    · rfl
    · show loadFileAllocationTableHeader env (memWrite (memWrite (memWrite (memWrite s.mem _ _)
        _ _) _ _) _ _) B = _
      rw [loadFatHeader_frame _ _ _ _ _ (by unfold fatEntryAddress; omega),
        loadFatHeader_frame _ _ _ _ _ (by omega), loadFatHeader_frame _ _ _ _ _
        (by unfold sizeofFileHeader; omega), loadFatHeader_frame _ _ _ _ _ (by omega)]
    · intro i hi
      show loadFileAllocationTableEntry env (memWrite (memWrite (memWrite (memWrite s.mem _ _)
        _ _) _ _) _ _) _ = _
      rw [loadFatEntry_frame _ _ _ _ _ (by unfold fatEntryAddress; omega),
        loadFatEntry_frame _ _ _ _ _ (by unfold fatEntryAddress; omega),
        loadFatEntry_frame _ _ _ _ _ (by unfold fatEntryAddress sizeofFileHeader; omega),
        loadFatEntry_frame _ _ _ _ _ (by unfold fatEntryAddress; omega)]


set_option maxRecDepth 100000 in
/-- Instance of `creat_close_crash_invisible`: the empty example volume, `Creat("a")`,
`Write("hello", 5)`, `Close`. -/
theorem creat_close_crash_invisible_witness :
    (((exMountedEmpty true).InodeTables 1).BaseAddress = exBase ∧
     exBase + sizeofFileAllocationTable ≤ ((exMountedEmpty true).InodeTables 1).FreeMemoryPointer ∧
     ((exMountedEmpty true).InodeTables 1).FreeMemoryPointer
       + ((exMountedEmpty true).InodeTables 1).FreeMemorySize ≤ 4294967296 ∧
     (loadFileAllocationTableHeader (exEnv true) (exMountedEmpty true).mem exBase).NumberOfFiles
       ≤ ((exMountedEmpty true).InodeTables 1).NumberOfFiles ∧
     EEFS_LibFindFile (exEnv true) (exMountedEmpty true) 1 [97] = EEFS_FILE_NOT_FOUND ∧
     0 ≤ (EEFS_LibCreat (exEnv true) (exMountedEmpty true) 1 (some [97])
       EEFS_ATTRIBUTE_NONE).1) ∧
    ∃ hdr0 data hdr1 ent fat,
      (creatWriteClose (exEnv true) (exMountedEmpty true) 1 [97] EEFS_ATTRIBUTE_NONE
        [104, 101, 108, 108, 111] 5).1 = EEFS_SUCCESS ∧
      (creatWriteClose (exEnv true) (exMountedEmpty true) 1 [97] EEFS_ATTRIBUTE_NONE
        [104, 101, 108, 108, 111] 5).2.events = (exMountedEmpty true).events ++
        creatCloseEvents ((exMountedEmpty true).InodeTables 1).FreeMemoryPointer exBase
          ((exMountedEmpty true).InodeTables 1).NumberOfFiles hdr0 data hdr1 ent fat ∧
      (creatWriteClose (exEnv true) (exMountedEmpty true) 1 [97] EEFS_ATTRIBUTE_NONE
        [104, 101, 108, 108, 111] 5).2.mem = replay (exMountedEmpty true).mem
        (creatCloseEvents ((exMountedEmpty true).InodeTables 1).FreeMemoryPointer exBase
          ((exMountedEmpty true).InodeTables 1).NumberOfFiles hdr0 data hdr1 ent fat) ∧
      (EEFS_LibInitFS (exEnv true) (withMedium (exMountedEmpty true)
        (replay (exMountedEmpty true).mem
          ((creatCloseEvents ((exMountedEmpty true).InodeTables 1).FreeMemoryPointer exBase
            ((exMountedEmpty true).InodeTables 1).NumberOfFiles hdr0 data hdr1 ent fat).take 7)))
        2 exBase).1 = (EEFS_LibInitFS (exEnv true) (exMountedEmpty true) 2 exBase).1 ∧
      (EEFS_LibInitFS (exEnv true) (withMedium (exMountedEmpty true)
        (replay (exMountedEmpty true).mem
          ((creatCloseEvents ((exMountedEmpty true).InodeTables 1).FreeMemoryPointer exBase
            ((exMountedEmpty true).InodeTables 1).NumberOfFiles hdr0 data hdr1 ent fat).take 7)))
        2 exBase).2.InodeTables
        = (EEFS_LibInitFS (exEnv true) (exMountedEmpty true) 2 exBase).2.InodeTables :=
  ⟨by decide,
   creat_close_crash_invisible (exEnv true) (exMountedEmpty true) 1 exBase [97]
     EEFS_ATTRIBUTE_NONE [104, 101, 108, 108, 111] 5 2
     (by decide) (by decide) (by decide) (by decide) (by decide) (by decide)⟩

/-! ## Codec: reading back what was written -/

theorem swap_lt (v : Nat) : SwapUInt32 v < 4294967296 := by
  unfold SwapUInt32; omega

theorem bytes_word (b0 b1 b2 b3 : Nat) (h0 : b0 < 256) (h1 : b1 < 256) (h2 : b2 < 256)
    (h3 : b3 < 256) :
    (b0 * 16777216 + b1 * 65536 + b2 * 256 + b3) % 256 = b3 ∧
    (b0 * 16777216 + b1 * 65536 + b2 * 256 + b3) / 256 % 256 = b2 ∧
    (b0 * 16777216 + b1 * 65536 + b2 * 256 + b3) / 65536 % 256 = b1 ∧
    (b0 * 16777216 + b1 * 65536 + b2 * 256 + b3) / 16777216 % 256 = b0 := by
  refine ⟨by omega, by omega, by omega, by omega⟩

theorem word_bytes (v : Nat) :
    (v / 16777216 % 256) * 16777216 + (v / 65536 % 256) * 65536 + (v / 256 % 256) * 256
      + v % 256 = v % 4294967296 := by
  omega

theorem swap_swap (v : Nat) : SwapUInt32 (SwapUInt32 v) = v % 4294967296 := by
  have h := bytes_word (v % 256) (v / 256 % 256) (v / 65536 % 256) (v / 16777216 % 256)
    (Nat.mod_lt _ (by decide)) (Nat.mod_lt _ (by decide)) (Nat.mod_lt _ (by decide))
    (Nat.mod_lt _ (by decide))
  obtain ⟨h0, h1, h2, h3⟩ := h
  have hw := word_bytes v
  show (SwapUInt32 v % 256) * 16777216 + (SwapUInt32 v / 256 % 256) * 65536
    + (SwapUInt32 v / 65536 % 256) * 256 + (SwapUInt32 v / 16777216 % 256) = _
  unfold SwapUInt32
  rw [h0, h1, h2, h3]
  omega

theorem swap_mod (v : Nat) : SwapUInt32 (v % 4294967296) = SwapUInt32 v := by
  unfold SwapUInt32; omega

theorem loadU32_lt (le : Bool) (m : Mem) (a : Nat) : loadU32 le m a < 4294967296 := by
  unfold loadU32; split <;> omega

/-- Reading back a 32-bit word stored inside a written block. -/
theorem loadU32_store (le : Bool) (m : Mem) (d : Nat) (pre post : List Nat) (v : Nat) :
    loadU32 le (memWrite m d (pre ++ storeU32 le v ++ post)) (d + pre.length)
      = v % 4294967296 := by
  have hlen : (pre ++ storeU32 le v ++ post).length = pre.length + 4 + post.length := by
    simp only [List.length_append, storeU32_length]
  have hget : ∀ j, j < 4 → (pre ++ storeU32 le v ++ post).getD (pre.length + j) 0
      = (storeU32 le v).getD j 0 := by
    intro j hj
    rw [List.append_assoc, List.getD_append_right _ _ _ _ (by omega)]
    rw [Nat.add_sub_cancel_left, List.getD_append _ _ _ _ (by rw [storeU32_length]; exact hj)]
  unfold loadU32
  rw [memWrite_in m d _ (d + pre.length) (by omega) (by omega),
    memWrite_in m d _ (d + pre.length + 1) (by omega) (by omega),
    memWrite_in m d _ (d + pre.length + 2) (by omega) (by omega),
    memWrite_in m d _ (d + pre.length + 3) (by omega) (by omega)]
  have e0 : d + pre.length - d = pre.length + 0 := by omega
  have e1 : d + pre.length + 1 - d = pre.length + 1 := by omega
  have e2 : d + pre.length + 2 - d = pre.length + 2 := by omega
  have e3 : d + pre.length + 3 - d = pre.length + 3 := by omega
  rw [e0, e1, e2, e3, hget 0 (by omega), hget 1 (by omega), hget 2 (by omega),
    hget 3 (by omega)]
  cases le
  · simp only [storeU32, Bool.false_eq_true, if_false, List.getD_cons_zero, List.getD_cons_succ]
    omega
  · simp only [storeU32, if_true, List.getD_cons_zero, List.getD_cons_succ]
    omega

/-! ## Records: decoding what was encoded -/

theorem loadU32_store_at (le : Bool) (m : Mem) (d : Nat) (bs pre post : List Nat) (v a : Nat)
    (hbs : bs = pre ++ storeU32 le v ++ post) (ha : a = d + pre.length) :
    loadU32 le (memWrite m d bs) a = v % 4294967296 := by
  subst hbs ha
  exact loadU32_store le m d pre post v

theorem fileHeader_store_fields (le : Bool) (m : Mem) (p : Nat) (h : EEFS_FileHeader_t) :
    loadU32 le (memWrite m p (fileHeaderBytes le h)) p = h.Crc % 4294967296 ∧
    loadU32 le (memWrite m p (fileHeaderBytes le h)) (p + 4) = h.InUse % 4294967296 ∧
    loadU32 le (memWrite m p (fileHeaderBytes le h)) (p + 8) = h.Attributes % 4294967296 ∧
    loadU32 le (memWrite m p (fileHeaderBytes le h)) (p + 12) = h.FileSize % 4294967296 ∧
    loadU32 le (memWrite m p (fileHeaderBytes le h)) (p + 16)
      = h.ModificationDate % 4294967296 ∧
    loadU32 le (memWrite m p (fileHeaderBytes le h)) (p + 20)
      = h.CreationDate % 4294967296 := by
  generalize hnm : (h.Filename.take 40) ++ List.replicate (40 - (h.Filename.take 40).length) 0
    = nm
  have hb : fileHeaderBytes le h = storeU32 le h.Crc ++ storeU32 le h.InUse ++
      storeU32 le h.Attributes ++ storeU32 le h.FileSize ++ storeU32 le h.ModificationDate ++
      storeU32 le h.CreationDate ++ nm := by
    unfold fileHeaderBytes; rw [hnm]
  rw [hb]
  refine ⟨?_, ?_, ?_, ?_, ?_, ?_⟩
  · exact loadU32_store_at le m p _ [] (storeU32 le h.InUse ++
      storeU32 le h.Attributes ++ storeU32 le h.FileSize ++ storeU32 le h.ModificationDate ++
      storeU32 le h.CreationDate ++ nm) _ _ (by simp only [List.append_assoc, List.nil_append])
      (by simp)
  · exact loadU32_store_at le m p _ (storeU32 le h.Crc) (
      storeU32 le h.Attributes ++ storeU32 le h.FileSize ++ storeU32 le h.ModificationDate ++
      storeU32 le h.CreationDate ++ nm) _ _ (by simp only [List.append_assoc])
      (by simp [storeU32_length])
  · exact loadU32_store_at le m p _ (storeU32 le h.Crc ++ storeU32 le h.InUse) (
      storeU32 le h.FileSize ++ storeU32 le h.ModificationDate ++
      storeU32 le h.CreationDate ++ nm) _ _ (by simp only [List.append_assoc])
      (by simp [storeU32_length])
  · exact loadU32_store_at le m p _
      (storeU32 le h.Crc ++ storeU32 le h.InUse ++ storeU32 le h.Attributes)
      (storeU32 le h.ModificationDate ++ storeU32 le h.CreationDate ++ nm) _ _
      (by simp only [List.append_assoc]) (by simp [storeU32_length])
  · exact loadU32_store_at le m p _
      (storeU32 le h.Crc ++ storeU32 le h.InUse ++ storeU32 le h.Attributes
        ++ storeU32 le h.FileSize) (storeU32 le h.CreationDate ++ nm) _ _
      (by simp only [List.append_assoc]) (by simp [storeU32_length])
  · exact loadU32_store_at le m p _
      (storeU32 le h.Crc ++ storeU32 le h.InUse ++ storeU32 le h.Attributes
        ++ storeU32 le h.FileSize ++ storeU32 le h.ModificationDate) nm _ _
      (by simp only [List.append_assoc]) (by simp [storeU32_length])

theorem fatHeader_store_fields (le : Bool) (m : Mem) (p : Nat)
    (h : EEFS_FileAllocationTableHeader_t) :
    loadU32 le (memWrite m p (fileAllocationTableHeaderBytes le h)) p
      = h.Crc % 4294967296 ∧
    loadU32 le (memWrite m p (fileAllocationTableHeaderBytes le h)) (p + 4)
      = h.Magic % 4294967296 ∧
    loadU32 le (memWrite m p (fileAllocationTableHeaderBytes le h)) (p + 8)
      = h.Version % 4294967296 ∧
    loadU32 le (memWrite m p (fileAllocationTableHeaderBytes le h)) (p + 12)
      = h.FreeMemoryOffset % 4294967296 ∧
    loadU32 le (memWrite m p (fileAllocationTableHeaderBytes le h)) (p + 16)
      = h.FreeMemorySize % 4294967296 ∧
    loadU32 le (memWrite m p (fileAllocationTableHeaderBytes le h)) (p + 20)
      = h.NumberOfFiles % 4294967296 := by
  refine ⟨?_, ?_, ?_, ?_, ?_, ?_⟩
  · exact loadU32_store_at le m p _ [] (storeU32 le h.Magic ++ storeU32 le h.Version
      ++ storeU32 le h.FreeMemoryOffset ++ storeU32 le h.FreeMemorySize
      ++ storeU32 le h.NumberOfFiles) _ _
      (by simp [fileAllocationTableHeaderBytes, List.append_assoc]) (by simp)
  · exact loadU32_store_at le m p _ (storeU32 le h.Crc) (storeU32 le h.Version
      ++ storeU32 le h.FreeMemoryOffset ++ storeU32 le h.FreeMemorySize
      ++ storeU32 le h.NumberOfFiles) _ _
      (by simp [fileAllocationTableHeaderBytes, List.append_assoc]) (by simp [storeU32_length])
  · exact loadU32_store_at le m p _ (storeU32 le h.Crc ++ storeU32 le h.Magic)
      (storeU32 le h.FreeMemoryOffset ++ storeU32 le h.FreeMemorySize
      ++ storeU32 le h.NumberOfFiles) _ _
      (by simp [fileAllocationTableHeaderBytes, List.append_assoc]) (by simp [storeU32_length])
  · exact loadU32_store_at le m p _
      (storeU32 le h.Crc ++ storeU32 le h.Magic ++ storeU32 le h.Version)
      (storeU32 le h.FreeMemorySize ++ storeU32 le h.NumberOfFiles) _ _
      (by simp [fileAllocationTableHeaderBytes, List.append_assoc]) (by simp [storeU32_length])
  · exact loadU32_store_at le m p _
      (storeU32 le h.Crc ++ storeU32 le h.Magic ++ storeU32 le h.Version
        ++ storeU32 le h.FreeMemoryOffset) (storeU32 le h.NumberOfFiles) _ _
      (by simp [fileAllocationTableHeaderBytes, List.append_assoc]) (by simp [storeU32_length])
  · exact loadU32_store_at le m p _
      (storeU32 le h.Crc ++ storeU32 le h.Magic ++ storeU32 le h.Version
        ++ storeU32 le h.FreeMemoryOffset ++ storeU32 le h.FreeMemorySize) [] _ _
      (by simp [fileAllocationTableHeaderBytes, List.append_assoc]) (by simp [storeU32_length])

theorem fatEntry_store_fields (le : Bool) (m : Mem) (p : Nat)
    (e : EEFS_FileAllocationTableEntry_t) :
    loadU32 le (memWrite m p (fileAllocationTableEntryBytes le e)) p
      = e.FileHeaderOffset % 4294967296 ∧
    loadU32 le (memWrite m p (fileAllocationTableEntryBytes le e)) (p + 4)
      = e.MaxFileSize % 4294967296 := by
  refine ⟨?_, ?_⟩
  · exact loadU32_store_at le m p _ [] (storeU32 le e.MaxFileSize) _ _
      (by simp [fileAllocationTableEntryBytes]) (by simp)
  · exact loadU32_store_at le m p _ (storeU32 le e.FileHeaderOffset) [] _ _
      (by simp [fileAllocationTableEntryBytes]) (by simp [storeU32_length])

/-- Decoding a FAT header that was encoded and written in place. -/
theorem loadFatHeader_store (env : Env) (m : Mem) (p : Nat)
    (h : EEFS_FileAllocationTableHeader_t) :
    loadFileAllocationTableHeader env
      (memWrite m p (fileAllocationTableHeaderBytes env.hostLittleEndian
        (EEFS_SwapFileAllocationTableHeader h))) p =
      { Crc := h.Crc % 4294967296
        Magic := h.Magic % 4294967296
        Version := h.Version % 4294967296
        FreeMemoryOffset := h.FreeMemoryOffset % 4294967296
        FreeMemorySize := h.FreeMemorySize % 4294967296
        NumberOfFiles := h.NumberOfFiles % 4294967296 } := by
  obtain ⟨h1, h2, h3, h4, h5, h6⟩ := fatHeader_store_fields env.hostLittleEndian m p
    (EEFS_SwapFileAllocationTableHeader h)
  unfold loadFileAllocationTableHeader readFileAllocationTableHeader
  rw [h1, h2, h3, h4, h5, h6]
  simp only [EEFS_SwapFileAllocationTableHeader, swap_mod, swap_swap]

/-- Decoding a FAT entry that was encoded and written in place. -/
theorem loadFatEntry_store (env : Env) (m : Mem) (p : Nat)
    (e : EEFS_FileAllocationTableEntry_t) :
    loadFileAllocationTableEntry env
      (memWrite m p (fileAllocationTableEntryBytes env.hostLittleEndian
        (EEFS_SwapFileAllocationTableEntry e))) p =
      { FileHeaderOffset := e.FileHeaderOffset % 4294967296
        MaxFileSize := e.MaxFileSize % 4294967296 } := by
  obtain ⟨h1, h2⟩ := fatEntry_store_fields env.hostLittleEndian m p
    (EEFS_SwapFileAllocationTableEntry e)
  unfold loadFileAllocationTableEntry readFileAllocationTableEntry
  rw [h1, h2]
  simp only [EEFS_SwapFileAllocationTableEntry, swap_mod, swap_swap]

/-- The integer fields of a file header that was encoded and written in place. -/
theorem loadFileHeader_store (env : Env) (m : Mem) (p : Nat) (h : EEFS_FileHeader_t) :
    (loadFileHeader env (memWrite m p (fileHeaderBytes env.hostLittleEndian
      (EEFS_SwapFileHeader h))) p).InUse = h.InUse % 4294967296 ∧
    (loadFileHeader env (memWrite m p (fileHeaderBytes env.hostLittleEndian
      (EEFS_SwapFileHeader h))) p).FileSize = h.FileSize % 4294967296 ∧
    (loadFileHeader env (memWrite m p (fileHeaderBytes env.hostLittleEndian
      (EEFS_SwapFileHeader h))) p).Attributes = h.Attributes % 4294967296 := by
  obtain ⟨h1, h2, h3, h4, h5, h6⟩ := fileHeader_store_fields env.hostLittleEndian m p
    (EEFS_SwapFileHeader h)
  have e2 : (EEFS_SwapFileHeader h).InUse = SwapUInt32 h.InUse := rfl
  have e3 : (EEFS_SwapFileHeader h).Attributes = SwapUInt32 h.Attributes := rfl
  have e4 : (EEFS_SwapFileHeader h).FileSize = SwapUInt32 h.FileSize := rfl
  rw [e2] at h2
  rw [e3] at h3
  rw [e4] at h4
  generalize EEFS_SwapFileHeader h = h' at *
  unfold loadFileHeader readFileHeader
  simp only [EEFS_SwapFileHeader, h2, h3, h4, swap_mod, swap_swap, and_self]

/-- The `InUse` field, decoded, of a file header written without encoding. -/
theorem loadFileHeader_raw_InUse (env : Env) (m : Mem) (p : Nat) (h : EEFS_FileHeader_t) :
    (loadFileHeader env (memWrite m p (fileHeaderBytes env.hostLittleEndian h)) p).InUse
      = SwapUInt32 h.InUse := by
  obtain ⟨h1, h2, h3, h4, h5, h6⟩ := fileHeader_store_fields env.hostLittleEndian m p h
  unfold loadFileHeader readFileHeader
  simp only [EEFS_SwapFileHeader, h2, swap_mod]

theorem loadFileHeader_lt (env : Env) (m : Mem) (p : Nat) :
    (loadFileHeader env m p).InUse < 4294967296 ∧
    (loadFileHeader env m p).FileSize < 4294967296 ∧
    (loadFileHeader env m p).Attributes < 4294967296 := by
  unfold loadFileHeader readFileHeader
  simp only [EEFS_SwapFileHeader]
  exact ⟨swap_lt _, swap_lt _, swap_lt _⟩

/-! ## The engine on the example volumes -/

set_option maxRecDepth 100000 in
/-- C1 does not hold on the code: on the empty example volume `Creat("a")` returns
descriptor 0, `Write` of 5 bytes returns 5 and `Close` returns `EEFS_SUCCESS`, but the
following `Open("a", O_RDONLY)` returns `EEFS_FILE_NOT_FOUND`, on either host byte order. -/
theorem creat_write_close_open_not_found (le : Bool) :
    (EEFS_LibInitFS (exEnv le) (exEmptyVolume le) 1 exBase).1 = EEFS_SUCCESS ∧
    (exCreat le).1 = 0 ∧ (exWrite le).1 = 5 ∧ (exClose le).1 = EEFS_SUCCESS ∧
    (exReopen le).1 = EEFS_FILE_NOT_FOUND := by
  cases le <;> decide

set_option maxRecDepth 100000 in
/-- C3 does not hold on the code: two `Open` calls with access mode `O_WRONLY | O_RDWR`
on the file "a" both succeed and leave two in-use descriptors on the same inode table
whose mode is `EEFS_FCREAT`. -/
theorem open_accmode3_two_creators (le : Bool) :
    SingleCreator (exMountedOneFile le 100) ∧
    (exOpen3 le 100).1 = 0 ∧ (exOpen3Twice le 100).1 = 1 ∧
    ((exOpen3Twice le 100).2.EEFS_FileDescriptorTable 0).Mode = EEFS_FCREAT ∧
    ((exOpen3Twice le 100).2.EEFS_FileDescriptorTable 1).Mode = EEFS_FCREAT ∧
    ¬ SingleCreator (exOpen3Twice le 100).2 := by
  cases le <;> decide

set_option maxRecDepth 100000 in
/-- C4 does not hold on the code: on the one-file volume (file size 1000 in a slot of 1000
bytes, 100 bytes free) `Open("a", O_WRONLY | O_RDWR)` followed by `Close` shrinks the
slot to 36 bytes, and the descriptor returned by the next `Open("a", O_RDONLY)` has
`FileSize = 1000 > MaxFileSize = 36`. -/
theorem open_accmode3_breaks_bound (le : Bool) :
    LiveFilesFit (exEnv le) (exMountedOneFile le 100) 1 ∧
    Bound (exMountedOneFile le 100) ∧
    (exOpen3 le 100).1 = 0 ∧ Bound (exOpen3 le 100).2 ∧
    (exOpen3Close le 100).1 = EEFS_SUCCESS ∧ (exOpen3CloseOpen le 100).1 = 0 ∧
    ((exOpen3CloseOpen le 100).2.EEFS_FileDescriptorTable 0).FileSize = 1000 ∧
    ((exOpen3CloseOpen le 100).2.EEFS_FileDescriptorTable 0).MaxFileSize = 36 ∧
    ¬ Bound (exOpen3CloseOpen le 100).2 := by
  cases le <;> decide

set_option maxRecDepth 100000 in
/-- C6 does not hold on the code: the one-file volume satisfies Pack, and after
`Open("a", O_WRONLY | O_RDWR)` and `Close` the on-medium FAT has slot 0 at offset 536 with
`MaxFileSize = 36` and `FreeMemoryOffset = 1700`, which violates Pack. -/
theorem open_accmode3_breaks_pack (le : Bool) :
    PackInvariant (exEnv le) (exMountedOneFile le 100).mem exBase ∧
    (exOpen3 le 100).1 = 0 ∧ (exOpen3Close le 100).1 = EEFS_SUCCESS ∧
    loadFileAllocationTableEntry (exEnv le) (exOpen3Close le 100).2.mem
      (fatEntryAddress exBase 0) = ⟨536, 36⟩ ∧
    (loadFileAllocationTableHeader (exEnv le) (exOpen3Close le 100).2.mem exBase).FreeMemoryOffset
      = 1700 ∧
    ¬ PackInvariant (exEnv le) (exOpen3Close le 100).2.mem exBase := by
  cases le <;> decide

set_option maxRecDepth 100000 in
/-- C8 does not hold on the code: on the empty volume `Creat("a")`, `Close`, `Creat("a")`
creates a second slot named "a"; both slots have a non-zero decoded `InUse`. -/
theorem creat_twice_duplicates_name (le : Bool) :
    NameUnique (exEnv le) (exMountedEmpty le) 1 ∧
    (exCreat le).1 = 0 ∧ (exClose le).1 = EEFS_SUCCESS ∧ (exCreatAgain le).1 = 0 ∧
    ((exCreatAgain le).2.InodeTables 1).NumberOfFiles = 2 ∧
    ¬ NameUnique (exEnv le) (exCreatAgain le).2 1 ∧
    (exCloseAgain le).1 = EEFS_SUCCESS ∧
    (loadFileAllocationTableHeader (exEnv le) (exCloseAgain le).2.mem exBase).NumberOfFiles = 2 ∧
    ¬ NameUnique (exEnv le) (exCloseAgain le).2 1 := by
  cases le <;> decide

set_option maxRecDepth 100000 in
/-- C10 does not hold on the code: after a successful `Creat("a")` on the empty volume the
header of the new slot, decoded as every reader decodes it, has `InUse = 0x01000000` and
dates `SwapUInt32 1000` instead of `1` and `1000`, and `EEFS_LibFindFile` does not find the
name. -/
theorem creat_header_not_encoded (le : Bool) :
    (exCreat le).1 = 0 ∧
    (((exCreat le).2.InodeTables 1).File 0).FileHeaderPointer = exBase + 536 ∧
    (loadFileHeader (exEnv le) (exCreat le).2.mem (exBase + 536)).InUse = 16777216 ∧
    (loadFileHeader (exEnv le) (exCreat le).2.mem (exBase + 536)).ModificationDate
      = SwapUInt32 1000 ∧
    (loadFileHeader (exEnv le) (exCreat le).2.mem (exBase + 536)).CreationDate
      = SwapUInt32 1000 ∧
    SwapUInt32 1000 ≠ 1000 ∧
    (loadFileHeader (exEnv le) (exCreat le).2.mem (exBase + 536)).Filename = strncpy [97] 40 ∧
    EEFS_LibFindFile (exEnv le) (exCreat le).2 1 [97] = EEFS_FILE_NOT_FOUND := by
  cases le <;> decide

/-! ## The medium of a mounted volume -/

theorem volumeOK_kept {env : Env} {m m' : Mem} {B V : Nat} (hv : VolumeOK env m B V)
    (hk : MediumKept env B m m') : VolumeOK env m' B V := by
  have hc := hv.count
  refine ⟨hv.fits, ?_, ?_, ?_, ?_, ?_, ?_, ?_, ?_⟩
  · rw [hk.header]; exact hv.magic
  · rw [hk.header]; exact hv.version
  · rw [hk.header]; exact hv.count
  · rw [hk.header]; exact hv.tail
  · rw [hk.header]; exact hv.fat
  · intro i hi
    rw [hk.header] at hi ⊢
    rw [hk.entries i (by omega)]
    exact hv.slot i hi
  · intro i hi j hj hij
    rw [hk.header] at hi hj
    rw [hk.entries i (by omega), hk.entries j (by omega)]
    exact hv.apart i hi j hj hij
  · intro i hi
    rw [hk.header] at hi
    rw [hk.entries i (by omega)]
    exact hk.live i hi

theorem mediumKept_refl {env : Env} {m : Mem} {B V : Nat} (hv : VolumeOK env m B V) :
    MediumKept env B m m :=
  ⟨rfl, fun _ _ => rfl, hv.live, fun _ h => h⟩

/-- A write into the data area of a slot, or behind the first 64 bytes of the free
memory. -/
theorem kept_data_write {env : Env} {m : Mem} {B V : Nat} (hv : VolumeOK env m B V)
    (a : Nat) (bs : List Nat)
    (h : (∃ i, i < (loadFileAllocationTableHeader env m B).NumberOfFiles ∧
        B + (loadFileAllocationTableEntry env m (fatEntryAddress B i)).FileHeaderOffset
          + sizeofFileHeader ≤ a ∧
        a + bs.length
          ≤ B + (loadFileAllocationTableEntry env m (fatEntryAddress B i)).FileHeaderOffset
            + sizeofFileHeader
            + (loadFileAllocationTableEntry env m (fatEntryAddress B i)).MaxFileSize) ∨
      B + (loadFileAllocationTableHeader env m B).FreeMemoryOffset + sizeofFileHeader ≤ a) :
    MediumKept env B m (memWrite m a bs) := by
  have hfat := hv.fat
  have hslot := hv.slot
  have hapart := hv.apart
  simp only [sizeofFileHeader, sizeofFileAllocationTable] at h hfat hslot hapart
  have ha : B + 600 ≤ a := by
    rcases h with ⟨i, hi, h1, h2⟩ | h
    · have := (hslot i hi).1; omega
    · omega
  have hhdr : ∀ j, j < (loadFileAllocationTableHeader env m B).NumberOfFiles →
      loadFileHeader env (memWrite m a bs)
        (B + (loadFileAllocationTableEntry env m (fatEntryAddress B j)).FileHeaderOffset)
      = loadFileHeader env m
        (B + (loadFileAllocationTableEntry env m (fatEntryAddress B j)).FileHeaderOffset) := by
    intro j hj
    apply loadFileHeader_frame
    rcases h with ⟨i, hi, h1, h2⟩ | h
    · by_cases hij : i = j
      · subst hij; left; omega
      · rcases hapart i hi j hj hij with h3 | h3
        · right; omega
        · left; omega
    · have := (hslot j hj).2; left; omega
  refine ⟨?_, ?_, ?_, ?_⟩
  · exact loadFatHeader_frame env m a bs B (by omega)
  · intro i hi
    apply loadFatEntry_frame
    simp only [fatEntryAddress, EEFS_MAX_FILES] at hi ⊢
    omega
  · intro i hi
    rw [hhdr i hi]
    exact hv.live i hi
  · intro _ hu
    rw [loadFileHeader_frame] at hu
    · exact hu
    · rcases h with ⟨i, hi, h1, h2⟩ | h
      · have := (hslot i hi).2; right; omega
      · left; omega

/-- A write of an encoded header onto the header of slot `i`. -/
theorem kept_header_write {env : Env} {m : Mem} {B V : Nat} (hv : VolumeOK env m B V)
    (i : Nat) (hi : i < (loadFileAllocationTableHeader env m B).NumberOfFiles)
    (h : EEFS_FileHeader_t)
    (hlive : h.InUse % 4294967296 = TRUE → h.FileSize % 4294967296
      ≤ (loadFileAllocationTableEntry env m (fatEntryAddress B i)).MaxFileSize) :
    MediumKept env B m
      (memWrite m
        (B + (loadFileAllocationTableEntry env m (fatEntryAddress B i)).FileHeaderOffset)
        (fileHeaderBytes env.hostLittleEndian (EEFS_SwapFileHeader h))) := by
  have hfat := hv.fat
  have hslot := hv.slot
  have hapart := hv.apart
  simp only [sizeofFileHeader, sizeofFileAllocationTable] at hfat hslot hapart
  have hlen := fileHeaderBytes_length env.hostLittleEndian (EEFS_SwapFileHeader h)
  have hsi := hslot i hi
  refine ⟨?_, ?_, ?_, ?_⟩
  · exact loadFatHeader_frame env m _ _ B (by omega)
  · intro j hj
    apply loadFatEntry_frame
    have e : fatEntryAddress B j = B + 24 + 8 * j := rfl
    rw [e]
    simp only [EEFS_MAX_FILES] at hj
    omega
  · intro j hj
    by_cases hij : i = j
    · subst hij
      obtain ⟨h1, h2, h3⟩ := loadFileHeader_store env m
        (B + (loadFileAllocationTableEntry env m (fatEntryAddress B i)).FileHeaderOffset) h
      rw [h1, h2]
      exact hlive
    · rw [loadFileHeader_frame]
      · exact hv.live j hj
      · rw [hlen]
        rcases hapart i hi j hj hij with h3 | h3
        · right; omega
        · left; omega
  · intro _ hu
    rw [loadFileHeader_frame] at hu
    · exact hu
    · rw [hlen]; right; omega

/-- The write of a header that was not encoded, with `InUse` set, at the start of the free
memory. -/
theorem kept_free_header_write {env : Env} {m : Mem} {B V : Nat} (hv : VolumeOK env m B V)
    (h : EEFS_FileHeader_t) (hin : h.InUse = TRUE) :
    MediumKept env B m
      (memWrite m (B + (loadFileAllocationTableHeader env m B).FreeMemoryOffset)
        (fileHeaderBytes env.hostLittleEndian h)) := by
  have hfat := hv.fat
  have hslot := hv.slot
  simp only [sizeofFileHeader, sizeofFileAllocationTable] at hfat hslot
  have hlen := fileHeaderBytes_length env.hostLittleEndian h
  refine ⟨?_, ?_, ?_, ?_⟩
  · exact loadFatHeader_frame env m _ _ B (by omega)
  · intro j hj
    apply loadFatEntry_frame
    have e : fatEntryAddress B j = B + 24 + 8 * j := rfl
    rw [e]
    simp only [EEFS_MAX_FILES] at hj
    omega
  · intro j hj
    rw [loadFileHeader_frame]
    · exact hv.live j hj
    · have := (hslot j hj).2; left; omega
  · intro _ hu
    rw [loadFileHeader_raw_InUse, hin] at hu
    exact absurd hu (by decide)

/-! ## Calls that keep the FAT -/

theorem hasOpenCreat_true_iff (s : State) (T : Nat) :
    EEFS_LibHasOpenCreat s T = true ↔
      ∃ k, k < EEFS_MAX_OPEN_FILES ∧ fdInUse s k ∧
        (s.EEFS_FileDescriptorTable k).InodeTable = T ∧
        Nat.land (s.EEFS_FileDescriptorTable k).Mode EEFS_FCREAT ≠ 0 := by
  unfold EEFS_LibHasOpenCreat fdInUse
  simp only [List.any_eq_true, List.mem_range, Bool.and_eq_true, decide_eq_true_eq]
  constructor
  · rintro ⟨k, hk, ⟨h1, h2⟩, h3⟩; exact ⟨k, hk, h1, h2, h3⟩
  · rintro ⟨k, hk, h1, h2, h3⟩; exact ⟨k, hk, ⟨h1, h2⟩, h3⟩

theorem hasOpenCreat_congr (s s' : State) (T : Nat)
    (h : ∀ k, (fdInUse s' k ∧ (s'.EEFS_FileDescriptorTable k).InodeTable = T) ∨
        (fdInUse s k ∧ (s.EEFS_FileDescriptorTable k).InodeTable = T) →
      fdCore (s'.EEFS_FileDescriptorTable k) = fdCore (s.EEFS_FileDescriptorTable k)) :
    EEFS_LibHasOpenCreat s' T = EEFS_LibHasOpenCreat s T := by
  unfold EEFS_LibHasOpenCreat
  congr 1
  funext i
  rw [Bool.eq_iff_iff]
  simp only [Bool.and_eq_true, decide_eq_true_eq]
  constructor
  · rintro ⟨⟨a, b⟩, c⟩
    have := h i (Or.inl ⟨a, b⟩)
    simp only [fdCore, Prod.mk.injEq] at this
    obtain ⟨h1, h2, h3, h4⟩ := this
    rw [← h1, ← h2, ← h3]
    exact ⟨⟨a, b⟩, c⟩
  · rintro ⟨⟨a, b⟩, c⟩
    have := h i (Or.inr ⟨a, b⟩)
    simp only [fdCore, Prod.mk.injEq] at this
    obtain ⟨h1, h2, h3, h4⟩ := this
    rw [h1, h2, h3]
    exact ⟨⟨a, b⟩, c⟩

/-- A step that keeps the inode table, the sharing-relevant fields of the descriptors of
`T` and the FAT; no descriptor of `T` comes or goes. -/
theorem mounted_frame {env : Env} {s : State} {T B V : Nat} (h : Mounted env s T B V)
    (s' : State)
    (htab : s'.InodeTables T = s.InodeTables T)
    (hcore : ∀ k, (fdInUse s' k ∧ (s'.EEFS_FileDescriptorTable k).InodeTable = T) ∨
        (fdInUse s k ∧ (s.EEFS_FileDescriptorTable k).InodeTable = T) →
      fdCore (s'.EEFS_FileDescriptorTable k) = fdCore (s.EEFS_FileDescriptorTable k))
    (hmed : MediumKept env B s.mem s'.mem)
    (hgeo : ∀ k, k < EEFS_MAX_OPEN_FILES → fdInUse s k →
      (s.EEFS_FileDescriptorTable k).InodeTable = T →
      (s'.EEFS_FileDescriptorTable k).FileHeaderPointer
        = (s.EEFS_FileDescriptorTable k).FileHeaderPointer ∧
      (s'.EEFS_FileDescriptorTable k).MaxFileSize
        = (s.EEFS_FileDescriptorTable k).MaxFileSize ∧
      (s'.EEFS_FileDescriptorTable k).ByteOffset ≤ (s'.EEFS_FileDescriptorTable k).FileSize ∧
      (s'.EEFS_FileDescriptorTable k).FileSize ≤ (s'.EEFS_FileDescriptorTable k).MaxFileSize ∧
      (s'.EEFS_FileDescriptorTable k).FileDataPointer
        = (s'.EEFS_FileDescriptorTable k).FileHeaderPointer + sizeofFileHeader
          + (s'.EEFS_FileDescriptorTable k).ByteOffset) :
    Mounted env s' T B V := by
  have hoc := hasOpenCreat_congr s s' T hcore
  have hc := h.vol.count
  refine ⟨volumeOK_kept h.vol hmed, h.table, ?_, ?_, ?_, ?_, ?_, ?_, ?_, ?_⟩
  · rw [htab]; exact h.base
  · rw [htab, hmed.header]; exact h.fmp
  · rw [htab, hmed.header]; exact h.fms
  · intro i hi
    rw [hmed.header] at hi
    rw [htab, hmed.entries i (by omega)]
    exact h.files i hi
  · intro hf
    rw [hoc] at hf
    rw [htab, hmed.header]
    exact h.idle hf
  · intro hf
    rw [hoc] at hf
    obtain ⟨h1, h2, h3, h4, h5, h6⟩ := h.creating hf
    rw [htab, hmed.header]
    refine ⟨h1, h2, h3, h4, h5, ?_⟩
    intro hu
    apply h6
    rw [h.fmp] at hu ⊢
    refine hmed.free ?_ hu
    rw [← h.fms]
    exact h5
  · intro k hk hu hT
    have hck := hcore k (Or.inl ⟨hu, hT⟩)
    simp only [fdCore, Prod.mk.injEq] at hck
    obtain ⟨c1, c2, c3, c4⟩ := hck
    have hu0 : fdInUse s k := by
      unfold fdInUse at hu ⊢
      rw [← c1]; exact hu
    have hT0 : (s.EEFS_FileDescriptorTable k).InodeTable = T := by rw [← c3]; exact hT
    have hd := h.fds k hk hu0 hT0
    obtain ⟨g1, g2, g3, g4, g5⟩ := hgeo k hk hu0 hT0
    rw [htab, hmed.header]
    exact ⟨by rw [c3]; exact hd.table, by rw [c4]; exact hd.index,
      by rw [g1, c4]; exact hd.header, by rw [g2, c4]; exact hd.max, g3, g4, g5,
      by rw [c2, c4]; exact hd.creat, by rw [c2, c4]; exact hd.plain⟩
  · intro j hj k hk huj huk hTj hTk hcj hck
    have cj := hcore j (Or.inl ⟨huj, hTj⟩)
    have ck := hcore k (Or.inl ⟨huk, hTk⟩)
    simp only [fdCore, Prod.mk.injEq] at cj ck
    obtain ⟨a1, a2, a3, a4⟩ := cj
    obtain ⟨b1, b2, b3, b4⟩ := ck
    unfold fdInUse at huj huk
    rw [a1] at huj
    rw [b1] at huk
    rw [a3] at hTj
    rw [b3] at hTk
    rw [a2] at hcj
    rw [b2] at hck
    exact h.single j hj k hk huj huk hTj hTk hcj hck

/-- A step that changes the medium only. -/
theorem mounted_medium {env : Env} {s : State} {T B V : Nat} (h : Mounted env s T B V)
    (s' : State) (htab : s'.InodeTables = s.InodeTables)
    (hfd : s'.EEFS_FileDescriptorTable = s.EEFS_FileDescriptorTable)
    (hmed : MediumKept env B s.mem s'.mem) : Mounted env s' T B V := by
  apply mounted_frame h s' (by rw [htab]) (fun k _ => by rw [hfd]) hmed
  intro k hk hu hT
  rw [hfd]
  exact ⟨rfl, rfl, (h.fds k hk hu hT).offset, (h.fds k hk hu hT).size,
    (h.fds k hk hu hT).data⟩

/-- A step that moves the file pointer or the size of one descriptor. -/
theorem mounted_update {env : Env} {s : State} {T B V : Nat} (h : Mounted env s T B V)
    (s' : State) (k : Nat) (d : EEFS_FileDescriptor_t)
    (htab : s'.InodeTables = s.InodeTables)
    (hfd : s'.EEFS_FileDescriptorTable = Function.update s.EEFS_FileDescriptorTable k d)
    (hmed : MediumKept env B s.mem s'.mem)
    (hcore : fdCore d = fdCore (s.EEFS_FileDescriptorTable k))
    (hfhp : d.FileHeaderPointer = (s.EEFS_FileDescriptorTable k).FileHeaderPointer)
    (hmax : d.MaxFileSize = (s.EEFS_FileDescriptorTable k).MaxFileSize)
    (hbo : d.ByteOffset ≤ d.FileSize) (hfs : d.FileSize ≤ d.MaxFileSize)
    (hfdp : d.FileDataPointer = d.FileHeaderPointer + sizeofFileHeader + d.ByteOffset) :
    Mounted env s' T B V := by
  apply mounted_frame h s' (by rw [htab]) ?_ hmed
  · intro k' hk' hu' hT'
    rw [hfd]
    simp only [Function.update_apply]
    split_ifs with hkk
    · subst hkk; exact ⟨hfhp, hmax, hbo, hfs, hfdp⟩
    · exact ⟨rfl, rfl, (h.fds k' hk' hu' hT').offset, (h.fds k' hk' hu' hT').size,
        (h.fds k' hk' hu' hT').data⟩
  · intro k' _
    rw [hfd]
    simp only [Function.update_apply]
    split_ifs with hkk
    · subst hkk; exact hcore
    · rfl

/-- The slot of an in-use descriptor of `T`: a slot of the FAT, or the free memory. -/
theorem descriptor_slot {env : Env} {s : State} {T B V : Nat} (h : Mounted env s T B V)
    (k : Nat) (hk : k < EEFS_MAX_OPEN_FILES) (hu : fdInUse s k)
    (hT : (s.EEFS_FileDescriptorTable k).InodeTable = T) :
    (Nat.land (s.EEFS_FileDescriptorTable k).Mode EEFS_FCREAT = 0 ∧
      (s.EEFS_FileDescriptorTable k).InodeIndex
        < (loadFileAllocationTableHeader env s.mem B).NumberOfFiles ∧
      (s.EEFS_FileDescriptorTable k).FileHeaderPointer
        = B + (loadFileAllocationTableEntry env s.mem
            (fatEntryAddress B (s.EEFS_FileDescriptorTable k).InodeIndex)).FileHeaderOffset ∧
      (s.EEFS_FileDescriptorTable k).MaxFileSize
        = (loadFileAllocationTableEntry env s.mem
            (fatEntryAddress B (s.EEFS_FileDescriptorTable k).InodeIndex)).MaxFileSize) ∨
    (Nat.land (s.EEFS_FileDescriptorTable k).Mode EEFS_FCREAT ≠ 0 ∧
      (s.EEFS_FileDescriptorTable k).InodeIndex
        = (loadFileAllocationTableHeader env s.mem B).NumberOfFiles ∧
      (s.EEFS_FileDescriptorTable k).FileHeaderPointer
        = B + (loadFileAllocationTableHeader env s.mem B).FreeMemoryOffset ∧
      (s.EEFS_FileDescriptorTable k).MaxFileSize
        = (loadFileAllocationTableHeader env s.mem B).FreeMemorySize - 64 ∧
      64 < (loadFileAllocationTableHeader env s.mem B).FreeMemorySize ∧
      EEFS_LibHasOpenCreat s T = true) := by
  have hd := h.fds k hk hu hT
  by_cases hc : Nat.land (s.EEFS_FileDescriptorTable k).Mode EEFS_FCREAT = 0
  · left
    have hi := hd.plain hc
    obtain ⟨f1, f2⟩ := h.files _ hi
    exact ⟨hc, hi, by rw [hd.header, f1], by rw [hd.max, f2]⟩
  · right
    have hoc : EEFS_LibHasOpenCreat s T = true :=
      (hasOpenCreat_true_iff s T).2 ⟨k, hk, hu, hd.table, hc⟩
    obtain ⟨h1, h2, h3, h4, h5, h6⟩ := h.creating hoc
    obtain ⟨hi, _⟩ := hd.creat hc
    simp only [sizeofFileHeader] at h4 h5
    refine ⟨hc, hi, ?_, ?_, ?_, hoc⟩
    · rw [hd.header, hi, h3, h.fmp]
    · rw [hd.max, hi, h4, h.fms]
    · rw [← h.fms]; exact h5

/-- The slot of an in-use descriptor of `T` lies in the volume, behind the FAT. -/
theorem descriptor_fits {env : Env} {s : State} {T B V : Nat} (h : Mounted env s T B V)
    (k : Nat) (hk : k < EEFS_MAX_OPEN_FILES) (hu : fdInUse s k)
    (hT : (s.EEFS_FileDescriptorTable k).InodeTable = T) :
    B + 536 ≤ (s.EEFS_FileDescriptorTable k).FileHeaderPointer ∧
    (s.EEFS_FileDescriptorTable k).FileHeaderPointer + 64
      + (s.EEFS_FileDescriptorTable k).MaxFileSize ≤ B + V ∧
    B + V < 4294967296 := by
  have hfit := h.vol.fits
  have htail := h.vol.tail
  have hfat := h.vol.fat
  simp only [sizeofFileAllocationTable] at hfat
  rcases descriptor_slot h k hk hu hT with ⟨_, hi, h1, h2⟩ | ⟨_, _, h1, h2, h3, _⟩
  · have hs := h.vol.slot _ hi
    simp only [sizeofFileHeader, sizeofFileAllocationTable] at hs
    omega
  · omega

theorem mounted_read {env : Env} {s : State} {T B V : Nat} (h : Mounted env s T B V)
    (fd : Int) (b : Option (List Nat)) (l : Nat) (hon : onTable s T fd) :
    Mounted env (EEFS_LibRead s fd b l).2.2 T B V := by
  unfold EEFS_LibRead
  simp only []
  split_ifs with hv hb hm <;> first | exact h | skip
  · obtain ⟨h0, h1, hu⟩ := (isValid_iff s fd).1 hv
    have hk : fd.toNat < EEFS_MAX_OPEN_FILES := by
      simp only [EEFS_MAX_OPEN_FILES] at h1 ⊢; omega
    have hT := hon hv
    have hd := h.fds _ hk hu hT
    obtain ⟨f1, f2, f3⟩ := descriptor_fits h _ hk hu hT
    have hoff := hd.offset
    have hsize := hd.size
    have hdata := hd.data
    simp only [sizeofFileHeader] at hdata
    apply mounted_update h _ fd.toNat
    · rfl
    · rfl
    · exact mediumKept_refl h.vol
    · rfl
    · rfl
    · rfl
    · simp only [u32, u32sub, EEFS_MIN]
      split_ifs <;> omega
    · exact hsize
    · simp only [u32, u32sub, EEFS_MIN, sizeofFileHeader]
      split_ifs <;> omega

theorem mounted_write {env : Env} {s : State} {T B V : Nat} (h : Mounted env s T B V)
    (fd : Int) (b : Option (List Nat)) (l : Nat) (hon : onTable s T fd) :
    Mounted env (EEFS_LibWrite s fd b l).2 T B V := by
  unfold EEFS_LibWrite
  simp only []
  split_ifs with hv hb hm <;> first | exact h | skip
  all_goals
    obtain ⟨h0, h1, hu⟩ := (isValid_iff s fd).1 hv
    have hk : fd.toNat < EEFS_MAX_OPEN_FILES := by
      simp only [EEFS_MAX_OPEN_FILES] at h1 ⊢; omega
    have hT := hon hv
    have hd := h.fds _ hk hu hT
    obtain ⟨f1, f2, f3⟩ := descriptor_fits h _ hk hu hT
    have hoff := hd.offset
    have hsize := hd.size
    have hdata := hd.data
    simp only [sizeofFileHeader] at hdata
    have hn : EEFS_MIN (u32sub (s.EEFS_FileDescriptorTable fd.toNat).MaxFileSize
        (s.EEFS_FileDescriptorTable fd.toNat).ByteOffset) l
        ≤ (s.EEFS_FileDescriptorTable fd.toNat).MaxFileSize
          - (s.EEFS_FileDescriptorTable fd.toNat).ByteOffset := by
      simp only [u32sub, EEFS_MIN]
      (try split_ifs) <;> omega
    apply mounted_update h _ fd.toNat
    · rfl
    · rfl
    · show MediumKept env B s.mem (memWrite s.mem _ _)
      apply kept_data_write h.vol
      rw [List.length_map, List.length_range]
      simp only [sizeofFileHeader]
      rcases descriptor_slot h _ hk hu hT with ⟨_, hi, e1, e2⟩ | ⟨_, _, e1, e2, e3, _⟩
      · left
        exact ⟨_, hi, by omega, by omega⟩
      · right
        omega
    · rfl
    · rfl
    · rfl
    · dsimp only
      try simp only [u32] at *
      omega
    · dsimp only
      try simp only [u32] at *
      omega
    · dsimp only
      simp only [u32, sizeofFileHeader] at *
      omega

/-! ## Seek, header updates, open and create on a mounted volume -/

theorem mounted_lseek {env : Env} {s : State} {T B V : Nat} (h : Mounted env s T B V)
    (fd : Int) (o : Int) (w : Nat) (ho : -2147483648 ≤ o ∧ o < 2147483648)
    (hon : onTable s T fd) :
    Mounted env (EEFS_LibLSeek s fd o w).2 T B V := by
  unfold EEFS_LibLSeek
  simp only []
  split_ifs with hv <;> first | exact h | skip
  all_goals
    obtain ⟨h0, h1, hu⟩ := (isValid_iff s fd).1 hv
    have hk : fd.toNat < EEFS_MAX_OPEN_FILES := by
      simp only [EEFS_MAX_OPEN_FILES] at h1 ⊢; omega
    have hT := hon hv
    have hd := h.fds _ hk hu hT
    obtain ⟨f1, f2, f3⟩ := descriptor_fits h _ hk hu hT
    have hoff := hd.offset
    have hsize := hd.size
    have hdata := hd.data
    simp only [sizeofFileHeader] at hdata
    apply mounted_update h _ fd.toNat
    · rfl
    · rfl
    · exact mediumKept_refl h.vol
    · rfl
    · rfl
    · rfl
    · dsimp only
      try simp only [u32, toInt32, ofInt32] at *
      (try split_ifs at *) <;> omega
    · dsimp only
      try simp only [u32, toInt32, ofInt32] at *
      (try split_ifs at *) <;> omega
    · dsimp only
      try simp only [u32, toInt32, ofInt32, sizeofFileHeader] at *
      (try split_ifs at *) <;> omega

/-- The table of a mounted volume has the files of the FAT and at most one more. -/
theorem mounted_count {env : Env} {s : State} {T B V : Nat} (h : Mounted env s T B V) :
    (loadFileAllocationTableHeader env s.mem B).NumberOfFiles
      ≤ (s.InodeTables T).NumberOfFiles ∧
    (s.InodeTables T).NumberOfFiles
      ≤ (loadFileAllocationTableHeader env s.mem B).NumberOfFiles + 1 := by
  by_cases hoc : EEFS_LibHasOpenCreat s T = true
  · have := (h.creating hoc).1; omega
  · have := h.idle (by simpa using hoc); omega

/-- A file that `EEFS_LibFindFile` finds is in a slot of the FAT. -/
theorem findFile_slot {env : Env} {s : State} {T B V : Nat} (h : Mounted env s T B V)
    (f : List Nat) (hf : EEFS_LibFindFile env s T f ≠ EEFS_FILE_NOT_FOUND) :
    ∃ i, i < (loadFileAllocationTableHeader env s.mem B).NumberOfFiles ∧
      EEFS_LibFindFile env s T f = (i : Int) ∧
      (loadFileHeader env s.mem ((s.InodeTables T).File i).FileHeaderPointer).InUse = TRUE := by
  rcases findFile_cases env s T f with h1 | ⟨i, hi, h1, h2⟩
  · exact absurd h1 hf
  · have hin : (loadFileHeader env s.mem
        ((s.InodeTables T).File i).FileHeaderPointer).InUse = TRUE := by
      unfold findFileMatch at h2
      simp only [Bool.and_eq_true, decide_eq_true_eq] at h2
      exact h2.1
    have hc := h.vol.count
    simp only [EEFS_MAX_FILES] at hc
    have hiN : i < (loadFileAllocationTableHeader env s.mem B).NumberOfFiles := by
      by_cases hoc : EEFS_LibHasOpenCreat s T = true
      · obtain ⟨c1, c2, c3, c4, c5, c6⟩ := h.creating hoc
        by_contra hge
        have hi2 : i = (loadFileAllocationTableHeader env s.mem B).NumberOfFiles := by omega
        rw [hi2, c3] at hin
        exact c6 hin
      · have := h.idle (by simpa using hoc); omega
    refine ⟨i, hiN, ?_, hin⟩
    rw [h1]
    exact toInt32_small i (by omega)

theorem ofInt32_natCast (i : Nat) (h : i < 4294967296) : ofInt32 (i : Int) = i := by
  unfold ofInt32
  omega

/-- A rewrite of the header of slot `i` of the FAT. -/
theorem mounted_header_write {env : Env} {s : State} {T B V : Nat} (h : Mounted env s T B V)
    (i : Nat) (hi : i < (loadFileAllocationTableHeader env s.mem B).NumberOfFiles)
    (hd : EEFS_FileHeader_t)
    (hlive : hd.InUse % 4294967296 = TRUE → hd.FileSize % 4294967296
      ≤ (loadFileAllocationTableEntry env s.mem (fatEntryAddress B i)).MaxFileSize) :
    Mounted env
      (EEFS_LIB_EEPROM_FLUSH (EEFS_LIB_EEPROM_WRITE s
        (B + (loadFileAllocationTableEntry env s.mem (fatEntryAddress B i)).FileHeaderOffset)
        (fileHeaderBytes env.hostLittleEndian (EEFS_SwapFileHeader hd)))) T B V :=
  mounted_medium h _ rfl rfl (kept_header_write h.vol i hi hd hlive)

/-- A header of slot `i` read from the medium and changed in other fields than `InUse`
and `FileSize` may be written back. -/
theorem header_live {env : Env} {s : State} {T B V : Nat} (h : Mounted env s T B V)
    (i : Nat) (hi : i < (loadFileAllocationTableHeader env s.mem B).NumberOfFiles)
    (hd : EEFS_FileHeader_t)
    (h1 : hd.InUse = (loadFileHeader env s.mem
      (B + (loadFileAllocationTableEntry env s.mem
        (fatEntryAddress B i)).FileHeaderOffset)).InUse)
    (h2 : hd.FileSize = (loadFileHeader env s.mem
      (B + (loadFileAllocationTableEntry env s.mem
        (fatEntryAddress B i)).FileHeaderOffset)).FileSize) :
    hd.InUse % 4294967296 = TRUE → hd.FileSize % 4294967296
      ≤ (loadFileAllocationTableEntry env s.mem (fatEntryAddress B i)).MaxFileSize := by
  intro hu
  obtain ⟨l1, l2, l3⟩ := loadFileHeader_lt env s.mem
    (B + (loadFileAllocationTableEntry env s.mem (fatEntryAddress B i)).FileHeaderOffset)
  have hl := h.vol.live i hi
  rw [← h1] at hl l1
  rw [← h2] at hl l2
  have := hl (by omega)
  omega

theorem mounted_remove {env : Env} {s : State} {T B V : Nat} (h : Mounted env s T B V)
    (f : Option (List Nat)) : Mounted env (EEFS_LibRemove env s T f).2 T B V := by
  unfold EEFS_LibRemove
  simp only []
  split_ifs with h1 h2 h3 h4 h5 h6 <;> first | exact h | skip
  obtain ⟨i, hi, e, hin⟩ := findFile_slot h _ h4
  rw [e, Int.toNat_ofNat, (h.files i hi).1]
  exact mounted_header_write h i hi zeroFileHeader (fun hc => absurd hc (by decide))

theorem mounted_rename {env : Env} {s : State} {T B V : Nat} (h : Mounted env s T B V)
    (f g : Option (List Nat)) : Mounted env (EEFS_LibRename env s T f g).2 T B V := by
  unfold EEFS_LibRename
  simp only []
  split_ifs with h1 h2 h3 h4 h5 h6 <;> first | exact h | skip
  obtain ⟨i, hi, e, hin⟩ := findFile_slot h _ h5
  rw [e, Int.toNat_ofNat, (h.files i hi).1]
  exact mounted_header_write h i hi _ (header_live h i hi _ rfl rfl)

theorem mounted_setFileAttributes {env : Env} {s : State} {T B V : Nat}
    (h : Mounted env s T B V) (f : Option (List Nat)) (A : Nat) :
    Mounted env (EEFS_LibSetFileAttributes env s T f A).2 T B V := by
  unfold EEFS_LibSetFileAttributes
  simp only []
  split_ifs with h1 h2 h3 h4 h5 <;> first | exact h | skip
  obtain ⟨i, hi, e, hin⟩ := findFile_slot h _ h5
  rw [e, Int.toNat_ofNat, (h.files i hi).1]
  exact mounted_header_write h i hi _ (header_live h i hi _ rfl rfl)

theorem mounted_dir {env : Env} {s : State} {T B V : Nat} (h : Mounted env s T B V)
    (s' : State) (hmem : s'.mem = s.mem) (htab : s'.InodeTables = s.InodeTables)
    (hfd : s'.EEFS_FileDescriptorTable = s.EEFS_FileDescriptorTable) :
    Mounted env s' T B V := by
  apply mounted_medium h s' htab hfd
  rw [hmem]
  exact mediumKept_refl h.vol

theorem mounted_openDir {env : Env} {s : State} {T B V : Nat} (h : Mounted env s T B V)
    (t : Nat) : Mounted env (EEFS_LibOpenDir s t).2 T B V := by
  unfold EEFS_LibOpenDir
  split_ifs <;> first | exact h | exact mounted_dir h _ rfl rfl rfl

theorem mounted_readDir {env : Env} {s : State} {T B V : Nat} (h : Mounted env s T B V)
    (d : Bool) : Mounted env (EEFS_LibReadDir env s d).2 T B V := by
  unfold EEFS_LibReadDir
  simp only []
  split_ifs <;> first | exact h | exact mounted_dir h _ rfl rfl rfl

theorem mounted_closeDir {env : Env} {s : State} {T B V : Nat} (h : Mounted env s T B V)
    (d : Bool) : Mounted env (EEFS_LibCloseDir s d).2 T B V := by
  unfold EEFS_LibCloseDir
  split_ifs <;> first | exact h | exact mounted_dir h _ rfl rfl rfl

/-! ### Descriptors that come and go -/

theorem hasOpenCreat_update (s s' : State) (T k : Nat) (d : EEFS_FileDescriptor_t)
    (hfd : s'.EEFS_FileDescriptorTable = Function.update s.EEFS_FileDescriptorTable k d)
    (hold : ¬ (fdInUse s k ∧ (s.EEFS_FileDescriptorTable k).InodeTable = T ∧
      Nat.land (s.EEFS_FileDescriptorTable k).Mode EEFS_FCREAT ≠ 0))
    (hnew : ¬ (d.InUse = TRUE ∧ d.InodeTable = T ∧ Nat.land d.Mode EEFS_FCREAT ≠ 0)) :
    EEFS_LibHasOpenCreat s' T = EEFS_LibHasOpenCreat s T := by
  unfold EEFS_LibHasOpenCreat
  congr 1
  funext i
  rw [hfd]
  by_cases hik : i = k
  · subst hik
    rw [Function.update_same]
    unfold fdInUse at hold
    rw [Bool.eq_iff_iff]
    simp only [Bool.and_eq_true, decide_eq_true_eq]
    constructor
    · rintro ⟨⟨a, b⟩, c⟩; exact absurd ⟨a, b, c⟩ hnew
    · rintro ⟨⟨a, b⟩, c⟩; exact absurd ⟨a, b, c⟩ hold
  · rw [Function.update_noteq hik]

/-- One entry of the descriptor table is replaced; neither the old nor the new
descriptor has `EEFS_FCREAT`. -/
theorem mounted_replace {env : Env} {s : State} {T B V : Nat} (h : Mounted env s T B V)
    (s' : State) (k : Nat) (d : EEFS_FileDescriptor_t)
    (htab : s'.InodeTables = s.InodeTables) (hmem : s'.mem = s.mem)
    (hfd : s'.EEFS_FileDescriptorTable = Function.update s.EEFS_FileDescriptorTable k d)
    (hold : ¬ (fdInUse s k ∧ (s.EEFS_FileDescriptorTable k).InodeTable = T ∧
      Nat.land (s.EEFS_FileDescriptorTable k).Mode EEFS_FCREAT ≠ 0))
    (hnew : d.InUse = TRUE →
      DescriptorOK T (s.InodeTables T)
        (loadFileAllocationTableHeader env s.mem B).NumberOfFiles d ∧
      Nat.land d.Mode EEFS_FCREAT = 0) :
    Mounted env s' T B V := by
  have hoc := hasOpenCreat_update s s' T k d hfd hold
    (fun ⟨a, _, c⟩ => c (hnew a).2)
  refine ⟨by rw [hmem]; exact h.vol, h.table, ?_, ?_, ?_, ?_, ?_, ?_, ?_, ?_⟩
  · rw [htab]; exact h.base
  · rw [htab, hmem]; exact h.fmp
  · rw [htab, hmem]; exact h.fms
  · rw [htab, hmem]; exact h.files
  · rw [htab, hmem, hoc]; exact h.idle
  · rw [htab, hmem, hoc]; exact h.creating
  · intro k' hk' hu' hT'
    rw [htab, hmem]
    unfold fdInUse at hu'
    rw [hfd] at hu' hT' ⊢
    by_cases hkk : k' = k
    · subst hkk
      rw [Function.update_same] at hu' ⊢
      exact (hnew hu').1
    · rw [Function.update_noteq hkk] at hu' hT' ⊢
      exact h.fds k' hk' hu' hT'
  · intro j hj k' hk' huj huk hTj hTk hcj hck
    unfold fdInUse at huj huk
    rw [hfd] at huj huk hTj hTk hcj hck
    by_cases hjk : j = k
    · subst hjk
      rw [Function.update_same] at huj hcj
      exact absurd (hnew huj).2 hcj
    · by_cases hkk : k' = k
      · subst hkk
        rw [Function.update_same] at huk hck
        exact absurd (hnew huk).2 hck
      · rw [Function.update_noteq hjk] at huj hTj hcj
        rw [Function.update_noteq hkk] at huk hTk hck
        exact h.single j hj k' hk' huj huk hTj hTk hcj hck

theorem land_opened_mode (Flags : Nat)
    (h : Nat.land Flags O_ACCMODE ≠ Nat.lor O_WRONLY O_RDWR) :
    Nat.land (u32 (Nat.land Flags O_ACCMODE + 1)) EEFS_FCREAT = 0 := by
  have hle : Nat.land Flags O_ACCMODE ≤ 3 := Nat.and_le_right
  generalize Nat.land Flags O_ACCMODE = x at h hle
  have h3 : x ≠ 3 := h
  interval_cases x <;> first | decide | exact absurd rfl h3

theorem mounted_openFile {env : Env} {s : State} {T B V : Nat} (h : Mounted env s T B V)
    (i : Nat) (hi : i < (loadFileAllocationTableHeader env s.mem B).NumberOfFiles)
    (hin : (loadFileHeader env s.mem ((s.InodeTables T).File i).FileHeaderPointer).InUse
      = TRUE)
    (Flags A : Nat) (hacc : Nat.land Flags O_ACCMODE ≠ Nat.lor O_WRONLY O_RDWR) :
    Mounted env (EEFS_LibOpenFile env s T (i : Int) Flags A).2 T B V := by
  rcases openFile_cases env s T (i : Int) Flags A with ⟨h1, _⟩ | ⟨k, hk, hfree, hret, _, _, _, h1⟩
  · rw [h1]; exact h
  · rw [h1]
    obtain ⟨_, _, _, gtab, gmem, _, _⟩ := getFD_of_ret s k hret
    have hc := h.vol.count
    simp only [EEFS_MAX_FILES] at hc
    have hcnt := (mounted_count h).1
    obtain ⟨f1, f2⟩ := h.files i hi
    have hs := h.vol.slot i hi
    have hfit := h.vol.fits
    have htail := h.vol.tail
    simp only [sizeofFileHeader, sizeofFileAllocationTable] at hs
    have hlive := h.vol.live i hi
    rw [f1] at hin
    have hidx : ofInt32 (i : Int) = i := ofInt32_natCast i (by omega)
    apply mounted_replace h
      (setFileDescriptor (EEFS_LibGetFileDescriptor s).2 k
        (openedDescriptor env s T (i : Int) Flags))
      k (openedDescriptor env s T (i : Int) Flags) gtab gmem (setFD_getFD_fds s k _ hret)
    · rintro ⟨hu, _⟩
      unfold fdInUse at hu
      rw [hfree] at hu
      exact absurd hu (by decide)
    · intro _
      refine ⟨⟨rfl, ?_, ?_, ?_, ?_, ?_, ?_, ?_, ?_⟩, land_opened_mode Flags hacc⟩
      · show ofInt32 (i : Int) < _
        rw [hidx]; omega
      · show ((s.InodeTables T).File (i : Int).toNat).FileHeaderPointer
          = ((s.InodeTables T).File (ofInt32 (i : Int))).FileHeaderPointer
        rw [hidx, Int.toNat_ofNat]
      · show ((s.InodeTables T).File (i : Int).toNat).MaxFileSize
          = ((s.InodeTables T).File (ofInt32 (i : Int))).MaxFileSize
        rw [hidx, Int.toNat_ofNat]
      · exact Nat.zero_le _
      · simp only [openedDescriptor, Int.toNat_ofNat]
        rw [f1, f2]
        split_ifs
        · exact Nat.zero_le _
        · exact hlive hin
      · simp only [openedDescriptor, Int.toNat_ofNat, u32, sizeofFileHeader]
        rw [f1]
        omega
      · intro hc2
        exact absurd (land_opened_mode Flags hacc) hc2
      · intro _
        show ofInt32 (i : Int) < _
        rw [hidx]; exact hi

/-! ## Create and close on a mounted volume -/

/-- The medium after the three writes of the close of a created file: the header at the
start of the free memory, the FAT entry of the new slot and the FAT header. -/
theorem volume_after_close {env : Env} {m : Mem} {B V : Nat} (hv : VolumeOK env m B V)
    (M : Nat) (hd : EEFS_FileHeader_t) (X : EEFS_FileAllocationTableHeader_t)
    (hN : (loadFileAllocationTableHeader env m B).NumberOfFiles < EEFS_MAX_FILES)
    (hM : 64 + M ≤ (loadFileAllocationTableHeader env m B).FreeMemorySize)
    (hin : hd.InUse % 4294967296 ≠ TRUE)
    (hX1 : X.Magic = EEFS_FILESYS_MAGIC) (hX2 : X.Version = 1) (m3 : Mem)
    (hm3 : m3 = memWrite
      (memWrite
        (memWrite m (B + (loadFileAllocationTableHeader env m B).FreeMemoryOffset)
          (fileHeaderBytes env.hostLittleEndian (EEFS_SwapFileHeader hd)))
        (fatEntryAddress B (loadFileAllocationTableHeader env m B).NumberOfFiles)
        (fileAllocationTableEntryBytes env.hostLittleEndian
          (EEFS_SwapFileAllocationTableEntry
            ⟨(loadFileAllocationTableHeader env m B).FreeMemoryOffset, M⟩)))
      B
      (fileAllocationTableHeaderBytes env.hostLittleEndian
        (EEFS_SwapFileAllocationTableHeader
          { X with
            FreeMemoryOffset := (loadFileAllocationTableHeader env m B).FreeMemoryOffset + 64 + M
            FreeMemorySize := (loadFileAllocationTableHeader env m B).FreeMemorySize - (64 + M)
            NumberOfFiles := (loadFileAllocationTableHeader env m B).NumberOfFiles + 1 }))) :
    (loadFileAllocationTableHeader env m3 B).NumberOfFiles
      = (loadFileAllocationTableHeader env m B).NumberOfFiles + 1 ∧
    (loadFileAllocationTableHeader env m3 B).FreeMemoryOffset
      = (loadFileAllocationTableHeader env m B).FreeMemoryOffset + 64 + M ∧
    (loadFileAllocationTableHeader env m3 B).FreeMemorySize
      = (loadFileAllocationTableHeader env m B).FreeMemorySize - (64 + M) ∧
    (∀ i, i < (loadFileAllocationTableHeader env m B).NumberOfFiles →
      loadFileAllocationTableEntry env m3 (fatEntryAddress B i)
        = loadFileAllocationTableEntry env m (fatEntryAddress B i)) ∧
    loadFileAllocationTableEntry env m3
        (fatEntryAddress B (loadFileAllocationTableHeader env m B).NumberOfFiles)
      = ⟨(loadFileAllocationTableHeader env m B).FreeMemoryOffset, M⟩ ∧
    VolumeOK env m3 B V := by
  have hfit := hv.fits
  have htail := hv.tail
  have hfat := hv.fat
  have hslot := hv.slot
  have hapart := hv.apart
  simp only [sizeofFileHeader, sizeofFileAllocationTable] at hfat hslot hapart
  simp only [EEFS_MAX_FILES] at hN
  generalize hFMO : (loadFileAllocationTableHeader env m B).FreeMemoryOffset = FMO at *
  generalize hFMS : (loadFileAllocationTableHeader env m B).FreeMemorySize = FMS at *
  generalize hNN : (loadFileAllocationTableHeader env m B).NumberOfFiles = N at *
  have hl1 := fileHeaderBytes_length env.hostLittleEndian (EEFS_SwapFileHeader hd)
  have hl2 := fatEntryBytes_length env.hostLittleEndian
    (EEFS_SwapFileAllocationTableEntry ⟨FMO, M⟩)
  have eN : fatEntryAddress B N = B + 24 + 8 * N := rfl
  -- the FAT header
  have hH := loadFatHeader_store env
    (memWrite
        (memWrite m (B + FMO)
          (fileHeaderBytes env.hostLittleEndian (EEFS_SwapFileHeader hd)))
        (fatEntryAddress B N)
        (fileAllocationTableEntryBytes env.hostLittleEndian
          (EEFS_SwapFileAllocationTableEntry ⟨FMO, M⟩))) B
    { X with FreeMemoryOffset := FMO + 64 + M, FreeMemorySize := FMS - (64 + M),
             NumberOfFiles := N + 1 }
  rw [← hm3] at hH
  -- the FAT entries
  have hE : ∀ i, i < 64 → loadFileAllocationTableEntry env m3 (fatEntryAddress B i)
      = if i = N then ⟨FMO, M⟩ else loadFileAllocationTableEntry env m (fatEntryAddress B i) := by
    intro i hi
    have ei : fatEntryAddress B i = B + 24 + 8 * i := rfl
    rw [hm3, loadFatEntry_frame _ _ _ _ _ (by rw [ei, fatHeaderBytes_length]; right; omega)]
    split_ifs with hiN
    · subst hiN
      rw [loadFatEntry_store]
      congr 1 <;> dsimp only <;> omega
    · rw [loadFatEntry_frame _ _ _ _ _ (by rw [ei, eN, hl2]; omega),
        loadFatEntry_frame _ _ _ _ _ (by rw [ei, hl1]; left; omega)]
  -- the file headers
  have hF : ∀ p, B + 536 ≤ p → p + 64 ≤ B + FMO →
      loadFileHeader env m3 p = loadFileHeader env m p := by
    intro p hp1 hp2
    rw [hm3, loadFileHeader_frame _ _ _ _ _ (by rw [fatHeaderBytes_length]; right; omega),
      loadFileHeader_frame _ _ _ _ _ (by rw [eN, hl2]; right; omega),
      loadFileHeader_frame _ _ _ _ _ (by left; omega)]
  have hG : (loadFileHeader env m3 (B + FMO)).InUse = hd.InUse % 4294967296 := by
    rw [hm3, loadFileHeader_frame _ _ _ _ _ (by rw [fatHeaderBytes_length]; right; omega),
      loadFileHeader_frame _ _ _ _ _ (by rw [eN, hl2]; right; omega)]
    exact (loadFileHeader_store env m (B + FMO) hd).1
  have hn1 : (loadFileAllocationTableHeader env m3 B).NumberOfFiles = N + 1 := by
    rw [hH]; dsimp only; omega
  have hn2 : (loadFileAllocationTableHeader env m3 B).FreeMemoryOffset = FMO + 64 + M := by
    rw [hH]; dsimp only; omega
  have hn3 : (loadFileAllocationTableHeader env m3 B).FreeMemorySize = FMS - (64 + M) := by
    rw [hH]; dsimp only; omega
  refine ⟨hn1, hn2, hn3, ?_, ?_, ?_⟩
  · intro i hi
    rw [hE i (by omega), if_neg (by omega)]
  · rw [hE N (by omega), if_pos rfl]
  · refine ⟨hfit, ?_, ?_, ?_, ?_, ?_, ?_, ?_, ?_⟩
    · rw [hH]; dsimp only; rw [hX1]; decide
    · rw [hH]; dsimp only; rw [hX2]
    · rw [hn1]; simp only [EEFS_MAX_FILES]; omega
    · rw [hn2, hn3]; omega
    · rw [hn2]; simp only [sizeofFileAllocationTable]; omega
    · intro i hi
      rw [hn1] at hi
      rw [hn2, hE i (by omega)]
      simp only [sizeofFileHeader, sizeofFileAllocationTable]
      split_ifs with hiN
      · dsimp only; omega
      · have := hslot i (by omega); omega
    · intro i hi j hj hij
      rw [hn1] at hi hj
      rw [hE i (by omega), hE j (by omega)]
      simp only [sizeofFileHeader]
      split_ifs with hiN hjN hjN
      · omega
      · have := hslot j (by omega); dsimp only; right; omega
      · have := hslot i (by omega); dsimp only; left; omega
      · exact hapart i (by omega) j (by omega) hij
    · intro i hi
      rw [hn1] at hi
      rw [hE i (by omega)]
      split_ifs with hiN
      · dsimp only
        rw [hG]
        intro hu
        exact absurd hu hin
      · have hs := hslot i (by omega)
        rw [hF _ (by omega) (by omega)]
        exact hv.live i (by omega)

theorem land_creat_creat : Nat.land (Nat.lor EEFS_FCREAT EEFS_FWRITE) EEFS_FCREAT ≠ 0 := by
  decide

theorem createdDescriptor_mode (s : State) (T : Nat) :
    (createdDescriptor s T).Mode = Nat.lor EEFS_FCREAT EEFS_FWRITE := by
  simp only [createdDescriptor]

/-- The state after `EEFS_LibCreatFile` has added a slot and a descriptor. -/
theorem mounted_created {env : Env} {s : State} {T B V : Nat} (h : Mounted env s T B V)
    (s' : State) (k : Nat) (hk : k < EEFS_MAX_OPEN_FILES)
    (hd : EEFS_FileHeader_t) (hin : hd.InUse = TRUE)
    (hn : (s.InodeTables T).NumberOfFiles < EEFS_MAX_FILES)
    (hoc : EEFS_LibHasOpenCreat s T = false)
    (hroom : (s.InodeTables T).FreeMemorySize > sizeofFileHeader)
    (hmem : s'.mem = memWrite s.mem (s.InodeTables T).FreeMemoryPointer
      (fileHeaderBytes env.hostLittleEndian hd))
    (htab : s'.InodeTables T = createdTable (s.InodeTables T))
    (hfd : s'.EEFS_FileDescriptorTable
      = Function.update s.EEFS_FileDescriptorTable k (createdDescriptor s T)) :
    Mounted env s' T B V := by
  have hN := h.idle hoc
  have hkept : MediumKept env B s.mem s'.mem := by
    rw [hmem, h.fmp]; exact kept_free_header_write h.vol hd hin
  have hoc' : EEFS_LibHasOpenCreat s' T = true := by
    refine (hasOpenCreat_true_iff s' T).2 ⟨k, hk, ?_, ?_, ?_⟩
    · unfold fdInUse; rw [hfd, Function.update_same]; rfl
    · rw [hfd, Function.update_same]; rfl
    · rw [hfd, Function.update_same, createdDescriptor_mode]; exact land_creat_creat
  have hfit := h.vol.fits
  have htail := h.vol.tail
  have hfat := h.vol.fat
  have hfmp := h.fmp
  have hfms := h.fms
  simp only [sizeofFileHeader, sizeofFileAllocationTable, EEFS_MAX_FILES] at hfat hroom hn
  refine ⟨volumeOK_kept h.vol hkept, h.table, ?_, ?_, ?_, ?_, ?_, ?_, ?_, ?_⟩
  · rw [htab]; exact h.base
  · rw [htab, hkept.header]; exact h.fmp
  · rw [htab, hkept.header]; exact h.fms
  · intro i hi
    rw [hkept.header] at hi
    rw [htab, hkept.entries i (by simp only [EEFS_MAX_FILES]; omega)]
    have : (createdTable (s.InodeTables T)).File i = (s.InodeTables T).File i := by
      simp only [createdTable]
      rw [Function.update_noteq (by omega)]
    rw [this]
    exact h.files i hi
  · intro hf
    rw [hoc'] at hf
    exact absurd hf (by decide)
  · intro _
    rw [htab, hkept.header]
    refine ⟨?_, ?_, ?_, ?_, ?_, ?_⟩
    · show u32 ((s.InodeTables T).NumberOfFiles + 1) = _
      simp only [u32]; omega
    · simp only [EEFS_MAX_FILES]; omega
    · simp only [createdTable]
      rw [← hN, Function.update_same]
    · simp only [createdTable]
      rw [← hN, Function.update_same]
      simp only [u32sub, sizeofFileHeader]
      omega
    · simp only [createdTable, sizeofFileHeader]; omega
    · rw [hmem]
      show (loadFileHeader env _ (s.InodeTables T).FreeMemoryPointer).InUse ≠ TRUE
      rw [loadFileHeader_raw_InUse, hin]
      decide
  · intro k' hk' hu' hT'
    rw [htab, hkept.header]
    unfold fdInUse at hu'
    rw [hfd] at hu' hT' ⊢
    by_cases hkk : k' = k
    · subst hkk
      rw [Function.update_same]
      refine ⟨rfl, ?_, ?_, ?_, ?_, ?_, ?_, ?_, ?_⟩
      · show (s.InodeTables T).NumberOfFiles < u32 ((s.InodeTables T).NumberOfFiles + 1)
        simp only [u32]; omega
      · simp only [createdDescriptor, createdTable, Function.update_same]
      · simp only [createdDescriptor, createdTable, Function.update_same]
      · exact Nat.le_refl _
      · exact Nat.zero_le _
      · simp only [createdDescriptor, u32, sizeofFileHeader]
        omega
      · intro _
        rw [createdDescriptor_mode]
        exact ⟨hN, land_creat_write⟩
      · intro hc
        rw [createdDescriptor_mode] at hc
        exact absurd hc land_creat_creat
    · rw [Function.update_noteq hkk] at hu' hT' ⊢
      have hd' := h.fds k' hk' hu' hT'
      have hpl := hasOpenCreat_false s T hoc k' hk' hu' hd'.table
      have hidx := hd'.plain hpl
      have hfile : (createdTable (s.InodeTables T)).File
          (s.EEFS_FileDescriptorTable k').InodeIndex
          = (s.InodeTables T).File (s.EEFS_FileDescriptorTable k').InodeIndex := by
        simp only [createdTable]
        rw [Function.update_noteq (by omega)]
      refine ⟨hd'.table, ?_, ?_, ?_, hd'.offset, hd'.size, hd'.data, ?_, fun _ => hidx⟩
      · show _ < u32 ((s.InodeTables T).NumberOfFiles + 1)
        simp only [u32]; omega
      · rw [hfile]; exact hd'.header
      · rw [hfile]; exact hd'.max
      · intro hc; exact absurd hpl hc
  · intro j hj k' hk' huj huk hTj hTk hcj hck
    unfold fdInUse at huj huk
    rw [hfd] at huj huk hTj hTk hcj hck
    by_cases hjk : j = k
    · by_cases hkk : k' = k
      · rw [hjk, hkk]
      · rw [Function.update_noteq hkk] at huk hTk hck
        exact absurd (hasOpenCreat_false s T hoc k' hk' huk hTk) hck
    · rw [Function.update_noteq hjk] at huj hTj hcj
      exact absurd (hasOpenCreat_false s T hoc j hj huj hTj) hcj

theorem mounted_creatFile {env : Env} {s : State} {T B V : Nat} (h : Mounted env s T B V)
    (f : List Nat) (A : Nat) : Mounted env (EEFS_LibCreatFile env s T f A).2 T B V := by
  rcases creatFile_cases env s T f A with ⟨h1, _⟩ |
    ⟨k, hk, hfree, hret, _, _, hn, hoc, hroom, _, h1⟩
  · rw [h1]; exact h
  · rw [h1]
    obtain ⟨_, _, gfd, gtab, gmem, _, _⟩ := getFD_of_ret s k hret
    apply mounted_created h _ k hk (createdHeader env f A) rfl hn hoc hroom
    · show memWrite (EEFS_LibGetFileDescriptor s).2.mem _ _ = _
      rw [gmem]
    · show Function.update (EEFS_LibGetFileDescriptor s).2.InodeTables T _ T = _
      rw [Function.update_same]
    · show Function.update (EEFS_LibGetFileDescriptor s).2.EEFS_FileDescriptorTable k _ = _
      rw [gfd, Function.update_idem]

theorem mounted_open {env : Env} {s : State} {T B V : Nat} (h : Mounted env s T B V)
    (f : Option (List Nat)) (Flags A : Nat)
    (hacc : Nat.land Flags O_ACCMODE ≠ Nat.lor O_WRONLY O_RDWR) :
    Mounted env (EEFS_LibOpen env s T f Flags A).2 T B V := by
  unfold EEFS_LibOpen
  simp only []
  split_ifs with h1 h2 h3 h4 <;> first | exact h | skip
  · obtain ⟨i, hi, e, hin⟩ := findFile_slot h _ h3
    rw [e]
    exact mounted_openFile h i hi hin Flags A hacc
  · exact mounted_creatFile h _ _

theorem mounted_creat {env : Env} {s : State} {T B V : Nat} (h : Mounted env s T B V)
    (f : Option (List Nat)) (A : Nat) :
    Mounted env (EEFS_LibCreat env s T f A).2 T B V := by
  unfold EEFS_LibCreat
  simp only []
  split_ifs with h1 h2 h3 <;> first | exact h | skip
  · obtain ⟨i, hi, e, hin⟩ := findFile_slot h _ h3
    rw [e]
    exact mounted_openFile h i hi hin _ A (by decide)
  · exact mounted_creatFile h _ _

theorem freed_mem (s : State) (k : Nat) : (freedDescriptor s k).mem = s.mem := by
  unfold freedDescriptor
  rfl

theorem freed_tables (s : State) (k : Nat) :
    (freedDescriptor s k).InodeTables = s.InodeTables := by
  unfold freedDescriptor
  rfl

theorem freed_fds (s : State) (k : Nat) :
    (freedDescriptor s k).EEFS_FileDescriptorTable
      = Function.update s.EEFS_FileDescriptorTable k zeroFileDescriptor := by
  unfold freedDescriptor
  rfl

theorem mounted_free {env : Env} {s : State} {T B V : Nat} (h : Mounted env s T B V)
    (k : Nat) (hpl : Nat.land (s.EEFS_FileDescriptorTable k).Mode EEFS_FCREAT = 0) :
    Mounted env (freedDescriptor s k) T B V := by
  apply mounted_replace h (freedDescriptor s k) k zeroFileDescriptor
  · exact freed_tables s k
  · exact freed_mem s k
  · exact freed_fds s k
  · exact fun ⟨_, _, c⟩ => c hpl
  · exact fun hz => absurd hz (by decide)

theorem mounted_closeWrite {env : Env} {s : State} {T B V : Nat} (h : Mounted env s T B V)
    (k : Nat) (hk : k < EEFS_MAX_OPEN_FILES) (hu : fdInUse s k)
    (hT : (s.EEFS_FileDescriptorTable k).InodeTable = T)
    (hpl : Nat.land (s.EEFS_FileDescriptorTable k).Mode EEFS_FCREAT = 0) :
    Mounted env (closeWrite env s k) T B V := by
  rcases descriptor_slot h k hk hu hT with ⟨_, hi, e1, e2⟩ | ⟨hc, _⟩
  · unfold closeWrite
    simp only []
    rw [e1]
    apply mounted_header_write h _ hi
    intro _
    dsimp only
    have := (h.fds k hk hu hT).size
    have hmod := Nat.mod_le (s.EEFS_FileDescriptorTable k).FileSize 4294967296
    omega
  · exact absurd hpl hc


/-- The inode table and the medium after the close of the descriptor of a created file,
`M` being `closeCreatMaxFileSize`: the slot is cut to `M` bytes, the free memory starts
`64 + M` bytes further on, and the FAT entry of the slot and the FAT header are
written. -/
theorem closeCreat_effect {env : Env} {s : State} {T B V : Nat} (h : Mounted env s T B V)
    (k : Nat) (hk : k < EEFS_MAX_OPEN_FILES) (hu : fdInUse s k)
    (hT : (s.EEFS_FileDescriptorTable k).InodeTable = T)
    (hc : Nat.land (s.EEFS_FileDescriptorTable k).Mode EEFS_FCREAT ≠ 0) :
    64 + closeCreatMaxFileSize s k
      ≤ (loadFileAllocationTableHeader env s.mem B).FreeMemorySize ∧
    (closeCreatTable s k).BaseAddress = B ∧
    ((closeCreatTable s k).File
      (loadFileAllocationTableHeader env s.mem B).NumberOfFiles).FileHeaderPointer
      = B + (loadFileAllocationTableHeader env s.mem B).FreeMemoryOffset ∧
    ((closeCreatTable s k).File
      (loadFileAllocationTableHeader env s.mem B).NumberOfFiles).MaxFileSize
      = closeCreatMaxFileSize s k ∧
    (closeCreatTable s k).FreeMemoryPointer
      = B + ((loadFileAllocationTableHeader env s.mem B).FreeMemoryOffset + 64
        + closeCreatMaxFileSize s k) ∧
    (closeCreatTable s k).FreeMemorySize
      = (loadFileAllocationTableHeader env s.mem B).FreeMemorySize
        - (64 + closeCreatMaxFileSize s k) ∧
    (closeCreatTable s k).NumberOfFiles
      = (loadFileAllocationTableHeader env s.mem B).NumberOfFiles + 1 ∧
    (∀ i, i < (loadFileAllocationTableHeader env s.mem B).NumberOfFiles →
      (closeCreatTable s k).File i = (s.InodeTables T).File i) ∧
    (freedDescriptor (closeCreat env s k) k).InodeTables T = closeCreatTable s k ∧
    (loadFileAllocationTableHeader env (freedDescriptor (closeCreat env s k) k).mem
        B).NumberOfFiles
      = (loadFileAllocationTableHeader env s.mem B).NumberOfFiles + 1 ∧
    (loadFileAllocationTableHeader env (freedDescriptor (closeCreat env s k) k).mem
        B).FreeMemoryOffset
      = (loadFileAllocationTableHeader env s.mem B).FreeMemoryOffset + 64
        + closeCreatMaxFileSize s k ∧
    (loadFileAllocationTableHeader env (freedDescriptor (closeCreat env s k) k).mem
        B).FreeMemorySize
      = (loadFileAllocationTableHeader env s.mem B).FreeMemorySize
        - (64 + closeCreatMaxFileSize s k) ∧
    (∀ i, i < (loadFileAllocationTableHeader env s.mem B).NumberOfFiles →
      loadFileAllocationTableEntry env (freedDescriptor (closeCreat env s k) k).mem
          (fatEntryAddress B i)
        = loadFileAllocationTableEntry env s.mem (fatEntryAddress B i)) ∧
    loadFileAllocationTableEntry env (freedDescriptor (closeCreat env s k) k).mem
        (fatEntryAddress B (loadFileAllocationTableHeader env s.mem B).NumberOfFiles)
      = ⟨(loadFileAllocationTableHeader env s.mem B).FreeMemoryOffset,
          closeCreatMaxFileSize s k⟩ ∧
    VolumeOK env (freedDescriptor (closeCreat env s k) k).mem B V := by
  have hd := h.fds k hk hu hT
  rcases descriptor_slot h k hk hu hT with ⟨hp, _⟩ | ⟨_, hidx, hfhp, hmax, hroom, hoc⟩
  · exact absurd hp hc
  obtain ⟨c1, c2, c3, c4, c5, c6⟩ := h.creating hoc
  have hfit := h.vol.fits
  have htail := h.vol.tail
  have hfat := h.vol.fat
  have hbase := h.base
  have hfmp := h.fmp
  have hfms := h.fms
  simp only [sizeofFileAllocationTable, sizeofFileHeader] at hfat c4 c5
  have hM : 64 + closeCreatMaxFileSize s k
      ≤ (loadFileAllocationTableHeader env s.mem B).FreeMemorySize := by
    have : closeCreatMaxFileSize s k
        ≤ (loadFileAllocationTableHeader env s.mem B).FreeMemorySize - 64 := by
      unfold closeCreatMaxFileSize EEFS_MIN
      rw [hT, hfms]
      simp only [u32sub, sizeofFileHeader]
      split_ifs <;> omega
    omega
  -- the inode table after the close
  have e1 : (closeCreatTable s k).BaseAddress = B := by
    unfold closeCreatTable; rw [hT]; exact hbase
  have e2 : ((closeCreatTable s k).File
      (loadFileAllocationTableHeader env s.mem B).NumberOfFiles).FileHeaderPointer
      = B + (loadFileAllocationTableHeader env s.mem B).FreeMemoryOffset := by
    unfold closeCreatTable
    rw [hT, hidx]
    simp only [Function.update_same]
    rw [c3, hfmp]
  have e3 : ((closeCreatTable s k).File
      (loadFileAllocationTableHeader env s.mem B).NumberOfFiles).MaxFileSize
      = closeCreatMaxFileSize s k := by
    unfold closeCreatTable
    rw [hT, hidx]
    simp only [Function.update_same]
  have e4 : (closeCreatTable s k).FreeMemoryPointer
      = B + ((loadFileAllocationTableHeader env s.mem B).FreeMemoryOffset + 64
        + closeCreatMaxFileSize s k) := by
    unfold closeCreatTable
    rw [hT]
    simp only [u32, sizeofFileHeader]
    rw [hfmp]
    omega
  have e5 : (closeCreatTable s k).FreeMemorySize
      = (loadFileAllocationTableHeader env s.mem B).FreeMemorySize
        - (64 + closeCreatMaxFileSize s k) := by
    unfold closeCreatTable
    rw [hT]
    simp only [u32, u32sub, sizeofFileHeader]
    rw [hfms]
    omega
  have e6 : (closeCreatTable s k).NumberOfFiles
      = (loadFileAllocationTableHeader env s.mem B).NumberOfFiles + 1 := by
    unfold closeCreatTable; rw [hT]; exact c1
  have e7 : ∀ i, i < (loadFileAllocationTableHeader env s.mem B).NumberOfFiles →
      (closeCreatTable s k).File i = (s.InodeTables T).File i := by
    intro i hi
    unfold closeCreatTable
    rw [hT, hidx]
    simp only []
    rw [Function.update_noteq (by omega)]
  have eu1 : u32sub (B + (loadFileAllocationTableHeader env s.mem B).FreeMemoryOffset) B
      = (loadFileAllocationTableHeader env s.mem B).FreeMemoryOffset := by
    simp only [u32sub]; omega
  have eu2 : u32sub (B + ((loadFileAllocationTableHeader env s.mem B).FreeMemoryOffset + 64
        + closeCreatMaxFileSize s k)) B
      = (loadFileAllocationTableHeader env s.mem B).FreeMemoryOffset + 64
        + closeCreatMaxFileSize s k := by
    simp only [u32sub]; omega
  -- the medium after the close
  have hmem : (freedDescriptor (closeCreat env s k) k).mem = memWrite
      (memWrite
        (memWrite s.mem (B + (loadFileAllocationTableHeader env s.mem B).FreeMemoryOffset)
          (fileHeaderBytes env.hostLittleEndian
            (EEFS_SwapFileHeader (closeCreatHeader env s k))))
        (fatEntryAddress B (loadFileAllocationTableHeader env s.mem B).NumberOfFiles)
        (fileAllocationTableEntryBytes env.hostLittleEndian
          (EEFS_SwapFileAllocationTableEntry
            ⟨(loadFileAllocationTableHeader env s.mem B).FreeMemoryOffset,
              closeCreatMaxFileSize s k⟩)))
      B
      (fileAllocationTableHeaderBytes env.hostLittleEndian
        (EEFS_SwapFileAllocationTableHeader
          { loadFileAllocationTableHeader env (closeCreatMem2 env s k) B with
            FreeMemoryOffset :=
              (loadFileAllocationTableHeader env s.mem B).FreeMemoryOffset + 64
                + closeCreatMaxFileSize s k
            FreeMemorySize := (loadFileAllocationTableHeader env s.mem B).FreeMemorySize
              - (64 + closeCreatMaxFileSize s k)
            NumberOfFiles := (loadFileAllocationTableHeader env s.mem B).NumberOfFiles
              + 1 })) := by
    have hm2 : closeCreatMem2 env s k = memWrite
        (memWrite s.mem (B + (loadFileAllocationTableHeader env s.mem B).FreeMemoryOffset)
          (fileHeaderBytes env.hostLittleEndian
            (EEFS_SwapFileHeader (closeCreatHeader env s k))))
        (fatEntryAddress B (loadFileAllocationTableHeader env s.mem B).NumberOfFiles)
        (fileAllocationTableEntryBytes env.hostLittleEndian
          (EEFS_SwapFileAllocationTableEntry
            ⟨(loadFileAllocationTableHeader env s.mem B).FreeMemoryOffset,
              closeCreatMaxFileSize s k⟩)) := by
      simp only [closeCreatMem2, closeCreatEntry, e1, hidx, e2, e3, hfhp, eu1]
    rw [freed_mem, closeCreat_eq]
    simp only [closeCreatFatHeader, e1, e4, e5, e6, eu2]
    conv_lhs => arg 1; rw [hm2]
  -- the FAT header before the last write
  have hl1 := fileHeaderBytes_length env.hostLittleEndian
    (EEFS_SwapFileHeader (closeCreatHeader env s k))
  have hX : loadFileAllocationTableHeader env (closeCreatMem2 env s k) B
      = loadFileAllocationTableHeader env s.mem B := by
    simp only [closeCreatMem2, e1, hidx, hfhp]
    rw [loadFatHeader_frame _ _ _ _ _ (by
        have : fatEntryAddress B (loadFileAllocationTableHeader env s.mem B).NumberOfFiles
          = B + 24 + 8 * (loadFileAllocationTableHeader env s.mem B).NumberOfFiles := rfl
        rw [this]; left; omega),
      loadFatHeader_frame _ _ _ _ _ (by left; omega)]
  have hin : (closeCreatHeader env s k).InUse % 4294967296 ≠ TRUE := by
    show (loadFileHeader env s.mem (s.EEFS_FileDescriptorTable k).FileHeaderPointer).InUse
      % 4294967296 ≠ TRUE
    rw [hfhp, ← hfmp]
    have := (loadFileHeader_lt env s.mem (s.InodeTables T).FreeMemoryPointer).1
    intro hc2
    apply c6
    omega
  obtain ⟨n1, n2, n3, n4, n5, hvol⟩ := volume_after_close h.vol (closeCreatMaxFileSize s k)
    (closeCreatHeader env s k) (loadFileAllocationTableHeader env (closeCreatMem2 env s k) B)
    c2 hM hin (by rw [hX]; exact h.vol.magic) (by rw [hX]; exact h.vol.version) _ hmem
  have htab : (freedDescriptor (closeCreat env s k) k).InodeTables T
      = closeCreatTable s k := by
    rw [freed_tables, closeCreat_eq]
    simp only []
    rw [hT, Function.update_same]
  exact ⟨hM, e1, e2, e3, e4, e5, e6, e7, htab, n1, n2, n3, n4, n5, hvol⟩

/-- The close of the descriptor of a created file: the new slot becomes a slot of the
FAT. -/
theorem mounted_closeCreat {env : Env} {s : State} {T B V : Nat} (h : Mounted env s T B V)
    (k : Nat) (hk : k < EEFS_MAX_OPEN_FILES) (hu : fdInUse s k)
    (hT : (s.EEFS_FileDescriptorTable k).InodeTable = T)
    (hc : Nat.land (s.EEFS_FileDescriptorTable k).Mode EEFS_FCREAT ≠ 0) :
    Mounted env (freedDescriptor (closeCreat env s k) k) T B V := by
  obtain ⟨hM, e1, e2, e3, e4, e5, e6, e7, htab, n1, n2, n3, n4, n5, hvol⟩ :=
    closeCreat_effect h k hk hu hT hc
  have hd := h.fds k hk hu hT
  have hfd : (freedDescriptor (closeCreat env s k) k).EEFS_FileDescriptorTable
      = Function.update s.EEFS_FileDescriptorTable k zeroFileDescriptor := by
    rw [freed_fds, closeCreat_fds]
  -- the other descriptors of `T` have not `EEFS_FCREAT`
  have hplain : ∀ k', k' < EEFS_MAX_OPEN_FILES → k' ≠ k → fdInUse s k' →
      (s.EEFS_FileDescriptorTable k').InodeTable = T →
      Nat.land (s.EEFS_FileDescriptorTable k').Mode EEFS_FCREAT = 0 := by
    intro k' hk' hkk hu' hT'
    by_contra hc'
    exact hkk (h.single k hk k' hk' hu hu' hT hT' hc hc').symm
  have hoc' : EEFS_LibHasOpenCreat (freedDescriptor (closeCreat env s k) k) T = false := by
    by_contra hne
    have ht : EEFS_LibHasOpenCreat (freedDescriptor (closeCreat env s k) k) T = true := by
      simpa using hne
    obtain ⟨k', hk', hu', hT', hc'⟩ := (hasOpenCreat_true_iff _ T).1 ht
    unfold fdInUse at hu'
    rw [hfd] at hu' hT' hc'
    by_cases hkk : k' = k
    · subst hkk
      rw [Function.update_same] at hu'
      exact absurd hu' (by decide)
    · rw [Function.update_noteq hkk] at hu' hT' hc'
      exact hc' (hplain k' hk' hkk hu' hT')
  refine ⟨hvol, h.table, ?_, ?_, ?_, ?_, ?_, ?_, ?_, ?_⟩
  · rw [htab]; exact e1
  · rw [htab, e4, n2]
  · rw [htab, e5, n3]
  · intro i hi
    rw [n1] at hi
    rw [htab]
    by_cases hiN : i = (loadFileAllocationTableHeader env s.mem B).NumberOfFiles
    · subst hiN
      rw [e2, e3, n5]
      simp only [and_self]
    · rw [e7 i (by omega), n4 i (by omega)]
      exact h.files i (by omega)
  · intro _
    rw [htab, e6, n1]
  · intro ht
    rw [hoc'] at ht
    exact absurd ht (by decide)
  · intro k' hk' hu' hT'
    unfold fdInUse at hu'
    rw [hfd] at hu' hT' ⊢
    by_cases hkk : k' = k
    · subst hkk
      rw [Function.update_same] at hu'
      exact absurd hu' (by decide)
    · rw [Function.update_noteq hkk] at hu' hT' ⊢
      have hd' := h.fds k' hk' hu' hT'
      have hpl := hplain k' hk' hkk hu' hT'
      have hi' := hd'.plain hpl
      rw [htab, n1]
      refine ⟨hd'.table, ?_, ?_, ?_, hd'.offset, hd'.size, hd'.data, ?_, ?_⟩
      · rw [e6]; omega
      · rw [e7 _ hi']; exact hd'.header
      · rw [e7 _ hi']; exact hd'.max
      · intro hc'; exact absurd hpl hc'
      · intro _; omega
  · intro j hj k' hk' huj _ hTj _ hcj _
    exact absurd (hasOpenCreat_false _ T hoc' j hj huj hTj) hcj

theorem mounted_close {env : Env} {s : State} {T B V : Nat} (h : Mounted env s T B V)
    (fd : Int) (hon : onTable s T fd) : Mounted env (EEFS_LibClose env s fd).2 T B V := by
  rw [close_eq]
  split_ifs with hv
  · obtain ⟨h0, h1, hu⟩ := (isValid_iff s fd).1 hv
    have hk : fd.toNat < EEFS_MAX_OPEN_FILES := by
      simp only [EEFS_MAX_OPEN_FILES] at h1 ⊢; omega
    show Mounted env (freedDescriptor (closeBody env s fd.toNat) fd.toNat) T B V
    unfold closeBody
    split_ifs with hc hw
    · exact mounted_closeCreat h _ hk hu (hon hv) hc
    · exact mounted_free (mounted_closeWrite h _ hk hu (hon hv) (not_not.1 hc)) _
        (not_not.1 hc)
    · exact mounted_free h _ (not_not.1 hc)
  · exact h

/-! ## Sessions on a mounted volume -/

/-- The invariant depends on the environment through the byte order of the host only. -/
theorem mounted_env {env env' : Env} {s : State} {T B V : Nat}
    (he : env'.hostLittleEndian = env.hostLittleEndian) (h : Mounted env s T B V) :
    Mounted env' s T B V := by
  obtain ⟨le, wp, tm⟩ := env
  obtain ⟨le', wp', tm'⟩ := env'
  simp only at he
  subst he
  have v := h.vol
  exact ⟨⟨v.fits, v.magic, v.version, v.count, v.tail, v.fat, v.slot, v.apart, v.live⟩,
    h.table, h.base, h.fmp, h.fms, h.files, h.idle, h.creating, h.fds, h.single⟩

theorem initFS_eq {env : Env} {s : State} {B V : Nat} (hv : VolumeOK env s.mem B V)
    (T : Nat) (hT : T ≠ 0) :
    EEFS_LibInitFS env s T B = (EEFS_SUCCESS, setInodeTable s T
      { BaseAddress := B
        FreeMemoryPointer := u32 (B + (loadFileAllocationTableHeader env s.mem B).FreeMemoryOffset)
        FreeMemorySize := (loadFileAllocationTableHeader env s.mem B).FreeMemorySize
        NumberOfFiles := (loadFileAllocationTableHeader env s.mem B).NumberOfFiles
        File := (List.range (loadFileAllocationTableHeader env s.mem B).NumberOfFiles).foldl
          (initFSEntry env s.mem B) (fun _ => zeroInodeTableEntry) }) := by
  unfold EEFS_LibInitFS
  simp only []
  rw [if_pos hT, if_pos ⟨hv.magic, hv.version, hv.count⟩]

theorem init_not_inUse (s : State) (k : Nat) : ¬ fdInUse (EEFS_LibInit s) k := by
  unfold fdInUse EEFS_LibInit
  simp only []
  decide

/-- A table that holds the decoded FAT of a well-formed volume, while no descriptor with
`EEFS_FCREAT` is open on it and its descriptors lie on its slots, is a mount of the
volume. -/
theorem mounted_decoded {env : Env} {s : State} {T B V : Nat} (hv : VolumeOK env s.mem B V)
    (hT : T ≠ 0) (hoc : EEFS_LibHasOpenCreat s T = false)
    (hb : (s.InodeTables T).BaseAddress = B)
    (hp : (s.InodeTables T).FreeMemoryPointer
      = u32 (B + (loadFileAllocationTableHeader env s.mem B).FreeMemoryOffset))
    (hs : (s.InodeTables T).FreeMemorySize
      = (loadFileAllocationTableHeader env s.mem B).FreeMemorySize)
    (hn : (s.InodeTables T).NumberOfFiles
      = (loadFileAllocationTableHeader env s.mem B).NumberOfFiles)
    (hf : ∀ i, i < (loadFileAllocationTableHeader env s.mem B).NumberOfFiles →
      (s.InodeTables T).File i =
        { FileHeaderPointer := u32 (B + (loadFileAllocationTableEntry env s.mem
            (fatEntryAddress B i)).FileHeaderOffset)
          MaxFileSize := (loadFileAllocationTableEntry env s.mem
            (fatEntryAddress B i)).MaxFileSize })
    (hfds : ∀ k, k < EEFS_MAX_OPEN_FILES → fdInUse s k →
      (s.EEFS_FileDescriptorTable k).InodeTable = T →
      DescriptorOK T (s.InodeTables T)
        (loadFileAllocationTableHeader env s.mem B).NumberOfFiles
        (s.EEFS_FileDescriptorTable k)) :
    Mounted env s T B V := by
  have hfit := hv.fits
  have htail := hv.tail
  refine ⟨hv, hT, hb, ?_, hs, ?_, fun _ => hn, ?_, hfds, ?_⟩
  · rw [hp]; simp only [u32]; omega
  · intro i hi
    have hsl := hv.slot i hi
    simp only [sizeofFileHeader] at hsl
    rw [hf i hi]
    simp only [u32, and_true]
    omega
  · intro ht
    rw [hoc] at ht
    exact absurd ht (by decide)
  · intro j hj k _ huj _ hTj _ hcj _
    exact absurd (hasOpenCreat_false s T hoc j hj huj hTj) hcj

theorem hasOpenCreat_of_idle (s : State) (T : Nat) (h : EEFS_LibHasOpenFiles s T = false) :
    EEFS_LibHasOpenCreat s T = false := by
  by_contra hne
  have ht : EEFS_LibHasOpenCreat s T = true := by simpa using hne
  obtain ⟨k, hk, hu, hT, _⟩ := (hasOpenCreat_true_iff s T).1 ht
  exact hasOpenFiles_false s T h k hk hu hT

/-- `EEFS_LibInitFS` on a well-formed volume, no descriptor of the table being in use,
mounts it. -/
theorem mounted_initFS {env : Env} {s : State} {T B V : Nat} (hv : VolumeOK env s.mem B V)
    (hT : T ≠ 0) (hidle : EEFS_LibHasOpenFiles s T = false) :
    Mounted env (EEFS_LibInitFS env s T B).2 T B V := by
  rw [initFS_eq hv T hT]
  apply @mounted_decoded env _ T B V
  · exact hv
  · exact hT
  · exact hasOpenCreat_of_idle s T hidle
  · simp only [setInodeTable, Function.update_same]
  · simp only [setInodeTable, Function.update_same]
  · simp only [setInodeTable, Function.update_same]
  · simp only [setInodeTable, Function.update_same]
  · intro i hi
    have hi' : i < (loadFileAllocationTableHeader env s.mem B).NumberOfFiles := hi
    simp only [setInodeTable, Function.update_same]
    rw [initFS_file, if_pos hi']
  · intro k hk hu hT'
    exact absurd hT' (hasOpenFiles_false s T hidle k hk hu)

/-- A remount of the table at the same base address, while no descriptor with
`EEFS_FCREAT` is open on it, keeps the mount. -/
theorem mounted_remount {env : Env} {s : State} {T B V : Nat} (h : Mounted env s T B V)
    (hoc : EEFS_LibHasOpenCreat s T = false) :
    Mounted env (EEFS_LibInitFS env s T B).2 T B V := by
  have hfit := h.vol.fits
  have htail := h.vol.tail
  rw [initFS_eq h.vol T h.table]
  apply @mounted_decoded env _ T B V
  · exact h.vol
  · exact h.table
  · exact hoc
  · simp only [setInodeTable, Function.update_same]
  · simp only [setInodeTable, Function.update_same]
  · simp only [setInodeTable, Function.update_same]
  · simp only [setInodeTable, Function.update_same]
  · intro i hi
    have hi' : i < (loadFileAllocationTableHeader env s.mem B).NumberOfFiles := hi
    simp only [setInodeTable, Function.update_same]
    rw [initFS_file, if_pos hi']
  · intro k hk hu hT'
    have hu0 : fdInUse s k := hu
    have hT0 : (s.EEFS_FileDescriptorTable k).InodeTable = T := hT'
    have hd := h.fds k hk hu0 hT0
    have hidx := hd.plain (hasOpenCreat_false s T hoc k hk hu0 hT0)
    obtain ⟨f1, f2⟩ := h.files _ hidx
    have hsl := h.vol.slot _ hidx
    simp only [sizeofFileHeader] at hsl
    show DescriptorOK T _ (loadFileAllocationTableHeader env s.mem B).NumberOfFiles
      (s.EEFS_FileDescriptorTable k)
    simp only [setInodeTable, Function.update_same]
    refine ⟨hd.table, hidx, ?_, ?_, hd.offset, hd.size, hd.data, hd.creat, hd.plain⟩
    · dsimp only
      rw [initFS_file, if_pos hidx, hd.header, f1]
      simp only [u32]
      omega
    · dsimp only
      rw [initFS_file, if_pos hidx, hd.max, f2]

/-- `EEFS_LibInit`, while no descriptor with `EEFS_FCREAT` is open on the table, keeps
the mount. -/
theorem mounted_init {env : Env} {s : State} {T B V : Nat} (h : Mounted env s T B V)
    (hoc : EEFS_LibHasOpenCreat s T = false) : Mounted env (EEFS_LibInit s) T B V := by
  refine ⟨h.vol, h.table, h.base, h.fmp, h.fms, h.files, fun _ => h.idle hoc, ?_, ?_, ?_⟩
  · intro ht
    obtain ⟨k, _, hu, _⟩ := (hasOpenCreat_true_iff _ T).1 ht
    exact absurd hu (init_not_inUse s k)
  · intro k _ hu
    exact absurd hu (init_not_inUse s k)
  · intro j _ k _ hu
    exact absurd hu (init_not_inUse s j)

theorem freeFS_refused (s : State) (T : Nat) (h : (EEFS_LibFreeFS s T).1 ≠ EEFS_SUCCESS) :
    (EEFS_LibFreeFS s T).2 = s := by
  unfold EEFS_LibFreeFS at h ⊢
  split_ifs at h ⊢ with h1 h2
  · exact absurd rfl h
  · rfl
  · rfl

/-- Every call of the session on the mounted table keeps the invariant. -/
theorem mounted_call {env : Env} {s : State} {T B V : Nat} (h : Mounted env s T B V)
    (c : Call) (hc : mountedCall T B s c) : Mounted env (c.run env s) T B V := by
  cases c with
  | LibInit => exact mounted_init h hc
  | LibInitFS t b =>
    obtain ⟨ht, hb, hoc⟩ := hc
    subst ht
    subst hb
    exact mounted_remount h hoc
  | LibFreeFS t =>
    obtain ⟨ht, hr⟩ := hc
    subst ht
    show Mounted env (EEFS_LibFreeFS s t).2 t B V
    rw [freeFS_refused s t hr]
    exact h
  | LibOpen t f fl a =>
    obtain ⟨ht, hacc⟩ := hc
    subst ht
    exact mounted_open h f fl a hacc
  | LibCreat t f a =>
    have ht : t = T := hc
    subst ht
    exact mounted_creat h f a
  | LibClose fd => exact mounted_close h fd hc
  | LibRead fd b l => exact mounted_read h fd b l hc
  | LibWrite fd b l => exact mounted_write h fd b l hc
  | LibLSeek fd o w => exact mounted_lseek h fd o w hc.2 hc.1
  | LibRemove t f =>
    have ht : t = T := hc
    subst ht
    exact mounted_remove h f
  | LibRename t f g =>
    have ht : t = T := hc
    subst ht
    exact mounted_rename h f g
  | LibStat t f b => exact h
  | LibFstat fd b => exact h
  | LibSetFileAttributes t f a =>
    have ht : t = T := hc
    subst ht
    exact mounted_setFileAttributes h f a
  | LibOpenDir t => exact mounted_openDir h t
  | LibReadDir d => exact mounted_readDir h d
  | LibCloseDir d => exact mounted_closeDir h d

/-! ### Calls on other inode tables -/

theorem loadU32_agree (le : Bool) (m m2 : Mem) (a : Nat)
    (h : ∀ j, j < 4 → m2 (a + j) = m (a + j)) : loadU32 le m2 a = loadU32 le m a := by
  have h0 := h 0 (by omega)
  have h1 := h 1 (by omega)
  have h2 := h 2 (by omega)
  have h3 := h 3 (by omega)
  simp only [Nat.add_zero] at h0
  unfold loadU32
  rw [h0, h1, h2, h3]

theorem loadFatHeader_agree (env : Env) (m m2 : Mem) (p : Nat)
    (h : ∀ a, p ≤ a → a < p + 24 → m2 a = m a) :
    loadFileAllocationTableHeader env m2 p = loadFileAllocationTableHeader env m p := by
  unfold loadFileAllocationTableHeader readFileAllocationTableHeader
  rw [loadU32_agree _ m m2 p (fun j hj => h _ (by omega) (by omega)),
    loadU32_agree _ m m2 (p + 4) (fun j hj => h _ (by omega) (by omega)),
    loadU32_agree _ m m2 (p + 8) (fun j hj => h _ (by omega) (by omega)),
    loadU32_agree _ m m2 (p + 12) (fun j hj => h _ (by omega) (by omega)),
    loadU32_agree _ m m2 (p + 16) (fun j hj => h _ (by omega) (by omega)),
    loadU32_agree _ m m2 (p + 20) (fun j hj => h _ (by omega) (by omega))]

theorem loadFatEntry_agree (env : Env) (m m2 : Mem) (p : Nat)
    (h : ∀ a, p ≤ a → a < p + 8 → m2 a = m a) :
    loadFileAllocationTableEntry env m2 p = loadFileAllocationTableEntry env m p := by
  unfold loadFileAllocationTableEntry readFileAllocationTableEntry
  rw [loadU32_agree _ m m2 p (fun j hj => h _ (by omega) (by omega)),
    loadU32_agree _ m m2 (p + 4) (fun j hj => h _ (by omega) (by omega))]

theorem memRead_agree (m m2 : Mem) (a n : Nat) (h : ∀ j, j < n → m2 (a + j) = m (a + j)) :
    memRead m2 a n = memRead m a n := by
  unfold memRead
  apply List.map_congr_left
  intro i hi
  rw [h i (List.mem_range.1 hi)]

theorem loadFileHeader_agree (env : Env) (m m2 : Mem) (p : Nat)
    (h : ∀ a, p ≤ a → a < p + 64 → m2 a = m a) :
    loadFileHeader env m2 p = loadFileHeader env m p := by
  unfold loadFileHeader readFileHeader
  rw [loadU32_agree _ m m2 p (fun j hj => h _ (by omega) (by omega)),
    loadU32_agree _ m m2 (p + 4) (fun j hj => h _ (by omega) (by omega)),
    loadU32_agree _ m m2 (p + 8) (fun j hj => h _ (by omega) (by omega)),
    loadU32_agree _ m m2 (p + 12) (fun j hj => h _ (by omega) (by omega)),
    loadU32_agree _ m m2 (p + 16) (fun j hj => h _ (by omega) (by omega)),
    loadU32_agree _ m m2 (p + 20) (fun j hj => h _ (by omega) (by omega)),
    memRead_agree m m2 (p + 24) 40 (fun j hj => h _ (by omega) (by omega))]

/-- A medium that agrees with `m` on the bytes of the volume holds the same volume. -/
theorem mediumKept_agree {env : Env} {m m2 : Mem} {B V : Nat} (hv : VolumeOK env m B V)
    (h : ∀ a, B ≤ a → a < B + V → m2 a = m a) : MediumKept env B m m2 := by
  have htail := hv.tail
  have hfat := hv.fat
  have hslot := hv.slot
  simp only [sizeofFileHeader, sizeofFileAllocationTable] at hfat hslot
  refine ⟨?_, ?_, ?_, ?_⟩
  · exact loadFatHeader_agree env m m2 B (fun a h1 h2 => h a h1 (by omega))
  · intro i hi
    apply loadFatEntry_agree
    intro a h1 h2
    simp only [fatEntryAddress, EEFS_MAX_FILES] at hi h1 h2
    exact h a (by omega) (by omega)
  · intro i hi
    have hs := hslot i hi
    rw [loadFileHeader_agree env m m2 _ (fun a h1 h2 => h a (by omega) (by omega))]
    exact hv.live i hi
  · intro hroom hu
    simp only [sizeofFileHeader] at hroom
    rw [loadFileHeader_agree env m m2 _ (fun a h1 h2 => h a (by omega) (by omega))] at hu
    exact hu

theorem foreignKept_refl (T : Nat) (s : State) : ForeignKept T s s :=
  ⟨rfl, fun _ _ => rfl⟩

theorem update_foreign (s s2 : State) (T k : Nat) (d : EEFS_FileDescriptor_t)
    (htab : s2.InodeTables T = s.InodeTables T)
    (hfd : s2.EEFS_FileDescriptorTable = Function.update s.EEFS_FileDescriptorTable k d)
    (hold : ¬ (fdInUse s k ∧ (s.EEFS_FileDescriptorTable k).InodeTable = T))
    (hnew : ¬ (d.InUse = TRUE ∧ d.InodeTable = T)) : ForeignKept T s s2 := by
  refine ⟨htab, ?_⟩
  intro j hj
  unfold fdInUse at hj hold
  rw [hfd] at hj ⊢
  by_cases e : j = k
  · subst e
    rw [Function.update_same] at hj
    rcases hj with h1 | h1
    · exact absurd h1 hnew
    · exact absurd h1 hold
  · rw [Function.update_noteq e]

theorem openFile_foreign (env : Env) (s : State) (T t : Nat) (ht : t ≠ T) (idx : Int)
    (Flags A : Nat) : ForeignKept T s (EEFS_LibOpenFile env s t idx Flags A).2 := by
  rcases openFile_cases env s t idx Flags A with ⟨h1, _⟩ | ⟨k, hk, hfree, hret, _, _, _, h1⟩
  · rw [h1]; exact foreignKept_refl T s
  · rw [h1]
    obtain ⟨_, _, _, gtab, gmem, _, _⟩ := getFD_of_ret s k hret
    apply update_foreign s _ T k _ ?_ (setFD_getFD_fds s k _ hret)
    · rintro ⟨hu, _⟩
      unfold fdInUse at hu
      rw [hfree] at hu
      exact absurd hu (by decide)
    · rintro ⟨_, hT⟩
      exact ht hT
    · show (EEFS_LibGetFileDescriptor s).2.InodeTables T = _
      rw [gtab]

theorem creatFile_foreign (env : Env) (s : State) (T t : Nat) (ht : t ≠ T) (f : List Nat)
    (A : Nat) : ForeignKept T s (EEFS_LibCreatFile env s t f A).2 := by
  rcases creatFile_cases env s t f A with ⟨h1, _⟩ |
    ⟨k, hk, hfree, hret, _, _, hn, hoc, hroom, _, h1⟩
  · rw [h1]; exact foreignKept_refl T s
  · rw [h1]
    obtain ⟨_, _, gfd, gtab, gmem, _, _⟩ := getFD_of_ret s k hret
    apply update_foreign s _ T k (createdDescriptor s t)
    · show Function.update (EEFS_LibGetFileDescriptor s).2.InodeTables t _ T = _
      rw [Function.update_noteq (Ne.symm ht), gtab]
    · show Function.update (EEFS_LibGetFileDescriptor s).2.EEFS_FileDescriptorTable k _ = _
      rw [gfd, Function.update_idem]
    · rintro ⟨hu, _⟩
      unfold fdInUse at hu
      rw [hfree] at hu
      exact absurd hu (by decide)
    · rintro ⟨_, hT⟩
      exact ht hT

theorem openFile_tables (env : Env) (s : State) (T : Nat) (idx : Int) (Flags A : Nat) :
    (EEFS_LibOpenFile env s T idx Flags A).2.InodeTables = s.InodeTables ∧
    (EEFS_LibOpenFile env s T idx Flags A).2.mem = s.mem := by
  rcases openFile_cases env s T idx Flags A with ⟨h1, _⟩ | ⟨k, hk, hfree, hret, _, _, _, h1⟩
  · rw [h1]; exact ⟨rfl, rfl⟩
  · rw [h1]
    obtain ⟨_, _, _, gtab, gmem, _, _⟩ := getFD_of_ret s k hret
    exact ⟨gtab, gmem⟩

theorem creatFile_fms (env : Env) (s : State) (T : Nat) (f : List Nat) (A : Nat) (T' : Nat) :
    ((EEFS_LibCreatFile env s T f A).2.InodeTables T').FreeMemorySize
      = (s.InodeTables T').FreeMemorySize ∧
    ((EEFS_LibCreatFile env s T f A).2.InodeTables T').FreeMemoryPointer
      = (s.InodeTables T').FreeMemoryPointer ∧
    ((EEFS_LibCreatFile env s T f A).2.InodeTables T').BaseAddress
      = (s.InodeTables T').BaseAddress := by
  rcases creatFile_cases env s T f A with ⟨h1, _⟩ |
    ⟨k, hk, hfree, hret, _, _, hn, hoc, hroom, _, h1⟩
  · rw [h1]; exact ⟨rfl, rfl, rfl⟩
  · rw [h1]
    obtain ⟨_, _, _, gtab, gmem, _, _⟩ := getFD_of_ret s k hret
    show (Function.update (EEFS_LibGetFileDescriptor s).2.InodeTables T
        (createdTable (s.InodeTables T)) T').FreeMemorySize = _ ∧
      (Function.update (EEFS_LibGetFileDescriptor s).2.InodeTables T
        (createdTable (s.InodeTables T)) T').FreeMemoryPointer = _ ∧
      (Function.update (EEFS_LibGetFileDescriptor s).2.InodeTables T
        (createdTable (s.InodeTables T)) T').BaseAddress = _
    rw [gtab]
    by_cases hTT : T' = T
    · subst hTT
      rw [Function.update_same]
      exact ⟨rfl, rfl, rfl⟩
    · rw [Function.update_noteq hTT]
      exact ⟨rfl, rfl, rfl⟩


/-- A call on another inode table keeps the inode table `T` and its descriptors. -/
theorem foreign_kept (env : Env) (s : State) (T : Nat) (c : Call) (hc : foreignCall T s c) :
    ForeignKept T s (c.run env s) := by
  cases c with
  | LibInit => exact hc.elim
  | LibInitFS t b =>
    have ht : t ≠ T := hc
    show ForeignKept T s (EEFS_LibInitFS env s t b).2
    unfold EEFS_LibInitFS
    simp only []
    split_ifs
    · exact ⟨Function.update_noteq (Ne.symm ht) _ _, fun _ _ => rfl⟩
    · exact foreignKept_refl T s
    · exact foreignKept_refl T s
  | LibFreeFS t =>
    have ht : t ≠ T := hc
    show ForeignKept T s (EEFS_LibFreeFS s t).2
    unfold EEFS_LibFreeFS
    split_ifs
    · exact ⟨Function.update_noteq (Ne.symm ht) _ _, fun _ _ => rfl⟩
    · exact foreignKept_refl T s
    · exact foreignKept_refl T s
  | LibOpen t f fl a =>
    have ht : t ≠ T := hc
    show ForeignKept T s (EEFS_LibOpen env s t f fl a).2
    unfold EEFS_LibOpen
    simp only []
    split_ifs
    · exact openFile_foreign env s T t ht _ fl a
    · exact creatFile_foreign env s T t ht _ _
    · exact foreignKept_refl T s
    · exact foreignKept_refl T s
    · exact foreignKept_refl T s
  | LibCreat t f a =>
    have ht : t ≠ T := hc
    show ForeignKept T s (EEFS_LibCreat env s t f a).2
    unfold EEFS_LibCreat
    simp only []
    split_ifs
    · exact openFile_foreign env s T t ht _ _ a
    · exact creatFile_foreign env s T t ht _ _
    · exact foreignKept_refl T s
    · exact foreignKept_refl T s
  | LibClose fd =>
    have hoff : offTable s T fd := hc
    show ForeignKept T s (EEFS_LibClose env s fd).2
    rw [close_eq]
    split_ifs with hv
    · have hT := hoff hv
      apply update_foreign s _ T fd.toNat zeroFileDescriptor
      · show (freedDescriptor (closeBody env s fd.toNat) fd.toNat).InodeTables T = _
        rw [freed_tables]
        unfold closeBody
        split_ifs
        · rw [closeCreat_eq]
          exact Function.update_noteq (Ne.symm hT) _ _
        · rfl
        · rfl
      · show (freedDescriptor (closeBody env s fd.toNat) fd.toNat).EEFS_FileDescriptorTable = _
        rw [freed_fds, closeBody_fds]
      · exact fun a => hT a.2
      · exact fun a => absurd a.1 (by decide)
    · exact foreignKept_refl T s
  | LibRead fd b l =>
    have hoff : offTable s T fd := hc
    show ForeignKept T s (EEFS_LibRead s fd b l).2.2
    unfold EEFS_LibRead
    simp only []
    split_ifs with hv hb hm <;>
      first
      | exact foreignKept_refl T s
      | exact update_foreign s _ T fd.toNat _ rfl rfl (fun a => hoff hv a.2)
          (fun a => hoff hv a.2)
  | LibWrite fd b l =>
    have hoff : offTable s T fd := hc
    show ForeignKept T s (EEFS_LibWrite s fd b l).2
    unfold EEFS_LibWrite
    simp only []
    split_ifs with hv hb hm <;>
      first
      | exact foreignKept_refl T s
      | exact update_foreign s _ T fd.toNat _ rfl rfl (fun a => hoff hv a.2)
          (fun a => hoff hv a.2)
  | LibLSeek fd o w =>
    have hoff : offTable s T fd := hc
    show ForeignKept T s (EEFS_LibLSeek s fd o w).2
    unfold EEFS_LibLSeek
    simp only []
    split_ifs with hv <;>
      first
      | exact foreignKept_refl T s
      | exact update_foreign s _ T fd.toNat _ rfl rfl (fun a => hoff hv a.2)
          (fun a => hoff hv a.2)
  | LibRemove t f =>
    show ForeignKept T s (EEFS_LibRemove env s t f).2
    unfold EEFS_LibRemove
    simp only []
    split_ifs <;> exact ⟨rfl, fun _ _ => rfl⟩
  | LibRename t f g =>
    show ForeignKept T s (EEFS_LibRename env s t f g).2
    unfold EEFS_LibRename
    simp only []
    split_ifs <;> exact ⟨rfl, fun _ _ => rfl⟩
  | LibStat t f b => exact hc.elim
  | LibFstat fd b => exact hc.elim
  | LibSetFileAttributes t f a =>
    show ForeignKept T s (EEFS_LibSetFileAttributes env s t f a).2
    unfold EEFS_LibSetFileAttributes
    simp only []
    split_ifs <;> exact ⟨rfl, fun _ _ => rfl⟩
  | LibOpenDir t => exact hc.elim
  | LibReadDir d => exact hc.elim
  | LibCloseDir d => exact hc.elim

/-- A call on another inode table that leaves the bytes of the volume as they are keeps
the invariant. -/
theorem mounted_foreign {env : Env} {s : State} {T B V : Nat} (h : Mounted env s T B V)
    (env2 : Env) (c : Call) (hc : foreignCall T s c)
    (hmem : ∀ a, B ≤ a → a < B + V → (c.run env2 s).mem a = s.mem a) :
    Mounted env (c.run env2 s) T B V := by
  obtain ⟨htab, hfds⟩ := foreign_kept env2 s T c hc
  apply mounted_frame h _ htab (fun k hk => by rw [hfds k hk]) (mediumKept_agree h.vol hmem)
  intro k hk hu hT
  rw [hfds k (Or.inr ⟨hu, hT⟩)]
  exact ⟨rfl, rfl, (h.fds k hk hu hT).offset, (h.fds k hk hu hT).size,
    (h.fds k hk hu hT).data⟩

/-- The invariant of the sessions on a mounted volume. -/
theorem mounted_run {le : Bool} {T B V : Nat} {s : State} (h : MountedRun le T B V s) :
    ∀ env : Env, env.hostLittleEndian = le → Mounted env s T B V := by
  induction h with
  | mount env0 s0 he hT hv hidle =>
    intro env henv
    exact mounted_env (by rw [henv, he]) (mounted_initFS hv hT hidle)
  | call env0 s0 c _ he hc ih =>
    intro env henv
    exact mounted_env (by rw [henv, he]) (mounted_call (ih env0 he) c hc)
  | other env0 s0 c _ hc hmem ih =>
    intro env henv
    exact mounted_foreign (ih env henv) env0 c hc hmem

/-! ## Entries of the inode table -/

theorem inodeTableEntry_ext (x y : EEFS_InodeTableEntry_t)
    (h1 : x.FileHeaderPointer = y.FileHeaderPointer) (h2 : x.MaxFileSize = y.MaxFileSize) :
    x = y := by
  cases x; cases y
  simp only at h1 h2
  subst h1 h2
  rfl

/-! ## Slot sizing at the close of a created file -/

/-- Clearing the two low bits of a 32-bit word. -/
theorem land_mask4 (y : Nat) (h : y < 4294967296) : Nat.land y 4294967292 = y / 4 * 4 := by
  show y &&& 4294967292 = y / 4 * 4
  apply Nat.eq_of_testBit_eq
  intro i
  rw [Nat.testBit_and]
  have e : y / 4 * 4 = (y >>> 2) <<< 2 := by
    rw [Nat.shiftRight_eq_div_pow, Nat.shiftLeft_eq]
  rw [e, Nat.testBit_shiftLeft, Nat.testBit_shiftRight]
  by_cases hi : i < 2
  · have : Nat.testBit 4294967292 i = false := by
      interval_cases i <;> decide
    simp [this, hi]
  · have hi2 : 2 ≤ i := by omega
    by_cases h32 : i < 32
    · have : Nat.testBit 4294967292 i = true := by
        interval_cases i <;> decide
      simp [this, hi2]
    · have hy : y.testBit i = false := by
        apply Nat.testBit_lt_two_pow
        calc y < 4294967296 := h
          _ = 2 ^ 32 := by norm_num
          _ ≤ 2 ^ i := Nat.pow_le_pow_right (by norm_num) (by omega)
      simp [hy, hi2]

/-- `EEFS_ROUND_UP(x, 4)` is the least multiple of 4 that is not below `x`, as long as
`x + 3` does not overflow. -/
theorem roundUp4 (x : Nat) (h : x + 3 < 4294967296) :
    EEFS_ROUND_UP x 4 = (x + 3) / 4 * 4 := by
  unfold EEFS_ROUND_UP u32 u32not
  have h1 : x % 4294967296 = x := Nat.mod_eq_of_lt (by omega)
  have h2 : (x + (4 - 1)) % 4294967296 = x + 3 := Nat.mod_eq_of_lt (by omega)
  rw [h1, h2]
  exact land_mask4 (x + 3) h

theorem close_creat_eq (env : Env) (s : State) (fd : Int)
    (hfd : EEFS_LibIsValidFileDescriptor s fd = true)
    (hc : Nat.land (s.EEFS_FileDescriptorTable fd.toNat).Mode EEFS_FCREAT ≠ 0) :
    EEFS_LibClose env s fd
      = (EEFS_SUCCESS, freedDescriptor (closeCreat env s fd.toNat) fd.toNat) := by
  rw [close_eq, if_pos hfd]
  unfold closeBody
  rw [if_pos hc]

theorem valid_lt (s : State) (fd : Int) (hfd : EEFS_LibIsValidFileDescriptor s fd = true) :
    fd.toNat < EEFS_MAX_OPEN_FILES ∧ fdInUse s fd.toNat ∧ fd = (fd.toNat : Int) := by
  obtain ⟨h0, h1, hu⟩ := (isValid_iff s fd).1 hfd
  simp only [EEFS_MAX_OPEN_FILES] at h1 ⊢
  exact ⟨by omega, hu, by omega⟩

/-! ## Read and write through a descriptor -/

theorem min_count (a b l : Nat) (h1 : b ≤ a) (h2 : a < 4294967296) :
    EEFS_MIN (u32sub a b) l = min (a - b) l := by
  unfold EEFS_MIN u32sub
  simp only [Nat.min_def]
  split_ifs <;> omega

theorem valid_nat (s : State) (fd : Int) (hfd : EEFS_LibIsValidFileDescriptor s fd = true) :
    ∃ k : Nat, fd = (k : Int) ∧ k < EEFS_MAX_OPEN_FILES ∧ fdInUse s k := by
  obtain ⟨hk, hu, he⟩ := valid_lt s fd hfd
  exact ⟨fd.toNat, he, hk, hu⟩

theorem map_getD_range (f : Nat → Nat) (n j : Nat) (h : j < n) :
    ((List.range n).map f).getD j 0 = f j := by
  rw [List.getD_eq_getElem?_getD, List.getElem?_map, List.getElem?_range h]
  rfl

set_option maxRecDepth 100000 in
/-- C12, counterexample: in the session on the example volume whose file "a" has a slot of
`2^31` bytes, descriptor 0 has `EEFS_FWRITE`, `MaxFileSize == 2^31` and `ByteOffset == 0`;
`EEFS_LibWrite` with `Length == 2^31` returns `-2^31`, not
`min (MaxFileSize - ByteOffset) Length == 2^31`. -/
theorem write_count_int32_counterexample :
    EEFS_LibIsValidFileDescriptor (exBigFileSession true) 0 = true ∧
    Nat.land ((exBigFileSession true).EEFS_FileDescriptorTable 0).Mode EEFS_FWRITE ≠ 0 ∧
    ((exBigFileSession true).EEFS_FileDescriptorTable 0).MaxFileSize = 2147483648 ∧
    ((exBigFileSession true).EEFS_FileDescriptorTable 0).ByteOffset = 0 ∧
    (EEFS_LibWrite (exBigFileSession true) 0 (some []) 2147483648).1 = -2147483648 ∧
    (EEFS_LibWrite (exBigFileSession true) 0 (some []) 2147483648).1
      ≠ ((min (((exBigFileSession true).EEFS_FileDescriptorTable 0).MaxFileSize
          - ((exBigFileSession true).EEFS_FileDescriptorTable 0).ByteOffset)
          2147483648 : Nat) : Int) := by
  decide

set_option maxRecDepth 100000 in
/-- C13, counterexample: in the same session descriptor 0 has `EEFS_FREAD`,
`FileSize == 2^31` and `ByteOffset == 0`; `EEFS_LibRead` with `Length == 2^31` returns
`-2^31`, not `min (FileSize - ByteOffset) Length == 2^31`. -/
theorem read_count_int32_counterexample :
    EEFS_LibIsValidFileDescriptor (exBigFileSession true) 0 = true ∧
    Nat.land ((exBigFileSession true).EEFS_FileDescriptorTable 0).Mode EEFS_FREAD ≠ 0 ∧
    ((exBigFileSession true).EEFS_FileDescriptorTable 0).FileSize = 2147483648 ∧
    ((exBigFileSession true).EEFS_FileDescriptorTable 0).ByteOffset = 0 ∧
    (EEFS_LibRead (exBigFileSession true) 0 (some []) 2147483648).1 = -2147483648 ∧
    (EEFS_LibRead (exBigFileSession true) 0 (some []) 2147483648).1
      ≠ ((min (((exBigFileSession true).EEFS_FileDescriptorTable 0).FileSize
          - ((exBigFileSession true).EEFS_FileDescriptorTable 0).ByteOffset)
          2147483648 : Nat) : Int) := by
  decide

/-! ## Seek past the end of a file -/

set_option maxRecDepth 100000 in
/-- C14. The session on the one-file example volume has descriptor 0 on the file "a" of
1000 bytes, at offset 0.  `EEFS_LibLSeek(0, 2147483647, SEEK_END)` addresses the position
`2147483647 + 1000`, which is past the end of the file, and returns
`EEFS_INVALID_ARGUMENT` with the offset left at 0 instead of moving to 1000; so does
`EEFS_LibLSeek(0, 2147483647, SEEK_CUR)` after `EEFS_LibLSeek(0, 1, SEEK_SET)`, while
`EEFS_LibLSeek(0, 2147483647, SEEK_SET)` returns 1000. -/
theorem lseek_past_end_overflow (le : Bool) :
    EEFS_LibIsValidFileDescriptor (exFileSession le) 0 = true ∧
    ((exFileSession le).EEFS_FileDescriptorTable 0).FileSize = 1000 ∧
    ((exFileSession le).EEFS_FileDescriptorTable 0).ByteOffset = 0 ∧
    (EEFS_LibLSeek (exFileSession le) 0 2147483647 SEEK_END).1 = EEFS_INVALID_ARGUMENT ∧
    ((EEFS_LibLSeek (exFileSession le) 0 2147483647 SEEK_END).2.EEFS_FileDescriptorTable
      0).ByteOffset = 0 ∧
    (EEFS_LibLSeek (exFileSession le) 0 1 SEEK_SET).1 = 1 ∧
    (EEFS_LibLSeek (EEFS_LibLSeek (exFileSession le) 0 1 SEEK_SET).2 0 2147483647
      SEEK_CUR).1 = EEFS_INVALID_ARGUMENT ∧
    ((EEFS_LibLSeek (EEFS_LibLSeek (exFileSession le) 0 1 SEEK_SET).2 0 2147483647
      SEEK_CUR).2.EEFS_FileDescriptorTable 0).ByteOffset = 1 ∧
    (EEFS_LibLSeek (exFileSession le) 0 2147483647 SEEK_SET).1 = 1000 := by
  cases le <;> decide

/-! ## Sharing rules of `EEFS_LibOpen` -/

theorem lor_eq_zero_iff (a b : Nat) : Nat.lor a b = 0 ↔ a = 0 ∧ b = 0 := by
  constructor
  · intro h
    have hb : ∀ i, (a.testBit i || b.testBit i) = false := by
      intro i
      have e : (Nat.lor a b).testBit i = (a.testBit i || b.testBit i) := Nat.testBit_or a b i
      rw [← e, h, Nat.zero_testBit]
    constructor
    · apply Nat.eq_of_testBit_eq
      intro i
      have := hb i
      rw [Nat.zero_testBit]
      cases h1 : a.testBit i <;> simp_all
    · apply Nat.eq_of_testBit_eq
      intro i
      have := hb i
      rw [Nat.zero_testBit]
      cases h1 : b.testBit i <;> simp_all
  · rintro ⟨rfl, rfl⟩
    rfl

/-- The loop of `EEFS_LibFmode`, for a property of modes that distributes over the bitwise
or. -/
theorem fmode_foldl_iff (P : Nat → Prop) (hP : ∀ a b, P (Nat.lor a b) ↔ P a ∨ P b)
    (s : State) (T idx : Nat) (l : List Nat) (acc : Nat) :
    P (l.foldl (fun Mode i =>
      if (s.EEFS_FileDescriptorTable i).InUse = TRUE ∧
         (s.EEFS_FileDescriptorTable i).InodeTable = T ∧
         (s.EEFS_FileDescriptorTable i).InodeIndex = idx
      then Nat.lor Mode (s.EEFS_FileDescriptorTable i).Mode else Mode) acc) ↔
    P acc ∨ ∃ k, k ∈ l ∧ (s.EEFS_FileDescriptorTable k).InUse = TRUE ∧
      (s.EEFS_FileDescriptorTable k).InodeTable = T ∧
      (s.EEFS_FileDescriptorTable k).InodeIndex = idx ∧
      P (s.EEFS_FileDescriptorTable k).Mode := by
  induction l generalizing acc with
  | nil => simp
  | cons a l ih =>
    simp only [List.foldl_cons]
    rw [ih]
    by_cases hc : (s.EEFS_FileDescriptorTable a).InUse = TRUE ∧
         (s.EEFS_FileDescriptorTable a).InodeTable = T ∧
         (s.EEFS_FileDescriptorTable a).InodeIndex = idx
    · rw [if_pos hc, hP]
      constructor
      · rintro ((h | h) | ⟨k, hk, h⟩)
        · exact Or.inl h
        · exact Or.inr ⟨a, List.mem_cons_self _ _, hc.1, hc.2.1, hc.2.2, h⟩
        · exact Or.inr ⟨k, List.mem_cons_of_mem _ hk, h⟩
      · rintro (h | ⟨k, hk, h⟩)
        · exact Or.inl (Or.inl h)
        · rcases List.mem_cons.1 hk with rfl | hk
          · exact Or.inl (Or.inr h.2.2.2)
          · exact Or.inr ⟨k, hk, h⟩
    · rw [if_neg hc]
      constructor
      · rintro (h | ⟨k, hk, h⟩)
        · exact Or.inl h
        · exact Or.inr ⟨k, List.mem_cons_of_mem _ hk, h⟩
      · rintro (h | ⟨k, hk, h⟩)
        · exact Or.inl h
        · rcases List.mem_cons.1 hk with rfl | hk
          · exact absurd ⟨h.1, h.2.1, h.2.2.1⟩ hc
          · exact Or.inr ⟨k, hk, h⟩

/-- `EEFS_LibFmode` has `EEFS_FWRITE` exactly when some in-use descriptor on the slot has
it. -/
theorem fmode_write_iff (s : State) (T idx : Nat) :
    Nat.land (EEFS_LibFmode s T idx) EEFS_FWRITE ≠ 0 ↔
    ∃ k, k < EEFS_MAX_OPEN_FILES ∧ fdInUse s k ∧
      (s.EEFS_FileDescriptorTable k).InodeTable = T ∧
      (s.EEFS_FileDescriptorTable k).InodeIndex = idx ∧
      Nat.land (s.EEFS_FileDescriptorTable k).Mode EEFS_FWRITE ≠ 0 := by
  unfold EEFS_LibFmode
  rw [fmode_foldl_iff (fun x => Nat.land x EEFS_FWRITE ≠ 0)]
  · constructor
    · rintro (h | ⟨k, hk, h⟩)
      · exact absurd (by decide) h
      · exact ⟨k, List.mem_range.1 hk, h⟩
    · rintro ⟨k, hk, h⟩
      exact Or.inr ⟨k, List.mem_range.2 hk, h⟩
  · intro a b
    have := land_lor_two a b
    simp only [EEFS_FWRITE, ne_eq]
    rw [this]
    tauto

/-- `EEFS_LibFmode` is non-zero exactly when some in-use descriptor on the slot has a
non-zero mode. -/
theorem fmode_ne_zero_iff (s : State) (T idx : Nat) :
    EEFS_LibFmode s T idx ≠ 0 ↔
    ∃ k, k < EEFS_MAX_OPEN_FILES ∧ fdInUse s k ∧
      (s.EEFS_FileDescriptorTable k).InodeTable = T ∧
      (s.EEFS_FileDescriptorTable k).InodeIndex = idx ∧
      (s.EEFS_FileDescriptorTable k).Mode ≠ 0 := by
  unfold EEFS_LibFmode
  rw [fmode_foldl_iff (fun x => x ≠ 0)]
  · constructor
    · rintro (h | ⟨k, hk, h⟩)
      · exact absurd rfl h
      · exact ⟨k, List.mem_range.1 hk, h⟩
    · rintro ⟨k, hk, h⟩
      exact Or.inr ⟨k, List.mem_range.2 hk, h⟩
  · intro a b
    simp only [ne_eq]
    rw [lor_eq_zero_iff]
    tauto

theorem toInt32_lt (n : Nat) : toInt32 n < 2147483648 := by
  unfold toInt32
  split_ifs <;> omega

/-- An index that `EEFS_LibFindFile` returns is below `2^31`. -/
theorem findFile_nat (env : Env) (s : State) (T : Nat) (f : List Nat) (i : Nat)
    (h : EEFS_LibFindFile env s T f = (i : Int)) :
    i < 2147483648 ∧ ofInt32 (i : Int) = i ∧ (i : Int).toNat = i ∧
    (i : Int) ≠ EEFS_FILE_NOT_FOUND := by
  have h1 : i < 2147483648 := by
    rcases findFile_cases env s T f with h0 | ⟨j, -, he, -⟩
    · rw [h0] at h
      simp only [EEFS_FILE_NOT_FOUND] at h
      omega
    · have := toInt32_lt j
      rw [← he, h] at this
      exact_mod_cast this
  refine ⟨h1, ?_, Int.toNat_ofNat i, ?_⟩
  · unfold ofInt32
    omega
  · simp only [EEFS_FILE_NOT_FOUND]
    omega

theorem open_found (env : Env) (s : State) (T : Nat) (f : List Nat) (i : Nat)
    (Flags A : Nat) (hT : T ≠ 0) (hname : EEFS_LibIsValidFilename (some f) = true)
    (hfind : EEFS_LibFindFile env s T f = (i : Int)) :
    EEFS_LibOpen env s T (some f) Flags A = EEFS_LibOpenFile env s T (i : Int) Flags A := by
  obtain ⟨-, -, -, hne⟩ := findFile_nat env s T f i hfind
  unfold EEFS_LibOpen
  rw [if_pos hT, if_pos hname]
  simp only [Option.getD_some]
  rw [hfind, if_pos hne]

theorem getFD_free (s : State)
    (hfree : ∃ k, k < EEFS_MAX_OPEN_FILES ∧ (s.EEFS_FileDescriptorTable k).InUse = FALSE) :
    (EEFS_LibGetFileDescriptor s).1 ≠ EEFS_NO_FREE_FILE_DESCRIPTOR := by
  unfold EEFS_LibGetFileDescriptor
  cases hf : (List.range EEFS_MAX_OPEN_FILES).find?
      (fun i => decide ((s.EEFS_FileDescriptorTable i).InUse = FALSE)) with
  | none =>
    obtain ⟨k, hk, hfr⟩ := hfree
    have := List.find?_eq_none.1 hf k (List.mem_range.2 hk)
    simp [hfr] at this
  | some k =>
    have hk : k < EEFS_MAX_OPEN_FILES := List.mem_range.1 (List.mem_of_find?_eq_some hf)
    simp only []
    rw [toInt32_small k (by unfold EEFS_MAX_OPEN_FILES at hk; omega)]
    simp only [EEFS_NO_FREE_FILE_DESCRIPTOR]
    omega

/-- `EEFS_LibOpenFile` when every check passes. -/
theorem openFile_ok (env : Env) (s : State) (T : Nat) (idx : Int) (Flags A : Nat)
    (h1 : Nat.land Flags
      (u32not (Nat.lor (Nat.lor (Nat.lor (Nat.lor O_RDONLY O_WRONLY) O_RDWR) O_TRUNC) O_CREAT))
      = 0)
    (h2 : Nat.land Flags O_ACCMODE = O_RDONLY ∨ env.writeProtected = false)
    (h3 : Nat.land Flags O_ACCMODE = O_RDONLY ∨
      Nat.land (loadFileHeader env s.mem
        ((s.InodeTables T).File idx.toNat).FileHeaderPointer).Attributes
        EEFS_ATTRIBUTE_READONLY = 0)
    (h4 : Nat.land Flags O_ACCMODE = O_RDONLY ∨
      Nat.land (EEFS_LibFmode s T (ofInt32 idx)) EEFS_FWRITE = 0)
    (h5 : (EEFS_LibGetFileDescriptor s).1 ≠ EEFS_NO_FREE_FILE_DESCRIPTOR) :
    ∃ k, k < EEFS_MAX_OPEN_FILES ∧ (s.EEFS_FileDescriptorTable k).InUse = FALSE ∧
      (EEFS_LibOpenFile env s T idx Flags A).1 = (k : Int) ∧
      (EEFS_LibOpenFile env s T idx Flags A).2.EEFS_FileDescriptorTable
        = Function.update s.EEFS_FileDescriptorTable k (openedDescriptor env s T idx Flags) ∧
      (EEFS_LibOpenFile env s T idx Flags A).2.mem = s.mem ∧
      (EEFS_LibOpenFile env s T idx Flags A).2.InodeTables = s.InodeTables := by
  have hret : (EEFS_LibOpenFile env s T idx Flags A).1 = (EEFS_LibGetFileDescriptor s).1 := by
    unfold EEFS_LibOpenFile
    simp only []
    rw [if_pos h1, if_pos h2, if_pos h3, if_pos h4, if_pos h5]
    split_ifs <;> rfl
  rcases openFile_cases env s T idx Flags A with ⟨-, hneg⟩ | ⟨k, hk, hfree, hg, hr, -, -, hst⟩
  · exfalso
    rcases getFD_cases s with ⟨k, hk, -, hg, -⟩ | hno
    · rw [hret, hg] at hneg
      omega
    · exact h5 (by rw [hno])
  · obtain ⟨-, -, htab, htabs, hmem, -⟩ := getFD_of_ret s k hg
    refine ⟨k, hk, hfree, hr, ?_, ?_, ?_⟩
    · rw [hst]
      exact setFD_getFD_fds s k _ hg
    · rw [hst]
      simp only [setFileDescriptor]
      exact hmem
    · rw [hst]
      simp only [setFileDescriptor]
      exact htabs

/-- `EEFS_LibOpenFile` when the file is read-only or has a writer, and write access is
asked for. -/
theorem openFile_denied (env : Env) (s : State) (T : Nat) (idx : Int) (Flags A : Nat)
    (h1 : Nat.land Flags
      (u32not (Nat.lor (Nat.lor (Nat.lor (Nat.lor O_RDONLY O_WRONLY) O_RDWR) O_TRUNC) O_CREAT))
      = 0)
    (h2 : Nat.land Flags O_ACCMODE = O_RDONLY ∨ env.writeProtected = false)
    (h : ¬ (Nat.land Flags O_ACCMODE = O_RDONLY ∨
        Nat.land (loadFileHeader env s.mem
          ((s.InodeTables T).File idx.toNat).FileHeaderPointer).Attributes
          EEFS_ATTRIBUTE_READONLY = 0) ∨
      ¬ (Nat.land Flags O_ACCMODE = O_RDONLY ∨
        Nat.land (EEFS_LibFmode s T (ofInt32 idx)) EEFS_FWRITE = 0)) :
    EEFS_LibOpenFile env s T idx Flags A = (EEFS_PERMISSION_DENIED, s) := by
  unfold EEFS_LibOpenFile
  simp only []
  rw [if_pos h1, if_pos h2]
  by_cases h3 : Nat.land Flags O_ACCMODE = O_RDONLY ∨
        Nat.land (loadFileHeader env s.mem
          ((s.InodeTables T).File idx.toNat).FileHeaderPointer).Attributes
          EEFS_ATTRIBUTE_READONLY = 0
  · rw [if_pos h3]
    rcases h with h | h
    · exact absurd h3 h
    · rw [if_neg h]
  · rw [if_neg h3]

theorem opened_fields (env : Env) (s : State) (T : Nat) (i : Nat) (Flags : Nat)
    (hi : ofInt32 (i : Int) = i) :
    (openedDescriptor env s T (i : Int) Flags).InUse = TRUE ∧
    (openedDescriptor env s T (i : Int) Flags).Mode = u32 (Nat.land Flags O_ACCMODE + 1) ∧
    (openedDescriptor env s T (i : Int) Flags).ByteOffset = 0 ∧
    (openedDescriptor env s T (i : Int) Flags).InodeTable = T ∧
    (openedDescriptor env s T (i : Int) Flags).InodeIndex = i := by
  simp only [openedDescriptor, hi, and_self]

/-- C15. Shared read, exclusive write: let the name `f` be found at index `i` of the inode
table `T`, the flag word have only supported bits, the medium be writable and some
descriptor be free.  With access mode `O_RDONLY`, `EEFS_LibOpen` returns a descriptor
(a free entry `k` of the descriptor table, in use afterwards, with `Mode == EEFS_FREAD`,
`ByteOffset == 0`, on `(T, i)`) whatever descriptors are open on the file.  With access
mode `O_WRONLY` or `O_RDWR` it returns `EEFS_PERMISSION_DENIED` if and only if the file
header has the read-only attribute or some in-use descriptor on `(T, i)` has
`EEFS_FWRITE`; otherwise it returns a descriptor with `Mode == access mode + 1` and
`ByteOffset == 0` on `(T, i)`. -/
theorem open_sharing (env : Env) (s : State) (T : Nat) (f : List Nat) (i : Nat)
    (Flags A : Nat) (hT : T ≠ 0) (hname : EEFS_LibIsValidFilename (some f) = true)
    (hfind : EEFS_LibFindFile env s T f = (i : Int))
    (hflags : Nat.land Flags
      (u32not (Nat.lor (Nat.lor (Nat.lor (Nat.lor O_RDONLY O_WRONLY) O_RDWR) O_TRUNC) O_CREAT))
      = 0)
    (hwp : env.writeProtected = false)
    (hfree : ∃ k, k < EEFS_MAX_OPEN_FILES ∧ (s.EEFS_FileDescriptorTable k).InUse = FALSE) :
    (Nat.land Flags O_ACCMODE = O_RDONLY →
      ∃ k, k < EEFS_MAX_OPEN_FILES ∧ (s.EEFS_FileDescriptorTable k).InUse = FALSE ∧
        (EEFS_LibOpen env s T (some f) Flags A).1 = (k : Int) ∧
        fdInUse (EEFS_LibOpen env s T (some f) Flags A).2 k ∧
        ((EEFS_LibOpen env s T (some f) Flags A).2.EEFS_FileDescriptorTable k).Mode
          = EEFS_FREAD ∧
        ((EEFS_LibOpen env s T (some f) Flags A).2.EEFS_FileDescriptorTable k).ByteOffset = 0 ∧
        ((EEFS_LibOpen env s T (some f) Flags A).2.EEFS_FileDescriptorTable k).InodeTable = T ∧
        ((EEFS_LibOpen env s T (some f) Flags A).2.EEFS_FileDescriptorTable k).InodeIndex = i) ∧
    (Nat.land Flags O_ACCMODE = O_WRONLY ∨ Nat.land Flags O_ACCMODE = O_RDWR →
      ((EEFS_LibOpen env s T (some f) Flags A).1 = EEFS_PERMISSION_DENIED ↔
        (Nat.land (loadFileHeader env s.mem
            ((s.InodeTables T).File i).FileHeaderPointer).Attributes
            EEFS_ATTRIBUTE_READONLY ≠ 0 ∨
          ∃ k, k < EEFS_MAX_OPEN_FILES ∧ fdInUse s k ∧
            (s.EEFS_FileDescriptorTable k).InodeTable = T ∧
            (s.EEFS_FileDescriptorTable k).InodeIndex = i ∧
            Nat.land (s.EEFS_FileDescriptorTable k).Mode EEFS_FWRITE ≠ 0)) ∧
      ((EEFS_LibOpen env s T (some f) Flags A).1 ≠ EEFS_PERMISSION_DENIED →
        ∃ k, k < EEFS_MAX_OPEN_FILES ∧ (s.EEFS_FileDescriptorTable k).InUse = FALSE ∧
          (EEFS_LibOpen env s T (some f) Flags A).1 = (k : Int) ∧
          fdInUse (EEFS_LibOpen env s T (some f) Flags A).2 k ∧
          ((EEFS_LibOpen env s T (some f) Flags A).2.EEFS_FileDescriptorTable k).Mode
            = Nat.land Flags O_ACCMODE + 1 ∧
          ((EEFS_LibOpen env s T (some f) Flags A).2.EEFS_FileDescriptorTable k).ByteOffset
            = 0 ∧
          ((EEFS_LibOpen env s T (some f) Flags A).2.EEFS_FileDescriptorTable k).InodeTable
            = T ∧
          ((EEFS_LibOpen env s T (some f) Flags A).2.EEFS_FileDescriptorTable k).InodeIndex
            = i)) := by
  obtain ⟨-, hof, hto, -⟩ := findFile_nat env s T f i hfind
  rw [open_found env s T f i Flags A hT hname hfind]
  have h5 := getFD_free s hfree
  obtain ⟨o1, o2, o3, o4, o5⟩ := opened_fields env s T i Flags hof
  constructor
  · intro hacc
    obtain ⟨k, hk, hfr, hr, htab, -, -⟩ := openFile_ok env s T (i : Int) Flags A hflags
      (Or.inl hacc) (Or.inl hacc) (Or.inl hacc) h5
    refine ⟨k, hk, hfr, hr, ?_, ?_, ?_, ?_, ?_⟩
    · unfold fdInUse
      rw [htab, Function.update_same]; exact o1
    · rw [htab, Function.update_same, o2, hacc]; rfl
    · rw [htab, Function.update_same]; exact o3
    · rw [htab, Function.update_same]; exact o4
    · rw [htab, Function.update_same]; exact o5
  · intro hacc
    have hnr : Nat.land Flags O_ACCMODE ≠ O_RDONLY := by
      simp only [O_RDONLY, O_WRONLY, O_RDWR] at hacc ⊢
      omega
    have hw := fmode_write_iff s T i
    by_cases hd : Nat.land (loadFileHeader env s.mem
            ((s.InodeTables T).File i).FileHeaderPointer).Attributes
            EEFS_ATTRIBUTE_READONLY ≠ 0 ∨
          ∃ k, k < EEFS_MAX_OPEN_FILES ∧ fdInUse s k ∧
            (s.EEFS_FileDescriptorTable k).InodeTable = T ∧
            (s.EEFS_FileDescriptorTable k).InodeIndex = i ∧
            Nat.land (s.EEFS_FileDescriptorTable k).Mode EEFS_FWRITE ≠ 0
    · have hden : EEFS_LibOpenFile env s T (i : Int) Flags A = (EEFS_PERMISSION_DENIED, s) := by
        apply openFile_denied env s T (i : Int) Flags A hflags (Or.inr hwp)
        rw [hto, hof]
        rcases hd with hd | hd
        · left
          rintro (h | h)
          · exact hnr h
          · exact hd h
        · right
          rintro (h | h)
          · exact hnr h
          · exact (hw.2 hd) h
      rw [hden]
      exact ⟨⟨fun _ => hd, fun _ => rfl⟩, fun h => absurd rfl h⟩
    · have hd1 : Nat.land (loadFileHeader env s.mem
            ((s.InodeTables T).File i).FileHeaderPointer).Attributes
            EEFS_ATTRIBUTE_READONLY = 0 := by
        by_contra h
        exact hd (Or.inl h)
      have hd2 : Nat.land (EEFS_LibFmode s T i) EEFS_FWRITE = 0 := by
        by_contra h
        exact hd (Or.inr (hw.1 h))
      obtain ⟨k, hk, hfr, hr, htab, -, -⟩ := openFile_ok env s T (i : Int) Flags A hflags
        (Or.inr hwp) (Or.inr (by rw [hto]; exact hd1)) (Or.inr (by rw [hof]; exact hd2)) h5
      have hne : (EEFS_LibOpenFile env s T (i : Int) Flags A).1 ≠ EEFS_PERMISSION_DENIED := by
        rw [hr]
        simp only [EEFS_PERMISSION_DENIED]
        omega
      refine ⟨⟨fun h => absurd h hne, fun h => absurd h hd⟩, fun _ => ?_⟩
      refine ⟨k, hk, hfr, hr, ?_, ?_, ?_, ?_, ?_⟩
      · unfold fdInUse
        rw [htab, Function.update_same]; exact o1
      · rw [htab, Function.update_same, o2]
        have hm : ∀ x : Nat, (x = O_WRONLY ∨ x = O_RDWR) → u32 (x + 1) = x + 1 := by
          intro x hx
          simp only [u32, O_WRONLY, O_RDWR] at hx ⊢
          omega
        exact hm _ hacc
      · rw [htab, Function.update_same]; exact o3
      · rw [htab, Function.update_same]; exact o4
      · rw [htab, Function.update_same]; exact o5

set_option maxRecDepth 100000 in
/-- C15, witness: in the session on the one-file example volume descriptor 0 has the file
"a" open with `O_RDWR`; an `EEFS_LibOpen("a", O_WRONLY)` is then refused and an
`EEFS_LibOpen("a", O_RDONLY)` returns a descriptor. -/
theorem open_sharing_witness :
    EEFS_LibFindFile (exEnv true) (exFileSession true) 1 [97] = ((0 : Nat) : Int) ∧
    (∃ k, k < EEFS_MAX_OPEN_FILES ∧
      ((exFileSession true).EEFS_FileDescriptorTable k).InUse = FALSE) ∧
    ((EEFS_LibOpen (exEnv true) (exFileSession true) 1 (some [97]) O_WRONLY 0).1
        = EEFS_PERMISSION_DENIED ↔
      (Nat.land (loadFileHeader (exEnv true) (exFileSession true).mem
          (((exFileSession true).InodeTables 1).File 0).FileHeaderPointer).Attributes
          EEFS_ATTRIBUTE_READONLY ≠ 0 ∨
        ∃ k, k < EEFS_MAX_OPEN_FILES ∧ fdInUse (exFileSession true) k ∧
          ((exFileSession true).EEFS_FileDescriptorTable k).InodeTable = 1 ∧
          ((exFileSession true).EEFS_FileDescriptorTable k).InodeIndex = 0 ∧
          Nat.land ((exFileSession true).EEFS_FileDescriptorTable k).Mode EEFS_FWRITE ≠ 0)) :=
  ⟨by decide, ⟨1, by decide, by decide⟩,
    ((open_sharing (exEnv true) (exFileSession true) 1 [97] 0 O_WRONLY 0 (by decide)
      (by decide) (by decide) (by decide) rfl ⟨1, by decide, by decide⟩).2
        (Or.inl (by decide))).1⟩

/-! ## Unsupported flags and deferred truncation -/

/-- C16 (amended). Unsupported open flags: for a valid name and a flag word with a bit
outside `O_RDONLY | O_WRONLY | O_RDWR | O_TRUNC | O_CREAT`, `EEFS_LibOpen` of a name that
is found returns `EEFS_INVALID_ARGUMENT` and leaves the whole state unchanged; of a name
that is not found it returns `EEFS_FILE_NOT_FOUND` with the state unchanged when the flag
word has no `O_CREAT`, and does what `EEFS_LibCreat` with `EEFS_ATTRIBUTE_NONE` does when
it has. -/
theorem open_unsupported_flags (env : Env) (s : State) (T : Nat) (f : List Nat)
    (Flags A : Nat) (hT : T ≠ 0) (hname : EEFS_LibIsValidFilename (some f) = true)
    (hbad : Nat.land Flags
      (u32not (Nat.lor (Nat.lor (Nat.lor (Nat.lor O_RDONLY O_WRONLY) O_RDWR) O_TRUNC) O_CREAT))
      ≠ 0) :
    (EEFS_LibFindFile env s T f ≠ EEFS_FILE_NOT_FOUND →
      EEFS_LibOpen env s T (some f) Flags A = (EEFS_INVALID_ARGUMENT, s)) ∧
    (EEFS_LibFindFile env s T f = EEFS_FILE_NOT_FOUND → Nat.land Flags O_CREAT = 0 →
      EEFS_LibOpen env s T (some f) Flags A = (EEFS_FILE_NOT_FOUND, s)) ∧
    (EEFS_LibFindFile env s T f = EEFS_FILE_NOT_FOUND → Nat.land Flags O_CREAT ≠ 0 →
      EEFS_LibOpen env s T (some f) Flags A
        = EEFS_LibCreat env s T (some f) EEFS_ATTRIBUTE_NONE) := by
  refine ⟨?_, ?_, ?_⟩
  · intro hf
    unfold EEFS_LibOpen
    rw [if_pos hT, if_pos hname]
    simp only [Option.getD_some]
    rw [if_pos hf]
    unfold EEFS_LibOpenFile
    simp only []
    rw [if_neg hbad]
  · intro hf hc
    unfold EEFS_LibOpen
    rw [if_pos hT, if_pos hname]
    simp only [Option.getD_some]
    rw [if_neg (by rw [hf]; exact fun h => h rfl), if_neg (by rw [hc]; exact fun h => h rfl)]
  · intro hf hc
    unfold EEFS_LibOpen EEFS_LibCreat
    rw [if_pos hT, if_pos hname]
    simp only [Option.getD_some]
    rw [if_neg (by rw [hf]; exact fun h => h rfl), if_pos hc, if_pos hT, if_pos hname,
      if_neg (by rw [hf]; exact fun h => h rfl)]

set_option maxRecDepth 100000 in
/-- C16, witness: `EEFS_LibOpen("a", O_APPEND)` on the mounted one-file example volume,
where "a" exists. -/
theorem open_unsupported_flags_witness :
    (1 : Nat) ≠ 0 ∧ EEFS_LibIsValidFilename (some [97]) = true ∧
    Nat.land 1024
      (u32not (Nat.lor (Nat.lor (Nat.lor (Nat.lor O_RDONLY O_WRONLY) O_RDWR) O_TRUNC) O_CREAT))
      ≠ 0 ∧
    EEFS_LibOpen (exEnv true) (exMountedOneFile true 100) 1 (some [97]) 1024 0
      = (EEFS_INVALID_ARGUMENT, exMountedOneFile true 100) :=
  ⟨by decide, by decide, by decide,
    (open_unsupported_flags (exEnv true) (exMountedOneFile true 100) 1 [97] 1024 0
      (by decide) (by decide) (by decide)).1 (by decide)⟩

set_option maxRecDepth 100000 in
/-- C16, counterexample: on the mounted empty example volume the name "a" does not exist.
`EEFS_LibOpen("a", O_APPEND)`, the flag word 1024 having an unsupported bit, returns
`EEFS_FILE_NOT_FOUND`, and `EEFS_LibOpen("a", O_APPEND | O_CREAT)`, flag word 1088,
returns descriptor 0 and adds a slot to the inode table. -/
theorem open_unsupported_flags_counterexample :
    Nat.land 1024
      (u32not (Nat.lor (Nat.lor (Nat.lor (Nat.lor O_RDONLY O_WRONLY) O_RDWR) O_TRUNC) O_CREAT))
      ≠ 0 ∧
    (EEFS_LibOpen (exEnv true) (exMountedEmpty true) 1 (some [97]) 1024 0).1
      = EEFS_FILE_NOT_FOUND ∧
    Nat.land 1088
      (u32not (Nat.lor (Nat.lor (Nat.lor (Nat.lor O_RDONLY O_WRONLY) O_RDWR) O_TRUNC) O_CREAT))
      ≠ 0 ∧
    (EEFS_LibOpen (exEnv true) (exMountedEmpty true) 1 (some [97]) 1088 0).1 = 0 ∧
    ¬ fdInUse (exMountedEmpty true) 0 ∧
    fdInUse (EEFS_LibOpen (exEnv true) (exMountedEmpty true) 1 (some [97]) 1088 0).2 0 ∧
    ((exMountedEmpty true).InodeTables 1).NumberOfFiles = 0 ∧
    ((EEFS_LibOpen (exEnv true) (exMountedEmpty true) 1 (some [97]) 1088
      0).2.InodeTables 1).NumberOfFiles = 1 := by
  decide

theorem stat_congr (env : Env) (s s' : State) (T : Nat) (g : Option (List Nat))
    (b : Option EEFS_Stat_t) (hm : s'.mem = s.mem) (ht : s'.InodeTables = s.InodeTables) :
    EEFS_LibStat env s' T g b = EEFS_LibStat env s T g b := by
  unfold EEFS_LibStat EEFS_LibFindFile
  rw [hm, ht]

theorem creat_found (env : Env) (s : State) (T : Nat) (f : List Nat) (i : Nat)
    (A : Nat) (hT : T ≠ 0) (hname : EEFS_LibIsValidFilename (some f) = true)
    (hfind : EEFS_LibFindFile env s T f = (i : Int)) :
    EEFS_LibCreat env s T (some f) A
      = EEFS_LibOpenFile env s T (i : Int) (Nat.lor O_WRONLY O_TRUNC) A := by
  obtain ⟨-, -, -, hne⟩ := findFile_nat env s T f i hfind
  unfold EEFS_LibCreat
  rw [if_pos hT, if_pos hname]
  simp only [Option.getD_some]
  rw [hfind, if_pos hne]

/-- What `EEFS_LibOpenFile` leaves alone, and the descriptor it fills when it returns
one. -/
theorem openFile_result (env : Env) (s : State) (T : Nat) (idx : Int) (Flags A : Nat) :
    (EEFS_LibOpenFile env s T idx Flags A).2.mem = s.mem ∧
    (EEFS_LibOpenFile env s T idx Flags A).2.InodeTables = s.InodeTables ∧
    ∀ k : Nat, (EEFS_LibOpenFile env s T idx Flags A).1 = (k : Int) →
      k < EEFS_MAX_OPEN_FILES ∧
      (EEFS_LibOpenFile env s T idx Flags A).2.EEFS_FileDescriptorTable
        = Function.update s.EEFS_FileDescriptorTable k
            (openedDescriptor env s T idx Flags) := by
  rcases openFile_cases env s T idx Flags A with ⟨hs, hneg⟩ | ⟨k, hk, hfree, hg, hr, -, -, hst⟩
  · rw [hs]
    refine ⟨rfl, rfl, ?_⟩
    intro k hk
    rw [hk] at hneg
    omega
  · obtain ⟨-, -, htab, htabs, hmem, -⟩ := getFD_of_ret s k hg
    refine ⟨?_, ?_, ?_⟩
    · rw [hst]
      simp only [setFileDescriptor]
      exact hmem
    · rw [hst]
      simp only [setFileDescriptor]
      exact htabs
    · intro k' hk'
      have : k' = k := by
        rw [hr] at hk'
        exact_mod_cast hk'.symm
      subst this
      refine ⟨hk, ?_⟩
      rw [hst]
      exact setFD_getFD_fds s k' _ hg

/-- `EEFS_LibClose` of a descriptor with `EEFS_FWRITE` and without `EEFS_FCREAT` writes
the descriptor's `FileSize` into the file header. -/
theorem close_write_header (env : Env) (s : State) (fd : Int)
    (hfd : EEFS_LibIsValidFileDescriptor s fd = true)
    (hw : Nat.land (s.EEFS_FileDescriptorTable fd.toNat).Mode EEFS_FWRITE ≠ 0)
    (hc : Nat.land (s.EEFS_FileDescriptorTable fd.toNat).Mode EEFS_FCREAT = 0)
    (hsz : (s.EEFS_FileDescriptorTable fd.toNat).FileSize < 4294967296) :
    (EEFS_LibClose env s fd).1 = EEFS_SUCCESS ∧
    (loadFileHeader env (EEFS_LibClose env s fd).2.mem
      (s.EEFS_FileDescriptorTable fd.toNat).FileHeaderPointer).FileSize
      = (s.EEFS_FileDescriptorTable fd.toNat).FileSize := by
  rw [close_eq, if_pos hfd]
  refine ⟨rfl, ?_⟩
  simp only []
  rw [freed_mem]
  unfold closeBody
  rw [if_neg (fun h => h hc), if_pos hw]
  unfold closeWrite
  simp only [EEFS_LIB_EEPROM_FLUSH, EEFS_LIB_EEPROM_WRITE]
  rw [(loadFileHeader_store env _ _ _).2.1]
  exact Nat.mod_eq_of_lt hsz

/-- `EEFS_LibClose` of a descriptor without `EEFS_FWRITE` and `EEFS_FCREAT` leaves the
medium alone. -/
theorem close_read_mem (env : Env) (s : State) (fd : Int)
    (hfd : EEFS_LibIsValidFileDescriptor s fd = true)
    (hw : Nat.land (s.EEFS_FileDescriptorTable fd.toNat).Mode EEFS_FWRITE = 0)
    (hc : Nat.land (s.EEFS_FileDescriptorTable fd.toNat).Mode EEFS_FCREAT = 0) :
    (EEFS_LibClose env s fd).2.mem = s.mem := by
  rw [close_eq, if_pos hfd]
  simp only []
  rw [freed_mem]
  unfold closeBody
  rw [if_neg (fun h => h hc), if_neg (fun h => h hw)]

theorem opened_size (env : Env) (s : State) (T : Nat) (idx : Int) (Flags : Nat) :
    (openedDescriptor env s T idx Flags).InUse = TRUE ∧
    (openedDescriptor env s T idx Flags).Mode = u32 (Nat.land Flags O_ACCMODE + 1) ∧
    (openedDescriptor env s T idx Flags).ByteOffset = 0 ∧
    (openedDescriptor env s T idx Flags).FileHeaderPointer
      = ((s.InodeTables T).File idx.toNat).FileHeaderPointer ∧
    ((Nat.land Flags O_ACCMODE = O_WRONLY ∨ Nat.land Flags O_ACCMODE = O_RDWR) →
      Nat.land Flags O_TRUNC ≠ 0 → (openedDescriptor env s T idx Flags).FileSize = 0) ∧
    (Nat.land Flags O_ACCMODE = O_RDONLY →
      (openedDescriptor env s T idx Flags).FileSize
        = (loadFileHeader env s.mem
            ((s.InodeTables T).File idx.toNat).FileHeaderPointer).FileSize) := by
  refine ⟨rfl, rfl, rfl, rfl, ?_, ?_⟩
  · intro h1 h2
    simp only [openedDescriptor]
    rw [if_pos ⟨h1, h2⟩]
  · intro h1
    simp only [openedDescriptor]
    rw [if_neg]
    rintro ⟨h | h, -⟩
    · rw [h1] at h; exact absurd h (by decide)
    · rw [h1] at h; exact absurd h (by decide)

theorem mode_write_plain (x : Nat) (h : x = O_WRONLY ∨ x = O_RDWR) :
    Nat.land (u32 (x + 1)) EEFS_FWRITE ≠ 0 ∧ Nat.land (u32 (x + 1)) EEFS_FCREAT = 0 := by
  rcases h with rfl | rfl <;> decide

theorem mode_read_plain (x : Nat) (h : x = O_RDONLY) :
    Nat.land (u32 (x + 1)) EEFS_FWRITE = 0 ∧ Nat.land (u32 (x + 1)) EEFS_FCREAT = 0 := by
  subst h
  decide

/-- An open through `EEFS_LibOpenFile`: the medium and the inode tables are unchanged, and
a returned descriptor `k` has offset 0; with write access and `O_TRUNC` its `FileSize` is
0 and a `Close` right away writes 0 into the file header; with `O_RDONLY` its `FileSize`
is that of the file header, whatever `O_TRUNC`, and a `Close` leaves the medium alone. -/
theorem openFile_truncate (env : Env) (s : State) (T : Nat) (i : Nat) (Flags A : Nat) :
    (EEFS_LibOpenFile env s T (i : Int) Flags A).2.mem = s.mem ∧
    (EEFS_LibOpenFile env s T (i : Int) Flags A).2.InodeTables = s.InodeTables ∧
    ∀ k : Nat, (EEFS_LibOpenFile env s T (i : Int) Flags A).1 = (k : Int) →
      ((EEFS_LibOpenFile env s T (i : Int) Flags A).2.EEFS_FileDescriptorTable k).ByteOffset
        = 0 ∧
      ((Nat.land Flags O_ACCMODE = O_WRONLY ∨ Nat.land Flags O_ACCMODE = O_RDWR) →
        Nat.land Flags O_TRUNC ≠ 0 →
        ((EEFS_LibOpenFile env s T (i : Int) Flags A).2.EEFS_FileDescriptorTable k).FileSize
          = 0 ∧
        (loadFileHeader env
          (EEFS_LibClose env (EEFS_LibOpenFile env s T (i : Int) Flags A).2 (k : Int)).2.mem
          ((s.InodeTables T).File i).FileHeaderPointer).FileSize = 0) ∧
      (Nat.land Flags O_ACCMODE = O_RDONLY →
        ((EEFS_LibOpenFile env s T (i : Int) Flags A).2.EEFS_FileDescriptorTable k).FileSize
          = (loadFileHeader env s.mem ((s.InodeTables T).File i).FileHeaderPointer).FileSize ∧
        (EEFS_LibClose env (EEFS_LibOpenFile env s T (i : Int) Flags A).2 (k : Int)).2.mem
          = s.mem) := by
  obtain ⟨hmem, htabs, hk⟩ := openFile_result env s T (i : Int) Flags A
  refine ⟨hmem, htabs, ?_⟩
  intro k hr
  obtain ⟨hk20, htab⟩ := hk k hr
  obtain ⟨o1, o2, o3, o4, o5, o6⟩ := opened_size env s T (i : Int) Flags
  rw [Int.toNat_ofNat] at o4 o6
  have hd : (EEFS_LibOpenFile env s T (i : Int) Flags A).2.EEFS_FileDescriptorTable k
      = openedDescriptor env s T (i : Int) Flags := by
    rw [htab, Function.update_same]
  have hv : EEFS_LibIsValidFileDescriptor (EEFS_LibOpenFile env s T (i : Int) Flags A).2
      (k : Int) = true := by
    rw [isValid_iff]
    refine ⟨by omega, by exact_mod_cast hk20, ?_⟩
    unfold fdInUse
    rw [Int.toNat_ofNat, hd]
    exact o1
  refine ⟨by rw [hd]; exact o3, ?_, ?_⟩
  · intro h1 h2
    have hz := o5 h1 h2
    obtain ⟨m1, m2⟩ := mode_write_plain _ h1
    refine ⟨by rw [hd]; exact hz, ?_⟩
    have hcl := close_write_header env (EEFS_LibOpenFile env s T (i : Int) Flags A).2 (k : Int)
      hv (by rw [Int.toNat_ofNat, hd, o2]; exact m1) (by rw [Int.toNat_ofNat, hd, o2]; exact m2)
      (by rw [Int.toNat_ofNat, hd, hz]; decide)
    rw [Int.toNat_ofNat, hd, o4, hz] at hcl
    exact hcl.2
  · intro h1
    obtain ⟨m1, m2⟩ := mode_read_plain _ h1
    refine ⟨by rw [hd]; exact o6 h1, ?_⟩
    rw [close_read_mem env (EEFS_LibOpenFile env s T (i : Int) Flags A).2 (k : Int)
      hv (by rw [Int.toNat_ofNat, hd, o2]; exact m1) (by rw [Int.toNat_ofNat, hd, o2]; exact m2)]
    exact hmem

/-- C17. Truncation is deferred to close.  Let the name `f` be found at index `i` of the
inode table `T`.  `EEFS_LibOpen` of `f` with any flag word, and `EEFS_LibCreat` of `f`,
change no medium byte and no inode table, so that `EEFS_LibStat` of every name returns
what it returned before.  A descriptor `k` that `EEFS_LibOpen` returns has
`ByteOffset == 0`; with access mode `O_WRONLY` or `O_RDWR` and `O_TRUNC` it has
`FileSize == 0` and after an `EEFS_LibClose` right away the file header on the medium has
`FileSize == 0`; with access mode `O_RDONLY` it has the `FileSize` of the file header,
with or without `O_TRUNC`, and `EEFS_LibClose` leaves the medium as it was.  A descriptor
that `EEFS_LibCreat` returns has `ByteOffset == 0` and `FileSize == 0`, and a close right
away writes `FileSize == 0`.  In any state, `EEFS_LibClose` of a valid descriptor with
`EEFS_FWRITE` and without `EEFS_FCREAT` succeeds and leaves the descriptor's `FileSize`
in the file header on the medium. -/
theorem truncate_deferred (env : Env) (s : State) (T : Nat) (f : List Nat) (i : Nat)
    (hT : T ≠ 0) (hname : EEFS_LibIsValidFilename (some f) = true)
    (hfind : EEFS_LibFindFile env s T f = (i : Int)) :
    (∀ Flags A : Nat,
      (EEFS_LibOpen env s T (some f) Flags A).2.mem = s.mem ∧
      (EEFS_LibOpen env s T (some f) Flags A).2.InodeTables = s.InodeTables ∧
      (∀ g b, EEFS_LibStat env (EEFS_LibOpen env s T (some f) Flags A).2 T g b
        = EEFS_LibStat env s T g b) ∧
      ∀ k : Nat, (EEFS_LibOpen env s T (some f) Flags A).1 = (k : Int) →
        ((EEFS_LibOpen env s T (some f) Flags A).2.EEFS_FileDescriptorTable k).ByteOffset
          = 0 ∧
        ((Nat.land Flags O_ACCMODE = O_WRONLY ∨ Nat.land Flags O_ACCMODE = O_RDWR) →
          Nat.land Flags O_TRUNC ≠ 0 →
          ((EEFS_LibOpen env s T (some f) Flags A).2.EEFS_FileDescriptorTable k).FileSize
            = 0 ∧
          (loadFileHeader env
            (EEFS_LibClose env (EEFS_LibOpen env s T (some f) Flags A).2 (k : Int)).2.mem
            ((s.InodeTables T).File i).FileHeaderPointer).FileSize = 0) ∧
        (Nat.land Flags O_ACCMODE = O_RDONLY →
          ((EEFS_LibOpen env s T (some f) Flags A).2.EEFS_FileDescriptorTable k).FileSize
            = (loadFileHeader env s.mem
                ((s.InodeTables T).File i).FileHeaderPointer).FileSize ∧
          (EEFS_LibClose env (EEFS_LibOpen env s T (some f) Flags A).2 (k : Int)).2.mem
            = s.mem)) ∧
    (∀ A : Nat,
      (EEFS_LibCreat env s T (some f) A).2.mem = s.mem ∧
      (EEFS_LibCreat env s T (some f) A).2.InodeTables = s.InodeTables ∧
      (∀ g b, EEFS_LibStat env (EEFS_LibCreat env s T (some f) A).2 T g b
        = EEFS_LibStat env s T g b) ∧
      ∀ k : Nat, (EEFS_LibCreat env s T (some f) A).1 = (k : Int) →
        ((EEFS_LibCreat env s T (some f) A).2.EEFS_FileDescriptorTable k).ByteOffset = 0 ∧
        ((EEFS_LibCreat env s T (some f) A).2.EEFS_FileDescriptorTable k).FileSize = 0 ∧
        (loadFileHeader env
          (EEFS_LibClose env (EEFS_LibCreat env s T (some f) A).2 (k : Int)).2.mem
          ((s.InodeTables T).File i).FileHeaderPointer).FileSize = 0) ∧
    (∀ (s2 : State) (fd : Int), EEFS_LibIsValidFileDescriptor s2 fd = true →
      Nat.land (s2.EEFS_FileDescriptorTable fd.toNat).Mode EEFS_FWRITE ≠ 0 →
      Nat.land (s2.EEFS_FileDescriptorTable fd.toNat).Mode EEFS_FCREAT = 0 →
      (s2.EEFS_FileDescriptorTable fd.toNat).FileSize < 4294967296 →
      (EEFS_LibClose env s2 fd).1 = EEFS_SUCCESS ∧
      (loadFileHeader env (EEFS_LibClose env s2 fd).2.mem
        (s2.EEFS_FileDescriptorTable fd.toNat).FileHeaderPointer).FileSize
        = (s2.EEFS_FileDescriptorTable fd.toNat).FileSize) := by
  refine ⟨?_, ?_, ?_⟩
  · intro Flags A
    rw [open_found env s T f i Flags A hT hname hfind]
    obtain ⟨h1, h2, h3⟩ := openFile_truncate env s T i Flags A
    exact ⟨h1, h2, fun g b => stat_congr env s _ T g b h1 h2, h3⟩
  · intro A
    rw [creat_found env s T f i A hT hname hfind]
    obtain ⟨h1, h2, h3⟩ := openFile_truncate env s T i (Nat.lor O_WRONLY O_TRUNC) A
    refine ⟨h1, h2, fun g b => stat_congr env s _ T g b h1 h2, ?_⟩
    intro k hk
    obtain ⟨a1, a2, -⟩ := h3 k hk
    obtain ⟨a3, a4⟩ := a2 (Or.inl (by decide)) (by decide)
    exact ⟨a1, a3, a4⟩
  · intro s2 fd h1 h2 h3 h4
    exact close_write_header env s2 fd h1 h2 h3 h4

set_option maxRecDepth 100000 in
/-- C17, witness: `EEFS_LibOpen("a", O_WRONLY | O_TRUNC)` on the mounted one-file example
volume returns descriptor 0, whose `FileSize` is 0 while the file header still holds
1000; after the close the header holds 0. -/
theorem truncate_deferred_witness :
    (1 : Nat) ≠ 0 ∧ EEFS_LibIsValidFilename (some [97]) = true ∧
    EEFS_LibFindFile (exEnv true) (exMountedOneFile true 100) 1 [97] = ((0 : Nat) : Int) ∧
    (EEFS_LibOpen (exEnv true) (exMountedOneFile true 100) 1 (some [97])
      (Nat.lor O_WRONLY O_TRUNC) 0).1 = ((0 : Nat) : Int) ∧
    (loadFileHeader (exEnv true) (exMountedOneFile true 100).mem
      (((exMountedOneFile true 100).InodeTables 1).File 0).FileHeaderPointer).FileSize
      = 1000 ∧
    (((EEFS_LibOpen (exEnv true) (exMountedOneFile true 100) 1 (some [97])
        (Nat.lor O_WRONLY O_TRUNC) 0).2.EEFS_FileDescriptorTable 0).FileSize = 0 ∧
      (loadFileHeader (exEnv true)
        (EEFS_LibClose (exEnv true) (EEFS_LibOpen (exEnv true) (exMountedOneFile true 100) 1
          (some [97]) (Nat.lor O_WRONLY O_TRUNC) 0).2 ((0 : Nat) : Int)).2.mem
        (((exMountedOneFile true 100).InodeTables 1).File 0).FileHeaderPointer).FileSize
        = 0) :=
  ⟨by decide, by decide, by decide, by decide, by decide,
    ((((truncate_deferred (exEnv true) (exMountedOneFile true 100) 1 [97] 0 (by decide)
      (by decide) (by decide)).1 (Nat.lor O_WRONLY O_TRUNC) 0).2.2.2 0 (by decide)).2.1
        (Or.inl (by decide)) (by decide))⟩

/-! ## The checks of `EEFS_LibCreat` -/

theorem creat_new (env : Env) (s : State) (T : Nat) (f : List Nat) (A : Nat)
    (hT : T ≠ 0) (hname : EEFS_LibIsValidFilename (some f) = true)
    (hfind : EEFS_LibFindFile env s T f = EEFS_FILE_NOT_FOUND) :
    EEFS_LibCreat env s T (some f) A = EEFS_LibCreatFile env s T f A := by
  unfold EEFS_LibCreat
  rw [if_pos hT, if_pos hname]
  simp only [Option.getD_some]
  rw [if_neg (by rw [hfind]; exact fun h => h rfl)]

theorem getFD_none (s : State)
    (h : ∀ k, k < EEFS_MAX_OPEN_FILES → (s.EEFS_FileDescriptorTable k).InUse ≠ FALSE) :
    (EEFS_LibGetFileDescriptor s).1 = EEFS_NO_FREE_FILE_DESCRIPTOR := by
  rcases getFD_cases s with ⟨k, hk, hfree, -⟩ | hno
  · exact absurd hfree (h k hk)
  · rw [hno]

/-- C18. Creat rejection table: for a valid name that `EEFS_LibFindFile` does not find,
`EEFS_LibCreat` fails with the code of the first failing check, in this order: medium
write-protected, `EEFS_READ_ONLY_FILE_SYSTEM`; `NumberOfFiles` at `EEFS_MAX_FILES` (64) or
beyond, `EEFS_NO_SPACE_LEFT_ON_DEVICE`; an in-use descriptor with `EEFS_FCREAT` on the
table, `EEFS_PERMISSION_DENIED`; `FreeMemorySize ≤ 64`, `EEFS_NO_SPACE_LEFT_ON_DEVICE`;
attributes other than `EEFS_ATTRIBUTE_NONE` and `EEFS_ATTRIBUTE_READONLY`,
`EEFS_INVALID_ARGUMENT`; no descriptor with `InUse == FALSE`,
`EEFS_NO_FREE_FILE_DESCRIPTOR`.  In each of these cases the state after the call is the
state before.  When no check fails, a descriptor is returned. -/
theorem creat_rejections (env : Env) (s : State) (T : Nat) (f : List Nat) (A : Nat)
    (hT : T ≠ 0) (hname : EEFS_LibIsValidFilename (some f) = true)
    (hfind : EEFS_LibFindFile env s T f = EEFS_FILE_NOT_FOUND) :
    (env.writeProtected = true →
      EEFS_LibCreat env s T (some f) A = (EEFS_READ_ONLY_FILE_SYSTEM, s)) ∧
    (env.writeProtected = false → EEFS_MAX_FILES ≤ (s.InodeTables T).NumberOfFiles →
      EEFS_LibCreat env s T (some f) A = (EEFS_NO_SPACE_LEFT_ON_DEVICE, s)) ∧
    (env.writeProtected = false → (s.InodeTables T).NumberOfFiles < EEFS_MAX_FILES →
      (∃ k, k < EEFS_MAX_OPEN_FILES ∧ fdInUse s k ∧
        (s.EEFS_FileDescriptorTable k).InodeTable = T ∧
        Nat.land (s.EEFS_FileDescriptorTable k).Mode EEFS_FCREAT ≠ 0) →
      EEFS_LibCreat env s T (some f) A = (EEFS_PERMISSION_DENIED, s)) ∧
    (env.writeProtected = false → (s.InodeTables T).NumberOfFiles < EEFS_MAX_FILES →
      ¬ (∃ k, k < EEFS_MAX_OPEN_FILES ∧ fdInUse s k ∧
        (s.EEFS_FileDescriptorTable k).InodeTable = T ∧
        Nat.land (s.EEFS_FileDescriptorTable k).Mode EEFS_FCREAT ≠ 0) →
      (s.InodeTables T).FreeMemorySize ≤ 64 →
      EEFS_LibCreat env s T (some f) A = (EEFS_NO_SPACE_LEFT_ON_DEVICE, s)) ∧
    (env.writeProtected = false → (s.InodeTables T).NumberOfFiles < EEFS_MAX_FILES →
      ¬ (∃ k, k < EEFS_MAX_OPEN_FILES ∧ fdInUse s k ∧
        (s.EEFS_FileDescriptorTable k).InodeTable = T ∧
        Nat.land (s.EEFS_FileDescriptorTable k).Mode EEFS_FCREAT ≠ 0) →
      64 < (s.InodeTables T).FreeMemorySize →
      A ≠ EEFS_ATTRIBUTE_NONE → A ≠ EEFS_ATTRIBUTE_READONLY →
      EEFS_LibCreat env s T (some f) A = (EEFS_INVALID_ARGUMENT, s)) ∧
    (env.writeProtected = false → (s.InodeTables T).NumberOfFiles < EEFS_MAX_FILES →
      ¬ (∃ k, k < EEFS_MAX_OPEN_FILES ∧ fdInUse s k ∧
        (s.EEFS_FileDescriptorTable k).InodeTable = T ∧
        Nat.land (s.EEFS_FileDescriptorTable k).Mode EEFS_FCREAT ≠ 0) →
      64 < (s.InodeTables T).FreeMemorySize →
      (A = EEFS_ATTRIBUTE_NONE ∨ A = EEFS_ATTRIBUTE_READONLY) →
      (∀ k, k < EEFS_MAX_OPEN_FILES → (s.EEFS_FileDescriptorTable k).InUse ≠ FALSE) →
      EEFS_LibCreat env s T (some f) A = (EEFS_NO_FREE_FILE_DESCRIPTOR, s)) ∧
    (env.writeProtected = false → (s.InodeTables T).NumberOfFiles < EEFS_MAX_FILES →
      ¬ (∃ k, k < EEFS_MAX_OPEN_FILES ∧ fdInUse s k ∧
        (s.EEFS_FileDescriptorTable k).InodeTable = T ∧
        Nat.land (s.EEFS_FileDescriptorTable k).Mode EEFS_FCREAT ≠ 0) →
      64 < (s.InodeTables T).FreeMemorySize →
      (A = EEFS_ATTRIBUTE_NONE ∨ A = EEFS_ATTRIBUTE_READONLY) →
      (∃ k, k < EEFS_MAX_OPEN_FILES ∧ (s.EEFS_FileDescriptorTable k).InUse = FALSE) →
      ∃ k : Nat, k < EEFS_MAX_OPEN_FILES ∧
        (EEFS_LibCreat env s T (some f) A).1 = (k : Int) ∧
        fdInUse (EEFS_LibCreat env s T (some f) A).2 k) := by
  rw [creat_new env s T f A hT hname hfind]
  have hoc : ¬ (∃ k, k < EEFS_MAX_OPEN_FILES ∧ fdInUse s k ∧
        (s.EEFS_FileDescriptorTable k).InodeTable = T ∧
        Nat.land (s.EEFS_FileDescriptorTable k).Mode EEFS_FCREAT ≠ 0) →
      EEFS_LibHasOpenCreat s T = false := by
    intro h
    cases hb : EEFS_LibHasOpenCreat s T
    · rfl
    · exact absurd ((hasOpenCreat_true_iff s T).1 hb) h
  refine ⟨?_, ?_, ?_, ?_, ?_, ?_, ?_⟩
  · intro h1
    unfold EEFS_LibCreatFile
    simp only []
    rw [if_neg (by rw [h1]; exact fun h => Bool.noConfusion h)]
  · intro h1 h2
    unfold EEFS_LibCreatFile
    simp only []
    rw [if_pos h1, if_neg (by omega)]
  · intro h1 h2 h3
    unfold EEFS_LibCreatFile
    simp only []
    have h4 : ¬ (EEFS_LibHasOpenCreat s T = false) := by
      rw [(hasOpenCreat_true_iff s T).2 h3]
      exact fun h => Bool.noConfusion h
    rw [if_pos h1, if_pos h2, if_neg h4]
  · intro h1 h2 h3 h4
    unfold EEFS_LibCreatFile
    simp only []
    rw [if_pos h1, if_pos h2, if_pos (hoc h3), if_neg (by simp only [sizeofFileHeader]; omega)]
  · intro h1 h2 h3 h4 h5 h6
    unfold EEFS_LibCreatFile
    simp only []
    rw [if_pos h1, if_pos h2, if_pos (hoc h3), if_pos (by simp only [sizeofFileHeader]; omega),
      if_neg (by rintro (h | h); exact h5 h; exact h6 h)]
  · intro h1 h2 h3 h4 h5 h6
    unfold EEFS_LibCreatFile
    simp only []
    rw [if_pos h1, if_pos h2, if_pos (hoc h3), if_pos (by simp only [sizeofFileHeader]; omega),
      if_pos h5, if_neg (fun h => h (getFD_none s h6))]
  · intro h1 h2 h3 h4 h5 h6
    have h7 := getFD_free s h6
    rcases creatFile_cases env s T f A with ⟨-, hneg⟩ | ⟨k, hk, -, hg, hr, -, -, -, -, -, hst⟩
    · exfalso
      have hret : (EEFS_LibCreatFile env s T f A).1 = (EEFS_LibGetFileDescriptor s).1 := by
        unfold EEFS_LibCreatFile
        simp only []
        rw [if_pos h1, if_pos h2, if_pos (hoc h3),
          if_pos (by simp only [sizeofFileHeader]; omega), if_pos h5, if_pos h7]
      rcases getFD_cases s with ⟨k, hk, -, hg, -⟩ | hno
      · rw [hret, hg] at hneg
        omega
      · exact h7 (by rw [hno])
    · refine ⟨k, hk, hr, ?_⟩
      unfold fdInUse
      rw [hst]
      simp only [setFileDescriptor, Function.update_same, createdDescriptor]

set_option maxRecDepth 100000 in
/-- C18, witness: in the example session the file "a" is being created on table 1 through
descriptor 0; `EEFS_LibCreat("b")` is refused with `EEFS_PERMISSION_DENIED` and the state
is unchanged. -/
theorem creat_rejections_witness :
    (1 : Nat) ≠ 0 ∧ EEFS_LibIsValidFilename (some [98]) = true ∧
    EEFS_LibFindFile (exEnv true) (exSessionOpen true) 1 [98] = EEFS_FILE_NOT_FOUND ∧
    EEFS_LibCreat (exEnv true) (exSessionOpen true) 1 (some [98]) EEFS_ATTRIBUTE_NONE
      = (EEFS_PERMISSION_DENIED, exSessionOpen true) :=
  ⟨by decide, by decide, by decide,
    (creat_rejections (exEnv true) (exSessionOpen true) 1 [98] EEFS_ATTRIBUTE_NONE
      (by decide) (by decide) (by decide)).2.2.1 rfl (by decide)
      ⟨0, by decide, by decide, by decide, by decide⟩⟩

/-! ## Removing a file -/

theorem modes_kept {s s' : State} (h : ModesSet s) (hk : DescriptorsKept s s') :
    ModesSet s' := by
  intro k hk20 hu
  obtain ⟨hu0, hm, -⟩ := hk k hk20 hu
  rw [hm]
  exact h k hk20 hu0

theorem modes_update {s s' : State} (h : ModesSet s) (k : Nat) (d : EEFS_FileDescriptor_t)
    (hd : d.Mode ≠ 0)
    (ht : s'.EEFS_FileDescriptorTable = Function.update s.EEFS_FileDescriptorTable k d) :
    ModesSet s' := by
  intro j hj hu
  unfold fdInUse at hu
  rw [ht] at hu ⊢
  by_cases hjk : j = k
  · subst hjk
    rw [Function.update_same]
    exact hd
  · rw [Function.update_noteq hjk] at hu ⊢
    exact h j hj hu

theorem opened_mode_ne_zero (env : Env) (s : State) (T : Nat) (idx : Int) (Flags : Nat) :
    (openedDescriptor env s T idx Flags).Mode ≠ 0 := by
  have h1 : (openedDescriptor env s T idx Flags).Mode = u32 (Nat.land Flags O_ACCMODE + 1) :=
    rfl
  have h2 : Nat.land Flags O_ACCMODE ≤ 3 := Nat.and_le_right
  rw [h1]
  generalize Nat.land Flags O_ACCMODE = x at h2
  simp only [u32]
  omega

theorem modes_openFile (env : Env) (s : State) (T : Nat) (idx : Int) (Flags A : Nat)
    (h : ModesSet s) : ModesSet (EEFS_LibOpenFile env s T idx Flags A).2 := by
  rcases openFile_cases env s T idx Flags A with ⟨he, -⟩ | ⟨k, hk, hfree, hret, -, -, -, he⟩
  · rw [he]; exact h
  · rw [he]
    exact modes_update h k _ (opened_mode_ne_zero env s T idx Flags)
      (setFD_getFD_fds s k _ hret)

theorem modes_creatFile (env : Env) (s : State) (T : Nat) (f : List Nat) (A : Nat)
    (h : ModesSet s) : ModesSet (EEFS_LibCreatFile env s T f A).2 := by
  rcases creatFile_cases env s T f A with ⟨he, -⟩ | ⟨k, hk, -, hg, -, -, -, -, -, -, he⟩
  · rw [he]; exact h
  · rw [he]
    obtain ⟨-, -, htab, -⟩ := getFD_of_ret s k hg
    apply modes_update h k (createdDescriptor s T)
    · rw [createdDescriptor_mode]
      decide
    · simp only [setFileDescriptor, EEFS_LIB_EEPROM_FLUSH, EEFS_LIB_EEPROM_WRITE, setInodeTable,
        htab, Function.update_idem]

theorem modes_open (env : Env) (s : State) (T : Nat) (f : Option (List Nat)) (Flags A : Nat)
    (h : ModesSet s) : ModesSet (EEFS_LibOpen env s T f Flags A).2 := by
  unfold EEFS_LibOpen
  simp only []
  split_ifs
  · exact modes_openFile env s T _ Flags A h
  · exact modes_creatFile env s T _ _ h
  · exact h
  · exact h
  · exact h

theorem modes_creat (env : Env) (s : State) (T : Nat) (f : Option (List Nat)) (A : Nat)
    (h : ModesSet s) : ModesSet (EEFS_LibCreat env s T f A).2 := by
  unfold EEFS_LibCreat
  simp only []
  split_ifs
  · exact modes_openFile env s T _ _ A h
  · exact modes_creatFile env s T _ _ h
  · exact h
  · exact h

theorem modes_initFS (env : Env) (s : State) (T b : Nat) (h : ModesSet s) :
    ModesSet (EEFS_LibInitFS env s T b).2 := by
  unfold EEFS_LibInitFS
  simp only []
  split_ifs
  · exact h
  · exact h
  · exact h

theorem modes_call (env : Env) (s : State) (c : Call) (h : ModesSet s) :
    ModesSet (c.run env s) := by
  cases c with
  | LibInit => intro k _ hu; exact absurd hu (init_not_inUse s k)
  | LibInitFS t b => exact modes_initFS env s t b h
  | LibFreeFS t => exact modes_kept h (kept_freeFS s t)
  | LibOpen t f fl a => exact modes_open env s t f fl a h
  | LibCreat t f a => exact modes_creat env s t f a h
  | LibClose fd => exact modes_kept h (kept_close env s fd)
  | LibRead fd b l => exact modes_kept h (kept_read s fd b l)
  | LibWrite fd b l => exact modes_kept h (kept_write s fd b l)
  | LibLSeek fd o w => exact modes_kept h (kept_lseek s fd o w)
  | LibRemove t f => exact modes_kept h (kept_remove env s t f)
  | LibRename t f g => exact modes_kept h (kept_rename env s t f g)
  | LibStat t f b => exact h
  | LibFstat fd b => exact h
  | LibSetFileAttributes t f a => exact modes_kept h (kept_setFileAttributes env s t f a)
  | LibOpenDir t => exact modes_kept h (kept_openDir s t)
  | LibReadDir d => exact modes_kept h (kept_readDir env s d)
  | LibCloseDir d => exact modes_kept h (kept_closeDir s d)

/-- In every state reachable from `EEFS_LibInit` by public calls, every in-use descriptor
has a non-zero mode. -/
theorem modes_reachable (s : State) (h : ReachableBy anyCall s) : ModesSet s := by
  induction h with
  | init s0 => intro k _ hu; exact absurd hu (init_not_inUse s0 k)
  | call env s c _ _ ih => exact modes_call env s c ih

/-- C19 (amended). Remove of an open file is refused: in every state reachable from
`EEFS_LibInit` by calls of the public functions, if the valid name `f` is found at index
`i` of the inode table `T` and some in-use descriptor refers to `(T, i)`, or the file
header has the read-only attribute, then `EEFS_LibRemove` returns
`EEFS_PERMISSION_DENIED` on a medium that is not write-protected and
`EEFS_READ_ONLY_FILE_SYSTEM` on a write-protected one, and in both cases the state after
the call is the state before: no medium byte, no inode-table field and no descriptor
changes. -/
theorem remove_open_refused (s : State) (hs : ReachableBy anyCall s) (env : Env)
    (T : Nat) (f : List Nat) (i : Nat)
    (hT : T ≠ 0) (hname : EEFS_LibIsValidFilename (some f) = true)
    (hfind : EEFS_LibFindFile env s T f = (i : Int))
    (h : (∃ k, k < EEFS_MAX_OPEN_FILES ∧ fdInUse s k ∧
        (s.EEFS_FileDescriptorTable k).InodeTable = T ∧
        (s.EEFS_FileDescriptorTable k).InodeIndex = i) ∨
      Nat.land (loadFileHeader env s.mem
        ((s.InodeTables T).File i).FileHeaderPointer).Attributes
        EEFS_ATTRIBUTE_READONLY ≠ 0) :
    (env.writeProtected = false →
      EEFS_LibRemove env s T (some f) = (EEFS_PERMISSION_DENIED, s)) ∧
    (env.writeProtected = true →
      EEFS_LibRemove env s T (some f) = (EEFS_READ_ONLY_FILE_SYSTEM, s)) := by
  obtain ⟨-, hof, hto, hne⟩ := findFile_nat env s T f i hfind
  constructor
  · intro hwp
    unfold EEFS_LibRemove
    rw [if_pos hT, if_pos hname, if_pos hwp]
    simp only [Option.getD_some]
    rw [hfind, if_pos hne, hto, hof]
    by_cases ha : Nat.land (loadFileHeader env s.mem
          ((s.InodeTables T).File i).FileHeaderPointer).Attributes
          EEFS_ATTRIBUTE_READONLY = 0
    · rw [if_pos ha]
      rcases h with ⟨k, hk, hu, ht, hi⟩ | h
      · have hm := modes_reachable s hs k hk hu
        rw [if_neg ((fmode_ne_zero_iff s T i).2 ⟨k, hk, hu, ht, hi, hm⟩)]
      · exact absurd ha h
    · rw [if_neg ha]
  · intro hwp
    have hn : ¬ (env.writeProtected = false) := by
      rw [hwp]
      exact fun h => Bool.noConfusion h
    unfold EEFS_LibRemove
    rw [if_pos hT, if_pos hname, if_neg hn]

theorem exFileSession_reachable (le : Bool) : ReachableBy anyCall (exFileSession le) :=
  ReachableBy.call (exEnv le) _ (Call.LibOpen 1 (some [97]) O_RDWR 0)
    (ReachableBy.call (exEnv le) _ (Call.LibInitFS 1 exBase)
      (ReachableBy.init (exOneFileVolume le 100)) trivial) trivial

set_option maxRecDepth 100000 in
/-- C19, witness: in the session on the one-file example volume descriptor 0 is open on
the file "a"; `EEFS_LibRemove("a")` is refused and the state is unchanged. -/
theorem remove_open_refused_witness :
    (1 : Nat) ≠ 0 ∧ EEFS_LibIsValidFilename (some [97]) = true ∧
    EEFS_LibFindFile (exEnv true) (exFileSession true) 1 [97] = ((0 : Nat) : Int) ∧
    (∃ k, k < EEFS_MAX_OPEN_FILES ∧ fdInUse (exFileSession true) k ∧
      ((exFileSession true).EEFS_FileDescriptorTable k).InodeTable = 1 ∧
      ((exFileSession true).EEFS_FileDescriptorTable k).InodeIndex = 0) ∧
    EEFS_LibRemove (exEnv true) (exFileSession true) 1 (some [97])
      = (EEFS_PERMISSION_DENIED, exFileSession true) :=
  ⟨by decide, by decide, by decide, ⟨0, by decide, by decide, by decide, by decide⟩,
    (remove_open_refused (exFileSession true) (exFileSession_reachable true) (exEnv true)
      1 [97] 0 (by decide) (by decide) (by decide)
      (Or.inl ⟨0, by decide, by decide, by decide, by decide⟩)).1 rfl⟩

set_option maxRecDepth 100000 in
/-- C19, counterexample: on a write-protected medium the file "a" of the one-file example
volume is opened with `O_RDONLY` (descriptor 0, on slot 0 of table 1);
`EEFS_LibRemove("a")` then returns `EEFS_READ_ONLY_FILE_SYSTEM`, not
`EEFS_PERMISSION_DENIED`. -/
theorem remove_write_protected_counterexample :
    exProtectedEnv.writeProtected = true ∧
    (EEFS_LibOpen exProtectedEnv (exFileMounted true) 1 (some [97]) O_RDONLY 0).1 = 0 ∧
    fdInUse exProtectedSession 0 ∧
    (exProtectedSession.EEFS_FileDescriptorTable 0).InodeTable = 1 ∧
    (exProtectedSession.EEFS_FileDescriptorTable 0).InodeIndex = 0 ∧
    EEFS_LibFindFile exProtectedEnv exProtectedSession 1 [97] = 0 ∧
    (EEFS_LibRemove exProtectedEnv exProtectedSession 1 (some [97])).1
      = EEFS_READ_ONLY_FILE_SYSTEM := by
  decide

theorem zero_header_bytes (le : Bool) :
    fileHeaderBytes le (EEFS_SwapFileHeader zeroFileHeader) = List.replicate 64 0 := by
  cases le <;> decide

/-- What a successful `EEFS_LibRemove` has checked, and the state it leaves. -/
theorem remove_success (env : Env) (s : State) (T : Nat) (f : List Nat)
    (h : (EEFS_LibRemove env s T (some f)).1 = EEFS_SUCCESS) :
    EEFS_LibIsValidFilename (some f) = true ∧
    EEFS_LibFindFile env s T f ≠ EEFS_FILE_NOT_FOUND ∧
    EEFS_LibFmode s T (ofInt32 (EEFS_LibFindFile env s T f)) = 0 ∧
    (EEFS_LibRemove env s T (some f)).2
      = EEFS_LIB_EEPROM_FLUSH (EEFS_LIB_EEPROM_WRITE s
          ((s.InodeTables T).File (EEFS_LibFindFile env s T f).toNat).FileHeaderPointer
          (fileHeaderBytes env.hostLittleEndian (EEFS_SwapFileHeader zeroFileHeader))) := by
  unfold EEFS_LibRemove at h ⊢
  simp only [Option.getD_some] at h ⊢
  split_ifs at h ⊢ with h1 h2 h3 h4 h5 h6
  · exact ⟨h2, h4, h6, rfl⟩
  all_goals
    simp only [EEFS_SUCCESS, EEFS_PERMISSION_DENIED, EEFS_FILE_NOT_FOUND,
      EEFS_READ_ONLY_FILE_SYSTEM, EEFS_INVALID_ARGUMENT] at h
    omega

theorem header_written (s : State) (p : Nat) (bs : List Nat) :
    (EEFS_LIB_EEPROM_FLUSH (EEFS_LIB_EEPROM_WRITE s p bs)).mem = memWrite s.mem p bs ∧
    (EEFS_LIB_EEPROM_FLUSH (EEFS_LIB_EEPROM_WRITE s p bs)).InodeTables = s.InodeTables ∧
    (EEFS_LIB_EEPROM_FLUSH (EEFS_LIB_EEPROM_WRITE s p bs)).EEFS_FileDescriptorTable
      = s.EEFS_FileDescriptorTable := by
  unfold EEFS_LIB_EEPROM_FLUSH EEFS_LIB_EEPROM_WRITE
  exact ⟨rfl, rfl, rfl⟩

theorem findFile_none (env : Env) (s : State) (T : Nat) (f : List Nat)
    (h : ∀ j, j < (s.InodeTables T).NumberOfFiles →
      findFileMatch env s.mem (s.InodeTables T) f j = false) :
    EEFS_LibFindFile env s T f = EEFS_FILE_NOT_FOUND := by
  unfold EEFS_LibFindFile
  have : (List.range (s.InodeTables T).NumberOfFiles).find?
      (findFileMatch env s.mem (s.InodeTables T) f) = none := by
    rw [List.find?_eq_none]
    intro x hx
    rw [h x (List.mem_range.1 hx)]
    exact fun h => Bool.noConfusion h
  rw [this]

/-! ## Mounting and releasing an inode table -/

/-- C25. InitFS validation and result: for a non-null inode table `T`, `EEFS_LibInitFS`
returns `EEFS_SUCCESS` if and only if the decoded FAT header at `B` has
`Magic == 0xEEF51234`, `Version == 1` and `NumberOfFiles <= 64`; otherwise it returns
`EEFS_NO_SUCH_DEVICE` and the whole state, the table included, is unchanged.  On success
the table has `BaseAddress == B`, `FreeMemoryPointer == B + FreeMemoryOffset` as a 32-bit
sum (the number itself when it is below `2^32`), the header's `FreeMemorySize` and
`NumberOfFiles`, `File[i] == (B + FileHeaderOffset_i, MaxFileSize_i)` for every
`i < NumberOfFiles`, and every other entry zero; the medium, the other tables and the
descriptor table are unchanged. -/
theorem initFS_result (env : Env) (s : State) (T B : Nat) (hT : T ≠ 0) :
    ((EEFS_LibInitFS env s T B).1 = EEFS_SUCCESS ↔
      ((loadFileAllocationTableHeader env s.mem B).Magic = EEFS_FILESYS_MAGIC ∧
        (loadFileAllocationTableHeader env s.mem B).Version = 1 ∧
        (loadFileAllocationTableHeader env s.mem B).NumberOfFiles ≤ EEFS_MAX_FILES)) ∧
    ((EEFS_LibInitFS env s T B).1 ≠ EEFS_SUCCESS →
      EEFS_LibInitFS env s T B = (EEFS_NO_SUCH_DEVICE, s)) ∧
    ((EEFS_LibInitFS env s T B).1 = EEFS_SUCCESS →
      ((EEFS_LibInitFS env s T B).2.InodeTables T).BaseAddress = B ∧
      ((EEFS_LibInitFS env s T B).2.InodeTables T).FreeMemoryPointer
        = u32 (B + (loadFileAllocationTableHeader env s.mem B).FreeMemoryOffset) ∧
      (B + (loadFileAllocationTableHeader env s.mem B).FreeMemoryOffset < 4294967296 →
        ((EEFS_LibInitFS env s T B).2.InodeTables T).FreeMemoryPointer
          = B + (loadFileAllocationTableHeader env s.mem B).FreeMemoryOffset) ∧
      ((EEFS_LibInitFS env s T B).2.InodeTables T).FreeMemorySize
        = (loadFileAllocationTableHeader env s.mem B).FreeMemorySize ∧
      ((EEFS_LibInitFS env s T B).2.InodeTables T).NumberOfFiles
        = (loadFileAllocationTableHeader env s.mem B).NumberOfFiles ∧
      (∀ i, i < (loadFileAllocationTableHeader env s.mem B).NumberOfFiles →
        ((EEFS_LibInitFS env s T B).2.InodeTables T).File i
          = ⟨u32 (B + (loadFileAllocationTableEntry env s.mem
                (fatEntryAddress B i)).FileHeaderOffset),
              (loadFileAllocationTableEntry env s.mem (fatEntryAddress B i)).MaxFileSize⟩ ∧
        (B + (loadFileAllocationTableEntry env s.mem (fatEntryAddress B i)).FileHeaderOffset
            < 4294967296 →
          (((EEFS_LibInitFS env s T B).2.InodeTables T).File i).FileHeaderPointer
            = B + (loadFileAllocationTableEntry env s.mem
                (fatEntryAddress B i)).FileHeaderOffset)) ∧
      (∀ i, (loadFileAllocationTableHeader env s.mem B).NumberOfFiles ≤ i →
        ((EEFS_LibInitFS env s T B).2.InodeTables T).File i = zeroInodeTableEntry) ∧
      (∀ T', T' ≠ T → (EEFS_LibInitFS env s T B).2.InodeTables T' = s.InodeTables T') ∧
      (EEFS_LibInitFS env s T B).2.mem = s.mem ∧
      (EEFS_LibInitFS env s T B).2.EEFS_FileDescriptorTable = s.EEFS_FileDescriptorTable) := by
  unfold EEFS_LibInitFS
  rw [if_pos hT]
  simp only []
  by_cases hv : (loadFileAllocationTableHeader env s.mem B).Magic = EEFS_FILESYS_MAGIC ∧
        (loadFileAllocationTableHeader env s.mem B).Version = 1 ∧
        (loadFileAllocationTableHeader env s.mem B).NumberOfFiles ≤ EEFS_MAX_FILES
  · rw [if_pos hv]
    refine ⟨⟨fun _ => hv, fun _ => rfl⟩, fun h => absurd rfl h, fun _ => ?_⟩
    simp only [setInodeTable, Function.update_same]
    refine ⟨trivial, trivial, ?_, trivial, trivial, ?_, ?_, ?_, trivial, trivial⟩
    · intro h
      simp only [u32]
      omega
    · intro i hi
      rw [initFS_file, if_pos hi]
      refine ⟨rfl, ?_⟩
      intro h
      simp only [u32]
      omega
    · intro i hi
      rw [initFS_file, if_neg (by omega)]
    · intro T' hT'
      rw [Function.update_noteq hT']
  · rw [if_neg hv]
    have c1 : EEFS_NO_SUCH_DEVICE ≠ EEFS_SUCCESS := by decide
    exact ⟨⟨fun h => absurd h c1, fun h => absurd h hv⟩, fun _ => rfl, fun h => absurd h c1⟩

set_option maxRecDepth 100000 in
/-- C25, witness: `EEFS_LibInitFS` of table 1 on the one-file example volume. -/
theorem initFS_result_witness :
    (1 : Nat) ≠ 0 ∧
    ((EEFS_LibInitFS (exEnv true) (exOneFileVolume true 100) 1 exBase).1 = EEFS_SUCCESS ↔
      ((loadFileAllocationTableHeader (exEnv true) (exOneFileVolume true 100).mem
          exBase).Magic = EEFS_FILESYS_MAGIC ∧
        (loadFileAllocationTableHeader (exEnv true) (exOneFileVolume true 100).mem
          exBase).Version = 1 ∧
        (loadFileAllocationTableHeader (exEnv true) (exOneFileVolume true 100).mem
          exBase).NumberOfFiles ≤ EEFS_MAX_FILES)) :=
  ⟨by decide, (initFS_result (exEnv true) (exOneFileVolume true 100) 1 exBase (by decide)).1⟩

theorem hasOpenFiles_true_iff (s : State) (T : Nat) :
    EEFS_LibHasOpenFiles s T = true ↔
      ∃ k, k < EEFS_MAX_OPEN_FILES ∧ fdInUse s k ∧
        (s.EEFS_FileDescriptorTable k).InodeTable = T := by
  unfold EEFS_LibHasOpenFiles fdInUse
  simp only [List.any_eq_true, List.mem_range, Bool.and_eq_true, decide_eq_true_eq]

theorem hasOpenDir_true_iff (s : State) (T : Nat) :
    EEFS_LibHasOpenDir s T = true ↔
      (s.EEFS_DirectoryDescriptor.InUse = TRUE ∧ s.EEFS_DirectoryDescriptor.InodeTable = T) := by
  unfold EEFS_LibHasOpenDir
  simp only [Bool.and_eq_true, decide_eq_true_eq]

/-- C26. FreeFS busy check: for a non-null inode table `T`, `EEFS_LibFreeFS` returns
`EEFS_DEVICE_IS_BUSY` if and only if some in-use file descriptor, or the directory
descriptor while in use, has `InodeTable == T`, and then the whole state is unchanged;
otherwise it returns `EEFS_SUCCESS`, the table is all zero afterwards, and the other
tables, the medium and the descriptors are unchanged. -/
theorem freeFS_busy (s : State) (T : Nat) (hT : T ≠ 0) :
    ((EEFS_LibFreeFS s T).1 = EEFS_DEVICE_IS_BUSY ↔
      ((∃ k, k < EEFS_MAX_OPEN_FILES ∧ fdInUse s k ∧
          (s.EEFS_FileDescriptorTable k).InodeTable = T) ∨
        (s.EEFS_DirectoryDescriptor.InUse = TRUE ∧
          s.EEFS_DirectoryDescriptor.InodeTable = T))) ∧
    ((EEFS_LibFreeFS s T).1 = EEFS_DEVICE_IS_BUSY → (EEFS_LibFreeFS s T).2 = s) ∧
    ((EEFS_LibFreeFS s T).1 ≠ EEFS_DEVICE_IS_BUSY →
      (EEFS_LibFreeFS s T).1 = EEFS_SUCCESS ∧
      (EEFS_LibFreeFS s T).2.InodeTables T = zeroInodeTable ∧
      (∀ T', T' ≠ T → (EEFS_LibFreeFS s T).2.InodeTables T' = s.InodeTables T') ∧
      (EEFS_LibFreeFS s T).2.mem = s.mem ∧
      (EEFS_LibFreeFS s T).2.EEFS_FileDescriptorTable = s.EEFS_FileDescriptorTable ∧
      (EEFS_LibFreeFS s T).2.EEFS_DirectoryDescriptor = s.EEFS_DirectoryDescriptor) := by
  have hf := hasOpenFiles_true_iff s T
  have hd := hasOpenDir_true_iff s T
  unfold EEFS_LibFreeFS
  rw [if_pos hT]
  by_cases hb : EEFS_LibHasOpenFiles s T = false ∧ EEFS_LibHasOpenDir s T = false
  · rw [if_pos hb]
    have c1 : EEFS_SUCCESS ≠ EEFS_DEVICE_IS_BUSY := by decide
    refine ⟨⟨fun h => absurd h c1, ?_⟩, fun h => absurd h c1, fun _ => ?_⟩
    · rintro (h | h)
      · rw [hf.2 h] at hb
        exact absurd hb.1 (fun h => Bool.noConfusion h)
      · rw [hd.2 h] at hb
        exact absurd hb.2 (fun h => Bool.noConfusion h)
    · simp only [setInodeTable, Function.update_same]
      refine ⟨trivial, trivial, ?_, trivial, trivial, trivial⟩
      intro T' hT'
      rw [Function.update_noteq hT']
  · rw [if_neg hb]
    refine ⟨⟨fun _ => ?_, fun _ => rfl⟩, fun _ => rfl, fun h => absurd rfl h⟩
    by_cases h1 : EEFS_LibHasOpenFiles s T = true
    · exact Or.inl (hf.1 h1)
    · by_cases h2 : EEFS_LibHasOpenDir s T = true
      · exact Or.inr (hd.1 h2)
      · exact absurd ⟨by simpa using h1, by simpa using h2⟩ hb

set_option maxRecDepth 100000 in
/-- C26, witness: in the session on the one-file example volume descriptor 0 is open on
table 1, and `EEFS_LibFreeFS` of table 1 is refused. -/
theorem freeFS_busy_witness :
    (1 : Nat) ≠ 0 ∧
    (EEFS_LibFreeFS (exFileSession true) 1).1 = EEFS_DEVICE_IS_BUSY ∧
    (EEFS_LibFreeFS (exFileSession true) 1).2 = exFileSession true :=
  ⟨by decide,
    ((freeFS_busy (exFileSession true) 1 (by decide)).1).2
      (Or.inl ⟨0, by decide, by decide, by decide⟩),
    (freeFS_busy (exFileSession true) 1 (by decide)).2.1
      (((freeFS_busy (exFileSession true) 1 (by decide)).1).2
        (Or.inl ⟨0, by decide, by decide, by decide⟩))⟩

/-! ## Error codes of read and write -/

set_option maxRecDepth 100000 in
/-- C27. Descriptor 0 of the session opened with `O_WRONLY` is valid and has mode
`EEFS_FWRITE` only; `EEFS_LibRead` on it with a non-null buffer returns
`EEFS_PERMISSION_DENIED`, which is negative and not `EEFS_INVALID_ARGUMENT`.  Descriptor 0
of the session opened with `O_RDONLY` is valid and has mode `EEFS_FREAD` only;
`EEFS_LibWrite` on it with a non-null buffer returns `EEFS_PERMISSION_DENIED`. -/
theorem read_write_wrong_mode_code :
    (EEFS_LibOpen (exEnv true) (exFileMounted true) 1 (some [97]) O_WRONLY 0).1 = 0 ∧
    EEFS_LibIsValidFileDescriptor exWriteOnlySession 0 = true ∧
    (exWriteOnlySession.EEFS_FileDescriptorTable 0).Mode = EEFS_FWRITE ∧
    (EEFS_LibRead exWriteOnlySession 0 (some []) 10).1 = EEFS_PERMISSION_DENIED ∧
    (EEFS_LibRead exWriteOnlySession 0 (some []) 10).1 < 0 ∧
    (EEFS_LibRead exWriteOnlySession 0 (some []) 10).1 ≠ EEFS_INVALID_ARGUMENT ∧
    (EEFS_LibOpen (exEnv true) (exFileMounted true) 1 (some [97]) O_RDONLY 0).1 = 0 ∧
    EEFS_LibIsValidFileDescriptor exReadOnlySession 0 = true ∧
    (exReadOnlySession.EEFS_FileDescriptorTable 0).Mode = EEFS_FREAD ∧
    (EEFS_LibWrite exReadOnlySession 0 (some [1]) 1).1 = EEFS_PERMISSION_DENIED ∧
    (EEFS_LibWrite exReadOnlySession 0 (some [1]) 1).1 < 0 ∧
    (EEFS_LibWrite exReadOnlySession 0 (some [1]) 1).1 ≠ EEFS_INVALID_ARGUMENT := by
  decide

/-! ## Reading the directory -/

theorem readDir_step (env : Env) (s : State) (T k : Nat)
    (hd : s.EEFS_DirectoryDescriptor = ⟨TRUE, k, T⟩)
    (hk : k < (s.InodeTables T).NumberOfFiles)
    (hn : (s.InodeTables T).NumberOfFiles < 4294967296) :
    (EEFS_LibReadDir env s true).1 = some (slotEntry env s T k) ∧
    (EEFS_LibReadDir env s true).2.EEFS_DirectoryDescriptor = ⟨TRUE, k + 1, T⟩ ∧
    (EEFS_LibReadDir env s true).2.mem = s.mem ∧
    (EEFS_LibReadDir env s true).2.InodeTables = s.InodeTables ∧
    (EEFS_LibReadDir env s true).2.EEFS_FileDescriptorTable = s.EEFS_FileDescriptorTable := by
  unfold EEFS_LibReadDir
  rw [if_pos rfl]
  simp only [hd]
  rw [if_pos hk]
  have hu : u32 (k + 1) = k + 1 := by
    simp only [u32]
    omega
  simp only [hu, slotEntry, and_self]

theorem readDir_end (env : Env) (s : State) (T k : Nat)
    (hd : s.EEFS_DirectoryDescriptor = ⟨TRUE, k, T⟩)
    (hk : (s.InodeTables T).NumberOfFiles ≤ k) :
    EEFS_LibReadDir env s true = (none, s) := by
  unfold EEFS_LibReadDir
  rw [if_pos rfl]
  simp only [hd]
  rw [if_neg (by omega)]

theorem readDirTimes_state (env : Env) (s : State) (T : Nat)
    (hd : s.EEFS_DirectoryDescriptor = ⟨TRUE, 0, T⟩)
    (hn : (s.InodeTables T).NumberOfFiles < 4294967296) (k : Nat)
    (hk : k ≤ (s.InodeTables T).NumberOfFiles) :
    (readDirTimes env s k).EEFS_DirectoryDescriptor = ⟨TRUE, k, T⟩ ∧
    (readDirTimes env s k).mem = s.mem ∧
    (readDirTimes env s k).InodeTables = s.InodeTables ∧
    (readDirTimes env s k).EEFS_FileDescriptorTable = s.EEFS_FileDescriptorTable := by
  induction k with
  | zero => exact ⟨hd, rfl, rfl, rfl⟩
  | succ j ih =>
    obtain ⟨i1, i2, i3, i4⟩ := ih (by omega)
    have hj : j < ((readDirTimes env s j).InodeTables T).NumberOfFiles := by
      rw [i3]; omega
    obtain ⟨-, r2, r3, r4, r5⟩ := readDir_step env (readDirTimes env s j) T j i1 hj
      (by rw [i3]; exact hn)
    exact ⟨r2, r3.trans i2, r4.trans i3, r5.trans i4⟩

theorem slotEntry_congr (env : Env) (s s' : State) (T k : Nat) (hm : s'.mem = s.mem)
    (ht : s'.InodeTables = s.InodeTables) : slotEntry env s' T k = slotEntry env s T k := by
  unfold slotEntry
  rw [hm, ht]

/-- C28. Directory iteration.  For a non-null inode table `T`: `EEFS_LibOpenDir` returns
NULL and changes nothing when the directory descriptor is in use; when its `InUse` is
`FALSE` it returns the descriptor, now in use with iterator index 0 on `T`, and changes
neither the medium nor the inode tables.  After that, with `n` the `NumberOfFiles` of `T`,
the call number `k + 1` of `EEFS_LibReadDir`, for `k < n`, returns the entry with
`InodeIndex == k`, the `FileHeaderPointer` and `MaxFileSize` of slot `k` and `InUse` and
`Filename` of its decoded file header (`InUse == 0` for a slot whose header was zeroed by
a remove); the call number `n + 1` returns NULL and changes nothing; and `EEFS_LibCloseDir`
then returns `EEFS_SUCCESS` and leaves the descriptor with `InUse == FALSE`, so that
`EEFS_LibOpenDir` succeeds again. -/
theorem directory_iteration (env : Env) (s : State) (T : Nat) (hT : T ≠ 0)
    (hn : (s.InodeTables T).NumberOfFiles < 4294967296) :
    (s.EEFS_DirectoryDescriptor.InUse = TRUE → EEFS_LibOpenDir s T = (false, s)) ∧
    (s.EEFS_DirectoryDescriptor.InUse = FALSE →
      (EEFS_LibOpenDir s T).1 = true ∧
      (EEFS_LibOpenDir s T).2.EEFS_DirectoryDescriptor = ⟨TRUE, 0, T⟩ ∧
      (EEFS_LibOpenDir s T).2.mem = s.mem ∧
      (EEFS_LibOpenDir s T).2.InodeTables = s.InodeTables ∧
      (∀ k, k < (s.InodeTables T).NumberOfFiles →
        (EEFS_LibReadDir env (readDirTimes env (EEFS_LibOpenDir s T).2 k) true).1
          = some (slotEntry env s T k)) ∧
      (∀ k, k < (s.InodeTables T).NumberOfFiles →
        (slotEntry env s T k).InodeIndex = k ∧
        (slotEntry env s T k).FileHeaderPointer
          = ((s.InodeTables T).File k).FileHeaderPointer ∧
        (slotEntry env s T k).MaxFileSize = ((s.InodeTables T).File k).MaxFileSize ∧
        (slotEntry env s T k).InUse
          = (loadFileHeader env s.mem ((s.InodeTables T).File k).FileHeaderPointer).InUse ∧
        (slotEntry env s T k).Filename
          = strncpy (loadFileHeader env s.mem
              ((s.InodeTables T).File k).FileHeaderPointer).Filename
            EEFS_MAX_FILENAME_SIZE) ∧
      EEFS_LibReadDir env
          (readDirTimes env (EEFS_LibOpenDir s T).2 (s.InodeTables T).NumberOfFiles) true
        = (none, readDirTimes env (EEFS_LibOpenDir s T).2 (s.InodeTables T).NumberOfFiles) ∧
      (EEFS_LibCloseDir
          (readDirTimes env (EEFS_LibOpenDir s T).2 ((s.InodeTables T).NumberOfFiles + 1))
          true).1 = EEFS_SUCCESS ∧
      (EEFS_LibCloseDir
          (readDirTimes env (EEFS_LibOpenDir s T).2 ((s.InodeTables T).NumberOfFiles + 1))
          true).2.EEFS_DirectoryDescriptor.InUse = FALSE ∧
      (EEFS_LibOpenDir (EEFS_LibCloseDir
          (readDirTimes env (EEFS_LibOpenDir s T).2 ((s.InodeTables T).NumberOfFiles + 1))
          true).2 T).1 = true) := by
  constructor
  · intro hu
    unfold EEFS_LibOpenDir
    rw [if_pos hT, if_neg (by rw [hu]; decide)]
  · intro hf
    have ho : EEFS_LibOpenDir s T = (true, { s with
        EEFS_DirectoryDescriptor := { InUse := TRUE, InodeIndex := 0, InodeTable := T } }) := by
      unfold EEFS_LibOpenDir
      rw [if_pos hT, if_pos hf]
    rw [ho]
    generalize hs1 : ({ s with
        EEFS_DirectoryDescriptor := { InUse := TRUE, InodeIndex := 0, InodeTable := T } }
        : State) = s1
    simp only []
    have d1 : s1.EEFS_DirectoryDescriptor = ⟨TRUE, 0, T⟩ := by rw [← hs1]
    have m1 : s1.mem = s.mem := by rw [← hs1]
    have t1 : s1.InodeTables = s.InodeTables := by rw [← hs1]
    have hn1 : (s1.InodeTables T).NumberOfFiles < 4294967296 := by rw [t1]; exact hn
    have hst := fun k hk => readDirTimes_state env s1 T d1 hn1 k hk
    rw [t1] at hst
    have hend : EEFS_LibReadDir env (readDirTimes env s1 (s.InodeTables T).NumberOfFiles) true
        = (none, readDirTimes env s1 (s.InodeTables T).NumberOfFiles) := by
      obtain ⟨i1, i2, i3, i4⟩ := hst _ (le_refl _)
      exact readDir_end env _ T _ i1 (le_of_eq (by rw [i3]))
    have hlast : readDirTimes env s1 ((s.InodeTables T).NumberOfFiles + 1)
        = readDirTimes env s1 (s.InodeTables T).NumberOfFiles := by
      show (EEFS_LibReadDir env (readDirTimes env s1 (s.InodeTables T).NumberOfFiles) true).2 = _
      rw [hend]
    obtain ⟨j1, j2, j3, j4⟩ := hst _ (le_refl _)
    have hclose : EEFS_LibCloseDir (readDirTimes env s1 (s.InodeTables T).NumberOfFiles) true
        = (EEFS_SUCCESS, { readDirTimes env s1 (s.InodeTables T).NumberOfFiles with
            EEFS_DirectoryDescriptor := zeroDirectoryDescriptor
            EEFS_DirectoryEntry := zeroDirectoryEntry }) := by
      unfold EEFS_LibCloseDir
      rw [if_pos rfl, if_pos (by rw [j1])]
    refine ⟨trivial, d1, m1, t1, ?_, ?_, hend, ?_, ?_, ?_⟩
    · intro k hk
      obtain ⟨i1, i2, i3, i4⟩ := hst k (by omega)
      obtain ⟨r1, -⟩ := readDir_step env (readDirTimes env s1 k) T k i1
        (by rw [i3]; exact hk) (by rw [i3]; exact hn)
      rw [r1, slotEntry_congr env s _ T k (by rw [i2, m1]) i3]
    · intro k _
      exact ⟨rfl, rfl, rfl, rfl, rfl⟩
    · rw [hlast, hclose]
    · rw [hlast, hclose]
      rfl
    · rw [hlast, hclose]
      unfold EEFS_LibOpenDir
      rw [if_pos hT]
      rfl

set_option maxRecDepth 100000 in
/-- C28, witness: the directory of the mounted one-file example volume has one entry, for
the file "a" at slot 0. -/
theorem directory_iteration_witness :
    (1 : Nat) ≠ 0 ∧ ((exFileMounted true).InodeTables 1).NumberOfFiles < 4294967296 ∧
    (exFileMounted true).EEFS_DirectoryDescriptor.InUse = FALSE ∧
    (EEFS_LibOpenDir (exFileMounted true) 1).1 = true ∧
    (EEFS_LibOpenDir (exFileMounted true) 1).2.EEFS_DirectoryDescriptor = ⟨TRUE, 0, 1⟩ :=
  ⟨by decide, by decide, by decide,
    ((directory_iteration (exEnv true) (exFileMounted true) 1 (by decide) (by decide)).2
      (by decide)).1,
    ((directory_iteration (exEnv true) (exFileMounted true) 1 (by decide) (by decide)).2
      (by decide)).2.1⟩

/-! ## Rename onto an existing name -/

/-- C21 (amended). Rename conflict: for a non-null inode table and valid names,
whenever the lookup of `new` finds a slot (a live file of that name, `new` equal to `old`
included), `EEFS_LibRename(old, new)` leaves the whole state unchanged, every medium byte
and so both files with their headers and contents included; it returns
`EEFS_PERMISSION_DENIED` when the medium is not write-protected and
`EEFS_READ_ONLY_FILE_SYSTEM` when it is, the write-protect check coming before the
lookup. -/
theorem rename_conflict (env : Env) (s : State) (T : Nat) (old new : List Nat) (hT : T ≠ 0)
    (hold : EEFS_LibIsValidFilename (some old) = true)
    (hnew : EEFS_LibIsValidFilename (some new) = true)
    (hlive : EEFS_LibFindFile env s T new ≠ EEFS_FILE_NOT_FOUND) :
    (env.writeProtected = false →
      EEFS_LibRename env s T (some old) (some new) = (EEFS_PERMISSION_DENIED, s)) ∧
    (env.writeProtected = true →
      EEFS_LibRename env s T (some old) (some new) = (EEFS_READ_ONLY_FILE_SYSTEM, s)) := by
  constructor
  · intro hw
    unfold EEFS_LibRename
    rw [if_pos hT, if_pos ⟨hold, hnew⟩, if_pos hw]
    simp only [Option.getD_some]
    rw [if_neg hlive]
  · intro hw
    unfold EEFS_LibRename
    rw [if_pos hT, if_pos ⟨hold, hnew⟩, if_neg (by rw [hw]; decide)]

set_option maxRecDepth 100000 in
/-- C21, witness: on the mounted one-file example volume, renaming "b" to the live name "a"
is refused with `EEFS_PERMISSION_DENIED` and the state is unchanged. -/
theorem rename_conflict_witness :
    (1 : Nat) ≠ 0 ∧ EEFS_LibIsValidFilename (some [98]) = true ∧
    EEFS_LibIsValidFilename (some [97]) = true ∧
    EEFS_LibFindFile (exEnv true) (exFileMounted true) 1 [97] ≠ EEFS_FILE_NOT_FOUND ∧
    (exEnv true).writeProtected = false ∧
    EEFS_LibRename (exEnv true) (exFileMounted true) 1 (some [98]) (some [97])
      = (EEFS_PERMISSION_DENIED, exFileMounted true) :=
  ⟨by decide, by decide, by decide, by decide, by decide,
    (rename_conflict (exEnv true) (exFileMounted true) 1 [98] [97] (by decide) (by decide)
      (by decide) (by decide)).1 (by decide)⟩

set_option maxRecDepth 100000 in
/-- C21, counterexample: on a write-protected medium with the live file "a" mounted,
`EEFS_LibRename("a", "a")` returns `EEFS_READ_ONLY_FILE_SYSTEM`, not
`EEFS_PERMISSION_DENIED`. -/
theorem rename_write_protected_counterexample :
    exProtectedEnv.writeProtected = true ∧
    EEFS_LibIsValidFilename (some [97]) = true ∧
    EEFS_LibFindFile exProtectedEnv (exFileMounted true) 1 [97] = 0 ∧
    (loadFileHeader exProtectedEnv (exFileMounted true).mem
      (((exFileMounted true).InodeTables 1).File 0).FileHeaderPointer).InUse = TRUE ∧
    (EEFS_LibRename exProtectedEnv (exFileMounted true) 1 (some [97]) (some [97])).1
      = EEFS_READ_ONLY_FILE_SYSTEM ∧
    (EEFS_LibRename exProtectedEnv (exFileMounted true) 1 (some [97]) (some [97])).1
      ≠ EEFS_PERMISSION_DENIED := by
  decide

/-! ## Write protection -/

/-- C24 (amended). Write protection: while the write-protect query reports TRUE, for a
non-null inode table and valid names, these calls return `EEFS_READ_ONLY_FILE_SYSTEM` and
leave the whole state, every medium byte included, unchanged: `EEFS_LibOpen` with
supported flags of a found file with an access mode other than `O_RDONLY`, or of a name
not found with `O_CREAT`; `EEFS_LibCreat`; `EEFS_LibRemove`; `EEFS_LibRename`;
`EEFS_LibSetFileAttributes` with `EEFS_ATTRIBUTE_NONE` or `EEFS_ATTRIBUTE_READONLY`.  The
query is made where a descriptor is handed out: `EEFS_LibClose` does the same whatever the
query reports (and `EEFS_LibWrite` does not take the environment at all). -/
theorem write_protection (env : Env) (s : State) (T : Nat) (f g : List Nat) (Flags A : Nat)
    (fd : Int) (hT : T ≠ 0) (hw : env.writeProtected = true)
    (hf : EEFS_LibIsValidFilename (some f) = true)
    (hg : EEFS_LibIsValidFilename (some g) = true) :
    (Nat.land Flags (u32not
        (Nat.lor (Nat.lor (Nat.lor (Nat.lor O_RDONLY O_WRONLY) O_RDWR) O_TRUNC) O_CREAT)) = 0 →
      EEFS_LibFindFile env s T f ≠ EEFS_FILE_NOT_FOUND →
      Nat.land Flags O_ACCMODE ≠ O_RDONLY →
      EEFS_LibOpen env s T (some f) Flags A = (EEFS_READ_ONLY_FILE_SYSTEM, s)) ∧
    (EEFS_LibFindFile env s T f = EEFS_FILE_NOT_FOUND → Nat.land Flags O_CREAT ≠ 0 →
      EEFS_LibOpen env s T (some f) Flags A = (EEFS_READ_ONLY_FILE_SYSTEM, s)) ∧
    EEFS_LibCreat env s T (some f) A = (EEFS_READ_ONLY_FILE_SYSTEM, s) ∧
    EEFS_LibRemove env s T (some f) = (EEFS_READ_ONLY_FILE_SYSTEM, s) ∧
    EEFS_LibRename env s T (some f) (some g) = (EEFS_READ_ONLY_FILE_SYSTEM, s) ∧
    ((A = EEFS_ATTRIBUTE_NONE ∨ A = EEFS_ATTRIBUTE_READONLY) →
      EEFS_LibSetFileAttributes env s T (some f) A = (EEFS_READ_ONLY_FILE_SYSTEM, s)) ∧
    EEFS_LibClose env s fd = EEFS_LibClose { env with writeProtected := false } s fd := by
  have hwf : ¬ env.writeProtected = false := by rw [hw]; decide
  have hcf : ∀ A2, EEFS_LibCreatFile env s T f A2 = (EEFS_READ_ONLY_FILE_SYSTEM, s) := by
    intro A2
    unfold EEFS_LibCreatFile
    simp only []
    rw [if_neg hwf]
  refine ⟨?_, ?_, ?_, ?_, ?_, ?_, ?_⟩
  · intro h1 hfound hacc
    unfold EEFS_LibOpen
    rw [if_pos hT, if_pos hf]
    simp only [Option.getD_some]
    rw [if_pos hfound]
    unfold EEFS_LibOpenFile
    simp only []
    rw [if_pos h1, if_neg (by rintro (h | h); exact hacc h; exact hwf h)]
  · intro hnf hc
    unfold EEFS_LibOpen
    rw [if_pos hT, if_pos hf]
    simp only [Option.getD_some]
    rw [if_neg (by rw [hnf]; exact fun h => h rfl), if_pos hc]
    exact hcf _
  · unfold EEFS_LibCreat
    rw [if_pos hT, if_pos hf]
    simp only [Option.getD_some]
    by_cases hfound : EEFS_LibFindFile env s T f ≠ EEFS_FILE_NOT_FOUND
    · rw [if_pos hfound]
      unfold EEFS_LibOpenFile
      simp only []
      rw [if_pos (by decide), if_neg (by
        rintro (h | h)
        · exact absurd h (by decide)
        · exact hwf h)]
    · rw [if_neg hfound]
      exact hcf _
  · unfold EEFS_LibRemove
    rw [if_pos hT, if_pos hf, if_neg hwf]
  · unfold EEFS_LibRename
    rw [if_pos hT, if_pos ⟨hf, hg⟩, if_neg hwf]
  · intro hA
    unfold EEFS_LibSetFileAttributes
    rw [if_pos hT, if_pos hA, if_pos hf, if_neg hwf]
  · rfl

set_option maxRecDepth 100000 in
/-- C24, witness: on the write-protected mounted one-file example volume,
`EEFS_LibCreat("a")` and `EEFS_LibRemove("a")` return `EEFS_READ_ONLY_FILE_SYSTEM` and
change nothing. -/
theorem write_protection_witness :
    (1 : Nat) ≠ 0 ∧ exProtectedEnv.writeProtected = true ∧
    EEFS_LibIsValidFilename (some [97]) = true ∧
    EEFS_LibIsValidFilename (some [98]) = true ∧
    EEFS_LibCreat exProtectedEnv (exFileMounted true) 1 (some [97]) 0
      = (EEFS_READ_ONLY_FILE_SYSTEM, exFileMounted true) ∧
    EEFS_LibRemove exProtectedEnv (exFileMounted true) 1 (some [97])
      = (EEFS_READ_ONLY_FILE_SYSTEM, exFileMounted true) :=
  ⟨by decide, by decide, by decide, by decide,
    (write_protection exProtectedEnv (exFileMounted true) 1 [97] [98] 0 0 0 (by decide)
      (by decide) (by decide) (by decide)).2.2.1,
    (write_protection exProtectedEnv (exFileMounted true) 1 [97] [98] 0 0 0 (by decide)
      (by decide) (by decide) (by decide)).2.2.2.1⟩

set_option maxRecDepth 100000 in
/-- C24, counterexample: descriptor 0 of the example session was opened with `O_RDWR` on
the file "a" while the medium was writable.  With the write protection asserted afterwards,
`EEFS_LibWrite` of one byte returns 1, not `EEFS_READ_ONLY_FILE_SYSTEM`, and changes the
first data byte of the file on the medium from 0 to 120; `EEFS_LibClose` returns
`EEFS_SUCCESS` and rewrites the file header with the modification date 1000. -/
theorem write_protection_counterexample :
    exProtectedEnv.writeProtected = true ∧
    EEFS_LibIsValidFileDescriptor (exFileSession true) 0 = true ∧
    Nat.land ((exFileSession true).EEFS_FileDescriptorTable 0).Mode EEFS_FWRITE ≠ 0 ∧
    (EEFS_LibWrite (exFileSession true) 0 (some [120]) 1).1 = 1 ∧
    (exFileSession true).mem (exBase + 600) = 0 ∧
    (EEFS_LibWrite (exFileSession true) 0 (some [120]) 1).2.mem (exBase + 600) = 120 ∧
    (EEFS_LibClose exProtectedEnv (exFileSession true) 0).1 = EEFS_SUCCESS ∧
    (loadFileHeader exProtectedEnv (exFileSession true).mem (exBase + 536)).ModificationDate
      = 7 ∧
    (loadFileHeader exProtectedEnv (EEFS_LibClose exProtectedEnv (exFileSession true) 0).2.mem
      (exBase + 536)).ModificationDate = 1000 := by
  decide

/-! ## Whole file headers: decoding what was encoded -/

theorem map_mod_range (l : List Nat) (n : Nat) (h : l.length = n) :
    (List.range n).map (fun i => l.getD i 0 % 256) = l.map (fun c => c % 256) := by
  apply List.ext_getElem
  · simp only [List.length_map, List.length_range, h]
  · intro i h1 h2
    simp only [List.length_map, List.length_range] at h1 h2
    simp only [List.getElem_map, List.getElem_range]
    rw [List.getD_eq_getElem?_getD, List.getElem?_eq_getElem h2]
    rfl

theorem memRead_length (m : Mem) (a n : Nat) : (memRead m a n).length = n := by
  unfold memRead
  simp only [List.length_map, List.length_range]

theorem memRead_lt (m : Mem) (a n : Nat) : ∀ c ∈ memRead m a n, c < 256 := by
  intro c hc
  unfold memRead at hc
  obtain ⟨i, -, rfl⟩ := List.mem_map.1 hc
  exact Nat.mod_lt _ (by decide)

theorem map_mod_id (l : List Nat) (h : ∀ c ∈ l, c < 256) : l.map (fun c => c % 256) = l := by
  induction l with
  | nil => rfl
  | cons a t ih =>
    rw [List.map_cons, ih (fun c hc => h c (List.mem_cons_of_mem a hc)),
      Nat.mod_eq_of_lt (h a (List.mem_cons_self a t))]

/-- The name bytes read back from a written block. -/
theorem memRead_store (m : Mem) (d : Nat) (pre nm : List Nat) :
    memRead (memWrite m d (pre ++ nm)) (d + pre.length) nm.length
      = nm.map (fun c => c % 256) := by
  rw [← map_mod_range nm nm.length rfl]
  unfold memRead
  apply List.map_congr_left
  intro i hi
  have hi2 := List.mem_range.1 hi
  rw [memWrite_in _ _ _ _ (by omega) (by rw [List.length_append]; omega)]
  have e : d + pre.length + i - d = pre.length + i := by omega
  rw [e, List.getD_eq_getElem?_getD, List.getD_eq_getElem?_getD,
    List.getElem?_append_right (by omega)]
  have e2 : pre.length + i - pre.length = i := by omega
  rw [e2]

/-- The header that the engine decodes from a header it encoded and wrote in place. -/
theorem loadFileHeader_store_all (env : Env) (m : Mem) (p : Nat) (h : EEFS_FileHeader_t)
    (h1 : h.Crc < 4294967296) (h2 : h.InUse < 4294967296) (h3 : h.Attributes < 4294967296)
    (h4 : h.FileSize < 4294967296) (h5 : h.ModificationDate < 4294967296)
    (h6 : h.CreationDate < 4294967296) (h7 : h.Filename.length = 40)
    (h8 : ∀ c ∈ h.Filename, c < 256) :
    loadFileHeader env (memWrite m p (fileHeaderBytes env.hostLittleEndian
      (EEFS_SwapFileHeader h))) p = h := by
  obtain ⟨f1, f2, f3, f4, f5, f6⟩ := fileHeader_store_fields env.hostLittleEndian m p
    (EEFS_SwapFileHeader h)
  have hn : memRead (memWrite m p (fileHeaderBytes env.hostLittleEndian
      (EEFS_SwapFileHeader h))) (p + 24) 40 = h.Filename := by
    have hb : fileHeaderBytes env.hostLittleEndian (EEFS_SwapFileHeader h)
        = (storeU32 env.hostLittleEndian (EEFS_SwapFileHeader h).Crc
          ++ storeU32 env.hostLittleEndian (EEFS_SwapFileHeader h).InUse
          ++ storeU32 env.hostLittleEndian (EEFS_SwapFileHeader h).Attributes
          ++ storeU32 env.hostLittleEndian (EEFS_SwapFileHeader h).FileSize
          ++ storeU32 env.hostLittleEndian (EEFS_SwapFileHeader h).ModificationDate
          ++ storeU32 env.hostLittleEndian (EEFS_SwapFileHeader h).CreationDate)
          ++ h.Filename := by
      unfold fileHeaderBytes
      have e : (EEFS_SwapFileHeader h).Filename = h.Filename := rfl
      rw [e, List.take_of_length_le (by omega), h7]
      simp only [Nat.sub_self, List.replicate_zero, List.append_nil]
    rw [hb]
    generalize hpre : storeU32 env.hostLittleEndian (EEFS_SwapFileHeader h).Crc
          ++ storeU32 env.hostLittleEndian (EEFS_SwapFileHeader h).InUse
          ++ storeU32 env.hostLittleEndian (EEFS_SwapFileHeader h).Attributes
          ++ storeU32 env.hostLittleEndian (EEFS_SwapFileHeader h).FileSize
          ++ storeU32 env.hostLittleEndian (EEFS_SwapFileHeader h).ModificationDate
          ++ storeU32 env.hostLittleEndian (EEFS_SwapFileHeader h).CreationDate = pre
    have hl : pre.length = 24 := by
      rw [← hpre]
      simp only [List.length_append, storeU32_length]
    have := memRead_store m p pre h.Filename
    rw [hl, h7] at this
    rw [this, map_mod_id _ h8]
  unfold loadFileHeader readFileHeader
  rw [f1, f2, f3, f4, f5, f6, hn]
  simp only [EEFS_SwapFileHeader, swap_mod, swap_swap]
  rw [Nat.mod_eq_of_lt h1, Nat.mod_eq_of_lt h2, Nat.mod_eq_of_lt h3, Nat.mod_eq_of_lt h4,
    Nat.mod_eq_of_lt h5, Nat.mod_eq_of_lt h6]

/-- Every decoded header has 32-bit fields and a name of 40 bytes. -/
theorem loadFileHeader_typed (env : Env) (m : Mem) (p : Nat) :
    (loadFileHeader env m p).Crc < 4294967296 ∧
    (loadFileHeader env m p).InUse < 4294967296 ∧
    (loadFileHeader env m p).Attributes < 4294967296 ∧
    (loadFileHeader env m p).FileSize < 4294967296 ∧
    (loadFileHeader env m p).ModificationDate < 4294967296 ∧
    (loadFileHeader env m p).CreationDate < 4294967296 ∧
    (loadFileHeader env m p).Filename.length = 40 ∧
    ∀ c ∈ (loadFileHeader env m p).Filename, c < 256 := by
  unfold loadFileHeader readFileHeader
  simp only [EEFS_SwapFileHeader]
  exact ⟨swap_lt _, swap_lt _, swap_lt _, swap_lt _, swap_lt _, swap_lt _,
    memRead_length _ _ _, memRead_lt _ _ _⟩

/-- First index of a range at which a test holds. -/
theorem find_range (p : Nat → Bool) (n i : Nat) (hi : i < n) (hp : p i = true)
    (hlt : ∀ j, j < i → p j = false) : (List.range n).find? p = some i := by
  induction n with
  | zero => omega
  | succ k ih =>
    rw [List.range_succ, List.find?_append]
    by_cases hik : i < k
    · rw [ih hik]
      rfl
    · have e : i = k := by omega
      subst e
      have : (List.range i).find? p = none := by
        rw [List.find?_eq_none]
        intro x hx
        rw [hlt x (List.mem_range.1 hx)]
        exact fun h => Bool.noConfusion h
      rw [this]
      simp only [Option.none_or, List.find?_cons, hp, List.find?_nil]

theorem findFile_at (env : Env) (s : State) (T : Nat) (f : List Nat) (i : Nat)
    (hi : i < (s.InodeTables T).NumberOfFiles) (hn : i < 2147483648)
    (hp : findFileMatch env s.mem (s.InodeTables T) f i = true)
    (hlt : ∀ j, j < i → findFileMatch env s.mem (s.InodeTables T) f j = false) :
    EEFS_LibFindFile env s T f = (i : Int) := by
  unfold EEFS_LibFindFile
  rw [find_range _ _ i hi hp hlt]
  exact toInt32_small i hn

theorem find_range_first (p : Nat → Bool) (n k : Nat)
    (h : (List.range n).find? p = some k) : ∀ j, j < k → p j = false := by
  induction n with
  | zero => simp at h
  | succ m ih =>
    rw [List.range_succ, List.find?_append] at h
    cases hf : (List.range m).find? p with
    | some x =>
      rw [hf] at h
      exact ih (by rw [hf]; exact h)
    | none =>
      rw [hf] at h
      simp only [Option.none_or, List.find?_cons, List.find?_nil] at h
      have hk : k = m := by
        split at h
        · exact (Option.some.inj h).symm
        · exact Option.noConfusion h
      subst hk
      intro j hj
      have := List.find?_eq_none.1 hf j (List.mem_range.2 hj)
      simpa using this

theorem findFile_first (env : Env) (s : State) (T : Nat) (f : List Nat) (i : Nat)
    (hn : i < 2147483648) (hN : (s.InodeTables T).NumberOfFiles ≤ 2147483648)
    (h : EEFS_LibFindFile env s T f = (i : Int)) :
    i < (s.InodeTables T).NumberOfFiles ∧
    findFileMatch env s.mem (s.InodeTables T) f i = true ∧
    ∀ j, j < i → findFileMatch env s.mem (s.InodeTables T) f j = false := by
  unfold EEFS_LibFindFile at h
  cases hf : (List.range (s.InodeTables T).NumberOfFiles).find?
      (findFileMatch env s.mem (s.InodeTables T) f) with
  | none =>
    rw [hf] at h
    simp only [EEFS_FILE_NOT_FOUND] at h
    omega
  | some k =>
    rw [hf] at h
    simp only [] at h
    have hk : k < (s.InodeTables T).NumberOfFiles :=
      List.mem_range.1 (List.mem_of_find?_eq_some hf)
    have hkp := List.find?_some hf
    rw [toInt32_small k (by omega)] at h
    have e : k = i := by exact_mod_cast h
    subst e
    exact ⟨hk, hkp, find_range_first _ _ _ hf⟩

/-! ## Rewriting one file header -/

theorem memWrite_twice (m : Mem) (d : Nat) (bs : List Nat) :
    memWrite (memWrite m d bs) d bs = memWrite m d bs := by
  funext a
  unfold memWrite
  split_ifs <;> rfl

/-- The lookup tests after the rewrite of the header of slot `i`. -/
theorem match_after_update (env : Env) (s s2 : State) (T i : Nat) (h2 : EEFS_FileHeader_t)
    (htabs : s2.InodeTables = s.InodeTables)
    (hat : loadFileHeader env s2.mem ((s.InodeTables T).File i).FileHeaderPointer = h2)
    (hoth : ∀ j, j < (s.InodeTables T).NumberOfFiles → j ≠ i →
      loadFileHeader env s2.mem ((s.InodeTables T).File j).FileHeaderPointer
        = loadFileHeader env s.mem ((s.InodeTables T).File j).FileHeaderPointer)
    (g : List Nat) :
    findFileMatch env s2.mem (s2.InodeTables T) g i
      = (decide (h2.InUse = TRUE) && strncmpEq g h2.Filename EEFS_MAX_FILENAME_SIZE) ∧
    ∀ j, j < (s.InodeTables T).NumberOfFiles → j ≠ i →
      findFileMatch env s2.mem (s2.InodeTables T) g j
        = findFileMatch env s.mem (s.InodeTables T) g j := by
  constructor
  · unfold findFileMatch
    rw [htabs, hat]
  · intro j hj hji
    unfold findFileMatch
    rw [htabs, hoth j hj hji]

theorem setAttr_success (env : Env) (s : State) (T : Nat) (f : List Nat) (A : Nat)
    (hT : T ≠ 0) (hA : A = EEFS_ATTRIBUTE_NONE ∨ A = EEFS_ATTRIBUTE_READONLY)
    (hname : EEFS_LibIsValidFilename (some f) = true) (hw : env.writeProtected = false)
    (i : Nat) (hfind : EEFS_LibFindFile env s T f = (i : Int)) :
    EEFS_LibSetFileAttributes env s T (some f) A
      = (EEFS_SUCCESS, EEFS_LIB_EEPROM_FLUSH (EEFS_LIB_EEPROM_WRITE s
          ((s.InodeTables T).File i).FileHeaderPointer
          (fileHeaderBytes env.hostLittleEndian (EEFS_SwapFileHeader
            { loadFileHeader env s.mem ((s.InodeTables T).File i).FileHeaderPointer with
              Attributes := A })))) := by
  obtain ⟨-, -, -, hne⟩ := findFile_nat env s T f i hfind
  unfold EEFS_LibSetFileAttributes
  rw [if_pos hT, if_pos hA, if_pos hname, if_pos hw]
  simp only [Option.getD_some]
  rw [hfind, if_pos hne, Int.toNat_ofNat]

set_option maxRecDepth 100000 in
/-- C23, counterexample: on a write-protected medium with the live file "a" mounted, whose
`Attributes` are `EEFS_ATTRIBUTE_NONE`, `EEFS_LibSetFileAttributes("a",
EEFS_ATTRIBUTE_READONLY)` returns `EEFS_READ_ONLY_FILE_SYSTEM` and the `Attributes` of the
header stay `EEFS_ATTRIBUTE_NONE`. -/
theorem setFileAttributes_protected_counterexample :
    exProtectedEnv.writeProtected = true ∧
    EEFS_LibFindFile exProtectedEnv (exFileMounted true) 1 [97] = 0 ∧
    (loadFileHeader exProtectedEnv (exFileMounted true).mem
      (((exFileMounted true).InodeTables 1).File 0).FileHeaderPointer).Attributes
      = EEFS_ATTRIBUTE_NONE ∧
    (EEFS_LibSetFileAttributes exProtectedEnv (exFileMounted true) 1 (some [97])
      EEFS_ATTRIBUTE_READONLY).1 = EEFS_READ_ONLY_FILE_SYSTEM ∧
    (loadFileHeader exProtectedEnv
      (EEFS_LibSetFileAttributes exProtectedEnv (exFileMounted true) 1 (some [97])
        EEFS_ATTRIBUTE_READONLY).2.mem
      (((exFileMounted true).InodeTables 1).File 0).FileHeaderPointer).Attributes
      ≠ EEFS_ATTRIBUTE_READONLY := by
  decide

/-! ## C strings -/

theorem cstr_nil : cstr [] = [] := rfl

theorem cstr_cons_zero (t : List Nat) : cstr (0 :: t) = [] := by
  unfold cstr
  simp

theorem cstr_cons_pos (c : Nat) (t : List Nat) (h : c ≠ 0) : cstr (c :: t) = c :: cstr t := by
  unfold cstr
  simp [h]

/-- `strncmp(a, b, n) == 0` says that the first `n` characters of the two strings agree. -/
theorem strncmpEq_iff (n : Nat) : ∀ a b : List Nat,
    strncmpEq a b n = true ↔ (cstr a).take n = (cstr b).take n := by
  induction n with
  | zero =>
    intro a b
    simp [strncmpEq]
  | succ k ih =>
    intro a b
    unfold strncmpEq
    cases a with
    | nil =>
      cases b with
      | nil => simp [cstr_nil]
      | cons y ys =>
        by_cases hy : y = 0
        · subst hy
          simp [cstr_nil, cstr_cons_zero]
        · simp [cstr_nil, cstr_cons_pos y ys hy, hy, Ne.symm hy]
    | cons x xs =>
      cases b with
      | nil =>
        by_cases hx : x = 0
        · subst hx
          simp [cstr_nil, cstr_cons_zero]
        · simp [cstr_nil, cstr_cons_pos x xs hx, hx]
      | cons y ys =>
        by_cases hx : x = 0
        · subst hx
          by_cases hy : y = 0
          · subst hy
            simp [cstr_cons_zero]
          · simp [cstr_cons_zero, cstr_cons_pos y ys hy, hy, Ne.symm hy]
        · by_cases hy : y = 0
          · subst hy
            simp [cstr_cons_zero, cstr_cons_pos x xs hx, hx]
          · by_cases hxy : x = y
            · subst hxy
              rw [cstr_cons_pos x xs hx, cstr_cons_pos x ys hx]
              simp [hx, ih xs ys]
            · simp [cstr_cons_pos x xs hx, cstr_cons_pos y ys hy, hx, hxy]

theorem cstr_ne_zero (g : List Nat) : ∀ c ∈ cstr g, c ≠ 0 := by
  intro c hc
  unfold cstr at hc
  have := List.mem_takeWhile_imp hc
  simpa using this

theorem cstr_append_zeros (l : List Nat) (h : ∀ c ∈ l, c ≠ 0) (k : Nat) :
    cstr (l ++ List.replicate k 0) = l := by
  induction l with
  | nil =>
    cases k with
    | zero => rfl
    | succ j => simp [List.replicate_succ, cstr_cons_zero]
  | cons a t ih =>
    rw [List.cons_append, cstr_cons_pos a _ (h a (List.mem_cons_self a t)),
      ih (fun c hc => h c (List.mem_cons_of_mem a hc))]

theorem cstr_strncpy (g : List Nat) (n : Nat) : cstr (strncpy g n) = (cstr g).take n := by
  unfold strncpy
  apply cstr_append_zeros
  intro c hc
  exact cstr_ne_zero g c (List.mem_of_mem_take hc)

theorem strncpy_length (g : List Nat) (n : Nat) : (strncpy g n).length = n := by
  unfold strncpy
  simp only [List.length_append, List.length_replicate, List.length_take]
  omega

theorem strncpy_lt (g : List Nat) (n : Nat) (h : ∀ c ∈ g, c < 256) :
    ∀ c ∈ strncpy g n, c < 256 := by
  intro c hc
  unfold strncpy at hc
  rcases List.mem_append.1 hc with h1 | h1
  · have h2 := List.mem_of_mem_take h1
    unfold cstr at h2
    exact h c ((List.takeWhile_sublist _).subset h2)
  · rw [(List.mem_replicate.1 h1).2]
    decide

theorem strncpy_valid (g : List Nat) (h : EEFS_LibIsValidFilename (some g) = true) :
    strncpy g EEFS_MAX_FILENAME_SIZE
      = cstr g ++ List.replicate (EEFS_MAX_FILENAME_SIZE - strlen g) 0 := by
  unfold EEFS_LibIsValidFilename at h
  simp only [Bool.and_eq_true, decide_eq_true_eq] at h
  unfold strncpy
  unfold strlen at h ⊢
  rw [List.take_of_length_le (by omega)]

/-- Comparing with the name that `strncpy` stored is comparing with the name itself. -/
theorem strncmpEq_strncpy (a g : List Nat) (n : Nat) :
    strncmpEq a (strncpy g n) n = strncmpEq a g n := by
  have h1 := strncmpEq_iff n a (strncpy g n)
  have h2 := strncmpEq_iff n a g
  rw [cstr_strncpy, List.take_take, Nat.min_self] at h1
  cases hb : strncmpEq a g n
  · cases hc : strncmpEq a (strncpy g n) n
    · rfl
    · rw [h2.2 (h1.1 hc)] at hb
      exact Bool.noConfusion hb
  · exact h1.2 (h2.1 hb)

theorem strncmpEq_self (g : List Nat) (n : Nat) : strncmpEq g g n = true :=
  (strncmpEq_iff n g g).2 rfl

theorem strncmpEq_trans_false (a b c : List Nat) (n : Nat) (h1 : strncmpEq a c n = true)
    (h2 : strncmpEq b c n = false) : strncmpEq a b n = false := by
  cases h : strncmpEq a b n
  · rfl
  · have e1 := (strncmpEq_iff n a c).1 h1
    have e2 := (strncmpEq_iff n a b).1 h
    rw [(strncmpEq_iff n b c).2 (e2.symm.trans e1)] at h2
    exact Bool.noConfusion h2

/-! ## A successful rename -/

theorem getFD_congr (s s2 : State)
    (hd : s2.EEFS_FileDescriptorTable = s.EEFS_FileDescriptorTable) :
    (EEFS_LibGetFileDescriptor s2).1 = (EEFS_LibGetFileDescriptor s).1 ∧
    (EEFS_LibGetFileDescriptor s2).2.EEFS_FileDescriptorTable
      = (EEFS_LibGetFileDescriptor s).2.EEFS_FileDescriptorTable := by
  unfold EEFS_LibGetFileDescriptor
  rw [hd]
  cases (List.range EEFS_MAX_OPEN_FILES).find?
      (fun i => decide ((s.EEFS_FileDescriptorTable i).InUse = FALSE)) with
  | none => exact ⟨rfl, hd⟩
  | some k => exact ⟨rfl, rfl⟩

theorem fmode_congr (s s2 : State) (T i : Nat)
    (hd : s2.EEFS_FileDescriptorTable = s.EEFS_FileDescriptorTable) :
    EEFS_LibFmode s2 T i = EEFS_LibFmode s T i := by
  unfold EEFS_LibFmode
  rw [hd]

/-- The descriptor that `EEFS_LibOpenFile` returns and the descriptor table it leaves
depend on the medium only through `Attributes` and `FileSize` of the slot's header. -/
theorem openFile_congr (env : Env) (s s2 : State) (T : Nat) (idx : Int) (Flags A : Nat)
    (ht : s2.InodeTables = s.InodeTables)
    (hd : s2.EEFS_FileDescriptorTable = s.EEFS_FileDescriptorTable)
    (ha : (loadFileHeader env s2.mem
        ((s.InodeTables T).File idx.toNat).FileHeaderPointer).Attributes
      = (loadFileHeader env s.mem
        ((s.InodeTables T).File idx.toNat).FileHeaderPointer).Attributes)
    (hz : (loadFileHeader env s2.mem
        ((s.InodeTables T).File idx.toNat).FileHeaderPointer).FileSize
      = (loadFileHeader env s.mem
        ((s.InodeTables T).File idx.toNat).FileHeaderPointer).FileSize) :
    (EEFS_LibOpenFile env s2 T idx Flags A).1 = (EEFS_LibOpenFile env s T idx Flags A).1 ∧
    (EEFS_LibOpenFile env s2 T idx Flags A).2.EEFS_FileDescriptorTable
      = (EEFS_LibOpenFile env s T idx Flags A).2.EEFS_FileDescriptorTable := by
  obtain ⟨g1, g2⟩ := getFD_congr s s2 hd
  have hf := fmode_congr s s2 T (ofInt32 idx) hd
  unfold EEFS_LibOpenFile
  simp only []
  rw [ht, ha, hz, hf, g1]
  split_ifs
  · simp only [setFileDescriptor, g2, and_self]
  · simp only [setFileDescriptor, g2, and_self]
  · exact ⟨rfl, hd⟩
  · exact ⟨rfl, hd⟩
  · exact ⟨rfl, hd⟩
  · exact ⟨rfl, hd⟩
  · exact ⟨rfl, hd⟩

/-- `EEFS_LibRead` returns the same count and bytes on two states with the same descriptor
table whose media agree from the descriptor's data pointer on. -/
theorem read_congr (s s2 : State) (fd : Int) (buf : Option (List Nat)) (len : Nat)
    (hd : s2.EEFS_FileDescriptorTable = s.EEFS_FileDescriptorTable)
    (hm : EEFS_LibIsValidFileDescriptor s fd = true →
      ∀ a, (s.EEFS_FileDescriptorTable fd.toNat).FileDataPointer ≤ a → s2.mem a = s.mem a) :
    (EEFS_LibRead s2 fd buf len).1 = (EEFS_LibRead s fd buf len).1 ∧
    (EEFS_LibRead s2 fd buf len).2.1 = (EEFS_LibRead s fd buf len).2.1 := by
  have hv : EEFS_LibIsValidFileDescriptor s2 fd = EEFS_LibIsValidFileDescriptor s fd := by
    unfold EEFS_LibIsValidFileDescriptor
    rw [hd]
  unfold EEFS_LibRead
  rw [hv, hd]
  by_cases hvalid : EEFS_LibIsValidFileDescriptor s fd = true
  · rw [if_pos hvalid, if_pos hvalid]
    simp only []
    by_cases hb : buf ≠ none
    · rw [if_pos hb, if_pos hb]
      by_cases hr : Nat.land (s.EEFS_FileDescriptorTable fd.toNat).Mode EEFS_FREAD ≠ 0
      · rw [if_pos hr, if_pos hr]
        refine ⟨rfl, ?_⟩
        simp only []
        unfold memRead
        apply List.map_congr_left
        intro i _
        rw [hm hvalid _ (by omega)]
      · rw [if_neg hr, if_neg hr]
        exact ⟨rfl, rfl⟩
    · rw [if_neg hb, if_neg hb]
      exact ⟨rfl, rfl⟩
  · rw [if_neg hvalid, if_neg hvalid]
    exact ⟨rfl, rfl⟩

theorem rename_success (env : Env) (s : State) (T : Nat) (old new : List Nat)
    (h : (EEFS_LibRename env s T (some old) (some new)).1 = EEFS_SUCCESS) :
    T ≠ 0 ∧ EEFS_LibIsValidFilename (some old) = true ∧
    EEFS_LibIsValidFilename (some new) = true ∧
    EEFS_LibFindFile env s T new = EEFS_FILE_NOT_FOUND ∧
    EEFS_LibFindFile env s T old ≠ EEFS_FILE_NOT_FOUND ∧
    (EEFS_LibRename env s T (some old) (some new)).2
      = EEFS_LIB_EEPROM_FLUSH (EEFS_LIB_EEPROM_WRITE s
          ((s.InodeTables T).File (EEFS_LibFindFile env s T old).toNat).FileHeaderPointer
          (fileHeaderBytes env.hostLittleEndian (EEFS_SwapFileHeader
            { loadFileHeader env s.mem
                ((s.InodeTables T).File
                  (EEFS_LibFindFile env s T old).toNat).FileHeaderPointer with
              Filename := strncpy new EEFS_MAX_FILENAME_SIZE }))) := by
  unfold EEFS_LibRename at h ⊢
  simp only [Option.getD_some] at h ⊢
  split_ifs at h ⊢ with h1 h2 h3 h4 h5 h6
  · exact ⟨h1, h2.1, h2.2, h4, h5, rfl⟩
  all_goals
    simp only [EEFS_SUCCESS, EEFS_PERMISSION_DENIED, EEFS_FILE_NOT_FOUND,
      EEFS_READ_ONLY_FILE_SYSTEM, EEFS_INVALID_ARGUMENT] at h
    omega

theorem findFile_absent (env : Env) (s : State) (T : Nat) (f : List Nat)
    (hN : (s.InodeTables T).NumberOfFiles ≤ 2147483648)
    (h : EEFS_LibFindFile env s T f = EEFS_FILE_NOT_FOUND) :
    ∀ j, j < (s.InodeTables T).NumberOfFiles →
      findFileMatch env s.mem (s.InodeTables T) f j = false := by
  unfold EEFS_LibFindFile at h
  cases hf : (List.range (s.InodeTables T).NumberOfFiles).find?
      (findFileMatch env s.mem (s.InodeTables T) f) with
  | none =>
    intro j hj
    have := List.find?_eq_none.1 hf j (List.mem_range.2 hj)
    simpa using this
  | some k =>
    rw [hf] at h
    simp only [] at h
    have hk : k < (s.InodeTables T).NumberOfFiles :=
      List.mem_range.1 (List.mem_of_find?_eq_some hf)
    rw [toInt32_small k (by omega)] at h
    simp only [EEFS_FILE_NOT_FOUND] at h
    omega

/-! ## The image builder -/

/-- The rounding of `AddFile` on a small size. -/
theorem roundUp_example : ROUND_UP 5 4 = 8 := by decide

/-! ## The image of the empty manifest -/

theorem loadU32_congr (e : Bool) (m1 m2 : Mem) (a b : Nat)
    (h : ∀ j, j < 4 → m1 (a + j) % 256 = m2 (b + j) % 256) :
    loadU32 e m1 a = loadU32 e m2 b := by
  have h0 := h 0 (by omega)
  have h1 := h 1 (by omega)
  have h2 := h 2 (by omega)
  have h3 := h 3 (by omega)
  simp only [Nat.add_zero] at h0
  unfold loadU32
  rw [h0, h1, h2, h3]

/-- Reading a word in the other byte order is reading it and swapping its bytes. -/
theorem loadU32_flip (e : Bool) (m : Mem) (a : Nat) :
    loadU32 (!e) m a = SwapUInt32 (loadU32 e m a) := by
  have b0 : m a % 256 < 256 := Nat.mod_lt _ (by decide)
  have b1 : m (a + 1) % 256 < 256 := Nat.mod_lt _ (by decide)
  have b2 : m (a + 2) % 256 < 256 := Nat.mod_lt _ (by decide)
  have b3 : m (a + 3) % 256 < 256 := Nat.mod_lt _ (by decide)
  cases e
  · simp only [loadU32, SwapUInt32, Bool.not_false, if_true, Bool.false_eq_true, if_false]
    omega
  · simp only [loadU32, SwapUInt32, Bool.not_true, if_true, Bool.false_eq_true, if_false]
    omega

theorem swapInPlace_out (m : Mem) (a b : Nat) (h : b < a ∨ a + 4 ≤ b) :
    SwapUInt32InPlace m a b = m b := by
  unfold SwapUInt32InPlace
  exact memWrite_out _ _ _ _ (by simp only [List.length_cons, List.length_nil]; omega)

theorem swapInPlace_frame (e : Bool) (m : Mem) (a b : Nat) (h : b + 4 ≤ a ∨ a + 4 ≤ b) :
    loadU32 e (SwapUInt32InPlace m a) b = loadU32 e m b := by
  unfold SwapUInt32InPlace
  exact loadU32_frame e m a _ b (by simp only [List.length_cons, List.length_nil]; omega)

theorem swapInPlace_load (e : Bool) (m : Mem) (a : Nat) :
    loadU32 e (SwapUInt32InPlace m a) a = SwapUInt32 (loadU32 e m a) := by
  have b0 : m a % 256 < 256 := Nat.mod_lt _ (by decide)
  have b1 : m (a + 1) % 256 < 256 := Nat.mod_lt _ (by decide)
  have b2 : m (a + 2) % 256 < 256 := Nat.mod_lt _ (by decide)
  have b3 : m (a + 3) % 256 < 256 := Nat.mod_lt _ (by decide)
  have w0 : SwapUInt32InPlace m a a = m (a + 3) % 256 := by
    unfold SwapUInt32InPlace
    rw [memWrite_in _ _ _ _ (by omega) (by simp)]
    simp
  have w1 : SwapUInt32InPlace m a (a + 1) = m (a + 2) % 256 := by
    unfold SwapUInt32InPlace
    rw [memWrite_in _ _ _ _ (by omega) (by simp)]
    simp
  have w2 : SwapUInt32InPlace m a (a + 2) = m (a + 1) % 256 := by
    unfold SwapUInt32InPlace
    rw [memWrite_in _ _ _ _ (by omega) (by simp)]
    simp
  have w3 : SwapUInt32InPlace m a (a + 3) = m a % 256 := by
    unfold SwapUInt32InPlace
    rw [memWrite_in _ _ _ _ (by omega) (by simp)]
    simp
  cases e
  · simp only [loadU32, SwapUInt32, w0, w1, w2, w3, Bool.false_eq_true, if_false]
    omega
  · simp only [loadU32, SwapUInt32, w0, w1, w2, w3, if_true]
    omega

theorem loadU32_store_one (le : Bool) (m : Mem) (a v : Nat) :
    loadU32 le (memWrite m a (storeU32 le v)) a = v % 4294967296 := by
  have := loadU32_store le m a [] [] v
  simpa using this

theorem loadU32_store_frame (e le : Bool) (m : Mem) (a b v : Nat) (h : b + 4 ≤ a ∨ a + 4 ≤ b) :
    loadU32 e (memWrite m a (storeU32 le v)) b = loadU32 e m b :=
  loadU32_frame e m a _ b (by rw [storeU32_length]; omega)

/-- The header of the file allocation table that `main` initialises, as the builder reads
it. -/
theorem newFileSystem_header (le : Bool) (opts : CommandLineOptions_t) (B : Nat) (m : Mem) :
    readFileAllocationTableHeader le (newFileSystem le opts B m).mem B
      = { Crc := 0
          Magic := EEFS_FILESYS_MAGIC
          Version := 1
          FreeMemoryOffset := sizeofFileAllocationTable
          FreeMemorySize := u32sub opts.EEPromSize sizeofFileAllocationTable
          NumberOfFiles := 0 } := by
  have hs : u32sub opts.EEPromSize sizeofFileAllocationTable % 4294967296
      = u32sub opts.EEPromSize sizeofFileAllocationTable := by
    unfold u32sub
    exact Nat.mod_mod _ _
  have hmag : EEFS_FILESYS_MAGIC % 4294967296 = EEFS_FILESYS_MAGIC := by decide
  have hfat : sizeofFileAllocationTable % 4294967296 = sizeofFileAllocationTable := by decide
  have f1 : loadU32 le (newFileSystem le opts B m).mem B = 0 := by
    unfold newFileSystem
    simp only []
    rw [loadU32_store_frame _ _ _ _ _ _ (by omega), loadU32_store_frame _ _ _ _ _ _ (by omega),
      loadU32_store_frame _ _ _ _ _ _ (by omega), loadU32_store_frame _ _ _ _ _ _ (by omega),
      loadU32_store_frame _ _ _ _ _ _ (by omega), loadU32_store_one]
  have f2 : loadU32 le (newFileSystem le opts B m).mem (B + 4) = EEFS_FILESYS_MAGIC := by
    unfold newFileSystem
    simp only []
    rw [loadU32_store_frame _ _ _ _ _ _ (by omega), loadU32_store_frame _ _ _ _ _ _ (by omega),
      loadU32_store_frame _ _ _ _ _ _ (by omega), loadU32_store_frame _ _ _ _ _ _ (by omega),
      loadU32_store_one, hmag]
  have f3 : loadU32 le (newFileSystem le opts B m).mem (B + 8) = 1 := by
    unfold newFileSystem
    simp only []
    rw [loadU32_store_frame _ _ _ _ _ _ (by omega), loadU32_store_frame _ _ _ _ _ _ (by omega),
      loadU32_store_frame _ _ _ _ _ _ (by omega), loadU32_store_one]
  have f4 : loadU32 le (newFileSystem le opts B m).mem (B + 12)
      = sizeofFileAllocationTable := by
    unfold newFileSystem
    simp only []
    rw [loadU32_store_frame _ _ _ _ _ _ (by omega), loadU32_store_frame _ _ _ _ _ _ (by omega),
      loadU32_store_one, hfat]
  have f5 : loadU32 le (newFileSystem le opts B m).mem (B + 16)
      = u32sub opts.EEPromSize sizeofFileAllocationTable := by
    unfold newFileSystem
    simp only []
    rw [loadU32_store_frame _ _ _ _ _ _ (by omega), loadU32_store_one, hs]
  have f6 : loadU32 le (newFileSystem le opts B m).mem (B + 20) = 0 := by
    unfold newFileSystem
    simp only []
    rw [loadU32_store_one]
  unfold readFileAllocationTableHeader
  rw [f1, f2, f3, f4, f5, f6]

theorem byteSwap_empty (le : Bool) (fs : FileSystem_t)
    (hN : (readFileAllocationTableHeader le fs.mem fs.BaseAddress).NumberOfFiles = 0) :
    (ByteSwapFileSystem le fs).BaseAddress = fs.BaseAddress ∧
    (ByteSwapFileSystem le fs).mem
      = SwapUInt32InPlace (SwapUInt32InPlace (SwapUInt32InPlace (SwapUInt32InPlace
          (SwapUInt32InPlace (SwapUInt32InPlace fs.mem fs.BaseAddress) (fs.BaseAddress + 4))
          (fs.BaseAddress + 8)) (fs.BaseAddress + 12)) (fs.BaseAddress + 16))
          (fs.BaseAddress + 20) := by
  unfold ByteSwapFileSystem
  simp only [hN, List.range_zero, List.foldl_nil, and_self]

/-- The words of the FAT header behind the CRC, in the image that `main` writes for a file
system without files, decoded by an engine whose host byte order is not the byte order of
the image: they are the words that the builder had in its buffer. -/
theorem finish_header_empty (le e : Bool) (opts : CommandLineOptions_t) (fs : FileSystem_t)
    (hN : (readFileAllocationTableHeader le fs.mem fs.BaseAddress).NumberOfFiles = 0)
    (he : e ≠ imageLittleEndian le opts) (k : Nat)
    (hk : k = 4 ∨ k = 8 ∨ k = 12 ∨ k = 16 ∨ k = 20) :
    (finishFileSystem le opts fs).BaseAddress = fs.BaseAddress ∧
    SwapUInt32 (loadU32 e (finishFileSystem le opts fs).mem (fs.BaseAddress + k))
      = loadU32 le fs.mem (fs.BaseAddress + k) := by
  have hv := loadU32_lt le fs.mem (fs.BaseAddress + k)
  obtain ⟨hb, hm⟩ := byteSwap_empty le fs hN
  unfold imageLittleEndian at he
  unfold finishFileSystem
  simp only []
  by_cases hsw : ThisMachineDataEncoding le ≠ opts.Endian
  · rw [if_pos hsw] at he
    have hee : e = le := by
      cases e <;> cases le <;> simp at he ⊢
    subst hee
    rw [if_pos hsw, if_pos hsw, hb]
    refine ⟨rfl, ?_⟩
    rw [swapInPlace_frame _ _ _ _ (by omega), loadU32_store_frame _ _ _ _ _ _ (by omega), hm]
    have hsw1 : loadU32 e (SwapUInt32InPlace (SwapUInt32InPlace (SwapUInt32InPlace
          (SwapUInt32InPlace
          (SwapUInt32InPlace (SwapUInt32InPlace fs.mem fs.BaseAddress) (fs.BaseAddress + 4))
          (fs.BaseAddress + 8)) (fs.BaseAddress + 12)) (fs.BaseAddress + 16))
          (fs.BaseAddress + 20)) (fs.BaseAddress + k)
        = SwapUInt32 (loadU32 e fs.mem (fs.BaseAddress + k)) := by
      rcases hk with hk | hk | hk | hk | hk <;> subst hk
      · rw [swapInPlace_frame _ _ _ _ (by omega), swapInPlace_frame _ _ _ _ (by omega),
          swapInPlace_frame _ _ _ _ (by omega), swapInPlace_frame _ _ _ _ (by omega),
          swapInPlace_load, swapInPlace_frame _ _ _ _ (by omega)]
      · rw [swapInPlace_frame _ _ _ _ (by omega), swapInPlace_frame _ _ _ _ (by omega),
          swapInPlace_frame _ _ _ _ (by omega),
          swapInPlace_load, swapInPlace_frame _ _ _ _ (by omega),
          swapInPlace_frame _ _ _ _ (by omega)]
      · rw [swapInPlace_frame _ _ _ _ (by omega), swapInPlace_frame _ _ _ _ (by omega),
          swapInPlace_load, swapInPlace_frame _ _ _ _ (by omega),
          swapInPlace_frame _ _ _ _ (by omega), swapInPlace_frame _ _ _ _ (by omega)]
      · rw [swapInPlace_frame _ _ _ _ (by omega),
          swapInPlace_load, swapInPlace_frame _ _ _ _ (by omega),
          swapInPlace_frame _ _ _ _ (by omega), swapInPlace_frame _ _ _ _ (by omega),
          swapInPlace_frame _ _ _ _ (by omega)]
      · rw [swapInPlace_load, swapInPlace_frame _ _ _ _ (by omega),
          swapInPlace_frame _ _ _ _ (by omega), swapInPlace_frame _ _ _ _ (by omega),
          swapInPlace_frame _ _ _ _ (by omega), swapInPlace_frame _ _ _ _ (by omega)]
    rw [hsw1, swap_swap, Nat.mod_eq_of_lt hv]
  · rw [if_neg hsw] at he
    have hee : e = !le := by
      cases e <;> cases le <;> simp at he ⊢
    subst hee
    rw [if_neg hsw, if_neg hsw]
    refine ⟨rfl, ?_⟩
    rw [loadU32_flip, swap_swap, loadU32_store_frame _ _ _ _ _ _ (by omega),
      Nat.mod_eq_of_lt hv]

theorem main_empty (le : Bool) (opts : CommandLineOptions_t)
    (hostFiles : List Nat → Option (List Nat)) (B : Nat) (m : Mem) :
    main le opts hostFiles B m []
      = some (memRead (finishFileSystem le opts (newFileSystem le opts B m)).mem B
          (if opts.FillEEProm = true then opts.EEPromSize else sizeofFileAllocationTable)) := by
  have hh := newFileSystem_header le opts B m
  unfold main addFiles
  simp only []
  rw [hh]
  split_ifs <;> rfl

/-- The image of the empty manifest: header as the builder has it, length of the output,
and what the engine finds when it mounts it. -/
theorem empty_image_mount (le : Bool) (opts : CommandLineOptions_t)
    (hostFiles : List Nat → Option (List Nat)) (B : Nat) (m : Mem)
    (hE1 : 536 ≤ opts.EEPromSize) (hE2 : opts.EEPromSize < 4294967296) :
    (readFileAllocationTableHeader le (newFileSystem le opts B m).mem B).NumberOfFiles = 0 ∧
    (readFileAllocationTableHeader le (newFileSystem le opts B m).mem B).FreeMemoryOffset
      = 536 ∧
    (readFileAllocationTableHeader le (newFileSystem le opts B m).mem B).FreeMemorySize
      = opts.EEPromSize - 536 ∧
    ∃ out, main le opts hostFiles B m [] = some out ∧
      out.length = (if opts.FillEEProm = true then opts.EEPromSize else 536) ∧
      ∀ (env : Env) (s : State) (T B2 : Nat),
        env.hostLittleEndian ≠ imageLittleEndian le opts → T ≠ 0 →
        (∀ i, i < out.length → s.mem (B2 + i) % 256 = out.getD i 0 % 256) →
        (EEFS_LibInitFS env s T B2).1 = EEFS_SUCCESS ∧
        ((EEFS_LibInitFS env s T B2).2.InodeTables T).NumberOfFiles = 0 ∧
        ((EEFS_LibInitFS env s T B2).2.InodeTables T).FreeMemoryPointer = u32 (B2 + 536) ∧
        ((EEFS_LibInitFS env s T B2).2.InodeTables T).FreeMemorySize
          = opts.EEPromSize - 536 ∧
        (loadFileAllocationTableHeader env s.mem B2).FreeMemoryOffset = 536 := by
  have hh := newFileSystem_header le opts B m
  have hsub : u32sub opts.EEPromSize sizeofFileAllocationTable = opts.EEPromSize - 536 := by
    simp only [u32sub, sizeofFileAllocationTable]
    omega
  refine ⟨by rw [hh], by rw [hh]; rfl, by rw [hh]; exact hsub, _, main_empty le opts hostFiles B m,
    ?_, ?_⟩
  · rw [memRead_length]
    rfl
  intro env s T B2 he hT himg
  have hN : (readFileAllocationTableHeader le (newFileSystem le opts B m).mem
      (newFileSystem le opts B m).BaseAddress).NumberOfFiles = 0 := by
    show (readFileAllocationTableHeader le (newFileSystem le opts B m).mem B).NumberOfFiles = 0
    rw [hh]
  have hlen : 536 ≤ (if opts.FillEEProm = true then opts.EEPromSize
      else sizeofFileAllocationTable) := by
    split_ifs
    · exact hE1
    · exact Nat.le_refl _
  rw [memRead_length] at himg
  generalize (if opts.FillEEProm = true then opts.EEPromSize
      else sizeofFileAllocationTable) = L at himg hlen
  -- a word of the mounted image is the word of the buffer at the same offset
  have hword : ∀ k, k = 4 ∨ k = 8 ∨ k = 12 ∨ k = 16 ∨ k = 20 →
      SwapUInt32 (loadU32 env.hostLittleEndian s.mem (B2 + k))
        = loadU32 le (newFileSystem le opts B m).mem (B + k) := by
    intro k hk
    obtain ⟨-, hf⟩ := finish_header_empty le env.hostLittleEndian opts
      (newFileSystem le opts B m) hN he k hk
    have hB : (newFileSystem le opts B m).BaseAddress = B := rfl
    rw [hB] at hf
    have hl : loadU32 env.hostLittleEndian s.mem (B2 + k)
        = loadU32 env.hostLittleEndian
            (finishFileSystem le opts (newFileSystem le opts B m)).mem (B + k) := by
      apply loadU32_congr
      intro j hj
      have hi : k + j < L := by
        rcases hk with hk | hk | hk | hk | hk <;> omega
      have := himg (k + j) hi
      unfold memRead at this
      rw [map_getD_range _ _ _ hi, Nat.mod_mod] at this
      rw [Nat.add_assoc, Nat.add_assoc, this]
    rw [hl]
    exact hf
  have g2 := hword 4 (by omega)
  have g3 := hword 8 (by omega)
  have g4 := hword 12 (by omega)
  have g5 := hword 16 (by omega)
  have g6 := hword 20 (by omega)
  unfold readFileAllocationTableHeader at hh
  have hq := congrArg EEFS_FileAllocationTableHeader_t.Magic hh
  have hv := congrArg EEFS_FileAllocationTableHeader_t.Version hh
  have ho := congrArg EEFS_FileAllocationTableHeader_t.FreeMemoryOffset hh
  have hz := congrArg EEFS_FileAllocationTableHeader_t.FreeMemorySize hh
  have hn := congrArg EEFS_FileAllocationTableHeader_t.NumberOfFiles hh
  simp only [] at hq hv ho hz hn
  rw [hq] at g2
  rw [hv] at g3
  rw [ho] at g4
  rw [hz, hsub] at g5
  rw [hn] at g6
  have d2 : (loadFileAllocationTableHeader env s.mem B2).Magic = EEFS_FILESYS_MAGIC := g2
  have d3 : (loadFileAllocationTableHeader env s.mem B2).Version = 1 := g3
  have d4 : (loadFileAllocationTableHeader env s.mem B2).FreeMemoryOffset
      = sizeofFileAllocationTable := g4
  have d5 : (loadFileAllocationTableHeader env s.mem B2).FreeMemorySize
      = opts.EEPromSize - 536 := g5
  have d6 : (loadFileAllocationTableHeader env s.mem B2).NumberOfFiles = 0 := g6
  have hinit : EEFS_LibInitFS env s T B2 = (EEFS_SUCCESS, setInodeTable s T
      { BaseAddress := B2
        FreeMemoryPointer := u32 (B2 + (loadFileAllocationTableHeader env s.mem B2).FreeMemoryOffset)
        FreeMemorySize := (loadFileAllocationTableHeader env s.mem B2).FreeMemorySize
        NumberOfFiles := (loadFileAllocationTableHeader env s.mem B2).NumberOfFiles
        File := (List.range (loadFileAllocationTableHeader env s.mem B2).NumberOfFiles).foldl
          (initFSEntry env s.mem B2) (fun _ => zeroInodeTableEntry) }) := by
    unfold EEFS_LibInitFS
    rw [if_pos hT]
    simp only []
    rw [if_pos ⟨d2, d3, by rw [d6]; decide⟩]
  rw [hinit]
  simp only [setInodeTable, Function.update_same]
  rw [d4, d5, d6]
  have h536 : sizeofFileAllocationTable = 536 := by decide
  rw [h536]
  simp only [and_self]


/-- C30 (amended). Empty image layout: for an empty manifest the image builder with EEPROM
size `E`, `536 ≤ E < 2^32`, produces a FAT header with `NumberOfFiles == 0`,
`FreeMemoryOffset == 536`, the size of the file allocation table with its 64 entries, and
`FreeMemorySize == E - 536`, and writes an image of `E` bytes when the EEPROM is filled
and of 536 bytes otherwise; `EEFS_LibInitFS` on that image, on a host whose byte order is
not the byte order of the image, succeeds and reports `NumberOfFiles == 0`, the free
memory at `BaseAddress + 536` and `FreeMemorySize == E - 536`. -/
theorem empty_image_layout (le : Bool) (opts : CommandLineOptions_t)
    (hostFiles : List Nat → Option (List Nat)) (B : Nat) (m : Mem)
    (hE1 : 536 ≤ opts.EEPromSize) (hE2 : opts.EEPromSize < 4294967296) :
    (readFileAllocationTableHeader le (newFileSystem le opts B m).mem B).NumberOfFiles = 0 ∧
    (readFileAllocationTableHeader le (newFileSystem le opts B m).mem B).FreeMemoryOffset
      = 536 ∧
    (readFileAllocationTableHeader le (newFileSystem le opts B m).mem B).FreeMemorySize
      = opts.EEPromSize - 536 ∧
    ∃ out, main le opts hostFiles B m [] = some out ∧
      out.length = (if opts.FillEEProm = true then opts.EEPromSize else 536) ∧
      ∀ (env : Env) (s : State) (T B2 : Nat),
        env.hostLittleEndian ≠ imageLittleEndian le opts → T ≠ 0 →
        (∀ i, i < out.length → s.mem (B2 + i) % 256 = out.getD i 0 % 256) →
        (EEFS_LibInitFS env s T B2).1 = EEFS_SUCCESS ∧
        ((EEFS_LibInitFS env s T B2).2.InodeTables T).NumberOfFiles = 0 ∧
        ((EEFS_LibInitFS env s T B2).2.InodeTables T).FreeMemoryPointer = u32 (B2 + 536) ∧
        ((EEFS_LibInitFS env s T B2).2.InodeTables T).FreeMemorySize
          = opts.EEPromSize - 536 ∧
        (loadFileAllocationTableHeader env s.mem B2).FreeMemoryOffset = 536 :=
  empty_image_mount le opts hostFiles B m hE1 hE2

set_option maxRecDepth 100000 in
/-- C30, witness: the example build, with 1024 bytes of EEPROM. -/
theorem empty_image_layout_witness :
    536 ≤ exOptions.EEPromSize ∧ exOptions.EEPromSize < 4294967296 ∧
    (readFileAllocationTableHeader true
      (newFileSystem true exOptions 0 (fun _ => 0)).mem 0).FreeMemoryOffset = 536 ∧
    (readFileAllocationTableHeader true
      (newFileSystem true exOptions 0 (fun _ => 0)).mem 0).FreeMemorySize
      = exOptions.EEPromSize - 536 :=
  ⟨by decide, by decide,
    (empty_image_layout true exOptions exHostFiles 0 (fun _ => 0) (by decide) (by decide)).2.1,
    (empty_image_layout true exOptions exHostFiles 0 (fun _ => 0) (by decide)
      (by decide)).2.2.1⟩

/-- C30, counterexample: the image built on a little-endian host from the empty manifest
with 1024 bytes of EEPROM has 536 bytes; mounted at `exBase` it gives `NumberOfFiles == 0`,
`FreeMemoryOffset == 536`, not 24, and `FreeMemorySize == 488`, not 1000. -/
theorem empty_image_counterexample :
    main true exOptions exHostFiles 0 (fun _ => 0) [] = some exEmptyImage ∧
    exEmptyImage.length = 536 ∧
    (EEFS_LibInitFS (exEnv true)
      { exBlank with mem := memWrite (fun _ => 0) exBase exEmptyImage } 1 exBase).1
      = EEFS_SUCCESS ∧
    ((EEFS_LibInitFS (exEnv true)
      { exBlank with mem := memWrite (fun _ => 0) exBase exEmptyImage } 1
        exBase).2.InodeTables 1).NumberOfFiles = 0 ∧
    ((EEFS_LibInitFS (exEnv true)
      { exBlank with mem := memWrite (fun _ => 0) exBase exEmptyImage } 1
        exBase).2.InodeTables 1).FreeMemorySize = 488 ∧
    (loadFileAllocationTableHeader (exEnv true) (memWrite (fun _ => 0) exBase exEmptyImage)
      exBase).FreeMemoryOffset = 536 ∧
    (536 : Nat) ≠ 24 ∧ (488 : Nat) ≠ 1000 := by
  obtain ⟨-, -, -, out, hmain, hlen, hmount⟩ :=
    empty_image_mount true exOptions exHostFiles 0 (fun _ => 0) (by decide) (by decide)
  have he : exEmptyImage = out := by
    unfold exEmptyImage
    rw [hmain]
    rfl
  rw [he]
  have hl : out.length = 536 := by
    rw [hlen]
    rfl
  obtain ⟨m1, m2, -, m4, m5⟩ := hmount (exEnv true)
    { exBlank with mem := memWrite (fun _ => 0) exBase out } 1 exBase (by decide) (by decide)
    (by
      intro i hi
      show memWrite (fun _ => 0) exBase out (exBase + i) % 256 = _
      rw [memWrite_in _ _ _ _ (by omega) (by omega), Nat.add_sub_cancel_left])
  exact ⟨hmain, hl, m1, m2, m4, m5, by decide, by decide⟩

/-! ## Adding files to the image -/

theorem roundUp4_builder (x : Nat) (h : x + 3 < 4294967296) :
    ROUND_UP x 4 = (x + 3) / 4 * 4 :=
  roundUp4 x h

/-- Decomposition of a successful `AddFile`: the checks that passed. -/
theorem addFile_success (le : Bool) (opts : CommandLineOptions_t)
    (hostFiles : List Nat → Option (List Nat)) (fs fs2 : FileSystem_t)
    (InputFilename EEFSFilename : List Nat) (SpareBytes Attributes : Nat)
    (h : AddFile le opts hostFiles fs InputFilename EEFSFilename SpareBytes Attributes
      = some fs2) :
    (readFileAllocationTableHeader le fs.mem fs.BaseAddress).NumberOfFiles < EEFS_MAX_FILES ∧
    IsDuplicateFilename le fs EEFSFilename = false ∧
    ∃ content, hostFiles InputFilename = some content ∧
      (readFileAllocationTableHeader le fs.mem fs.BaseAddress).FreeMemorySize
        ≥ u32 (sizeofFileHeader + ROUND_UP (u32 (u32 content.length + SpareBytes)) 4) := by
  unfold AddFile at h
  simp only [] at h
  split_ifs at h with h1 h2
  cases hf : hostFiles InputFilename with
  | none =>
    rw [hf] at h
    exact Option.noConfusion h
  | some content =>
    rw [hf] at h
    simp only [] at h
    split_ifs at h with h3
    exact ⟨h1, h2, content, rfl, h3⟩

theorem readFileHeader_frame (le : Bool) (m : Mem) (d : Nat) (bs : List Nat) (p : Nat)
    (h : p + 64 ≤ d ∨ d + bs.length ≤ p) :
    readFileHeader le (memWrite m d bs) p = readFileHeader le m p := by
  unfold readFileHeader
  rw [loadU32_frame _ m d bs p (by omega), loadU32_frame _ m d bs (p + 4) (by omega),
    loadU32_frame _ m d bs (p + 8) (by omega), loadU32_frame _ m d bs (p + 12) (by omega),
    loadU32_frame _ m d bs (p + 16) (by omega), loadU32_frame _ m d bs (p + 20) (by omega),
    memRead_frame m d bs (p + 24) 40 (by omega)]

theorem readFatHeader_frame (le : Bool) (m : Mem) (d : Nat) (bs : List Nat) (p : Nat)
    (h : p + 24 ≤ d ∨ d + bs.length ≤ p) :
    readFileAllocationTableHeader le (memWrite m d bs) p
      = readFileAllocationTableHeader le m p := by
  unfold readFileAllocationTableHeader
  rw [loadU32_frame _ m d bs p (by omega), loadU32_frame _ m d bs (p + 4) (by omega),
    loadU32_frame _ m d bs (p + 8) (by omega), loadU32_frame _ m d bs (p + 12) (by omega),
    loadU32_frame _ m d bs (p + 16) (by omega), loadU32_frame _ m d bs (p + 20) (by omega)]

theorem readFatEntry_frame (le : Bool) (m : Mem) (d : Nat) (bs : List Nat) (p : Nat)
    (h : p + 8 ≤ d ∨ d + bs.length ≤ p) :
    readFileAllocationTableEntry le (memWrite m d bs) p
      = readFileAllocationTableEntry le m p := by
  unfold readFileAllocationTableEntry
  rw [loadU32_frame _ m d bs p (by omega), loadU32_frame _ m d bs (p + 4) (by omega)]

/-- The header that the builder reads back from a header it wrote. -/
theorem readFileHeader_store (le : Bool) (m : Mem) (p : Nat) (h : EEFS_FileHeader_t)
    (h7 : h.Filename.length = 40) :
    readFileHeader le (memWrite m p (fileHeaderBytes le h)) p
      = { Crc := h.Crc % 4294967296
          InUse := h.InUse % 4294967296
          Attributes := h.Attributes % 4294967296
          FileSize := h.FileSize % 4294967296
          ModificationDate := h.ModificationDate % 4294967296
          CreationDate := h.CreationDate % 4294967296
          Filename := h.Filename.map (fun c => c % 256) } := by
  obtain ⟨f1, f2, f3, f4, f5, f6⟩ := fileHeader_store_fields le m p h
  have hn : memRead (memWrite m p (fileHeaderBytes le h)) (p + 24) 40
      = h.Filename.map (fun c => c % 256) := by
    have hb : fileHeaderBytes le h
        = (storeU32 le h.Crc ++ storeU32 le h.InUse ++ storeU32 le h.Attributes
          ++ storeU32 le h.FileSize ++ storeU32 le h.ModificationDate
          ++ storeU32 le h.CreationDate) ++ h.Filename := by
      unfold fileHeaderBytes
      rw [List.take_of_length_le (by omega), h7]
      simp only [Nat.sub_self, List.replicate_zero, List.append_nil]
    rw [hb]
    generalize hpre : storeU32 le h.Crc ++ storeU32 le h.InUse ++ storeU32 le h.Attributes
          ++ storeU32 le h.FileSize ++ storeU32 le h.ModificationDate
          ++ storeU32 le h.CreationDate = pre
    have hl : pre.length = 24 := by
      rw [← hpre]
      simp only [List.length_append, storeU32_length]
    have := memRead_store m p pre h.Filename
    rw [hl, h7] at this
    exact this
  unfold readFileHeader
  rw [f1, f2, f3, f4, f5, f6, hn]

/-- One successful `AddFile` on an image whose free memory starts behind the file
allocation table, when `64 + FileSize + SpareBytes + 3` and the end of the free memory fit
in 32 bits: the new slot, the header and data written there, and the new FAT header. -/
theorem addFile_step (le : Bool) (opts : CommandLineOptions_t)
    (hostFiles : List Nat → Option (List Nat)) (fs fs2 : FileSystem_t)
    (InputFilename EEFSFilename : List Nat) (SpareBytes Attributes : Nat)
    (hsucc : AddFile le opts hostFiles fs InputFilename EEFSFilename SpareBytes Attributes
      = some fs2)
    (hO : sizeofFileAllocationTable
      ≤ (readFileAllocationTableHeader le fs.mem fs.BaseAddress).FreeMemoryOffset)
    (hfit : (readFileAllocationTableHeader le fs.mem fs.BaseAddress).FreeMemoryOffset
      + (readFileAllocationTableHeader le fs.mem fs.BaseAddress).FreeMemorySize < 4294967296) :
    ∃ content, hostFiles InputFilename = some content ∧
      (content.length + SpareBytes + 67 < 4294967296 →
        fs2.BaseAddress = fs.BaseAddress ∧
        64 + (content.length + SpareBytes + 3) / 4 * 4
          ≤ (readFileAllocationTableHeader le fs.mem fs.BaseAddress).FreeMemorySize ∧
        readFileAllocationTableHeader le fs2.mem fs.BaseAddress
          = { readFileAllocationTableHeader le fs.mem fs.BaseAddress with
              FreeMemoryOffset :=
                (readFileAllocationTableHeader le fs.mem fs.BaseAddress).FreeMemoryOffset
                  + (64 + (content.length + SpareBytes + 3) / 4 * 4)
              FreeMemorySize :=
                (readFileAllocationTableHeader le fs.mem fs.BaseAddress).FreeMemorySize
                  - (64 + (content.length + SpareBytes + 3) / 4 * 4)
              NumberOfFiles :=
                (readFileAllocationTableHeader le fs.mem fs.BaseAddress).NumberOfFiles + 1 } ∧
        readFileAllocationTableEntry le fs2.mem (fatEntryAddress fs.BaseAddress
            (readFileAllocationTableHeader le fs.mem fs.BaseAddress).NumberOfFiles)
          = { FileHeaderOffset :=
                (readFileAllocationTableHeader le fs.mem fs.BaseAddress).FreeMemoryOffset
              MaxFileSize := (content.length + SpareBytes + 3) / 4 * 4 } ∧
        readFileHeader le fs2.mem (fs.BaseAddress
            + (readFileAllocationTableHeader le fs.mem fs.BaseAddress).FreeMemoryOffset)
          = { Crc := 0
              InUse := 1
              Attributes := Attributes % 4294967296
              FileSize := content.length
              ModificationDate := opts.TimeStamp % 4294967296
              CreationDate := opts.TimeStamp % 4294967296
              Filename := (strncpy EEFSFilename EEFS_MAX_FILENAME_SIZE).map
                (fun c => c % 256) } ∧
        memRead fs2.mem (fs.BaseAddress
            + (readFileAllocationTableHeader le fs.mem fs.BaseAddress).FreeMemoryOffset + 64)
            content.length
          = content.map (fun c => c % 256) ∧
        (∀ i, i < (readFileAllocationTableHeader le fs.mem fs.BaseAddress).NumberOfFiles →
          readFileAllocationTableEntry le fs2.mem (fatEntryAddress fs.BaseAddress i)
            = readFileAllocationTableEntry le fs.mem (fatEntryAddress fs.BaseAddress i)) ∧
        (∀ a, a < fs.BaseAddress
            + (readFileAllocationTableHeader le fs.mem fs.BaseAddress).FreeMemoryOffset →
          fs.BaseAddress + sizeofFileAllocationTable ≤ a → fs2.mem a = fs.mem a)) := by
  obtain ⟨hN, hdup, content, hfile, hroom⟩ :=
    addFile_success le opts hostFiles fs fs2 InputFilename EEFSFilename SpareBytes Attributes
      hsucc
  refine ⟨content, hfile, ?_⟩
  intro hS
  have hF32 := loadU32_lt le fs.mem (fs.BaseAddress + 16)
  have hO32 := loadU32_lt le fs.mem (fs.BaseAddress + 12)
  have hN32 := loadU32_lt le fs.mem (fs.BaseAddress + 20)
  generalize hB : fs.BaseAddress = B at *
  generalize hh : readFileAllocationTableHeader le fs.mem B = h at *
  have eN : loadU32 le fs.mem (B + 20) = h.NumberOfFiles := by rw [← hh]; rfl
  have eO : loadU32 le fs.mem (B + 12) = h.FreeMemoryOffset := by rw [← hh]; rfl
  have eF : loadU32 le fs.mem (B + 16) = h.FreeMemorySize := by rw [← hh]; rfl
  rw [eN] at hN32
  rw [eO] at hO32
  rw [eF] at hF32
  simp only [EEFS_MAX_FILES] at hN
  simp only [sizeofFileAllocationTable] at hO ⊢
  have hlen : u32 content.length = content.length := by
    simp only [u32]; omega
  have hsum : u32 (content.length + SpareBytes) = content.length + SpareBytes := by
    simp only [u32]; omega
  have hmax : ROUND_UP (u32 (u32 content.length + SpareBytes)) 4
      = (content.length + SpareBytes + 3) / 4 * 4 := by
    rw [hlen, hsum, roundUp4_builder _ (by omega)]
  rw [hmax] at hroom
  have hMle : (content.length + SpareBytes + 3) / 4 * 4 ≤ content.length + SpareBytes + 3 :=
    Nat.div_mul_le_self _ _
  generalize hM : (content.length + SpareBytes + 3) / 4 * 4 = Max at *
  have h64 : u32 (sizeofFileHeader + Max) = 64 + Max := by
    simp only [u32, sizeofFileHeader]
    exact Nat.mod_eq_of_lt (by omega)
  rw [h64] at hroom
  have hroom2 : 64 + Max ≤ h.FreeMemorySize := hroom
  unfold AddFile at hsucc
  simp only [] at hsucc
  rw [hB, hh, if_pos (by simp only [EEFS_MAX_FILES]; exact hN), if_pos hdup, hfile] at hsucc
  have hmax2 : ROUND_UP (content.length + SpareBytes) 4 = Max := by
    rw [← hM]
    exact roundUp4_builder _ (by omega)
  simp only [hlen, hsum, hmax2, h64] at hsucc
  rw [if_pos hroom] at hsucc
  have hO2 : h.FreeMemoryOffset % 4294967296 = h.FreeMemoryOffset := Nat.mod_eq_of_lt hO32
  have hM2 : Max % 4294967296 = Max := Nat.mod_eq_of_lt (by omega)
  generalize he : fatEntryAddress B h.NumberOfFiles = e at hsucc
  have he1 : B + 24 ≤ e := by rw [← he]; simp only [fatEntryAddress]; omega
  have he2 : e + 8 ≤ B + 536 := by rw [← he]; simp only [fatEntryAddress]; omega
  -- first layer: File[N].FileHeaderOffset
  have r1 : readFileAllocationTableHeader le (memWrite fs.mem e
      (storeU32 le h.FreeMemoryOffset)) B = h := by
    rw [readFatHeader_frame _ _ _ _ _ (by omega), hh]
  have p1 : loadU32 le (memWrite fs.mem e (storeU32 le h.FreeMemoryOffset)) e
      = h.FreeMemoryOffset := by
    rw [loadU32_store_one, hO2]
  rw [r1, he] at hsucc
  generalize hm1 : memWrite fs.mem e (storeU32 le h.FreeMemoryOffset) = m1 at hsucc r1 p1
  -- second layer: File[N].MaxFileSize
  have r2 : readFileAllocationTableHeader le (memWrite m1 (e + 4) (storeU32 le Max)) B = h := by
    rw [readFatHeader_frame _ _ _ _ _ (by omega), r1]
  have q2 : readFileAllocationTableEntry le (memWrite m1 (e + 4) (storeU32 le Max)) e
      = ⟨h.FreeMemoryOffset, Max⟩ := by
    unfold readFileAllocationTableEntry
    rw [loadU32_store_frame _ _ _ _ _ _ (by omega), p1, loadU32_store_one, hM2]
  rw [r2, he, q2] at hsucc
  simp only [] at hsucc
  generalize hm2 : memWrite m1 (e + 4) (storeU32 le Max) = m2 at hsucc r2 q2
  -- third layer: the file header
  generalize hhdr : ({ Crc := 0
                       InUse := TRUE
                       Attributes := Attributes
                       FileSize := content.length
                       ModificationDate := u32 opts.TimeStamp
                       CreationDate := u32 opts.TimeStamp
                       Filename := strncpy EEFSFilename EEFS_MAX_FILENAME_SIZE }
                     : EEFS_FileHeader_t) = hdr at hsucc
  have hl3 : (fileHeaderBytes le hdr).length = 64 := fileHeaderBytes_length _ _
  have r3 : readFileAllocationTableHeader le
      (memWrite m2 (B + h.FreeMemoryOffset) (fileHeaderBytes le hdr)) B = h := by
    rw [readFatHeader_frame _ _ _ _ _ (by omega), r2]
  have q3 : readFileAllocationTableEntry le
      (memWrite m2 (B + h.FreeMemoryOffset) (fileHeaderBytes le hdr)) e
      = ⟨h.FreeMemoryOffset, Max⟩ := by
    rw [readFatEntry_frame _ _ _ _ _ (by omega), q2]
  have f3 : readFileHeader le
      (memWrite m2 (B + h.FreeMemoryOffset) (fileHeaderBytes le hdr)) (B + h.FreeMemoryOffset)
      = { Crc := hdr.Crc % 4294967296
          InUse := hdr.InUse % 4294967296
          Attributes := hdr.Attributes % 4294967296
          FileSize := hdr.FileSize % 4294967296
          ModificationDate := hdr.ModificationDate % 4294967296
          CreationDate := hdr.CreationDate % 4294967296
          Filename := hdr.Filename.map (fun c => c % 256) } :=
    readFileHeader_store le m2 _ hdr (by rw [← hhdr]; exact strncpy_length _ _)
  rw [r3, he, q3] at hsucc
  simp only [] at hsucc
  generalize hm3 : memWrite m2 (B + h.FreeMemoryOffset) (fileHeaderBytes le hdr) = m3
    at hsucc r3 q3 f3
  -- fourth layer: the data
  rw [List.take_length] at hsucc
  have r4 : readFileAllocationTableHeader le
      (memWrite m3 (B + h.FreeMemoryOffset + sizeofFileHeader) content) B = h := by
    rw [readFatHeader_frame _ _ _ _ _ (by simp only [sizeofFileHeader]; omega), r3]
  have q4 : readFileAllocationTableEntry le
      (memWrite m3 (B + h.FreeMemoryOffset + sizeofFileHeader) content) e
      = ⟨h.FreeMemoryOffset, Max⟩ := by
    rw [readFatEntry_frame _ _ _ _ _ (by simp only [sizeofFileHeader]; omega), q3]
  have f4 : readFileHeader le
      (memWrite m3 (B + h.FreeMemoryOffset + sizeofFileHeader) content)
      (B + h.FreeMemoryOffset) = readFileHeader le m3 (B + h.FreeMemoryOffset) := by
    rw [readFileHeader_frame _ _ _ _ _ (by simp only [sizeofFileHeader]; omega)]
  have d4 : memRead (memWrite m3 (B + h.FreeMemoryOffset + sizeofFileHeader) content)
      (B + h.FreeMemoryOffset + sizeofFileHeader) content.length
      = content.map (fun c => c % 256) := by
    have := memRead_store m3 (B + h.FreeMemoryOffset + sizeofFileHeader) [] content
    simpa using this
  rw [r4] at hsucc
  generalize hm4 : memWrite m3 (B + h.FreeMemoryOffset + sizeofFileHeader) content = m4
    at hsucc r4 q4 f4 d4
  have w0 : loadU32 le m4 B = h.Crc := congrArg EEFS_FileAllocationTableHeader_t.Crc r4
  have w1 : loadU32 le m4 (B + 4) = h.Magic := congrArg EEFS_FileAllocationTableHeader_t.Magic r4
  have w2 : loadU32 le m4 (B + 8) = h.Version :=
    congrArg EEFS_FileAllocationTableHeader_t.Version r4
  have w4 : loadU32 le m4 (B + 16) = h.FreeMemorySize :=
    congrArg EEFS_FileAllocationTableHeader_t.FreeMemorySize r4
  have w5 : loadU32 le m4 (B + 20) = h.NumberOfFiles :=
    congrArg EEFS_FileAllocationTableHeader_t.NumberOfFiles r4
  have v5 : u32 (h.FreeMemoryOffset + (64 + Max)) = h.FreeMemoryOffset + (64 + Max) := by
    simp only [u32]
    exact Nat.mod_eq_of_lt (by omega)
  have v6 : u32sub h.FreeMemorySize (64 + Max) = h.FreeMemorySize - (64 + Max) := by
    simp only [u32sub]
    omega
  have v7 : u32 (h.NumberOfFiles + 1) = h.NumberOfFiles + 1 := by
    simp only [u32]
    exact Nat.mod_eq_of_lt (by omega)
  have x5 : (readFileAllocationTableHeader le (memWrite m4 (B + 12)
      (storeU32 le (u32 (h.FreeMemoryOffset + (64 + Max))))) B).FreeMemorySize
      = h.FreeMemorySize := by
    show loadU32 le _ (B + 16) = _
    rw [loadU32_store_frame _ _ _ _ _ _ (by omega), w4]
  rw [x5] at hsucc
  have x6 : (readFileAllocationTableHeader le (memWrite (memWrite m4 (B + 12)
      (storeU32 le (u32 (h.FreeMemoryOffset + (64 + Max))))) (B + 16)
      (storeU32 le (u32sub h.FreeMemorySize (64 + Max)))) B).NumberOfFiles
      = h.NumberOfFiles := by
    show loadU32 le _ (B + 20) = _
    rw [loadU32_store_frame _ _ _ _ _ _ (by omega), loadU32_store_frame _ _ _ _ _ _ (by omega),
      w5]
  rw [x6, v5, v6, v7] at hsucc
  have hfs2 := (Option.some.inj hsucc).symm
  have hmem : fs2.mem = memWrite (memWrite (memWrite m4 (B + 12)
      (storeU32 le (h.FreeMemoryOffset + (64 + Max)))) (B + 16)
      (storeU32 le (h.FreeMemorySize - (64 + Max)))) (B + 20)
      (storeU32 le (h.NumberOfFiles + 1)) := by
    rw [hfs2]
  have hbase : fs2.BaseAddress = B := by
    rw [hfs2]
  -- what the three stores in the FAT header leave alone
  have hout : ∀ a, (a < B + 12 ∨ B + 24 ≤ a) → fs2.mem a = m4 a := by
    intro a ha
    rw [hmem, memWrite_out _ _ _ _ (by rw [storeU32_length]; omega),
      memWrite_out _ _ _ _ (by rw [storeU32_length]; omega),
      memWrite_out _ _ _ _ (by rw [storeU32_length]; omega)]
  have hword : ∀ a, (a + 4 ≤ B + 12 ∨ B + 24 ≤ a) → loadU32 le fs2.mem a = loadU32 le m4 a := by
    intro a ha
    apply loadU32_congr
    intro j hj
    rw [hout (a + j) (by omega)]
  have hm4out : ∀ a, a < B + h.FreeMemoryOffset → B + 536 ≤ a → m4 a = fs.mem a := by
    intro a h1 h2
    rw [← hm4, memWrite_out _ _ _ _ (by omega), ← hm3,
      memWrite_out _ _ _ _ (by rw [hl3]; omega), ← hm2,
      memWrite_out _ _ _ _ (by rw [storeU32_length]; omega), ← hm1,
      memWrite_out _ _ _ _ (by rw [storeU32_length]; omega)]
  refine ⟨hbase, hroom2, ?_, ?_, ?_, ?_, ?_, ?_⟩
  · unfold readFileAllocationTableHeader
    rw [hword B (by omega), hword (B + 4) (by omega), hword (B + 8) (by omega), w0, w1, w2]
    have y3 : loadU32 le fs2.mem (B + 12) = h.FreeMemoryOffset + (64 + Max) := by
      rw [hmem, loadU32_store_frame _ _ _ _ _ _ (by omega),
        loadU32_store_frame _ _ _ _ _ _ (by omega), loadU32_store_one,
        Nat.mod_eq_of_lt (by omega)]
    have y4 : loadU32 le fs2.mem (B + 16) = h.FreeMemorySize - (64 + Max) := by
      rw [hmem, loadU32_store_frame _ _ _ _ _ _ (by omega), loadU32_store_one,
        Nat.mod_eq_of_lt (by omega)]
    have y5 : loadU32 le fs2.mem (B + 20) = h.NumberOfFiles + 1 := by
      rw [hmem, loadU32_store_one, Nat.mod_eq_of_lt (by omega)]
    rw [y3, y4, y5]
  · unfold readFileAllocationTableEntry at q4 ⊢
    rw [hword e (by omega), hword (e + 4) (by omega)]
    exact q4
  · unfold readFileHeader at f4 f3 ⊢
    rw [hword _ (by omega), hword _ (by omega), hword _ (by omega), hword _ (by omega),
      hword _ (by omega), hword _ (by omega)]
    have hname : memRead fs2.mem (B + h.FreeMemoryOffset + 24) 40
        = memRead m4 (B + h.FreeMemoryOffset + 24) 40 := by
      unfold memRead
      apply List.map_congr_left
      intro i _
      rw [hout _ (by omega)]
    rw [hname, f4, f3, ← hhdr]
    simp only [u32, TRUE, Nat.mod_mod]
    have hl : content.length % 4294967296 = content.length := Nat.mod_eq_of_lt (by omega)
    rw [hl]
  · have hdat : memRead fs2.mem (B + h.FreeMemoryOffset + 64) content.length
        = memRead m4 (B + h.FreeMemoryOffset + 64) content.length := by
      unfold memRead
      apply List.map_congr_left
      intro i _
      rw [hout _ (by omega)]
    rw [hdat]
    exact d4
  · intro i hi
    unfold readFileAllocationTableEntry
    have hei : B + 24 ≤ fatEntryAddress B i ∧ fatEntryAddress B i + 8 ≤ e := by
      rw [← he]
      simp only [fatEntryAddress]
      omega
    rw [hword _ (by omega), hword _ (by omega)]
    congr 1
    · apply loadU32_congr
      intro j hj
      rw [← hm4, memWrite_out _ _ _ _ (by omega), ← hm3,
        memWrite_out _ _ _ _ (by rw [hl3]; omega), ← hm2,
        memWrite_out _ _ _ _ (by rw [storeU32_length]; omega), ← hm1,
        memWrite_out _ _ _ _ (by rw [storeU32_length]; omega)]
    · apply loadU32_congr
      intro j hj
      rw [← hm4, memWrite_out _ _ _ _ (by omega), ← hm3,
        memWrite_out _ _ _ _ (by rw [hl3]; omega), ← hm2,
        memWrite_out _ _ _ _ (by rw [storeU32_length]; omega), ← hm1,
        memWrite_out _ _ _ _ (by rw [storeU32_length]; omega)]
  · intro a h1 h2
    rw [hout a (by omega)]
    exact hm4out a h1 (by omega)

set_option maxRecDepth 100000 in
/-- C29. On a little-endian host, in the image of 1024 bytes initialised by `main`,
`AddFile` of a host file of 5 bytes with 4294967295 spare bytes succeeds and records slot 0
with `FileHeaderOffset == 536` and `MaxFileSize == 4`, the sum `5 + 4294967295` having
wrapped to 4: the header has `InUse == 1` and `FileSize == 5`, which exceeds
`MaxFileSize`, and the fifth data byte lies at the new `FreeMemoryOffset` 604, behind the
slot.  With 4294967280 spare bytes `MaxFileSize` is 4294967288 while `FreeMemoryOffset`
advances by `(64 + 4294967288) mod 2^32 = 56` to 592, so that
`FileHeaderOffset + 64 + MaxFileSize` is not `FreeMemoryOffset`. -/
theorem addFile_overflow :
    (exAdded 4294967295).isSome = true ∧
    readFileAllocationTableEntry true (imageMem (exAdded 4294967295)) (fatEntryAddress 0 0)
      = ⟨536, 4⟩ ∧
    (readFileHeader true (imageMem (exAdded 4294967295)) 536).InUse = 1 ∧
    (readFileHeader true (imageMem (exAdded 4294967295)) 536).FileSize = 5 ∧
    ¬ (readFileHeader true (imageMem (exAdded 4294967295)) 536).FileSize
      ≤ (readFileAllocationTableEntry true (imageMem (exAdded 4294967295))
          (fatEntryAddress 0 0)).MaxFileSize ∧
    (readFileAllocationTableEntry true (imageMem (exAdded 4294967295))
        (fatEntryAddress 0 0)).MaxFileSize ≠ (5 + 4294967295 + 3) / 4 * 4 ∧
    readFileAllocationTableHeader true (imageMem (exAdded 4294967295)) 0
      = ⟨0, EEFS_FILESYS_MAGIC, 1, 604, 420, 1⟩ ∧
    memRead (imageMem (exAdded 4294967295)) 600 5 = [1, 2, 3, 4, 5] ∧
    (exAdded 4294967280).isSome = true ∧
    readFileAllocationTableEntry true (imageMem (exAdded 4294967280)) (fatEntryAddress 0 0)
      = ⟨536, 4294967288⟩ ∧
    readFileAllocationTableHeader true (imageMem (exAdded 4294967280)) 0
      = ⟨0, EEFS_FILESYS_MAGIC, 1, 592, 432, 1⟩ ∧
    (536 : Nat) + 64 + 4294967288 ≠ 592 := by
  decide

/-! ## The address range check of the page window -/

/-- Where `Address + Size - 1` does not wrap around, the check returns `TRUE` exactly for
the ranges that lie inside one bank. -/
theorem addressRange_no_wrap (Address Size : Nat) (hS : 1 ≤ Size)
    (hw : Address + Size - 1 < 4294967296) :
    EEPROM_IsValidAddressRange Address Size = TRUE ↔
      (rangeInBank Address Size EEPROM_BANK1_START_ADDR EEPROM_BANK1_END_ADDR ∨
       rangeInBank Address Size EEPROM_BANK2_START_ADDR EEPROM_BANK2_END_ADDR) := by
  have hsub : u32sub (u32 (Address + Size)) 1 = Address + Size - 1 := by
    simp only [u32sub, u32]
    omega
  unfold EEPROM_IsValidAddressRange rangeInBank
  rw [hsub]
  simp only [EEPROM_BANK1_START_ADDR, EEPROM_BANK1_END_ADDR, EEPROM_BANK1_SIZE,
    EEPROM_BANK2_START_ADDR, EEPROM_BANK2_END_ADDR, EEPROM_BANK2_SIZE, TRUE, FALSE]
  constructor
  · intro h
    split_ifs at h with h1 h2 h3 h4
    · left
      intro a ha hb
      omega
    · right
      intro a ha hb
      omega
  · intro h
    rcases h with h | h
    · have h1 := h Address (le_refl _) (by omega)
      have h2 := h (Address + Size - 1) (by omega) (by omega)
      rw [if_pos (by omega), if_pos (by omega)]
    · have h1 := h Address (le_refl _) (by omega)
      have h2 := h (Address + Size - 1) (by omega) (by omega)
      rw [if_neg (by omega), if_pos (by omega), if_pos (by omega)]

/-- C40. `EEPROM_IsValidAddressRange(0x03400002, 0xFFFFFFFF)` returns `TRUE`: the sum
`Address + Size - 1` wraps around to `0x03400000`, which passes the test against the end
of bank 1.  The range starts in bank 1 and, computed without wrap-around, crosses the end
of the bank: it contains `0x03600000`, an address of bank 2, and `0x03800000`, which is in
no bank. -/
theorem addressRange_wraps :
    EEPROM_IsValidAddressRange 0x03400002 0xFFFFFFFF = TRUE ∧
    u32sub (u32 (0x03400002 + 0xFFFFFFFF)) 1 = 0x03400000 ∧
    EEPROM_BANK1_START_ADDR ≤ 0x03400002 ∧ 0x03400002 ≤ EEPROM_BANK1_END_ADDR ∧
    EEPROM_BANK1_END_ADDR = 0x035FFFFF ∧ EEPROM_BANK2_END_ADDR = 0x037FFFFF ∧
    0x03400002 ≤ 0x03600000 ∧ 0x03600000 < 0x03400002 + 0xFFFFFFFF ∧
    EEPROM_BANK1_END_ADDR < 0x03600000 ∧
    0x03400002 ≤ 0x03800000 ∧ 0x03800000 < 0x03400002 + 0xFFFFFFFF ∧
    EEPROM_BANK2_END_ADDR < 0x03800000 ∧
    ¬ rangeInBank 0x03400002 0xFFFFFFFF EEPROM_BANK1_START_ADDR EEPROM_BANK1_END_ADDR ∧
    ¬ rangeInBank 0x03400002 0xFFFFFFFF EEPROM_BANK2_START_ADDR EEPROM_BANK2_END_ADDR := by
  refine ⟨by decide, by decide, by decide, by decide, by decide, by decide, by decide,
    by decide, by decide, by decide, by decide, by decide, ?_, ?_⟩
  · intro h
    have := h 0x03600000 (by decide) (by decide)
    simp only [EEPROM_BANK1_END_ADDR, EEPROM_BANK1_START_ADDR, EEPROM_BANK1_SIZE] at this
    omega
  · intro h
    have := h 0x03400002 (by decide) (by decide)
    simp only [EEPROM_BANK2_END_ADDR, EEPROM_BANK2_START_ADDR, EEPROM_BANK2_SIZE] at this
    omega

/-! ## The checksum of the image builder -/

set_option maxRecDepth 100000 in
/-- C32. `CalculateCRC` of the single byte `0x01` with `InputCrc == 0` is `0xFFFFC0C1`:
the accumulator is an `int16`, its value `0xC0C1` is negative and is sign-extended by the
conversion to the `uint32` return type, so that the upper 16 bits are ones and the value is
above `0xFFFF`.  The same happens for the byte `0x02` with `InputCrc == 0xFFFF`. -/
theorem crc_sign_extended :
    CalculateCRC (memWrite (fun _ => 0) 0 [1]) 0 1 0 = 0xFFFFC0C1 ∧
    ¬ CalculateCRC (memWrite (fun _ => 0) 0 [1]) 0 1 0 ≤ 0xFFFF ∧
    CalculateCRC (memWrite (fun _ => 0) 0 [1]) 0 1 0 / 65536 = 0xFFFF ∧
    CalculateCRC (memWrite (fun _ => 0) 0 [1]) 0 1 0 % 65536 = 0xC0C1 ∧
    ¬ CalculateCRC (memWrite (fun _ => 0) 0 [2]) 0 1 0xFFFF ≤ 0xFFFF := by
  decide

theorem xor_cancel_right (a b p : Nat) : (a ^^^ p) ^^^ (b ^^^ p) = a ^^^ b := by
  rw [Nat.xor_assoc, Nat.xor_comm b p, ← Nat.xor_assoc p p b, Nat.xor_self, Nat.zero_xor]

theorem xor_move (a b p : Nat) : (a ^^^ p) ^^^ b = (a ^^^ b) ^^^ p := by
  rw [Nat.xor_assoc, Nat.xor_comm p b, ← Nat.xor_assoc]

/-- The bit step is linear over xor. -/
theorem bitStep_xor (u v : Nat) :
    crc16BitStep (u ^^^ v) = crc16BitStep u ^^^ crc16BitStep v := by
  have hx : ∀ a b : Nat, Nat.xor a b = a ^^^ b := fun _ _ => rfl
  unfold crc16BitStep
  simp only [hx]
  have hd := @Nat.xor_div_two u v
  have hm := @Nat.xor_mod_two_eq_one u v
  by_cases hu : u % 2 = 1 <;> by_cases hv : v % 2 = 1
  · have : ¬ (u ^^^ v) % 2 = 1 := by rw [hm]; simp [hu, hv]
    rw [if_neg this, if_pos hu, if_pos hv, hd, xor_cancel_right]
  · have : (u ^^^ v) % 2 = 1 := by rw [hm]; simp [hu, hv]
    rw [if_pos this, if_pos hu, if_neg hv, hd, xor_move]
  · have : (u ^^^ v) % 2 = 1 := by rw [hm]; simp [hu, hv]
    rw [if_pos this, if_neg hu, if_pos hv, hd, Nat.xor_assoc]
  · have : ¬ (u ^^^ v) % 2 = 1 := by rw [hm]; simp [hu, hv]
    rw [if_neg this, if_neg hu, if_neg hv, hd]

theorem bitSteps_xor (k : Nat) : ∀ u v : Nat,
    crc16BitStep^[k] (u ^^^ v) = crc16BitStep^[k] u ^^^ crc16BitStep^[k] v := by
  induction k with
  | zero => intro u v; rfl
  | succ n ih =>
    intro u v
    rw [Function.iterate_succ_apply, Function.iterate_succ_apply, Function.iterate_succ_apply,
      bitStep_xor, ih]

theorem bitStep_poly (x : Nat) :
    crc16BitStep x = (x / 2) ^^^ (if x % 2 = 1 then 0xA001 else 0) := by
  unfold crc16BitStep
  split_ifs
  · rfl
  · rw [Nat.xor_zero]

/-- After `k` bit steps the bits above the low `k` have only moved down. -/
theorem bitSteps_split (k : Nat) : ∀ x : Nat,
    crc16BitStep^[k] x = (x / 2 ^ k) ^^^ crc16BitStep^[k] (x % 2 ^ k) := by
  induction k with
  | zero =>
    intro x
    simp only [Function.iterate_zero, id_eq, pow_zero, Nat.div_one, Nat.mod_one, Nat.xor_zero]
  | succ n ih =>
    intro x
    have e1 : x % 2 ^ (n + 1) / 2 = x / 2 % 2 ^ n := by
      rw [pow_succ, Nat.mul_comm, Nat.mod_mul_right_div_self]
    have e2 : x % 2 ^ (n + 1) % 2 = x % 2 := by
      rw [pow_succ]
      exact Nat.mod_mul_left_mod x (2 ^ n) 2
    have e3 : x / 2 / 2 ^ n = x / 2 ^ (n + 1) := by
      rw [Nat.div_div_eq_div_mul, pow_succ, Nat.mul_comm]
    rw [Function.iterate_succ_apply, Function.iterate_succ_apply, bitStep_poly x,
      bitStep_poly (x % 2 ^ (n + 1)), e1, e2, bitSteps_xor, bitSteps_xor, ih (x / 2), e3,
      Nat.xor_assoc]

theorem xor_div_pow (k : Nat) : ∀ a b : Nat, (a ^^^ b) / 2 ^ k = a / 2 ^ k ^^^ b / 2 ^ k := by
  induction k with
  | zero => intro a b; simp
  | succ n ih =>
    intro a b
    rw [pow_succ, Nat.mul_comm, ← Nat.div_div_eq_div_mul, ← Nat.div_div_eq_div_mul,
      ← Nat.div_div_eq_div_mul, Nat.xor_div_two, ih]

set_option maxRecDepth 100000 in
theorem crcTable_entries : ∀ i, i < 256 →
    CrcTable.getD i 0 = crc16BitStep^[8] i ∧ CrcTable.getD i 0 < 65536 := by
  decide

/-- The loop step of `CalculateCRC` on a 16-bit accumulator is the bit-serial step for one
byte. -/
theorem crcStep_eq (c b : Nat) (hc : c < 65536) :
    crcStep c b = (c / 256) ^^^ CrcTable.getD ((c ^^^ b % 256) % 256) 0 ∧
    crcStep c b = crc16Byte c b ∧ crcStep c b < 65536 := by
  have hx : ∀ a b : Nat, Nat.xor a b = a ^^^ b := fun _ _ => rfl
  have ha : ∀ a b : Nat, Nat.land a b = a &&& b := fun _ _ => rfl
  have hb : b % 256 < 256 := Nat.mod_lt _ (by decide)
  have h255 : ∀ x : Nat, x &&& 255 = x % 256 := by
    intro x
    have := Nat.and_pow_two_sub_one_eq_mod x 8
    simpa using this
  have hhi : c / 256 % 256 = c / 256 := Nat.mod_eq_of_lt (by omega)
  have hlo := Nat.mod_lt (c ^^^ b % 256) (show 0 < 256 by decide)
  obtain ⟨ht, ht2⟩ := crcTable_entries _ hlo
  have hdiv : (c ^^^ b % 256) / 256 = c / 256 := by
    have := xor_div_pow 8 c (b % 256)
    have e : b % 256 / 2 ^ 8 = 0 := Nat.div_eq_of_lt (by omega)
    rw [e, Nat.xor_zero] at this
    simpa using this
  have hlt : (c / 256) ^^^ CrcTable.getD ((c ^^^ b % 256) % 256) 0 < 65536 := by
    have h1 : c / 256 < 2 ^ 16 := by omega
    have h2 : CrcTable.getD ((c ^^^ b % 256) % 256) 0 < 2 ^ 16 := by omega
    have := Nat.xor_lt_two_pow h1 h2
    omega
  have hstep : crcStep c b = (c / 256) ^^^ CrcTable.getD ((c ^^^ b % 256) % 256) 0 := by
    unfold crcStep
    simp only [hx, ha, h255, hhi]
    exact Nat.mod_eq_of_lt hlt
  refine ⟨hstep, ?_, by rw [hstep]; exact hlt⟩
  rw [hstep]
  unfold crc16Byte
  simp only [hx]
  have hs := bitSteps_split 8 (c ^^^ b % 256)
  have e8 : (2 : Nat) ^ 8 = 256 := by norm_num
  rw [e8] at hs
  rw [hs, hdiv, ht]

theorem crc_fold (d : List Nat) : ∀ c, c < 65536 →
    d.foldl crcStep c = d.foldl crc16Byte c ∧ d.foldl crcStep c < 65536 := by
  induction d with
  | nil => intro c hc; exact ⟨rfl, hc⟩
  | cons b t ih =>
    intro c hc
    obtain ⟨-, h2, h3⟩ := crcStep_eq c b hc
    rw [List.foldl_cons, List.foldl_cons, ← h2]
    exact ih _ h3

theorem foldl_range_mem (g : Nat → Nat → Nat) (m : Mem) (p : Nat) (d : List Nat) :
    ∀ (c : Nat) (m0 : Mem), (∀ i, i < d.length → m (p + i) = d.getD i 0) →
    (List.range d.length).foldl (fun Crc i => g Crc (m (p + i))) c = d.foldl g c := by
  intro c m0 hm
  have h1 : (List.range d.length).foldl (fun Crc i => g Crc (m (p + i))) c
      = (List.range d.length).foldl (fun Crc i => g Crc (d.getD i 0)) c := by
    apply List.foldl_ext
    intro a i hi
    rw [hm i (List.mem_range.1 hi)]
  rw [h1]
  have h2 : ∀ (l : List Nat) (c : Nat),
      (List.range l.length).foldl (fun Crc i => g Crc (l.getD i 0)) c = l.foldl g c := by
    intro l
    induction l using List.reverseRecOn with
    | nil => intro c; rfl
    | append_singleton t b ih =>
      intro c
      rw [List.length_append, List.length_singleton, List.range_succ, List.foldl_append,
        List.foldl_append]
      have e1 : (List.range t.length).foldl (fun Crc i => g Crc ((t ++ [b]).getD i 0)) c
          = (List.range t.length).foldl (fun Crc i => g Crc (t.getD i 0)) c := by
        apply List.foldl_ext
        intro a i hi
        have hi2 := List.mem_range.1 hi
        rw [List.getD_eq_getElem?_getD, List.getD_eq_getElem?_getD,
          List.getElem?_append_left hi2]
      rw [e1, ih]
      simp only [List.foldl_cons, List.foldl_nil]
      rw [List.getD_eq_getElem?_getD, List.getElem?_append_right (le_refl _)]
      simp
  exact h2 d c

/-- C38. CRC table correctness: for every byte sequence `d`, in memory at `p`, the low 16
bits of `CalculateCRC(d, |d|, 0)` are the bit-serial reflected CRC-16 of `d` with
polynomial `0xA001`, initial value 0 and no final XOR; each of the 256 entries
`CrcTable[b]` is that bit-serial CRC of the single byte `b`; and on 16-bit values the
loop step is `crc' = (crc >> 8) XOR CrcTable[(crc XOR byte) AND 0xFF]`, which is the
bit-serial step for one byte. -/
theorem crc_table_correct :
    (∀ (m : Mem) (p : Nat) (d : List Nat),
      CalculateCRC (memWrite m p d) p (d.length : Int) 0 % 65536 = crc16Bitwise 0 d) ∧
    (∀ b, b < 256 → CrcTable.getD b 0 = crc16Bitwise 0 [b]) ∧
    (∀ c b, c < 65536 →
      crcStep c b = (c / 256) ^^^ CrcTable.getD ((c ^^^ b % 256) % 256) 0 ∧
      crcStep c b = crc16Byte c b) := by
  refine ⟨?_, ?_, ?_⟩
  · intro m p d
    unfold CalculateCRC crc16Bitwise
    have h0 : Nat.land 65535 0 = 0 := by decide
    rw [h0, Int.toNat_ofNat,
      foldl_range_mem crcStep (memWrite m p d) p d 0 m (by
        intro i hi
        rw [memWrite_in _ _ _ _ (by omega) (by omega), Nat.add_sub_cancel_left])]
    obtain ⟨h1, h2⟩ := crc_fold d 0 (by decide)
    rw [← h1]
    unfold int16ToUInt32
    rw [Nat.mod_eq_of_lt h2]
    split_ifs <;> omega
  · intro b hb
    obtain ⟨h1, -⟩ := crcTable_entries b hb
    rw [h1]
    unfold crc16Bitwise crc16Byte
    simp only [List.foldl_cons, List.foldl_nil]
    have : Nat.xor 0 (b % 256) = b := by
      show 0 ^^^ (b % 256) = b
      rw [Nat.zero_xor, Nat.mod_eq_of_lt hb]
    rw [this]
  · intro c b hc
    obtain ⟨h1, h2, -⟩ := crcStep_eq c b hc
    exact ⟨h1, h2⟩

set_option maxRecDepth 100000 in
/-- C38, witness: the loop step on the accumulator `0xC0C1` and the byte `0x02`. -/
theorem crc_table_correct_witness :
    (0xC0C1 : Nat) < 65536 ∧ crcStep 0xC0C1 2 = crc16Byte 0xC0C1 2 :=
  ⟨by decide, (crc_table_correct.2.2 0xC0C1 2 (by decide)).2⟩

/-! ## Open with `O_CREAT` -/

/-- C35 (amended). Open with `O_CREAT` falls through to the creation of a file without
attributes: for a non-null inode table, a valid name that the lookup does not find and
every flag word containing `O_CREAT`, `EEFS_LibOpen(T, name, flags, attrs)` returns the
same result and produces the same state, inode table, descriptor table and medium
included, as `EEFS_LibCreat(T, name, EEFS_ATTRIBUTE_NONE)`, whatever `attrs` is. -/
theorem open_creat_is_creat (env : Env) (s : State) (T : Nat) (f : List Nat)
    (Flags A : Nat) (hT : T ≠ 0) (hname : EEFS_LibIsValidFilename (some f) = true)
    (hnew : EEFS_LibFindFile env s T f = EEFS_FILE_NOT_FOUND)
    (hcreat : Nat.land Flags O_CREAT ≠ 0) :
    EEFS_LibOpen env s T (some f) Flags A
      = EEFS_LibCreat env s T (some f) EEFS_ATTRIBUTE_NONE := by
  rw [creat_new env s T f EEFS_ATTRIBUTE_NONE hT hname hnew]
  unfold EEFS_LibOpen
  rw [if_pos hT, if_pos hname]
  simp only [Option.getD_some]
  rw [if_neg (by rw [hnew]; exact fun h => h rfl), if_pos hcreat]

set_option maxRecDepth 100000 in
/-- C35, witness: `EEFS_LibOpen("a", O_CREAT | O_WRONLY, EEFS_ATTRIBUTE_READONLY)` on the
mounted empty example volume. -/
theorem open_creat_is_creat_witness :
    (1 : Nat) ≠ 0 ∧ EEFS_LibIsValidFilename (some [97]) = true ∧
    EEFS_LibFindFile (exEnv true) (exMountedEmpty true) 1 [97] = EEFS_FILE_NOT_FOUND ∧
    Nat.land (Nat.lor O_CREAT O_WRONLY) O_CREAT ≠ 0 ∧
    EEFS_LibOpen (exEnv true) (exMountedEmpty true) 1 (some [97]) (Nat.lor O_CREAT O_WRONLY)
        EEFS_ATTRIBUTE_READONLY
      = EEFS_LibCreat (exEnv true) (exMountedEmpty true) 1 (some [97]) EEFS_ATTRIBUTE_NONE :=
  ⟨by decide, by decide, by decide, by decide,
    open_creat_is_creat (exEnv true) (exMountedEmpty true) 1 [97] (Nat.lor O_CREAT O_WRONLY)
      EEFS_ATTRIBUTE_READONLY (by decide) (by decide) (by decide) (by decide)⟩

set_option maxRecDepth 100000 in
/-- C35, counterexample: on the mounted empty example volume, for the name "a" and the
flag word `O_CREAT | O_WRONLY`, `EEFS_LibOpen` with the attribute word 2 returns
descriptor 0 where `EEFS_LibCreat` with the same word returns `EEFS_INVALID_ARGUMENT`; and
with `EEFS_ATTRIBUTE_READONLY` the header that `EEFS_LibOpen` writes has the attribute
word 0 where the one that `EEFS_LibCreat` writes has the bit pattern of
`EEFS_ATTRIBUTE_READONLY`. -/
theorem open_creat_attributes_counterexample :
    EEFS_LibIsValidFilename (some [97]) = true ∧
    EEFS_LibFindFile (exEnv true) (exMountedEmpty true) 1 [97] = EEFS_FILE_NOT_FOUND ∧
    (EEFS_LibOpen (exEnv true) (exMountedEmpty true) 1 (some [97]) (Nat.lor O_CREAT O_WRONLY)
      2).1 = 0 ∧
    (EEFS_LibCreat (exEnv true) (exMountedEmpty true) 1 (some [97]) 2).1
      = EEFS_INVALID_ARGUMENT ∧
    (EEFS_LibOpen (exEnv true) (exMountedEmpty true) 1 (some [97]) (Nat.lor O_CREAT O_WRONLY)
      EEFS_ATTRIBUTE_READONLY).1 = 0 ∧
    (EEFS_LibCreat (exEnv true) (exMountedEmpty true) 1 (some [97])
      EEFS_ATTRIBUTE_READONLY).1 = 0 ∧
    (readFileHeader true
      (EEFS_LibOpen (exEnv true) (exMountedEmpty true) 1 (some [97])
        (Nat.lor O_CREAT O_WRONLY) EEFS_ATTRIBUTE_READONLY).2.mem
      (exBase + 536)).Attributes = 0 ∧
    (readFileHeader true
      (EEFS_LibCreat (exEnv true) (exMountedEmpty true) 1 (some [97])
        EEFS_ATTRIBUTE_READONLY).2.mem
      (exBase + 536)).Attributes = EEFS_ATTRIBUTE_READONLY := by
  decide

/-! ## Path splitting -/

theorem cstr_idem (l : List Nat) : cstr (cstr l) = cstr l := by
  have := cstr_append_zeros (cstr l) (cstr_ne_zero l) 0
  simpa using this

theorem cstr_of_nonzero (l : List Nat) (h : ∀ c ∈ l, c ≠ 0) : cstr l = l := by
  have := cstr_append_zeros l h 0
  simpa using this

theorem splitIndex_cases (p : List Nat) :
    (splitIndex p < p.length ∧ 1 ≤ splitIndex p ∧ p.getD (splitIndex p) 0 = 47 ∧
      ∀ j, 1 ≤ j → j < splitIndex p → p.getD j 0 ≠ 47) ∨
    (¬ splitIndex p < p.length ∧ ∀ j, 1 ≤ j → j < p.length → p.getD j 0 ≠ 47) := by
  unfold splitIndex
  cases hf : (List.range p.length).find?
      (fun i => decide (1 ≤ i) && decide (p.getD i 0 = 47)) with
  | none =>
    right
    refine ⟨by simp only []; omega, ?_⟩
    intro j h1 h2 h3
    have := List.find?_eq_none.1 hf j (List.mem_range.2 h2)
    simp only [Bool.and_eq_true, decide_eq_true_eq, not_and] at this
    exact this h1 h3
  | some i =>
    left
    have hi := List.mem_range.1 (List.mem_of_find?_eq_some hf)
    have hp := List.find?_some hf
    simp only [Bool.and_eq_true, decide_eq_true_eq] at hp
    simp only []
    refine ⟨hi, hp.1, hp.2, ?_⟩
    intro j h1 h2 h3
    have := find_range_first _ _ _ hf j h2
    simp only [Bool.and_eq_false_iff, decide_eq_false_iff_not] at this
    rcases this with h | h
    · exact h h1
    · exact h h3

/-- C34. Path splitting: for a non-null record `out`, `EEFS_SplitPath(p, out)` returns
`EEFS_SUCCESS` if and only if `p` is non-null, shorter than 64 characters, begins with '/'
and has another '/' at some position from 1 on (otherwise it returns `EEFS_ERROR`); on
success, with `i` the first such position, the string in `MountPoint` is `p[0..i)`, the
string in `Filename` is `p[i+1..]`, and `MountPoint ++ "/" ++ Filename` is `p`. -/
theorem splitPath_spec (InputPath : Option (List Nat)) (out : EEFS_SplitPath_t) :
    ((EEFS_SplitPath InputPath (some out)).1 = EEFS_SUCCESS ↔
      ∃ l, InputPath = some l ∧ (cstr l).length < 64 ∧ (cstr l).getD 0 0 = 47 ∧
        ∃ i, 1 ≤ i ∧ i < (cstr l).length ∧ (cstr l).getD i 0 = 47) ∧
    ((EEFS_SplitPath InputPath (some out)).1 ≠ EEFS_SUCCESS →
      (EEFS_SplitPath InputPath (some out)).1 = EEFS_ERROR) ∧
    (∀ l, InputPath = some l → (EEFS_SplitPath InputPath (some out)).1 = EEFS_SUCCESS →
      ∃ i r, (EEFS_SplitPath InputPath (some out)).2 = some r ∧
        1 ≤ i ∧ i < (cstr l).length ∧ (cstr l).getD i 0 = 47 ∧
        (∀ j, 1 ≤ j → j < i → (cstr l).getD j 0 ≠ 47) ∧
        cstr r.MountPoint = (cstr l).take i ∧
        cstr r.Filename = (cstr l).drop (i + 1) ∧
        cstr r.MountPoint ++ [47] ++ cstr r.Filename = cstr l ∧
        r.MountPoint.length = 64 ∧ r.Filename.length = 64) := by
  cases InputPath with
  | none =>
    refine ⟨⟨?_, ?_⟩, ?_, ?_⟩
    · intro h
      have he : (EEFS_SplitPath none (some out)).1 = EEFS_ERROR := rfl
      rw [he] at h
      exact absurd h (by decide)
    · rintro ⟨l, hl, -⟩
      exact Option.noConfusion hl
    · intro _
      rfl
    · intro l hl
      exact Option.noConfusion hl
  | some l =>
    have hnz := cstr_ne_zero l
    generalize hp : cstr l = p at *
    have hres : EEFS_SplitPath (some l) (some out)
        = if p.length < EEFS_MAX_PATH_SIZE then
            if p.getD 0 0 = 47 then
              if splitIndex p < p.length then
                (EEFS_SUCCESS, some
                  { MountPoint := strncpy p (splitIndex p)
                      ++ List.replicate (EEFS_MAX_PATH_SIZE - splitIndex p) 0
                    Filename := strncpy (p.drop (splitIndex p + 1)) EEFS_MAX_PATH_SIZE })
              else (EEFS_ERROR, some ⟨List.replicate EEFS_MAX_PATH_SIZE 0,
                List.replicate EEFS_MAX_PATH_SIZE 0⟩)
            else (EEFS_ERROR, some ⟨List.replicate EEFS_MAX_PATH_SIZE 0,
              List.replicate EEFS_MAX_PATH_SIZE 0⟩)
          else (EEFS_ERROR, some out) := by
      unfold EEFS_SplitPath
      simp only [hp]
    have c1 : EEFS_ERROR ≠ EEFS_SUCCESS := by decide
    have key : ∀ l2, some l = some l2 → cstr l2 = p := by
      intro l2 h
      cases h
      exact hp
    rw [hres]
    simp only [EEFS_MAX_PATH_SIZE]
    rcases splitIndex_cases p with ⟨s1, s2, s3, s4⟩ | ⟨s1, s2⟩
    · -- a second '/' exists
      by_cases h1 : p.length < 64
      · by_cases h2 : p.getD 0 0 = 47
        · rw [if_pos h1, if_pos h2, if_pos s1]
          have hcp : cstr p = p := cstr_of_nonzero p hnz
          have htake : strncpy p (splitIndex p) = p.take (splitIndex p) := by
            unfold strncpy
            rw [hcp, List.length_take, Nat.min_eq_left (by omega), Nat.sub_self,
              List.replicate_zero, List.append_nil]
          have hdz : ∀ c ∈ p.drop (splitIndex p + 1), c ≠ 0 :=
            fun c hc => hnz c (List.mem_of_mem_drop hc)
          have htz : ∀ c ∈ p.take (splitIndex p), c ≠ 0 :=
            fun c hc => hnz c (List.mem_of_mem_take hc)
          have hdrop : strncpy (p.drop (splitIndex p + 1)) 64
              = p.drop (splitIndex p + 1)
                ++ List.replicate (64 - (p.drop (splitIndex p + 1)).length) 0 := by
            unfold strncpy
            rw [cstr_of_nonzero _ hdz, List.take_of_length_le (by
              rw [List.length_drop]; omega)]
          have hm : cstr (strncpy p (splitIndex p)
              ++ List.replicate (64 - splitIndex p) 0) = p.take (splitIndex p) := by
            rw [htake]
            exact cstr_append_zeros _ htz _
          have hf : cstr (strncpy (p.drop (splitIndex p + 1)) 64)
              = p.drop (splitIndex p + 1) := by
            rw [hdrop]
            exact cstr_append_zeros _ hdz _
          have hjoin : p.take (splitIndex p) ++ [47] ++ p.drop (splitIndex p + 1) = p := by
            have hg : p[splitIndex p] = 47 := by
              rw [List.getD_eq_getElem?_getD, List.getElem?_eq_getElem s1] at s3
              exact s3
            rw [List.append_assoc, List.singleton_append, ← hg,
              ← List.drop_eq_getElem_cons s1, List.take_append_drop]
          refine ⟨⟨fun _ => ⟨l, rfl, by rw [hp]; exact h1, by rw [hp]; exact h2,
            splitIndex p, s2, by rw [hp]; exact s1, by rw [hp]; exact s3⟩, fun _ => rfl⟩,
            fun h => absurd rfl h, ?_⟩
          intro l2 hl2 _
          rw [key l2 hl2]
          refine ⟨splitIndex p, _, rfl, s2, s1, s3, s4, hm, hf, ?_, ?_, ?_⟩
          · rw [hm, hf, hjoin]
          · simp only [List.length_append, List.length_replicate, strncpy_length]
            omega
          · exact strncpy_length _ _
        · rw [if_pos h1, if_neg h2]
          refine ⟨⟨fun h => absurd h c1, ?_⟩, fun _ => rfl, fun _ _ h => absurd h c1⟩
          rintro ⟨l2, hl2, -, h3, -⟩
          rw [key l2 hl2] at h3
          exact absurd h3 h2
      · rw [if_neg h1]
        refine ⟨⟨fun h => absurd h c1, ?_⟩, fun _ => rfl, fun _ _ h => absurd h c1⟩
        rintro ⟨l2, hl2, h3, -⟩
        rw [key l2 hl2] at h3
        exact absurd h3 h1
    · -- no second '/'
      have hno : ¬ ∃ i, 1 ≤ i ∧ i < p.length ∧ p.getD i 0 = 47 := by
        rintro ⟨i, h1, h2, h3⟩
        exact s2 i h1 h2 h3
      have herr : (if p.length < 64 then
            if p.getD 0 0 = 47 then
              if splitIndex p < p.length then
                (EEFS_SUCCESS, some
                  ({ MountPoint := strncpy p (splitIndex p)
                      ++ List.replicate (64 - splitIndex p) 0
                     Filename := strncpy (p.drop (splitIndex p + 1)) 64 } : EEFS_SplitPath_t))
              else (EEFS_ERROR, some ⟨List.replicate 64 0, List.replicate 64 0⟩)
            else (EEFS_ERROR, some ⟨List.replicate 64 0, List.replicate 64 0⟩)
          else (EEFS_ERROR, some out)).1 = EEFS_ERROR := by
        rw [if_neg s1]
        split_ifs <;> rfl
      refine ⟨⟨fun h => absurd (herr.symm.trans h) c1, ?_⟩, fun _ => herr,
        fun _ _ h => absurd (herr.symm.trans h) c1⟩
      rintro ⟨l2, hl2, -, -, hex⟩
      rw [key l2 hl2] at hex
      exact absurd hex hno

set_option maxRecDepth 100000 in
/-- C34, witness: the path "/m/f". -/
theorem splitPath_spec_witness :
    (EEFS_SplitPath (some [47, 109, 47, 102]) (some ⟨[], []⟩)).1 = EEFS_SUCCESS ∧
    ∃ i r, (EEFS_SplitPath (some [47, 109, 47, 102]) (some ⟨[], []⟩)).2 = some r ∧
      1 ≤ i ∧ i < (cstr [47, 109, 47, 102]).length ∧
      cstr r.MountPoint ++ [47] ++ cstr r.Filename = cstr [47, 109, 47, 102] :=
  ⟨by decide,
    match (splitPath_spec (some [47, 109, 47, 102]) ⟨[], []⟩).2.2 [47, 109, 47, 102] rfl
      (by decide) with
    | ⟨i, r, h1, h2, h3, _, _, _, _, h8, _⟩ => ⟨i, r, h1, h2, h3, h8⟩⟩

/-! ## Boot lookup and engine lookup -/

theorem find_congr {α : Type} (p q : α → Bool) (l : List α) (h : ∀ x ∈ l, p x = q x) :
    l.find? p = l.find? q := by
  induction l with
  | nil => rfl
  | cons a t ih =>
    rw [List.find?_cons, List.find?_cons, h a (List.mem_cons_self a t),
      ih (fun x hx => h x (List.mem_cons_of_mem a hx))]

/-- Reading a record in the byte order opposite to the engine host's is decoding it with
the codec of the engine. -/
theorem read_flip (env : Env) (m : Mem) (p : Nat) :
    readFileAllocationTableHeader (!env.hostLittleEndian) m p
      = loadFileAllocationTableHeader env m p ∧
    readFileAllocationTableEntry (!env.hostLittleEndian) m p
      = loadFileAllocationTableEntry env m p ∧
    readFileHeader (!env.hostLittleEndian) m p = loadFileHeader env m p := by
  refine ⟨?_, ?_, ?_⟩
  · unfold loadFileAllocationTableHeader readFileAllocationTableHeader
      EEFS_SwapFileAllocationTableHeader
    simp only [loadU32_flip]
  · unfold loadFileAllocationTableEntry readFileAllocationTableEntry
      EEFS_SwapFileAllocationTableEntry
    simp only [loadU32_flip]
  · unfold loadFileHeader readFileHeader EEFS_SwapFileHeader
    simp only [loadU32_flip]

/-- C33 (amended). Boot lookup agrees with the engine when it runs in the byte order of
the image: `MicroEEFS_FindFile` reads the medium in the byte order of its machine, without
the codec.  For every medium and base address (with `BaseAddress + 24` a 32-bit address) on
which `EEFS_LibInitFS` of the engine succeeds, a machine whose byte order is the opposite
of the engine host's, and every non-null name, `MicroEEFS_FindFile(base, name)` returns
`File[i].FileHeaderPointer` of the mounted table when `EEFS_LibFindFile` returns index
`i`, and `NULL` when `EEFS_LibFindFile` returns `EEFS_FILE_NOT_FOUND`.  On every machine
it returns `NULL` for a null name and whenever the FAT magic it reads is not `0xEEF51234`
or the version is not 1. -/
theorem micro_find_agrees (env : Env) (s : State) (T B : Nat) (f : List Nat)
    (le : Bool) (m : Mem) :
    ((EEFS_LibInitFS env s T B).1 = EEFS_SUCCESS → B + 24 < 4294967296 →
      (∀ i : Nat, EEFS_LibFindFile env (EEFS_LibInitFS env s T B).2 T f = (i : Int) →
        MicroEEFS_FindFile (!env.hostLittleEndian) s.mem B (some f)
          = (((EEFS_LibInitFS env s T B).2.InodeTables T).File i).FileHeaderPointer) ∧
      (EEFS_LibFindFile env (EEFS_LibInitFS env s T B).2 T f = EEFS_FILE_NOT_FOUND →
        MicroEEFS_FindFile (!env.hostLittleEndian) s.mem B (some f) = 0)) ∧
    MicroEEFS_FindFile le m B none = 0 ∧
    (¬ ((readFileAllocationTableHeader le m B).Magic = EEFS_FILESYS_MAGIC ∧
        (readFileAllocationTableHeader le m B).Version = 1) →
      MicroEEFS_FindFile le m B (some f) = 0) := by
  refine ⟨?_, rfl, ?_⟩
  · intro hsucc hB
    obtain ⟨rh, -, -⟩ := read_flip env s.mem B
    -- the mounted table
    have hinit : T ≠ 0 ∧
        ((loadFileAllocationTableHeader env s.mem B).Magic = EEFS_FILESYS_MAGIC ∧
          (loadFileAllocationTableHeader env s.mem B).Version = 1 ∧
          (loadFileAllocationTableHeader env s.mem B).NumberOfFiles ≤ EEFS_MAX_FILES) := by
      unfold EEFS_LibInitFS at hsucc
      simp only [] at hsucc
      split_ifs at hsucc with h1 h2
      · exact ⟨h1, h2⟩
      · have c : EEFS_NO_SUCH_DEVICE ≠ EEFS_SUCCESS := by decide
        exact absurd hsucc c
      · have c : EEFS_INVALID_ARGUMENT ≠ EEFS_SUCCESS := by decide
        exact absurd hsucc c
    obtain ⟨hT, hmag, hver, hcnt⟩ := hinit
    have hst : (EEFS_LibInitFS env s T B).2 = setInodeTable s T
        { BaseAddress := B
          FreeMemoryPointer := u32 (B + (loadFileAllocationTableHeader env s.mem B).FreeMemoryOffset)
          FreeMemorySize := (loadFileAllocationTableHeader env s.mem B).FreeMemorySize
          NumberOfFiles := (loadFileAllocationTableHeader env s.mem B).NumberOfFiles
          File := (List.range (loadFileAllocationTableHeader env s.mem B).NumberOfFiles).foldl
            (initFSEntry env s.mem B) (fun _ => zeroInodeTableEntry) } := by
      unfold EEFS_LibInitFS
      rw [if_pos hT]
      simp only []
      rw [if_pos ⟨hmag, hver, hcnt⟩]
    rw [hst]
    generalize hN : (loadFileAllocationTableHeader env s.mem B).NumberOfFiles = N at *
    simp only [EEFS_MAX_FILES] at hcnt
    have hB24 : u32 (B + sizeofFileAllocationTableHeader) = B + 24 := by
      simp only [u32, sizeofFileAllocationTableHeader]
      exact Nat.mod_eq_of_lt hB
    -- the two loops test the same thing
    have hmatch : ∀ i, i < N →
        microMatch (!env.hostLittleEndian) s.mem B f i
          = findFileMatch env (setInodeTable s T
              { BaseAddress := B
                FreeMemoryPointer :=
                  u32 (B + (loadFileAllocationTableHeader env s.mem B).FreeMemoryOffset)
                FreeMemorySize := (loadFileAllocationTableHeader env s.mem B).FreeMemorySize
                NumberOfFiles := N
                File := (List.range N).foldl (initFSEntry env s.mem B)
                  (fun _ => zeroInodeTableEntry) }).mem
              ((setInodeTable s T
              { BaseAddress := B
                FreeMemoryPointer :=
                  u32 (B + (loadFileAllocationTableHeader env s.mem B).FreeMemoryOffset)
                FreeMemorySize := (loadFileAllocationTableHeader env s.mem B).FreeMemorySize
                NumberOfFiles := N
                File := (List.range N).foldl (initFSEntry env s.mem B)
                  (fun _ => zeroInodeTableEntry) }).InodeTables T) f i := by
      intro i hi
      unfold microMatch findFileMatch
      simp only [setInodeTable, Function.update_same]
      rw [initFS_file, if_pos hi, hB24, (read_flip env s.mem _).2.1, (read_flip env s.mem _).2.2]
      rfl
    have hfind : (List.range N).find? (microMatch (!env.hostLittleEndian) s.mem B f)
        = (List.range N).find? (findFileMatch env s.mem
            { BaseAddress := B
              FreeMemoryPointer :=
                u32 (B + (loadFileAllocationTableHeader env s.mem B).FreeMemoryOffset)
              FreeMemorySize := (loadFileAllocationTableHeader env s.mem B).FreeMemorySize
              NumberOfFiles := N
              File := (List.range N).foldl (initFSEntry env s.mem B)
                (fun _ => zeroInodeTableEntry) } f) := by
      apply find_congr
      intro x hx
      have := hmatch x (List.mem_range.1 hx)
      simp only [setInodeTable, Function.update_same] at this
      exact this
    have hmicro : MicroEEFS_FindFile (!env.hostLittleEndian) s.mem B (some f)
        = match (List.range N).find? (microMatch (!env.hostLittleEndian) s.mem B f) with
          | some i => u32 (B + (loadFileAllocationTableEntry env s.mem
              (fatEntryAddress B i)).FileHeaderOffset)
          | none => 0 := by
      unfold MicroEEFS_FindFile
      simp only []
      rw [rh, if_pos ⟨hmag, hver⟩, hN, hB24]
      cases (List.range N).find? (microMatch (!env.hostLittleEndian) s.mem B f) with
      | none => rfl
      | some k =>
        simp only []
        rw [(read_flip env s.mem _).2.1]
        rfl
    rw [hmicro, hfind]
    unfold EEFS_LibFindFile
    simp only [setInodeTable, Function.update_same]
    cases hc : (List.range N).find? (findFileMatch env s.mem
        { BaseAddress := B
          FreeMemoryPointer :=
            u32 (B + (loadFileAllocationTableHeader env s.mem B).FreeMemoryOffset)
          FreeMemorySize := (loadFileAllocationTableHeader env s.mem B).FreeMemorySize
          NumberOfFiles := N
          File := (List.range N).foldl (initFSEntry env s.mem B)
            (fun _ => zeroInodeTableEntry) } f) with
    | none =>
      simp only []
      refine ⟨?_, fun _ => trivial⟩
      intro i hi
      simp only [EEFS_FILE_NOT_FOUND] at hi
      omega
    | some k =>
      have hk : k < N := List.mem_range.1 (List.mem_of_find?_eq_some hc)
      simp only []
      refine ⟨?_, ?_⟩
      · intro i hi
        rw [toInt32_small k (by omega)] at hi
        have e : k = i := by exact_mod_cast hi
        subst e
        rw [initFS_file, if_pos hk]
      · intro hi
        rw [toInt32_small k (by omega)] at hi
        simp only [EEFS_FILE_NOT_FOUND] at hi
        omega
  · intro hbad
    unfold MicroEEFS_FindFile
    simp only []
    rw [if_neg hbad]

set_option maxRecDepth 100000 in
/-- C33, witness: the one-file example volume, whose integers are stored in big-endian
order, mounted by the engine of a little-endian host and searched by the boot lookup of a
big-endian machine. -/
theorem micro_find_agrees_witness :
    (EEFS_LibInitFS (exEnv true) (EEFS_LibInit (exOneFileVolume true 100)) 1 exBase).1
      = EEFS_SUCCESS ∧ exBase + 24 < 4294967296 ∧
    EEFS_LibFindFile (exEnv true)
      (EEFS_LibInitFS (exEnv true) (EEFS_LibInit (exOneFileVolume true 100)) 1 exBase).2 1 [97]
      = ((0 : Nat) : Int) ∧
    MicroEEFS_FindFile (!(exEnv true).hostLittleEndian)
        (EEFS_LibInit (exOneFileVolume true 100)).mem exBase (some [97])
      = (((EEFS_LibInitFS (exEnv true) (EEFS_LibInit (exOneFileVolume true 100)) 1
          exBase).2.InodeTables 1).File 0).FileHeaderPointer :=
  ⟨by decide, by decide, by decide,
    ((micro_find_agrees (exEnv true) (EEFS_LibInit (exOneFileVolume true 100)) 1 exBase [97]
      true (fun _ => 0)).1 (by decide) (by decide)).1 0 (by decide)⟩

set_option maxRecDepth 100000 in
/-- C33, counterexample: on the one-file example volume the engine of a little-endian host
mounts the volume and finds "a" at index 0, with the file header at `exBase + 536`; the
boot lookup run on the same little-endian machine reads the magic number as `0x3412F5EE`
and returns `NULL`. -/
theorem micro_find_same_host_counterexample :
    (EEFS_LibInitFS (exEnv true) (EEFS_LibInit (exOneFileVolume true 100)) 1 exBase).1
      = EEFS_SUCCESS ∧
    EEFS_LibFindFile (exEnv true) (exFileMounted true) 1 [97] = 0 ∧
    (((exFileMounted true).InodeTables 1).File 0).FileHeaderPointer = exBase + 536 ∧
    (readFileAllocationTableHeader true (EEFS_LibInit (exOneFileVolume true 100)).mem
      exBase).Magic = 0x3412F5EE ∧
    MicroEEFS_FindFile true (EEFS_LibInit (exOneFileVolume true 100)).mem exBase (some [97])
      = 0 := by
  decide

/-! ## Close after Open of an existing file -/

/-- `EEFS_LibClose` of a valid descriptor without `EEFS_FCREAT` leaves the inode tables
alone and changes no byte outside the 64 bytes of the descriptor's file header; without
`EEFS_FWRITE` it changes no byte at all. -/
theorem close_plain_frame (env : Env) (s : State) (fd : Int)
    (hfd : EEFS_LibIsValidFileDescriptor s fd = true)
    (hc : Nat.land (s.EEFS_FileDescriptorTable fd.toNat).Mode EEFS_FCREAT = 0) :
    (EEFS_LibClose env s fd).1 = EEFS_SUCCESS ∧
    (EEFS_LibClose env s fd).2.InodeTables = s.InodeTables ∧
    (∀ a, (a < (s.EEFS_FileDescriptorTable fd.toNat).FileHeaderPointer ∨
        (s.EEFS_FileDescriptorTable fd.toNat).FileHeaderPointer + 64 ≤ a) →
      (EEFS_LibClose env s fd).2.mem a = s.mem a) ∧
    (Nat.land (s.EEFS_FileDescriptorTable fd.toNat).Mode EEFS_FWRITE = 0 →
      (EEFS_LibClose env s fd).2.mem = s.mem) := by
  rw [close_eq, if_pos hfd]
  simp only []
  rw [freed_mem, freed_tables]
  unfold closeBody
  rw [if_neg (fun h => h hc)]
  by_cases hw : Nat.land (s.EEFS_FileDescriptorTable fd.toNat).Mode EEFS_FWRITE = 0
  · rw [if_neg (fun h => h hw)]
    exact ⟨trivial, rfl, fun _ _ => rfl, fun _ => rfl⟩
  · rw [if_pos hw]
    refine ⟨trivial, rfl, ?_, fun h => absurd h hw⟩
    intro a ha
    unfold closeWrite
    simp only [EEFS_LIB_EEPROM_FLUSH, EEFS_LIB_EEPROM_WRITE]
    exact memWrite_out _ _ _ _ (by rw [fileHeaderBytes_length]; exact ha)

set_option maxRecDepth 100000 in
/-- C36 does not hold on the code: on the one-file volume (file "a" of 1000 bytes in slot
0, 100 bytes free) `Open("a", O_WRONLY | O_RDWR)` is accepted and returns descriptor 0 for
the existing file, with mode `EEFS_FCREAT`.  `Close` of that descriptor moves
`FreeMemoryPointer` from `exBase + 1600` to `exBase + 1700`, takes `FreeMemorySize` from
100 to 0 and `File[0].MaxFileSize` from 1000 to 36, and rewrites the on-medium FAT entry 0
from (536, 1000) to (536, 36) and the FAT header's free offset and size from (1600, 100)
to (1700, 0). -/
theorem close_after_open3_reallocates (le : Bool) :
    (exOpen3 le 100).1 = 0 ∧
    ((exOpen3 le 100).2.EEFS_FileDescriptorTable 0).Mode = EEFS_FCREAT ∧
    ((exOpen3 le 100).2.InodeTables 1).FreeMemoryPointer = exBase + 1600 ∧
    ((exOpen3 le 100).2.InodeTables 1).FreeMemorySize = 100 ∧
    (((exOpen3 le 100).2.InodeTables 1).File 0).MaxFileSize = 1000 ∧
    loadFileAllocationTableEntry (exEnv le) (exOpen3 le 100).2.mem (fatEntryAddress exBase 0)
      = ⟨536, 1000⟩ ∧
    (loadFileAllocationTableHeader (exEnv le) (exOpen3 le 100).2.mem exBase).FreeMemoryOffset
      = 1600 ∧
    (loadFileAllocationTableHeader (exEnv le) (exOpen3 le 100).2.mem exBase).FreeMemorySize
      = 100 ∧
    (exOpen3Close le 100).1 = EEFS_SUCCESS ∧
    ((exOpen3Close le 100).2.InodeTables 1).FreeMemoryPointer = exBase + 1700 ∧
    ((exOpen3Close le 100).2.InodeTables 1).FreeMemorySize = 0 ∧
    (((exOpen3Close le 100).2.InodeTables 1).File 0).MaxFileSize = 36 ∧
    loadFileAllocationTableEntry (exEnv le) (exOpen3Close le 100).2.mem
      (fatEntryAddress exBase 0) = ⟨536, 36⟩ ∧
    (loadFileAllocationTableHeader (exEnv le) (exOpen3Close le 100).2.mem exBase).FreeMemoryOffset
      = 1700 ∧
    (loadFileAllocationTableHeader (exEnv le) (exOpen3Close le 100).2.mem exBase).FreeMemorySize
      = 0 := by
  cases le <;> decide

/-! ## The image and its buffer -/

/-- With an EEPROM size of at least the size of the file allocation table, the initial
free memory ends at the end of the buffer; and a successful `AddFile` without 32-bit
overflow of `64 + FileSize + SpareBytes + 3` keeps the end of the free memory where it
is. -/
theorem builder_inside (le : Bool) (opts : CommandLineOptions_t)
    (hostFiles : List Nat → Option (List Nat)) (B : Nat) (m : Mem) (fs fs2 : FileSystem_t)
    (InputFilename EEFSFilename : List Nat) (SpareBytes Attributes : Nat) :
    (sizeofFileAllocationTable ≤ opts.EEPromSize → opts.EEPromSize < 4294967296 →
      (readFileAllocationTableHeader le (newFileSystem le opts B m).mem B).FreeMemoryOffset
        + (readFileAllocationTableHeader le (newFileSystem le opts B m).mem B).FreeMemorySize
        = opts.EEPromSize) ∧
    (AddFile le opts hostFiles fs InputFilename EEFSFilename SpareBytes Attributes = some fs2 →
      sizeofFileAllocationTable
        ≤ (readFileAllocationTableHeader le fs.mem fs.BaseAddress).FreeMemoryOffset →
      (readFileAllocationTableHeader le fs.mem fs.BaseAddress).FreeMemoryOffset
        + (readFileAllocationTableHeader le fs.mem fs.BaseAddress).FreeMemorySize
        < 4294967296 →
      (∀ content, hostFiles InputFilename = some content →
        content.length + SpareBytes + 67 < 4294967296) →
      (readFileAllocationTableHeader le fs2.mem fs.BaseAddress).FreeMemoryOffset
        + (readFileAllocationTableHeader le fs2.mem fs.BaseAddress).FreeMemorySize
        = (readFileAllocationTableHeader le fs.mem fs.BaseAddress).FreeMemoryOffset
          + (readFileAllocationTableHeader le fs.mem fs.BaseAddress).FreeMemorySize) := by
  refine ⟨?_, ?_⟩
  · intro h1 h2
    rw [newFileSystem_header]
    simp only [u32sub, sizeofFileAllocationTable] at h1 ⊢
    omega
  · intro hsucc hO hfit hS
    obtain ⟨content, hfile, hstep⟩ := addFile_step le opts hostFiles fs fs2 InputFilename
      EEFSFilename SpareBytes Attributes hsucc hO hfit
    obtain ⟨_, hroom, hhdr, _⟩ := hstep (hS content hfile)
    rw [hhdr]
    simp only []
    omega

set_option maxRecDepth 100000 in
/-- C39 does not hold on the code: with an EEPROM size of 100 bytes the buffer at address
0 is 100 bytes long, the initial header has `FreeMemoryOffset = 536 > 100` and
`FreeMemorySize = 100 - 536` wrapped to `4294966860`, and `AddFile` of the five-byte host
file succeeds: it writes the file header at offset 536 and the data at offsets 600..604,
past the end of the buffer, and leaves `FreeMemoryOffset = 608` and
`FreeMemorySize = 4294966788`. -/
theorem builder_small_buffer :
    exSmallOptions.EEPromSize = 100 ∧
    readFileAllocationTableHeader true (newFileSystem true exSmallOptions 0 (fun _ => 0)).mem 0
      = ⟨0, EEFS_FILESYS_MAGIC, 1, 536, 4294966860, 0⟩ ∧
    exSmallAdded.isSome = true ∧
    readFileAllocationTableHeader true (imageMem exSmallAdded) 0
      = ⟨0, EEFS_FILESYS_MAGIC, 1, 608, 4294966788, 1⟩ ∧
    readFileAllocationTableEntry true (imageMem exSmallAdded) (fatEntryAddress 0 0)
      = ⟨536, 8⟩ ∧
    (readFileHeader true (imageMem exSmallAdded) 536).InUse = 1 ∧
    (readFileHeader true (imageMem exSmallAdded) 536).FileSize = 5 ∧
    memRead (imageMem exSmallAdded) 600 5 = [1, 2, 3, 4, 5] := by
  decide

/-! ## Byte swap of the image -/

set_option maxRecDepth 100000 in
/-- C31 does not hold on the code: two `AddFile` calls, the first with
`SpareBytes = 4294967230`, build an image with two slots whose file headers are at offsets
536 and 540.  Read in native byte order, the header of slot 0 has `Attributes = 1`, and
the bytes 24..27 of its filename field are `[232, 3, 0, 0]`.  After `ByteSwapFileSystem`
the swapping decoder reads `Attributes = 0x01000000` in the header of slot 0, and those
filename bytes are `[0, 0, 3, 232]`. -/
theorem byteSwap_overlap_breaks_round_trip :
    exOverlapImage.isSome = true ∧
    (readFileAllocationTableHeader true (imageMem exOverlapImage) 0).NumberOfFiles = 2 ∧
    readFileAllocationTableEntry true (imageMem exOverlapImage) (fatEntryAddress 0 0)
      = ⟨536, 4294967236⟩ ∧
    readFileAllocationTableEntry true (imageMem exOverlapImage) (fatEntryAddress 0 1)
      = ⟨540, 8⟩ ∧
    (readFileHeader true (imageMem exOverlapImage) 536).Attributes = 1 ∧
    memRead (imageMem exOverlapImage) 560 4 = [232, 3, 0, 0] ∧
    (loadFileAllocationTableHeader ⟨true, false, 0⟩ (imageMem exOverlapSwapped) 0).NumberOfFiles
      = 2 ∧
    loadFileAllocationTableEntry ⟨true, false, 0⟩ (imageMem exOverlapSwapped)
      (fatEntryAddress 0 0) = ⟨536, 4294967236⟩ ∧
    (loadFileHeader ⟨true, false, 0⟩ (imageMem exOverlapSwapped) 536).Attributes = 0x01000000 ∧
    memRead (imageMem exOverlapSwapped) 560 4 = [0, 0, 3, 232] := by
  decide

/-! ## Byte swap of an image whose file headers do not overlap -/

theorem swapInPlace_flip (e : Bool) (m : Mem) (a : Nat) :
    loadU32 (!e) (SwapUInt32InPlace m a) a = loadU32 e m a := by
  rw [loadU32_flip, swapInPlace_load, swap_swap]
  exact Nat.mod_eq_of_lt (loadU32_lt e m a)

theorem swapWords_out (ws : List Nat) : ∀ (m : Mem) (a : Nat),
    (∀ w ∈ ws, a < w ∨ w + 4 ≤ a) → ws.foldl SwapUInt32InPlace m a = m a := by
  induction ws with
  | nil => intro m a _; rfl
  | cons w t ih =>
    intro m a h
    rw [List.foldl_cons, ih _ a (fun x hx => h x (List.mem_cons_of_mem _ hx)),
      swapInPlace_out m w a (h w (List.mem_cons_self _ _))]

theorem swapWords_frame (e : Bool) (ws : List Nat) (m : Mem) (b : Nat)
    (h : ∀ w ∈ ws, b + 4 ≤ w ∨ w + 4 ≤ b) :
    loadU32 e (ws.foldl SwapUInt32InPlace m) b = loadU32 e m b := by
  apply loadU32_congr
  intro j hj
  rw [swapWords_out ws m (b + j) (fun w hw => by have := h w hw; omega)]

theorem swapWords_flip (e : Bool) (ws : List Nat) : ∀ (m : Mem),
    ws.Pairwise (fun x y => x + 4 ≤ y ∨ y + 4 ≤ x) → ∀ w ∈ ws,
    loadU32 (!e) (ws.foldl SwapUInt32InPlace m) w = loadU32 e m w := by
  induction ws with
  | nil => intro m _ w hw; exact absurd hw (List.not_mem_nil w)
  | cons x t ih =>
    intro m hp w hw
    rw [List.pairwise_cons] at hp
    obtain ⟨hx, ht⟩ := hp
    rw [List.foldl_cons]
    rcases List.mem_cons.1 hw with rfl | hw1
    · rw [swapWords_frame _ t _ w (fun y hy => by have := hx y hy; omega), swapInPlace_flip]
    · rw [ih _ ht w hw1, swapInPlace_frame _ _ _ _ (by have := hx w hw1; omega)]

theorem byteSwapSlot_words (le : Bool) (B : Nat) (m : Mem) (i : Nat) :
    byteSwapSlot le B m i
      = [B + (readFileAllocationTableEntry le m (fatEntryAddress B i)).FileHeaderOffset,
          B + (readFileAllocationTableEntry le m (fatEntryAddress B i)).FileHeaderOffset + 4,
          B + (readFileAllocationTableEntry le m (fatEntryAddress B i)).FileHeaderOffset + 8,
          B + (readFileAllocationTableEntry le m (fatEntryAddress B i)).FileHeaderOffset + 12,
          B + (readFileAllocationTableEntry le m (fatEntryAddress B i)).FileHeaderOffset + 16,
          B + (readFileAllocationTableEntry le m (fatEntryAddress B i)).FileHeaderOffset + 20,
          fatEntryAddress B i, fatEntryAddress B i + 4].foldl SwapUInt32InPlace m := rfl

/-- One pass of the loop of `ByteSwapFileSystem` on a slot whose file header lies behind
its FAT entry: the six integer words of the file header and the two words of the FAT entry
read in the other byte order what they read before, and no other byte changes. -/
theorem byteSwapSlot_spec (le : Bool) (B : Nat) (m : Mem) (i F : Nat)
    (hF : (readFileAllocationTableEntry le m (fatEntryAddress B i)).FileHeaderOffset = F)
    (hdis : fatEntryAddress B i + 8 ≤ B + F) :
    (∀ a, (a < fatEntryAddress B i ∨ fatEntryAddress B i + 8 ≤ a) →
      (a < B + F ∨ B + F + 24 ≤ a) → byteSwapSlot le B m i a = m a) ∧
    (∀ w ∈ [B + F, B + F + 4, B + F + 8, B + F + 12, B + F + 16, B + F + 20,
        fatEntryAddress B i, fatEntryAddress B i + 4],
      loadU32 (!le) (byteSwapSlot le B m i) w = loadU32 le m w) := by
  rw [byteSwapSlot_words, hF]
  refine ⟨?_, ?_⟩
  · intro a h1 h2
    apply swapWords_out
    intro w hw
    simp only [List.mem_cons, List.not_mem_nil, or_false] at hw
    omega
  · apply swapWords_flip
    refine List.Pairwise.cons ?_ (List.Pairwise.cons ?_ (List.Pairwise.cons ?_
      (List.Pairwise.cons ?_ (List.Pairwise.cons ?_ (List.Pairwise.cons ?_
      (List.Pairwise.cons ?_ (List.Pairwise.cons ?_ List.Pairwise.nil)))))))
    all_goals
      intro y hy
      simp only [List.mem_cons, List.not_mem_nil, or_false] at hy <;> omega

/-- The loop of `ByteSwapFileSystem` over the first `k` slots of a table of at most
`EEFS_MAX_FILES` slots whose file headers lie behind the file allocation table and do not
overlap: the integer words of those slots read in the other byte order what they read
before the loop, and no other byte changes. -/
theorem byteSwap_fold (le : Bool) (B : Nat) (m0 : Mem) (N : Nat) (hN : N ≤ 64)
    (hF : ∀ i, i < N →
      536 ≤ (readFileAllocationTableEntry le m0 (fatEntryAddress B i)).FileHeaderOffset)
    (hap : ∀ i, i < N → ∀ j, j < N → i ≠ j →
      (readFileAllocationTableEntry le m0 (fatEntryAddress B i)).FileHeaderOffset + 24
        ≤ (readFileAllocationTableEntry le m0 (fatEntryAddress B j)).FileHeaderOffset ∨
      (readFileAllocationTableEntry le m0 (fatEntryAddress B j)).FileHeaderOffset + 24
        ≤ (readFileAllocationTableEntry le m0 (fatEntryAddress B i)).FileHeaderOffset)
    (k : Nat) (hk : k ≤ N) :
    (∀ a, (∀ i, i < k → (a < fatEntryAddress B i ∨ fatEntryAddress B i + 8 ≤ a) ∧
        (a < B + (readFileAllocationTableEntry le m0 (fatEntryAddress B i)).FileHeaderOffset ∨
          B + (readFileAllocationTableEntry le m0 (fatEntryAddress B i)).FileHeaderOffset + 24
            ≤ a)) →
      (List.range k).foldl (byteSwapSlot le B) m0 a = m0 a) ∧
    (∀ i, i < k → ∀ w ∈
        [B + (readFileAllocationTableEntry le m0 (fatEntryAddress B i)).FileHeaderOffset,
          B + (readFileAllocationTableEntry le m0 (fatEntryAddress B i)).FileHeaderOffset + 4,
          B + (readFileAllocationTableEntry le m0 (fatEntryAddress B i)).FileHeaderOffset + 8,
          B + (readFileAllocationTableEntry le m0 (fatEntryAddress B i)).FileHeaderOffset + 12,
          B + (readFileAllocationTableEntry le m0 (fatEntryAddress B i)).FileHeaderOffset + 16,
          B + (readFileAllocationTableEntry le m0 (fatEntryAddress B i)).FileHeaderOffset + 20,
          fatEntryAddress B i, fatEntryAddress B i + 4],
      loadU32 (!le) ((List.range k).foldl (byteSwapSlot le B) m0) w = loadU32 le m0 w) := by
  generalize hFdef : (fun i => (readFileAllocationTableEntry le m0
    (fatEntryAddress B i)).FileHeaderOffset) = F at *
  have hFi : ∀ i, (readFileAllocationTableEntry le m0 (fatEntryAddress B i)).FileHeaderOffset
      = F i := fun i => by rw [← hFdef]
  simp only [hFi] at hF hap ⊢
  induction k with
  | zero =>
    refine ⟨fun a _ => rfl, ?_⟩
    intro i hi
    omega
  | succ k ih =>
    obtain ⟨iha, ihb⟩ := ih (by omega)
    rw [List.range_succ, List.foldl_append, List.foldl_cons, List.foldl_nil]
    generalize hmk : (List.range k).foldl (byteSwapSlot le B) m0 = mk at *
    have hFk := hF k (by omega)
    -- the FAT entry of slot k has not been touched yet
    have hread : (readFileAllocationTableEntry le mk (fatEntryAddress B k)).FileHeaderOffset
        = F k := by
      rw [← hFi k]
      show loadU32 le mk (fatEntryAddress B k) = loadU32 le m0 (fatEntryAddress B k)
      apply loadU32_congr
      intro j hj
      rw [iha]
      intro i hi
      have := hF i (by omega)
      simp only [fatEntryAddress]
      omega
    obtain ⟨sa, sb⟩ := byteSwapSlot_spec le B mk k (F k) hread
      (by simp only [fatEntryAddress]; omega)
    refine ⟨?_, ?_⟩
    · intro a ha
      obtain ⟨h1, h2⟩ := ha k (by omega)
      rw [sa a h1 h2]
      exact iha a (fun i hi => ha i (by omega))
    · intro i hi w hw
      by_cases hik : i = k
      · subst hik
        rw [sb w hw]
        apply loadU32_congr
        intro j hj
        rw [iha]
        intro i2 hi2
        have h1 := hF i2 (by omega)
        have h2 := hap i2 (by omega) i (by omega) (by omega)
        simp only [List.mem_cons, List.not_mem_nil, or_false] at hw
        simp only [fatEntryAddress] at hw ⊢
        omega
      · have hlt : i < k := by omega
        rw [← ihb i hlt w hw]
        apply loadU32_congr
        intro j hj
        rw [sa]
        · have h1 := hF i (by omega)
          simp only [List.mem_cons, List.not_mem_nil, or_false] at hw
          simp only [fatEntryAddress] at hw ⊢
          omega
        · have h1 := hF i (by omega)
          have h2 := hap i (by omega) k (by omega) hik
          simp only [List.mem_cons, List.not_mem_nil, or_false] at hw
          simp only [fatEntryAddress] at hw ⊢
          omega

/-- Round trip of `ByteSwapFileSystem` on an image with at most `EEFS_MAX_FILES` slots
whose file headers lie behind the file allocation table and do not overlap: the decoder of
an engine whose host has the byte order of the builder's host reads, in the swapped image,
the FAT header, the FAT entries and the file headers (filename included) that the builder
read in its own byte order before the swap; bytes outside the FAT header, the FAT entries
of the slots and the six integer words of their file headers are unchanged. -/
theorem byteSwap_round_trip (env : Env) (fs : FileSystem_t)
    (hN : (readFileAllocationTableHeader env.hostLittleEndian fs.mem
      fs.BaseAddress).NumberOfFiles ≤ 64)
    (hF : ∀ i, i < (readFileAllocationTableHeader env.hostLittleEndian fs.mem
        fs.BaseAddress).NumberOfFiles →
      536 ≤ (readFileAllocationTableEntry env.hostLittleEndian fs.mem
        (fatEntryAddress fs.BaseAddress i)).FileHeaderOffset)
    (hap : ∀ i, i < (readFileAllocationTableHeader env.hostLittleEndian fs.mem
        fs.BaseAddress).NumberOfFiles →
      ∀ j, j < (readFileAllocationTableHeader env.hostLittleEndian fs.mem
        fs.BaseAddress).NumberOfFiles → i ≠ j →
      (readFileAllocationTableEntry env.hostLittleEndian fs.mem
          (fatEntryAddress fs.BaseAddress i)).FileHeaderOffset + 64
        ≤ (readFileAllocationTableEntry env.hostLittleEndian fs.mem
          (fatEntryAddress fs.BaseAddress j)).FileHeaderOffset ∨
      (readFileAllocationTableEntry env.hostLittleEndian fs.mem
          (fatEntryAddress fs.BaseAddress j)).FileHeaderOffset + 64
        ≤ (readFileAllocationTableEntry env.hostLittleEndian fs.mem
          (fatEntryAddress fs.BaseAddress i)).FileHeaderOffset) :
    (ByteSwapFileSystem env.hostLittleEndian fs).BaseAddress = fs.BaseAddress ∧
    loadFileAllocationTableHeader env (ByteSwapFileSystem env.hostLittleEndian fs).mem
        fs.BaseAddress
      = readFileAllocationTableHeader env.hostLittleEndian fs.mem fs.BaseAddress ∧
    (∀ i, i < (readFileAllocationTableHeader env.hostLittleEndian fs.mem
        fs.BaseAddress).NumberOfFiles →
      loadFileAllocationTableEntry env (ByteSwapFileSystem env.hostLittleEndian fs).mem
          (fatEntryAddress fs.BaseAddress i)
        = readFileAllocationTableEntry env.hostLittleEndian fs.mem
          (fatEntryAddress fs.BaseAddress i) ∧
      loadFileHeader env (ByteSwapFileSystem env.hostLittleEndian fs).mem
          (fs.BaseAddress + (readFileAllocationTableEntry env.hostLittleEndian fs.mem
            (fatEntryAddress fs.BaseAddress i)).FileHeaderOffset)
        = readFileHeader env.hostLittleEndian fs.mem
          (fs.BaseAddress + (readFileAllocationTableEntry env.hostLittleEndian fs.mem
            (fatEntryAddress fs.BaseAddress i)).FileHeaderOffset)) ∧
    (∀ a, (a < fs.BaseAddress ∨ fs.BaseAddress + 24 ≤ a) →
      (∀ i, i < (readFileAllocationTableHeader env.hostLittleEndian fs.mem
          fs.BaseAddress).NumberOfFiles →
        (a < fatEntryAddress fs.BaseAddress i ∨ fatEntryAddress fs.BaseAddress i + 8 ≤ a) ∧
        (a < fs.BaseAddress + (readFileAllocationTableEntry env.hostLittleEndian fs.mem
            (fatEntryAddress fs.BaseAddress i)).FileHeaderOffset ∨
          fs.BaseAddress + (readFileAllocationTableEntry env.hostLittleEndian fs.mem
            (fatEntryAddress fs.BaseAddress i)).FileHeaderOffset + 24 ≤ a)) →
      (ByteSwapFileSystem env.hostLittleEndian fs).mem a = fs.mem a) := by
  generalize hle : env.hostLittleEndian = le at *
  generalize hB : fs.BaseAddress = B at *
  generalize hNdef : (readFileAllocationTableHeader le fs.mem B).NumberOfFiles = N at *
  -- the image after the swaps of the FAT header
  have hmem : (ByteSwapFileSystem le fs).mem
      = (List.range N).foldl (byteSwapSlot le B)
          ([B, B + 4, B + 8, B + 12, B + 16, B + 20].foldl SwapUInt32InPlace fs.mem) := by
    unfold ByteSwapFileSystem
    simp only [hB, hNdef]
    rfl
  generalize hm6 : [B, B + 4, B + 8, B + 12, B + 16, B + 20].foldl SwapUInt32InPlace fs.mem
    = m6 at hmem
  have h6out : ∀ a, (a < B ∨ B + 24 ≤ a) → m6 a = fs.mem a := by
    intro a ha
    rw [← hm6]
    apply swapWords_out
    intro w hw
    simp only [List.mem_cons, List.not_mem_nil, or_false] at hw
    omega
  have h6load : ∀ e p, B + 24 ≤ p → loadU32 e m6 p = loadU32 e fs.mem p := by
    intro e p hp
    apply loadU32_congr
    intro j hj
    rw [h6out _ (by omega)]
  have h6flip : ∀ w ∈ [B, B + 4, B + 8, B + 12, B + 16, B + 20],
      loadU32 (!le) m6 w = loadU32 le fs.mem w := by
    rw [← hm6]
    apply swapWords_flip
    refine List.Pairwise.cons ?_ (List.Pairwise.cons ?_ (List.Pairwise.cons ?_
      (List.Pairwise.cons ?_ (List.Pairwise.cons ?_ (List.Pairwise.cons ?_
      List.Pairwise.nil)))))
    all_goals
      intro y hy
      simp only [List.mem_cons, List.not_mem_nil, or_false] at hy <;> omega
  have hent : ∀ i, readFileAllocationTableEntry le m6 (fatEntryAddress B i)
      = readFileAllocationTableEntry le fs.mem (fatEntryAddress B i) := by
    intro i
    unfold readFileAllocationTableEntry
    rw [h6load _ _ (by simp only [fatEntryAddress]; omega),
      h6load _ _ (by simp only [fatEntryAddress]; omega)]
  generalize hFdef : (fun i => (readFileAllocationTableEntry le fs.mem
    (fatEntryAddress B i)).FileHeaderOffset) = F at *
  have hFi : ∀ i, (readFileAllocationTableEntry le fs.mem (fatEntryAddress B i)).FileHeaderOffset
      = F i := fun i => by rw [← hFdef]
  simp only [hFi] at hF hap ⊢
  obtain ⟨fa, fb⟩ := byteSwap_fold le B m6 N hN
    (by intro i hi; rw [hent, hFi]; exact hF i hi)
    (by
      intro i hi j hj hij
      rw [hent, hent, hFi, hFi]
      have := hap i hi j hj hij
      omega)
    N (Nat.le_refl N)
  simp only [hent, hFi] at fa fb
  rw [← hmem] at fa fb
  generalize (ByteSwapFileSystem le fs).mem = m2 at *
  have hfs : (ByteSwapFileSystem le fs).BaseAddress = B := by
    unfold ByteSwapFileSystem
    exact hB
  have hflip := read_flip env
  rw [hle] at hflip
  refine ⟨hfs, ?_, ?_, ?_⟩
  · rw [← (hflip m2 B).1]
    have key : ∀ w ∈ [B, B + 4, B + 8, B + 12, B + 16, B + 20],
        loadU32 (!le) m2 w = loadU32 le fs.mem w := by
      intro w hw
      rw [← h6flip w hw]
      apply loadU32_congr
      intro j hj
      rw [fa]
      intro i hi
      have := hF i hi
      simp only [List.mem_cons, List.not_mem_nil, or_false] at hw
      simp only [fatEntryAddress]
      omega
    unfold readFileAllocationTableHeader
    rw [key B (by simp), key (B + 4) (by simp), key (B + 8) (by simp), key (B + 12) (by simp),
      key (B + 16) (by simp), key (B + 20) (by simp)]
  · intro i hi
    have hFI := hF i hi
    have key : ∀ w ∈ [B + F i, B + F i + 4, B + F i + 8, B + F i + 12, B + F i + 16,
        B + F i + 20, fatEntryAddress B i, fatEntryAddress B i + 4],
        loadU32 (!le) m2 w = loadU32 le fs.mem w := by
      intro w hw
      rw [fb i hi w hw]
      apply h6load
      simp only [List.mem_cons, List.not_mem_nil, or_false] at hw
      simp only [fatEntryAddress] at hw
      omega
    refine ⟨?_, ?_⟩
    · rw [← (hflip m2 _).2.1]
      unfold readFileAllocationTableEntry
      rw [key (fatEntryAddress B i) (by simp), key (fatEntryAddress B i + 4) (by simp)]
    · rw [← (hflip m2 _).2.2]
      unfold readFileHeader
      rw [key (B + F i) (by simp), key (B + F i + 4) (by simp), key (B + F i + 8) (by simp),
        key (B + F i + 12) (by simp), key (B + F i + 16) (by simp),
        key (B + F i + 20) (by simp)]
      have hname : memRead m2 (B + F i + 24) 40 = memRead fs.mem (B + F i + 24) 40 := by
        unfold memRead
        apply List.map_congr_left
        intro j hj
        have hj40 := List.mem_range.1 hj
        rw [fa, h6out _ (by omega)]
        intro i2 hi2
        have h1 := hF i2 hi2
        simp only [fatEntryAddress]
        by_cases h12 : i2 = i
        · subst h12
          omega
        · have := hap i2 hi2 i hi h12
          omega
      rw [hname]
  · intro a ha hall
    rw [fa a hall, h6out a ha]

/-! ## The free memory after a close through access mode 3 -/

set_option maxRecDepth 100000 in
/-- C7 does not hold on the code: on the one-file volume with 10 bytes of free memory
(file "a" of 1000 bytes in slot 0, volume size 1610) `Open("a", O_WRONLY | O_RDWR)` is
accepted and returns descriptor 0, and the following `Close` takes 64 + 1512 bytes from the
10 free bytes: `FreeMemorySize` of the inode table and of the on-medium FAT header wraps
below zero to 4294965730, the free memory starts at offset 3176, and the volume size that
the table and the FAT header record, `1600 + 10 = 1610` before the call, is
`3176 + 4294965730` after it. -/
theorem close_after_open3_wraps_free_memory (le : Bool) :
    (exOpen3 le 10).1 = 0 ∧
    ((exOpen3 le 10).2.InodeTables 1).FreeMemorySize = 10 ∧
    tableVolumeSize ((exOpen3 le 10).2.InodeTables 1) = 1610 ∧
    mediumVolumeSize (exEnv le) (exOpen3 le 10).2.mem exBase = 1610 ∧
    (exOpen3Close le 10).1 = EEFS_SUCCESS ∧
    ((exOpen3Close le 10).2.InodeTables 1).FreeMemorySize = 4294965730 ∧
    ((exOpen3Close le 10).2.InodeTables 1).FreeMemoryPointer = exBase + 3176 ∧
    tableVolumeSize ((exOpen3Close le 10).2.InodeTables 1) = 4294968906 ∧
    (loadFileAllocationTableHeader (exEnv le) (exOpen3Close le 10).2.mem
      exBase).FreeMemorySize = 4294965730 ∧
    mediumVolumeSize (exEnv le) (exOpen3Close le 10).2.mem exBase = 4294968906 ∧
    ¬ ((exOpen3Close le 10).2.InodeTables 1).FreeMemorySize
      ≤ ((exOpen3 le 10).2.InodeTables 1).FreeMemorySize := by
  cases le <;> decide

/-! ## Descriptors stay inside their slots -/

theorem inSlot_read (s : State) (fd : Int) (b : Option (List Nat)) (l : Nat) (k : Nat)
    (h : InSlot (s.EEFS_FileDescriptorTable k)) (hu : fdInUse s k) :
    InSlot ((EEFS_LibRead s fd b l).2.2.EEFS_FileDescriptorTable k) ∧
    fdInUse (EEFS_LibRead s fd b l).2.2 k := by
  obtain ⟨ho, hs, hd, hf⟩ := h
  simp only [sizeofFileHeader] at hd hf
  unfold EEFS_LibRead
  by_cases hv : EEFS_LibIsValidFileDescriptor s fd = true
  · rw [if_pos hv]
    by_cases hb : b ≠ none
    · rw [if_pos hb]
      simp only []
      by_cases hm : Nat.land (s.EEFS_FileDescriptorTable fd.toNat).Mode EEFS_FREAD ≠ 0
      · rw [if_pos hm]
        unfold fdInUse at hu ⊢
        simp only [setFileDescriptor, Function.update_apply]
        by_cases hk : k = fd.toNat
        · subst hk
          rw [if_pos rfl]
          refine ⟨⟨?_, hs, ?_, hf⟩, hu⟩
          · simp only [u32, u32sub, EEFS_MIN]
            split_ifs <;> omega
          · simp only [u32, u32sub, EEFS_MIN, sizeofFileHeader]
            split_ifs <;> omega
        · rw [if_neg hk]
          exact ⟨⟨ho, hs, hd, hf⟩, hu⟩
      · rw [if_neg hm]
        exact ⟨⟨ho, hs, hd, hf⟩, hu⟩
    · rw [if_neg hb]
      exact ⟨⟨ho, hs, hd, hf⟩, hu⟩
  · rw [if_neg hv]
    exact ⟨⟨ho, hs, hd, hf⟩, hu⟩

theorem inSlot_write (s : State) (fd : Int) (b : Option (List Nat)) (l : Nat) (k : Nat)
    (h : InSlot (s.EEFS_FileDescriptorTable k)) (hu : fdInUse s k) :
    InSlot ((EEFS_LibWrite s fd b l).2.EEFS_FileDescriptorTable k) ∧
    fdInUse (EEFS_LibWrite s fd b l).2 k := by
  obtain ⟨ho, hs, hd, hf⟩ := h
  simp only [sizeofFileHeader] at hd hf
  unfold EEFS_LibWrite
  by_cases hv : EEFS_LibIsValidFileDescriptor s fd = true
  · rw [if_pos hv]
    by_cases hb : b ≠ none
    · rw [if_pos hb]
      simp only []
      by_cases hm : Nat.land (s.EEFS_FileDescriptorTable fd.toNat).Mode EEFS_FWRITE ≠ 0
      · rw [if_pos hm]
        unfold fdInUse at hu ⊢
        simp only [setFileDescriptor, Function.update_apply]
        by_cases hk : k = fd.toNat
        · subst hk
          rw [if_pos rfl]
          refine ⟨⟨?_, ?_, ?_, hf⟩, hu⟩
          · simp only [u32, u32sub, EEFS_MIN]
            split_ifs <;> omega
          · simp only [u32, u32sub, EEFS_MIN]
            split_ifs <;> omega
          · simp only [u32, u32sub, EEFS_MIN, sizeofFileHeader]
            split_ifs <;> omega
        · rw [if_neg hk]
          exact ⟨⟨ho, hs, hd, hf⟩, hu⟩
      · rw [if_neg hm]
        exact ⟨⟨ho, hs, hd, hf⟩, hu⟩
    · rw [if_neg hb]
      exact ⟨⟨ho, hs, hd, hf⟩, hu⟩
  · rw [if_neg hv]
    exact ⟨⟨ho, hs, hd, hf⟩, hu⟩

theorem inSlot_lseek (s : State) (fd : Int) (o : Int) (w : Nat) (k : Nat)
    (h1 : -2147483648 ≤ o) (h2 : o < 2147483648)
    (h : InSlot (s.EEFS_FileDescriptorTable k)) (hu : fdInUse s k) :
    InSlot ((EEFS_LibLSeek s fd o w).2.EEFS_FileDescriptorTable k) ∧
    fdInUse (EEFS_LibLSeek s fd o w).2 k := by
  obtain ⟨ho, hs, hd, hf⟩ := h
  simp only [sizeofFileHeader] at hd hf
  have hsame : InSlot (s.EEFS_FileDescriptorTable k) ∧ fdInUse s k :=
    ⟨⟨ho, hs, hd, hf⟩, hu⟩
  unfold EEFS_LibLSeek
  simp only []
  split_ifs with hv <;> first | exact hsame | skip
  all_goals
    unfold fdInUse at hu ⊢
    simp only [setFileDescriptor, Function.update_apply]
    by_cases hk : k = fd.toNat
    · subst hk
      rw [if_pos rfl]
      refine ⟨⟨?_, hs, ?_, hf⟩, hu⟩
      · dsimp only
        try simp only [u32, toInt32, ofInt32] at *
        (try split_ifs at *) <;> omega
      · dsimp only
        try simp only [u32, toInt32, ofInt32, sizeofFileHeader] at *
        (try split_ifs at *) <;> omega
    · rw [if_neg hk]
      exact ⟨⟨ho, hs, hd, hf⟩, hu⟩

theorem inSlot_opened {env : Env} {s : State} {T : Nat} (h : SlotsFit env s T) (i : Nat)
    (hi : i < (s.InodeTables T).NumberOfFiles)
    (hm : findFileMatch env s.mem (s.InodeTables T) f i = true) (Flags : Nat) :
    InSlot (openedDescriptor env s T (toInt32 i) Flags) := by
  have hc := h.count
  unfold EEFS_MAX_FILES at hc
  have hti : (toInt32 i).toNat = i := by
    rw [toInt32_small i (by omega)]
    exact Int.toNat_ofNat i
  have hs := h.slot i hi
  have hl := h.live i hi
  unfold findFileMatch at hm
  simp only [Bool.and_eq_true, decide_eq_true_eq] at hm
  have hl2 := hl hm.1
  simp only [sizeofFileHeader] at hs
  unfold openedDescriptor
  rw [hti]
  refine ⟨Nat.zero_le _, ?_, ?_, ?_⟩
  · dsimp only
    split_ifs
    · exact Nat.zero_le _
    · exact hl2
  · simp only [u32, sizeofFileHeader]
    omega
  · simp only [sizeofFileHeader]
    exact hs

theorem inSlot_created {env : Env} {s : State} {T : Nat} (h : SlotsFit env s T)
    (hfree : (s.InodeTables T).FreeMemorySize > sizeofFileHeader) :
    InSlot (createdDescriptor s T) := by
  have hf := h.free
  simp only [sizeofFileHeader] at hfree
  unfold createdDescriptor
  refine ⟨Nat.le_refl _, Nat.zero_le _, ?_, ?_⟩
  · simp only [u32, sizeofFileHeader]
    omega
  · simp only [u32sub, sizeofFileHeader]
    omega

theorem inSlot_openFile {env : Env} {s : State} {T : Nat} (h : SlotsFit env s T) (i : Nat)
    (hi : i < (s.InodeTables T).NumberOfFiles)
    (hm : findFileMatch env s.mem (s.InodeTables T) f i = true) (Flags A : Nat) (k : Nat)
    (hk : (EEFS_LibOpenFile env s T (toInt32 i) Flags A).1 = (k : Int)) :
    InSlot ((EEFS_LibOpenFile env s T (toInt32 i) Flags A).2.EEFS_FileDescriptorTable k) ∧
    fdInUse (EEFS_LibOpenFile env s T (toInt32 i) Flags A).2 k := by
  rcases openFile_cases env s T (toInt32 i) Flags A with ⟨-, hneg⟩ | ⟨k', -, -, hret, hr, -, -, he⟩
  · rw [hk] at hneg
    omega
  · have hkk : k' = k := by rw [hr] at hk; exact_mod_cast hk
    subst hkk
    unfold fdInUse
    rw [he, setFD_getFD_fds s k' _ hret, Function.update_same]
    exact ⟨inSlot_opened h i hi hm Flags, rfl⟩

theorem inSlot_creatFile {env : Env} {s : State} {T : Nat} (h : SlotsFit env s T)
    (f : List Nat) (A : Nat) (k : Nat)
    (hk : (EEFS_LibCreatFile env s T f A).1 = (k : Int)) :
    InSlot ((EEFS_LibCreatFile env s T f A).2.EEFS_FileDescriptorTable k) ∧
    fdInUse (EEFS_LibCreatFile env s T f A).2 k := by
  rcases creatFile_cases env s T f A with ⟨-, hneg⟩ |
    ⟨k', -, -, hret, hr, -, -, -, hfree, -, he⟩
  · rw [hk] at hneg
    omega
  · have hkk : k' = k := by rw [hr] at hk; exact_mod_cast hk
    subst hkk
    have htab : (EEFS_LibCreatFile env s T f A).2.EEFS_FileDescriptorTable k' =
        createdDescriptor s T := by
      rw [he]
      simp only [setFileDescriptor, Function.update_same]
    unfold fdInUse
    rw [htab]
    exact ⟨inSlot_created h hfree, rfl⟩

theorem inSlot_open {env : Env} {s : State} {T : Nat} (h : SlotsFit env s T)
    (f : Option (List Nat)) (Flags A : Nat) (k : Nat)
    (hk : (EEFS_LibOpen env s T f Flags A).1 = (k : Int)) :
    InSlot ((EEFS_LibOpen env s T f Flags A).2.EEFS_FileDescriptorTable k) ∧
    fdInUse (EEFS_LibOpen env s T f Flags A).2 k := by
  have c1 : EEFS_INVALID_ARGUMENT ≠ (k : Int) := by unfold EEFS_INVALID_ARGUMENT; omega
  have c2 : EEFS_FILE_NOT_FOUND ≠ (k : Int) := by unfold EEFS_FILE_NOT_FOUND; omega
  unfold EEFS_LibOpen at hk ⊢
  by_cases h1 : T ≠ 0
  · rw [if_pos h1] at hk ⊢
    by_cases h2 : EEFS_LibIsValidFilename f = true
    · rw [if_pos h2] at hk ⊢
      simp only [] at hk ⊢
      by_cases h3 : EEFS_LibFindFile env s T (f.getD []) ≠ EEFS_FILE_NOT_FOUND
      · rw [if_pos h3] at hk ⊢
        rcases findFile_cases env s T (f.getD []) with h0 | ⟨i, hi, he, hm⟩
        · exact absurd h0 h3
        · rw [he] at hk ⊢
          exact inSlot_openFile h i hi hm Flags A k hk
      · rw [if_neg h3] at hk ⊢
        by_cases h4 : Nat.land Flags O_CREAT ≠ 0
        · rw [if_pos h4] at hk ⊢
          exact inSlot_creatFile h _ _ k hk
        · rw [if_neg h4] at hk
          exact absurd hk c2
    · rw [if_neg h2] at hk
      exact absurd hk c1
  · rw [if_neg h1] at hk
    exact absurd hk c1

theorem inSlot_creat {env : Env} {s : State} {T : Nat} (h : SlotsFit env s T)
    (f : Option (List Nat)) (A : Nat) (k : Nat)
    (hk : (EEFS_LibCreat env s T f A).1 = (k : Int)) :
    InSlot ((EEFS_LibCreat env s T f A).2.EEFS_FileDescriptorTable k) ∧
    fdInUse (EEFS_LibCreat env s T f A).2 k := by
  have c1 : EEFS_INVALID_ARGUMENT ≠ (k : Int) := by unfold EEFS_INVALID_ARGUMENT; omega
  unfold EEFS_LibCreat at hk ⊢
  by_cases h1 : T ≠ 0
  · rw [if_pos h1] at hk ⊢
    by_cases h2 : EEFS_LibIsValidFilename f = true
    · rw [if_pos h2] at hk ⊢
      simp only [] at hk ⊢
      by_cases h3 : EEFS_LibFindFile env s T (f.getD []) ≠ EEFS_FILE_NOT_FOUND
      · rw [if_pos h3] at hk ⊢
        rcases findFile_cases env s T (f.getD []) with h0 | ⟨i, hi, he, hm⟩
        · exact absurd h0 h3
        · rw [he] at hk ⊢
          exact inSlot_openFile h i hi hm _ A k hk
      · rw [if_neg h3] at hk ⊢
        exact inSlot_creatFile h _ _ k hk
    · rw [if_neg h2] at hk
      exact absurd hk c1
  · rw [if_neg h1] at hk
    exact absurd hk c1

theorem openFile_fds_kept (env : Env) (s : State) (T : Nat) (idx : Int) (Flags A : Nat)
    (k : Nat) (hu : fdInUse s k) :
    (EEFS_LibOpenFile env s T idx Flags A).2.EEFS_FileDescriptorTable k
      = s.EEFS_FileDescriptorTable k := by
  rcases openFile_cases env s T idx Flags A with ⟨he, -⟩ | ⟨k', -, hfree, hret, -, -, -, he⟩
  · rw [he]
  · have hne : k ≠ k' := by
      intro e
      subst e
      unfold fdInUse at hu
      rw [hfree] at hu
      exact absurd hu (by decide)
    rw [he, setFD_getFD_fds s k' _ hret, Function.update_noteq hne]

theorem creatFile_fds_kept (env : Env) (s : State) (T : Nat) (f : List Nat) (A : Nat)
    (k : Nat) (hu : fdInUse s k) :
    (EEFS_LibCreatFile env s T f A).2.EEFS_FileDescriptorTable k
      = s.EEFS_FileDescriptorTable k := by
  rcases creatFile_cases env s T f A with ⟨he, -⟩ |
    ⟨k', -, hfree, hret, -, -, -, -, -, -, he⟩
  · rw [he]
  · have hne : k ≠ k' := by
      intro e
      subst e
      unfold fdInUse at hu
      rw [hfree] at hu
      exact absurd hu (by decide)
    obtain ⟨-, -, htab, -⟩ := getFD_of_ret s k' hret
    rw [he]
    simp only [setFileDescriptor, EEFS_LIB_EEPROM_FLUSH, EEFS_LIB_EEPROM_WRITE, setInodeTable,
      htab, Function.update_noteq hne]

theorem open_fds_kept (env : Env) (s : State) (T : Nat) (f : Option (List Nat))
    (Flags A : Nat) (k : Nat) (hu : fdInUse s k) :
    (EEFS_LibOpen env s T f Flags A).2.EEFS_FileDescriptorTable k
      = s.EEFS_FileDescriptorTable k := by
  unfold EEFS_LibOpen
  simp only []
  split_ifs
  · exact openFile_fds_kept env s T _ Flags A k hu
  · exact creatFile_fds_kept env s T _ _ k hu
  · rfl
  · rfl
  · rfl

theorem creat_fds_kept (env : Env) (s : State) (T : Nat) (f : Option (List Nat))
    (A : Nat) (k : Nat) (hu : fdInUse s k) :
    (EEFS_LibCreat env s T f A).2.EEFS_FileDescriptorTable k
      = s.EEFS_FileDescriptorTable k := by
  unfold EEFS_LibCreat
  simp only []
  split_ifs
  · exact openFile_fds_kept env s T _ _ A k hu
  · exact creatFile_fds_kept env s T _ _ k hu
  · rfl
  · rfl

/-- A public function other than `EEFS_LibRead`, `EEFS_LibWrite` and `EEFS_LibLSeek` leaves
the record of a descriptor as it is when the descriptor is in use before and after the
call. -/
theorem descriptor_kept (env : Env) (s : State) (c : Call) (k : Nat)
    (hu : fdInUse s k) (hu2 : fdInUse (c.run env s) k) :
    (c.run env s).EEFS_FileDescriptorTable k = s.EEFS_FileDescriptorTable k ∨
    (∃ fd b l, c = Call.LibRead fd b l) ∨ (∃ fd b l, c = Call.LibWrite fd b l) ∨
    (∃ fd o w, c = Call.LibLSeek fd o w) := by
  cases c with
  | LibInit =>
    have hz : zeroFileDescriptor.InUse ≠ TRUE := by decide
    exact absurd hu2 hz
  | LibInitFS t b =>
    left
    show (EEFS_LibInitFS env s t b).2.EEFS_FileDescriptorTable k = _
    unfold EEFS_LibInitFS
    simp only []
    split_ifs <;> rfl
  | LibFreeFS t =>
    left
    show (EEFS_LibFreeFS s t).2.EEFS_FileDescriptorTable k = _
    unfold EEFS_LibFreeFS
    split_ifs <;> rfl
  | LibOpen t f fl a => exact Or.inl (open_fds_kept env s t f fl a k hu)
  | LibCreat t f a => exact Or.inl (creat_fds_kept env s t f a k hu)
  | LibClose fd =>
    left
    show (EEFS_LibClose env s fd).2.EEFS_FileDescriptorTable k = _
    have hu3 : fdInUse (EEFS_LibClose env s fd).2 k := hu2
    rw [close_eq] at hu3 ⊢
    by_cases hv : EEFS_LibIsValidFileDescriptor s fd = true
    · rw [if_pos hv] at hu3 ⊢
      unfold fdInUse at hu3
      simp only [freedDescriptor, Function.update_apply] at hu3 ⊢
      by_cases hkf : k = fd.toNat
      · rw [if_pos hkf] at hu3
        exact absurd hu3 (by decide)
      · rw [if_neg hkf, closeBody_fds]
    · rw [if_neg hv]
  | LibRead fd b l => exact Or.inr (Or.inl ⟨fd, b, l, rfl⟩)
  | LibWrite fd b l => exact Or.inr (Or.inr (Or.inl ⟨fd, b, l, rfl⟩))
  | LibLSeek fd o w => exact Or.inr (Or.inr (Or.inr ⟨fd, o, w, rfl⟩))
  | LibRemove t f =>
    left
    show (EEFS_LibRemove env s t f).2.EEFS_FileDescriptorTable k = _
    unfold EEFS_LibRemove
    simp only []
    split_ifs <;> rfl
  | LibRename t f g =>
    left
    show (EEFS_LibRename env s t f g).2.EEFS_FileDescriptorTable k = _
    unfold EEFS_LibRename
    simp only []
    split_ifs <;> rfl
  | LibStat t f b => exact Or.inl rfl
  | LibFstat fd b => exact Or.inl rfl
  | LibSetFileAttributes t f a =>
    left
    show (EEFS_LibSetFileAttributes env s t f a).2.EEFS_FileDescriptorTable k = _
    unfold EEFS_LibSetFileAttributes
    simp only []
    split_ifs <;> rfl
  | LibOpenDir t =>
    left
    show (EEFS_LibOpenDir s t).2.EEFS_FileDescriptorTable k = _
    unfold EEFS_LibOpenDir
    split_ifs <;> rfl
  | LibReadDir d =>
    left
    show (EEFS_LibReadDir env s d).2.EEFS_FileDescriptorTable k = _
    unfold EEFS_LibReadDir
    simp only []
    split_ifs <;> rfl
  | LibCloseDir d =>
    left
    show (EEFS_LibCloseDir s d).2.EEFS_FileDescriptorTable k = _
    unfold EEFS_LibCloseDir
    split_ifs <;> rfl

theorem inSlot_call (env : Env) (s : State) (c : Call) (k : Nat) (hty : typedCall c)
    (h : InSlot (s.EEFS_FileDescriptorTable k)) (hu : fdInUse s k)
    (hu2 : fdInUse (c.run env s) k) :
    InSlot ((c.run env s).EEFS_FileDescriptorTable k) := by
  rcases descriptor_kept env s c k hu hu2 with he | ⟨fd, b, l, rfl⟩ | ⟨fd, b, l, rfl⟩ |
    ⟨fd, o, w, rfl⟩
  · rw [he]
    exact h
  · exact (inSlot_read s fd b l k h hu).1
  · exact (inSlot_write s fd b l k h hu).1
  · exact (inSlot_lseek s fd o w k hty.1 hty.2 h hu).1

/-- In every state of `DescriptorRun k` descriptor `k` is in use and lies inside its slot. -/
theorem descriptorRun_inSlot {k : Nat} {s : State} (h : DescriptorRun k s) :
    InSlot (s.EEFS_FileDescriptorTable k) ∧ fdInUse s k := by
  induction h with
  | opened env s T f Flags A hfit hk => exact inSlot_open hfit f Flags A k hk
  | created env s T f A hfit hk => exact inSlot_creat hfit f A k hk
  | call env s c _ hty hu2 ih => exact ⟨inSlot_call env s c k hty ih.1 ih.2 hu2, hu2⟩

/-! ## Read and write through an open descriptor -/

set_option maxRecDepth 100000 in
theorem exMountedEmpty_fit (le : Bool) : SlotsFit (exEnv le) (exMountedEmpty le) 1 := by
  have hN : ((exMountedEmpty le).InodeTables 1).NumberOfFiles = 0 := by cases le <;> decide
  refine ⟨by rw [hN]; decide, ?_, ?_, by cases le <;> decide⟩
  · intro i hi
    rw [hN] at hi
    omega
  · intro i hi
    rw [hN] at hi
    omega

set_option maxRecDepth 100000 in
theorem exMountedOneFile_fit (le : Bool) : SlotsFit (exEnv le) (exMountedOneFile le 100) 1 := by
  have hN : ((exMountedOneFile le 100).InodeTables 1).NumberOfFiles = 1 := by
    cases le <;> decide
  refine ⟨by rw [hN]; decide, ?_, ?_, by cases le <;> decide⟩
  · intro i hi
    rw [hN] at hi
    obtain rfl : i = 0 := by omega
    cases le <;> decide
  · intro i hi _
    rw [hN] at hi
    obtain rfl : i = 0 := by omega
    cases le <;> decide

/-- C12 (amended). Write semantics: let descriptor `fd` be valid and have `EEFS_FWRITE`, in a
state where it is open, that is, `EEFS_LibOpen` or `EEFS_LibCreat` returned it on an inode
table whose slots end below `2^32` and hold their files, and any public functions were called
since that left it in use. Then for every buffer and every `Length`, with
`c = min (MaxFileSize - ByteOffset) Length`, `EEFS_LibWrite` returns `c` as an `int32` (the
number `c` itself when `c < 2^31`), the medium holds the first `c` buffer bytes at the
payload offsets `[ByteOffset, ByteOffset + c)` of the descriptor's slot, that is from
`FileHeaderPointer + 64 + ByteOffset` on, every other medium byte is unchanged,
`ByteOffset` advances by `c` and stays at most `MaxFileSize`, and the descriptor's
`FileSize` becomes `max FileSize (ByteOffset + c)`. -/
theorem write_through_descriptor (s : State) (fd : Int)
    (hfd : EEFS_LibIsValidFileDescriptor s fd = true)
    (hrun : DescriptorRun fd.toNat s)
    (hw : Nat.land (s.EEFS_FileDescriptorTable fd.toNat).Mode EEFS_FWRITE ≠ 0)
    (Buffer : List Nat) (Length : Nat) :
    (EEFS_LibWrite s fd (some Buffer) Length).1
      = toInt32 (min ((s.EEFS_FileDescriptorTable fd.toNat).MaxFileSize
          - (s.EEFS_FileDescriptorTable fd.toNat).ByteOffset) Length) ∧
    (min ((s.EEFS_FileDescriptorTable fd.toNat).MaxFileSize
          - (s.EEFS_FileDescriptorTable fd.toNat).ByteOffset) Length < 2147483648 →
      (EEFS_LibWrite s fd (some Buffer) Length).1
        = ((min ((s.EEFS_FileDescriptorTable fd.toNat).MaxFileSize
          - (s.EEFS_FileDescriptorTable fd.toNat).ByteOffset) Length : Nat) : Int)) ∧
    (∀ j, j < min ((s.EEFS_FileDescriptorTable fd.toNat).MaxFileSize
          - (s.EEFS_FileDescriptorTable fd.toNat).ByteOffset) Length →
      (EEFS_LibWrite s fd (some Buffer) Length).2.mem
        ((s.EEFS_FileDescriptorTable fd.toNat).FileHeaderPointer + 64
          + (s.EEFS_FileDescriptorTable fd.toNat).ByteOffset + j) = Buffer.getD j 0) ∧
    (∀ a, (a < (s.EEFS_FileDescriptorTable fd.toNat).FileHeaderPointer + 64
            + (s.EEFS_FileDescriptorTable fd.toNat).ByteOffset ∨
          (s.EEFS_FileDescriptorTable fd.toNat).FileHeaderPointer + 64
            + (s.EEFS_FileDescriptorTable fd.toNat).ByteOffset
            + min ((s.EEFS_FileDescriptorTable fd.toNat).MaxFileSize
              - (s.EEFS_FileDescriptorTable fd.toNat).ByteOffset) Length ≤ a) →
      (EEFS_LibWrite s fd (some Buffer) Length).2.mem a = s.mem a) ∧
    (s.EEFS_FileDescriptorTable fd.toNat).ByteOffset
      ≤ (s.EEFS_FileDescriptorTable fd.toNat).MaxFileSize ∧
    ((EEFS_LibWrite s fd (some Buffer) Length).2.EEFS_FileDescriptorTable fd.toNat).ByteOffset
      = (s.EEFS_FileDescriptorTable fd.toNat).ByteOffset
        + min ((s.EEFS_FileDescriptorTable fd.toNat).MaxFileSize
          - (s.EEFS_FileDescriptorTable fd.toNat).ByteOffset) Length ∧
    ((EEFS_LibWrite s fd (some Buffer) Length).2.EEFS_FileDescriptorTable fd.toNat).ByteOffset
      ≤ (s.EEFS_FileDescriptorTable fd.toNat).MaxFileSize ∧
    ((EEFS_LibWrite s fd (some Buffer) Length).2.EEFS_FileDescriptorTable fd.toNat).FileSize
      = max (s.EEFS_FileDescriptorTable fd.toNat).FileSize
          ((s.EEFS_FileDescriptorTable fd.toNat).ByteOffset
            + min ((s.EEFS_FileDescriptorTable fd.toNat).MaxFileSize
              - (s.EEFS_FileDescriptorTable fd.toNat).ByteOffset) Length) ∧
    ((EEFS_LibWrite s fd (some Buffer) Length).2.EEFS_FileDescriptorTable fd.toNat).MaxFileSize
      = (s.EEFS_FileDescriptorTable fd.toNat).MaxFileSize ∧
    ((EEFS_LibWrite s fd (some Buffer) Length).2.EEFS_FileDescriptorTable
        fd.toNat).FileHeaderPointer
      = (s.EEFS_FileDescriptorTable fd.toNat).FileHeaderPointer := by
  obtain ⟨hd, -⟩ := descriptorRun_inSlot hrun
  obtain ⟨k, rfl, hk, hu⟩ := valid_nat s fd hfd
  simp only [Int.toNat_ofNat] at hw hd ⊢
  have hoff := hd.offset
  have hsize := hd.size
  have hdata := hd.data
  have f3 := hd.fits
  simp only [sizeofFileHeader] at hdata f3
  rw [write_success s k Buffer Length hk hu hw,
    min_count _ _ Length (by omega) (by omega)]
  generalize hc : min ((s.EEFS_FileDescriptorTable k).MaxFileSize
    - (s.EEFS_FileDescriptorTable k).ByteOffset) Length = c
  have hcle : c ≤ (s.EEFS_FileDescriptorTable k).MaxFileSize
      - (s.EEFS_FileDescriptorTable k).ByteOffset := by
    rw [← hc]; exact Nat.min_le_left _ _
  have hu32 : u32 ((s.EEFS_FileDescriptorTable k).ByteOffset + c)
      = (s.EEFS_FileDescriptorTable k).ByteOffset + c := by
    simp only [u32]; omega
  have hmem : ∀ a, (setFileDescriptor
      (EEFS_LIB_EEPROM_WRITE s (s.EEFS_FileDescriptorTable k).FileDataPointer
        ((List.range c).map (fun i => Buffer.getD i 0))) k
      { s.EEFS_FileDescriptorTable k with
        FileDataPointer := u32 ((s.EEFS_FileDescriptorTable k).FileDataPointer + c)
        ByteOffset := u32 ((s.EEFS_FileDescriptorTable k).ByteOffset + c)
        FileSize :=
          if u32 ((s.EEFS_FileDescriptorTable k).ByteOffset + c)
              > (s.EEFS_FileDescriptorTable k).FileSize
          then u32 ((s.EEFS_FileDescriptorTable k).ByteOffset + c)
          else (s.EEFS_FileDescriptorTable k).FileSize }).mem a
      = memWrite s.mem (s.EEFS_FileDescriptorTable k).FileDataPointer
          ((List.range c).map (fun i => Buffer.getD i 0)) a := fun _ => rfl
  have hlen : ((List.range c).map (fun i => Buffer.getD i 0)).length = c := by
    rw [List.length_map, List.length_range]
  refine ⟨rfl, fun hlt => toInt32_small c hlt, ?_, ?_, by omega, ?_, ?_, ?_, ?_, ?_⟩
  · intro j hj
    rw [hmem, memWrite_in _ _ _ _ (by omega) (by rw [hlen]; omega), hdata]
    have e : (s.EEFS_FileDescriptorTable k).FileHeaderPointer + 64
        + (s.EEFS_FileDescriptorTable k).ByteOffset + j
        - ((s.EEFS_FileDescriptorTable k).FileHeaderPointer + 64
          + (s.EEFS_FileDescriptorTable k).ByteOffset) = j := by omega
    rw [e, map_getD_range _ _ _ hj]
  · intro a ha
    rw [hmem, memWrite_out _ _ _ _ (by rw [hlen]; omega)]
  · simp only [setFileDescriptor, Function.update_same]
    exact hu32
  · simp only [setFileDescriptor, Function.update_same]
    rw [hu32]; omega
  · simp only [setFileDescriptor, Function.update_same]
    rw [hu32]
    simp only [Nat.max_def]
    split_ifs <;> omega
  · simp only [setFileDescriptor, Function.update_same]
  · simp only [setFileDescriptor, Function.update_same]

set_option maxRecDepth 100000 in
/-- C12, witness: on the empty example volume `Creat("a")` returns descriptor 0 and
`Write("hello", 5)` leaves it open; a further write of two bytes then returns 2. -/
theorem write_through_descriptor_witness :
    EEFS_LibIsValidFileDescriptor (exWrite true).2 0 = true ∧
    DescriptorRun (0 : Int).toNat (exWrite true).2 ∧
    Nat.land ((exWrite true).2.EEFS_FileDescriptorTable (0 : Int).toNat).Mode EEFS_FWRITE ≠ 0 ∧
    (EEFS_LibWrite (exWrite true).2 0 (some [119, 111]) 2).1
      = toInt32 (min (((exWrite true).2.EEFS_FileDescriptorTable (0 : Int).toNat).MaxFileSize
          - ((exWrite true).2.EEFS_FileDescriptorTable (0 : Int).toNat).ByteOffset) 2) ∧
    (EEFS_LibWrite (exWrite true).2 0 (some [119, 111]) 2).1 = 2 :=
  ⟨by decide,
    DescriptorRun.call (exEnv true) (exCreat true).2
      (Call.LibWrite (exCreat true).1 (some [104, 101, 108, 108, 111]) 5)
      (DescriptorRun.created (exEnv true) (exMountedEmpty true) 1 (some [97])
        EEFS_ATTRIBUTE_NONE (exMountedEmpty_fit true) (by decide))
      trivial (by decide),
    by decide,
    (write_through_descriptor (exWrite true).2 0 (by decide)
      (DescriptorRun.call (exEnv true) (exCreat true).2
        (Call.LibWrite (exCreat true).1 (some [104, 101, 108, 108, 111]) 5)
        (DescriptorRun.created (exEnv true) (exMountedEmpty true) 1 (some [97])
          EEFS_ATTRIBUTE_NONE (exMountedEmpty_fit true) (by decide))
        trivial (by decide))
      (by decide) [119, 111] 2).1,
    by decide⟩

/-- C13 (amended). Read semantics: let descriptor `fd` be valid and have `EEFS_FREAD`, in a
state where it is open, that is, `EEFS_LibOpen` or `EEFS_LibCreat` returned it on an inode
table whose slots end below `2^32` and hold their files, and any public functions were called
since that left it in use (among them `EEFS_LibRead`, `EEFS_LibWrite` and `EEFS_LibLSeek` on
it). Then for every buffer and every `Length`, with `c = min (FileSize - ByteOffset) Length`,
`EEFS_LibRead` returns `c` as an `int32` (the number `c` itself when `c < 2^31`, and 0 at
end of file), the buffer receives the `c` bytes of the medium from
`FileHeaderPointer + 64 + ByteOffset` on, which is where the data pointer is before the
call, `ByteOffset` advances by `c`, the data pointer is again
`FileHeaderPointer + 64 + ByteOffset` after the call, and the medium and the descriptor's
`FileSize` are unchanged. -/
theorem read_through_descriptor (s : State) (fd : Int)
    (hfd : EEFS_LibIsValidFileDescriptor s fd = true)
    (hrun : DescriptorRun fd.toNat s)
    (hr : Nat.land (s.EEFS_FileDescriptorTable fd.toNat).Mode EEFS_FREAD ≠ 0)
    (Buffer : List Nat) (Length : Nat) :
    (EEFS_LibRead s fd (some Buffer) Length).1
      = toInt32 (min ((s.EEFS_FileDescriptorTable fd.toNat).FileSize
          - (s.EEFS_FileDescriptorTable fd.toNat).ByteOffset) Length) ∧
    (min ((s.EEFS_FileDescriptorTable fd.toNat).FileSize
          - (s.EEFS_FileDescriptorTable fd.toNat).ByteOffset) Length < 2147483648 →
      (EEFS_LibRead s fd (some Buffer) Length).1
        = ((min ((s.EEFS_FileDescriptorTable fd.toNat).FileSize
          - (s.EEFS_FileDescriptorTable fd.toNat).ByteOffset) Length : Nat) : Int)) ∧
    ((s.EEFS_FileDescriptorTable fd.toNat).ByteOffset
        = (s.EEFS_FileDescriptorTable fd.toNat).FileSize →
      (EEFS_LibRead s fd (some Buffer) Length).1 = 0) ∧
    (EEFS_LibRead s fd (some Buffer) Length).2.1
      = memRead s.mem ((s.EEFS_FileDescriptorTable fd.toNat).FileHeaderPointer + 64
          + (s.EEFS_FileDescriptorTable fd.toNat).ByteOffset)
        (min ((s.EEFS_FileDescriptorTable fd.toNat).FileSize
          - (s.EEFS_FileDescriptorTable fd.toNat).ByteOffset) Length) ∧
    (s.EEFS_FileDescriptorTable fd.toNat).FileDataPointer
      = (s.EEFS_FileDescriptorTable fd.toNat).FileHeaderPointer + 64
        + (s.EEFS_FileDescriptorTable fd.toNat).ByteOffset ∧
    (s.EEFS_FileDescriptorTable fd.toNat).ByteOffset
      ≤ (s.EEFS_FileDescriptorTable fd.toNat).FileSize ∧
    (s.EEFS_FileDescriptorTable fd.toNat).FileSize
      ≤ (s.EEFS_FileDescriptorTable fd.toNat).MaxFileSize ∧
    ((EEFS_LibRead s fd (some Buffer) Length).2.2.EEFS_FileDescriptorTable fd.toNat).ByteOffset
      = (s.EEFS_FileDescriptorTable fd.toNat).ByteOffset
        + min ((s.EEFS_FileDescriptorTable fd.toNat).FileSize
          - (s.EEFS_FileDescriptorTable fd.toNat).ByteOffset) Length ∧
    ((EEFS_LibRead s fd (some Buffer) Length).2.2.EEFS_FileDescriptorTable
        fd.toNat).FileDataPointer
      = ((EEFS_LibRead s fd (some Buffer) Length).2.2.EEFS_FileDescriptorTable
          fd.toNat).FileHeaderPointer + 64
        + ((EEFS_LibRead s fd (some Buffer) Length).2.2.EEFS_FileDescriptorTable
          fd.toNat).ByteOffset ∧
    (EEFS_LibRead s fd (some Buffer) Length).2.2.mem = s.mem ∧
    ((EEFS_LibRead s fd (some Buffer) Length).2.2.EEFS_FileDescriptorTable fd.toNat).FileSize
      = (s.EEFS_FileDescriptorTable fd.toNat).FileSize := by
  obtain ⟨hd, -⟩ := descriptorRun_inSlot hrun
  obtain ⟨k, rfl, hk, hu⟩ := valid_nat s fd hfd
  simp only [Int.toNat_ofNat] at hr hd ⊢
  have hoff := hd.offset
  have hsize := hd.size
  have hdata := hd.data
  have f3 := hd.fits
  simp only [sizeofFileHeader] at hdata f3
  unfold EEFS_LibRead
  rw [if_pos hfd, if_pos (by simp)]
  simp only [Int.toNat_ofNat]
  rw [if_pos hr, min_count _ _ Length hoff (by omega)]
  generalize hc : min ((s.EEFS_FileDescriptorTable k).FileSize
    - (s.EEFS_FileDescriptorTable k).ByteOffset) Length = c
  have hcle : c ≤ (s.EEFS_FileDescriptorTable k).FileSize
      - (s.EEFS_FileDescriptorTable k).ByteOffset := by
    rw [← hc]; exact Nat.min_le_left _ _
  have hu32 : u32 ((s.EEFS_FileDescriptorTable k).ByteOffset + c)
      = (s.EEFS_FileDescriptorTable k).ByteOffset + c := by
    simp only [u32]; omega
  have hp32 : u32 ((s.EEFS_FileDescriptorTable k).FileDataPointer + c)
      = (s.EEFS_FileDescriptorTable k).FileDataPointer + c := by
    simp only [u32]; omega
  refine ⟨rfl, fun hlt => toInt32_small c hlt, ?_, ?_, hdata, hoff, hsize, ?_, ?_, ?_, ?_⟩
  · intro he
    have : c = 0 := by omega
    rw [this]; rfl
  · simp only []
    rw [hdata]
  · simp only [setFileDescriptor, Function.update_same]
    exact hu32
  · simp only [setFileDescriptor, Function.update_same]
    rw [hu32, hp32, hdata]; omega
  · simp only [setFileDescriptor]
  · simp only [setFileDescriptor, Function.update_same]

set_option maxRecDepth 100000 in
/-- C13, witness: on the one-file example volume `Open("a", O_RDWR)` returns descriptor 0; a
read of 10 bytes at the start of the file then returns 10. -/
theorem read_through_descriptor_witness :
    EEFS_LibIsValidFileDescriptor
      (EEFS_LibOpen (exEnv true) (exMountedOneFile true 100) 1 (some [97]) O_RDWR 0).2 0
        = true ∧
    DescriptorRun (0 : Int).toNat
      (EEFS_LibOpen (exEnv true) (exMountedOneFile true 100) 1 (some [97]) O_RDWR 0).2 ∧
    Nat.land ((EEFS_LibOpen (exEnv true) (exMountedOneFile true 100) 1 (some [97])
      O_RDWR 0).2.EEFS_FileDescriptorTable (0 : Int).toNat).Mode EEFS_FREAD ≠ 0 ∧
    (EEFS_LibRead
      (EEFS_LibOpen (exEnv true) (exMountedOneFile true 100) 1 (some [97]) O_RDWR 0).2
      0 (some []) 10).1 = 10 :=
  ⟨by decide,
    DescriptorRun.opened (exEnv true) (exMountedOneFile true 100) 1 (some [97]) O_RDWR 0
      (exMountedOneFile_fit true) (by decide),
    by decide,
    ((read_through_descriptor
      (EEFS_LibOpen (exEnv true) (exMountedOneFile true 100) 1 (some [97]) O_RDWR 0).2 0
      (by decide)
      (DescriptorRun.opened (exEnv true) (exMountedOneFile true 100) 1 (some [97]) O_RDWR 0
        (exMountedOneFile_fit true) (by decide))
      (by decide) [] 10).2.1 (by decide)).trans (by decide)⟩

/-! ## Writes stay in the slot of the descriptor -/

theorem packed_mono {t : EEFS_InodeTable_t} (hp : TablePacked t) :
    ∀ j, j < t.NumberOfFiles → ∀ i, i < j →
      (t.File i).FileHeaderPointer + sizeofFileHeader + (t.File i).MaxFileSize
        ≤ (t.File j).FileHeaderPointer := by
  intro j
  induction j with
  | zero => intro _ i hi; omega
  | succ j ih =>
    intro hj i hi
    have hc := hp.chain j hj
    by_cases hij : i = j
    · subst hij
      omega
    · have := ih (by omega) i (by omega)
      omega

theorem packed_behind_fat {t : EEFS_InodeTable_t} (hp : TablePacked t) (j : Nat)
    (hj : j < t.NumberOfFiles) :
    t.BaseAddress + sizeofFileAllocationTable ≤ (t.File j).FileHeaderPointer := by
  have h0 := hp.first (by omega)
  by_cases hj0 : j = 0
  · subst hj0
    exact h0
  · have := packed_mono hp j hj 0 (by omega)
    omega

theorem packed_apart {t : EEFS_InodeTable_t} (hp : TablePacked t) (i j : Nat)
    (hi : i < t.NumberOfFiles) (hj : j < t.NumberOfFiles) (hij : j ≠ i) :
    (t.File i).FileHeaderPointer + sizeofFileHeader + (t.File i).MaxFileSize
      ≤ (t.File j).FileHeaderPointer ∨
    (t.File j).FileHeaderPointer + sizeofFileHeader + (t.File j).MaxFileSize
      ≤ (t.File i).FileHeaderPointer := by
  by_cases h : i < j
  · exact Or.inl (packed_mono hp j hj i h)
  · exact Or.inr (packed_mono hp i hi j (by omega))

/-- `EEFS_LibWrite` through a descriptor that lies inside its slot changes no byte outside
the payload region `[FileHeaderPointer + 64, FileHeaderPointer + 64 + MaxFileSize)`. -/
theorem write_outside (s : State) (fd : Int) (b : Option (List Nat)) (l : Nat)
    (hd : InSlot (s.EEFS_FileDescriptorTable fd.toNat)) (a : Nat)
    (ha : a < (s.EEFS_FileDescriptorTable fd.toNat).FileHeaderPointer + 64 ∨
      (s.EEFS_FileDescriptorTable fd.toNat).FileHeaderPointer + 64
        + (s.EEFS_FileDescriptorTable fd.toNat).MaxFileSize ≤ a) :
    (EEFS_LibWrite s fd b l).2.mem a = s.mem a := by
  have hoff := hd.offset
  have hsize := hd.size
  have hdata := hd.data
  have f3 := hd.fits
  simp only [sizeofFileHeader] at hdata f3
  have hn : EEFS_MIN (u32sub (s.EEFS_FileDescriptorTable fd.toNat).MaxFileSize
      (s.EEFS_FileDescriptorTable fd.toNat).ByteOffset) l
      ≤ (s.EEFS_FileDescriptorTable fd.toNat).MaxFileSize
        - (s.EEFS_FileDescriptorTable fd.toNat).ByteOffset := by
    simp only [u32sub, EEFS_MIN]
    (try split_ifs) <;> omega
  unfold EEFS_LibWrite
  by_cases hfd : EEFS_LibIsValidFileDescriptor s fd = true
  · rw [if_pos hfd]
    by_cases hb : b ≠ none
    · rw [if_pos hb]
      simp only []
      by_cases hm : Nat.land (s.EEFS_FileDescriptorTable fd.toNat).Mode EEFS_FWRITE ≠ 0
      · rw [if_pos hm]
        show memWrite s.mem _ _ a = s.mem a
        apply memWrite_out
        rw [List.length_map, List.length_range]
        omega
      · rw [if_neg hm]
    · rw [if_neg hb]
  · rw [if_neg hfd]

/-- C37. Writes are confined to the file's own slot. Let the inode table of a valid
descriptor satisfy the Pack equation, let the descriptor be on inode `i` of that table
(its `InodeIndex` is `i`, below `NumberOfFiles`, and its `FileHeaderPointer` and
`MaxFileSize` are those of slot `i`, as `EEFS_LibOpenFile` and `EEFS_LibCreatFile` set
them), and let it be open: `EEFS_LibOpen` or `EEFS_LibCreat` returned it on a table whose
slots end below `2^32` and hold their files, and any public functions were called since
that left it in use. Then for every buffer and every `Length`, `EEFS_LibWrite` changes no
byte of the file allocation table, no byte of the file header of any slot of the inode
table, slot `i` included, no byte of the payload region of any slot `j ≠ i`, and no byte
at all outside the payload region of slot `i`. Nothing is assumed of the descriptor's mode,
so that this holds while `i` is a file being created, whose slot is the last of the table
and has the unallocated tail as its capacity. -/
theorem write_confined_to_slot (s : State) (fd : Int)
    (hfd : EEFS_LibIsValidFileDescriptor s fd = true)
    (hrun : DescriptorRun fd.toNat s)
    (hpack : TablePacked (s.InodeTables (s.EEFS_FileDescriptorTable fd.toNat).InodeTable))
    (hidx : (s.EEFS_FileDescriptorTable fd.toNat).InodeIndex
      < (s.InodeTables (s.EEFS_FileDescriptorTable fd.toNat).InodeTable).NumberOfFiles)
    (hhdr : (s.EEFS_FileDescriptorTable fd.toNat).FileHeaderPointer
      = ((s.InodeTables (s.EEFS_FileDescriptorTable fd.toNat).InodeTable).File
          (s.EEFS_FileDescriptorTable fd.toNat).InodeIndex).FileHeaderPointer)
    (hmax : (s.EEFS_FileDescriptorTable fd.toNat).MaxFileSize
      = ((s.InodeTables (s.EEFS_FileDescriptorTable fd.toNat).InodeTable).File
          (s.EEFS_FileDescriptorTable fd.toNat).InodeIndex).MaxFileSize)
    (Buffer : Option (List Nat)) (Length : Nat) :
    (∀ a, (s.InodeTables (s.EEFS_FileDescriptorTable fd.toNat).InodeTable).BaseAddress ≤ a →
      a < (s.InodeTables (s.EEFS_FileDescriptorTable fd.toNat).InodeTable).BaseAddress
        + sizeofFileAllocationTable →
      (EEFS_LibWrite s fd Buffer Length).2.mem a = s.mem a) ∧
    (∀ j, j < (s.InodeTables (s.EEFS_FileDescriptorTable fd.toNat).InodeTable).NumberOfFiles →
      ∀ a, ((s.InodeTables (s.EEFS_FileDescriptorTable fd.toNat).InodeTable).File
            j).FileHeaderPointer ≤ a →
        a < ((s.InodeTables (s.EEFS_FileDescriptorTable fd.toNat).InodeTable).File
            j).FileHeaderPointer + sizeofFileHeader →
        (EEFS_LibWrite s fd Buffer Length).2.mem a = s.mem a) ∧
    (∀ j, j < (s.InodeTables (s.EEFS_FileDescriptorTable fd.toNat).InodeTable).NumberOfFiles →
      j ≠ (s.EEFS_FileDescriptorTable fd.toNat).InodeIndex →
      ∀ a, ((s.InodeTables (s.EEFS_FileDescriptorTable fd.toNat).InodeTable).File
            j).FileHeaderPointer + sizeofFileHeader ≤ a →
        a < ((s.InodeTables (s.EEFS_FileDescriptorTable fd.toNat).InodeTable).File
            j).FileHeaderPointer + sizeofFileHeader
          + ((s.InodeTables (s.EEFS_FileDescriptorTable fd.toNat).InodeTable).File
            j).MaxFileSize →
        (EEFS_LibWrite s fd Buffer Length).2.mem a = s.mem a) ∧
    (∀ a, (a < (s.EEFS_FileDescriptorTable fd.toNat).FileHeaderPointer + sizeofFileHeader ∨
        (s.EEFS_FileDescriptorTable fd.toNat).FileHeaderPointer + sizeofFileHeader
          + (s.EEFS_FileDescriptorTable fd.toNat).MaxFileSize ≤ a) →
      (EEFS_LibWrite s fd Buffer Length).2.mem a = s.mem a) := by
  obtain ⟨hd, -⟩ := descriptorRun_inSlot hrun
  generalize hgt : s.InodeTables (s.EEFS_FileDescriptorTable fd.toNat).InodeTable = t
    at hpack hidx hhdr hmax ⊢
  have hfat := packed_behind_fat hpack _ hidx
  simp only [sizeofFileHeader, sizeofFileAllocationTable] at hfat ⊢
  refine ⟨?_, ?_, ?_, ?_⟩
  · intro a h1 h2
    exact write_outside s fd Buffer Length hd a (by omega)
  · intro j hj a h1 h2
    apply write_outside s fd Buffer Length hd a
    by_cases hji : j = (s.EEFS_FileDescriptorTable fd.toNat).InodeIndex
    · subst hji
      left
      omega
    · have h3 := packed_apart hpack _ j hidx hj hji
      simp only [sizeofFileHeader] at h3
      rcases h3 with h3 | h3
      · right; omega
      · left; omega
  · intro j hj hji a h1 h2
    apply write_outside s fd Buffer Length hd a
    have h3 := packed_apart hpack _ j hidx hj hji
    simp only [sizeofFileHeader] at h3
    rcases h3 with h3 | h3
    · right; omega
    · left; omega
  · intro a ha
    exact write_outside s fd Buffer Length hd a ha

/-- A successful `EEFS_LibCreatFile` on a packed inode table whose chain of slots ends at the
free memory yields a packed table again: the new slot is the last one, it begins at
`FreeMemoryPointer` and its capacity is the unallocated tail, `FreeMemorySize - 64`; the
descriptor returned is on that slot and has `EEFS_FCREAT`. -/
theorem creatFile_on_slot (env : Env) (s : State) (T : Nat) (f : List Nat) (A : Nat) (k : Nat)
    (hp : TablePacked (s.InodeTables T)) (htail : TableTail (s.InodeTables T))
    (hfit : SlotsFit env s T)
    (hk : (EEFS_LibCreatFile env s T f A).1 = (k : Int)) :
    ((EEFS_LibCreatFile env s T f A).2.EEFS_FileDescriptorTable k).InodeTable = T ∧
    ((EEFS_LibCreatFile env s T f A).2.EEFS_FileDescriptorTable k).InodeIndex
      = (s.InodeTables T).NumberOfFiles ∧
    ((EEFS_LibCreatFile env s T f A).2.InodeTables T).NumberOfFiles
      = (s.InodeTables T).NumberOfFiles + 1 ∧
    TablePacked ((EEFS_LibCreatFile env s T f A).2.InodeTables T) ∧
    ((EEFS_LibCreatFile env s T f A).2.EEFS_FileDescriptorTable k).FileHeaderPointer
      = (((EEFS_LibCreatFile env s T f A).2.InodeTables T).File
          (s.InodeTables T).NumberOfFiles).FileHeaderPointer ∧
    ((EEFS_LibCreatFile env s T f A).2.EEFS_FileDescriptorTable k).MaxFileSize
      = (((EEFS_LibCreatFile env s T f A).2.InodeTables T).File
          (s.InodeTables T).NumberOfFiles).MaxFileSize ∧
    ((EEFS_LibCreatFile env s T f A).2.EEFS_FileDescriptorTable k).FileHeaderPointer
      = ((EEFS_LibCreatFile env s T f A).2.InodeTables T).FreeMemoryPointer ∧
    ((EEFS_LibCreatFile env s T f A).2.EEFS_FileDescriptorTable k).MaxFileSize
      = ((EEFS_LibCreatFile env s T f A).2.InodeTables T).FreeMemorySize - sizeofFileHeader ∧
    Nat.land ((EEFS_LibCreatFile env s T f A).2.EEFS_FileDescriptorTable k).Mode EEFS_FCREAT
      ≠ 0 := by
  rcases creatFile_cases env s T f A with ⟨-, hneg⟩ |
    ⟨k2, -, -, hret, hr, -, hnum, -, hfree, -, he⟩
  · rw [hk] at hneg
    omega
  · have hkk : k2 = k := by rw [hr] at hk; exact_mod_cast hk
    subst hkk
    obtain ⟨-, -, -, htabs, -⟩ := getFD_of_ret s k2 hret
    have hd : (EEFS_LibCreatFile env s T f A).2.EEFS_FileDescriptorTable k2 =
        createdDescriptor s T := by
      rw [he]
      simp only [setFileDescriptor, Function.update_same]
    have ht : (EEFS_LibCreatFile env s T f A).2.InodeTables T = createdTable (s.InodeTables T) := by
      rw [he]
      simp only [setFileDescriptor, EEFS_LIB_EEPROM_FLUSH, EEFS_LIB_EEPROM_WRITE, setInodeTable,
        Function.update_same]
    rw [hd, ht]
    unfold EEFS_MAX_FILES at hnum
    simp only [sizeofFileHeader] at hfree
    have hN : u32 ((s.InodeTables T).NumberOfFiles + 1) = (s.InodeTables T).NumberOfFiles + 1 := by
      simp only [u32]; omega
    have c : Nat.land (Nat.lor EEFS_FCREAT EEFS_FWRITE) EEFS_FCREAT ≠ 0 := by decide
    have hfr := hfit.free
    refine ⟨rfl, rfl, ?_, ?_, ?_, ?_, rfl, ?_, by simp only [createdDescriptor]; exact c⟩
    · simp only [createdTable, hN]
    · constructor
      · intro _
        simp only [createdTable, Function.update_apply]
        by_cases h0 : 0 = (s.InodeTables T).NumberOfFiles
        · rw [if_pos h0]
          unfold TableTail at htail
          rw [if_pos h0.symm] at htail
          exact htail
        · rw [if_neg h0]
          exact hp.first (by omega)
      · intro i hi
        simp only [createdTable, hN, Function.update_apply] at hi ⊢
        rw [if_neg (by omega : ¬ i = (s.InodeTables T).NumberOfFiles)]
        by_cases hl : i + 1 = (s.InodeTables T).NumberOfFiles
        · rw [if_pos hl]
          unfold TableTail at htail
          rw [if_neg (by omega)] at htail
          have e : (s.InodeTables T).NumberOfFiles - 1 = i := by omega
          rw [e] at htail
          exact htail
        · rw [if_neg hl]
          exact hp.chain i (by omega)
    · simp only [createdTable, createdDescriptor, Function.update_same]
    · simp only [createdTable, createdDescriptor, Function.update_same]
    · simp only [createdTable, createdDescriptor, u32sub, sizeofFileHeader]
      omega

/-- A successful `EEFS_LibOpenFile` of slot `i` returns a descriptor on inode `i`: its
`FileHeaderPointer` and `MaxFileSize` are those of the slot, and the inode table is as
before. -/
theorem openFile_on_slot (env : Env) (s : State) (T : Nat) (i : Nat) (Flags A : Nat) (k : Nat)
    (hi : i < 2147483648)
    (hk : (EEFS_LibOpenFile env s T (toInt32 i) Flags A).1 = (k : Int)) :
    (EEFS_LibOpenFile env s T (toInt32 i) Flags A).2.InodeTables = s.InodeTables ∧
    ((EEFS_LibOpenFile env s T (toInt32 i) Flags A).2.EEFS_FileDescriptorTable k).InodeTable
      = T ∧
    ((EEFS_LibOpenFile env s T (toInt32 i) Flags A).2.EEFS_FileDescriptorTable k).InodeIndex
      = i ∧
    ((EEFS_LibOpenFile env s T (toInt32 i) Flags A).2.EEFS_FileDescriptorTable
      k).FileHeaderPointer = ((s.InodeTables T).File i).FileHeaderPointer ∧
    ((EEFS_LibOpenFile env s T (toInt32 i) Flags A).2.EEFS_FileDescriptorTable
      k).MaxFileSize = ((s.InodeTables T).File i).MaxFileSize := by
  rcases openFile_cases env s T (toInt32 i) Flags A with ⟨-, hneg⟩ |
    ⟨k2, -, -, hret, hr, -, -, he⟩
  · rw [hk] at hneg
    omega
  · have hkk : k2 = k := by rw [hr] at hk; exact_mod_cast hk
    subst hkk
    obtain ⟨-, -, -, htabs, -⟩ := getFD_of_ret s k2 hret
    have hti : (toInt32 i).toNat = i := by
      rw [toInt32_small i hi]
      exact Int.toNat_ofNat i
    have hoi : ofInt32 (toInt32 i) = i := by
      rw [ofInt32_toInt32]
      exact Nat.mod_eq_of_lt (by omega)
    have hd : (EEFS_LibOpenFile env s T (toInt32 i) Flags A).2.EEFS_FileDescriptorTable k2 =
        openedDescriptor env s T (toInt32 i) Flags := by
      rw [he, setFD_getFD_fds s k2 _ hret, Function.update_same]
    rw [hd]
    refine ⟨?_, rfl, ?_, ?_, ?_⟩
    · rw [he]
      exact htabs
    · simp only [openedDescriptor, hoi]
    · simp only [openedDescriptor, hti]
    · simp only [openedDescriptor, hti]

set_option maxRecDepth 100000 in
theorem exMountedOneFile_packed (le : Bool) :
    TablePacked ((exMountedOneFile le 100).InodeTables 1) ∧
    TableTail ((exMountedOneFile le 100).InodeTables 1) := by
  have hN : ((exMountedOneFile le 100).InodeTables 1).NumberOfFiles = 1 := by
    cases le <;> decide
  refine ⟨⟨fun _ => by cases le <;> decide, ?_⟩, ?_⟩
  · intro i hi
    rw [hN] at hi
    omega
  · unfold TableTail
    rw [hN]
    cases le <;> decide

set_option maxRecDepth 100000 in
/-- C37, witness: `Creat("b")` on the mounted one-file example volume returns descriptor 0
with `EEFS_FCREAT` on slot 1, whose capacity is the unallocated tail; a write of two bytes
through it returns 2 and leaves the first payload byte of slot 0, the file "a", alone. -/
theorem write_confined_to_slot_witness :
    EEFS_LibIsValidFileDescriptor (exCreatSecond true).2 0 = true ∧
    Nat.land ((exCreatSecond true).2.EEFS_FileDescriptorTable (0 : Int).toNat).Mode EEFS_FCREAT
      ≠ 0 ∧
    ((exCreatSecond true).2.EEFS_FileDescriptorTable (0 : Int).toNat).InodeIndex = 1 ∧
    ((exCreatSecond true).2.EEFS_FileDescriptorTable (0 : Int).toNat).MaxFileSize
      = ((exCreatSecond true).2.InodeTables 1).FreeMemorySize - sizeofFileHeader ∧
    (EEFS_LibWrite (exCreatSecond true).2 0 (some [119, 111]) 2).1 = 2 ∧
    (EEFS_LibWrite (exCreatSecond true).2 0 (some [119, 111]) 2).2.mem
        ((((exCreatSecond true).2.InodeTables 1).File 0).FileHeaderPointer + sizeofFileHeader)
      = (exCreatSecond true).2.mem
        ((((exCreatSecond true).2.InodeTables 1).File 0).FileHeaderPointer + sizeofFileHeader) :=
  ⟨by decide, by decide, by decide, by decide, by decide,
    (write_confined_to_slot (exCreatSecond true).2 0 (by decide)
      (DescriptorRun.created (exEnv true) (exMountedOneFile true 100) 1 (some [98])
        EEFS_ATTRIBUTE_NONE (exMountedOneFile_fit true) (by decide))
      (creatFile_on_slot (exEnv true) (exMountedOneFile true 100) 1 [98] EEFS_ATTRIBUTE_NONE 0
        (exMountedOneFile_packed true).1 (exMountedOneFile_packed true).2
        (exMountedOneFile_fit true) (by decide)).2.2.2.1
      (by decide) (by decide) (by decide) (some [119, 111]) 2).2.2.1 0 (by decide) (by decide)
      _ (Nat.le_refl _) (by decide)⟩

/-! ## The file being created keeps its slot until the close -/

theorem read_static (s : State) (fd : Int) (b : Option (List Nat)) (l : Nat) (k : Nat) :
    ((EEFS_LibRead s fd b l).2.2.EEFS_FileDescriptorTable k).MaxFileSize
      = (s.EEFS_FileDescriptorTable k).MaxFileSize ∧
    ((EEFS_LibRead s fd b l).2.2.EEFS_FileDescriptorTable k).Mode
      = (s.EEFS_FileDescriptorTable k).Mode ∧
    ((EEFS_LibRead s fd b l).2.2.EEFS_FileDescriptorTable k).InodeTable
      = (s.EEFS_FileDescriptorTable k).InodeTable ∧
    ((EEFS_LibRead s fd b l).2.2.EEFS_FileDescriptorTable k).InodeIndex
      = (s.EEFS_FileDescriptorTable k).InodeIndex ∧
    ((EEFS_LibRead s fd b l).2.2.EEFS_FileDescriptorTable k).FileHeaderPointer
      = (s.EEFS_FileDescriptorTable k).FileHeaderPointer ∧
    (EEFS_LibRead s fd b l).2.2.InodeTables = s.InodeTables := by
  unfold EEFS_LibRead
  simp only []
  split_ifs <;> (try simp only [setFileDescriptor, Function.update_apply]) <;>
    (try split_ifs) <;> simp_all

theorem write_static (s : State) (fd : Int) (b : Option (List Nat)) (l : Nat) (k : Nat) :
    ((EEFS_LibWrite s fd b l).2.EEFS_FileDescriptorTable k).MaxFileSize
      = (s.EEFS_FileDescriptorTable k).MaxFileSize ∧
    ((EEFS_LibWrite s fd b l).2.EEFS_FileDescriptorTable k).Mode
      = (s.EEFS_FileDescriptorTable k).Mode ∧
    ((EEFS_LibWrite s fd b l).2.EEFS_FileDescriptorTable k).InodeTable
      = (s.EEFS_FileDescriptorTable k).InodeTable ∧
    ((EEFS_LibWrite s fd b l).2.EEFS_FileDescriptorTable k).InodeIndex
      = (s.EEFS_FileDescriptorTable k).InodeIndex ∧
    ((EEFS_LibWrite s fd b l).2.EEFS_FileDescriptorTable k).FileHeaderPointer
      = (s.EEFS_FileDescriptorTable k).FileHeaderPointer ∧
    (EEFS_LibWrite s fd b l).2.InodeTables = s.InodeTables := by
  unfold EEFS_LibWrite
  simp only []
  split_ifs <;>
    (try simp only [setFileDescriptor, EEFS_LIB_EEPROM_WRITE, Function.update_apply]) <;>
    (try split_ifs) <;> simp_all

theorem lseek_static (s : State) (fd : Int) (o : Int) (w : Nat) (k : Nat) :
    ((EEFS_LibLSeek s fd o w).2.EEFS_FileDescriptorTable k).MaxFileSize
      = (s.EEFS_FileDescriptorTable k).MaxFileSize ∧
    ((EEFS_LibLSeek s fd o w).2.EEFS_FileDescriptorTable k).Mode
      = (s.EEFS_FileDescriptorTable k).Mode ∧
    ((EEFS_LibLSeek s fd o w).2.EEFS_FileDescriptorTable k).InodeTable
      = (s.EEFS_FileDescriptorTable k).InodeTable ∧
    ((EEFS_LibLSeek s fd o w).2.EEFS_FileDescriptorTable k).InodeIndex
      = (s.EEFS_FileDescriptorTable k).InodeIndex ∧
    ((EEFS_LibLSeek s fd o w).2.EEFS_FileDescriptorTable k).FileHeaderPointer
      = (s.EEFS_FileDescriptorTable k).FileHeaderPointer ∧
    (EEFS_LibLSeek s fd o w).2.InodeTables = s.InodeTables := by
  unfold EEFS_LibLSeek
  simp only []
  split_ifs <;> (try simp only [setFileDescriptor, Function.update_apply]) <;>
    (try split_ifs) <;> simp_all

/-- The invariant carries over to a state with the same inode table `T`, the same static
fields of descriptor `k`, and no new descriptor with `EEFS_FCREAT` on `T`. -/
theorem pending_transfer {s s2 : State} {T k : Nat} (h : CreatPending s T k)
    (ht : s2.InodeTables T = s.InodeTables T)
    (hu : fdInUse s2 k)
    (hin : InSlot (s2.EEFS_FileDescriptorTable k))
    (h1 : (s2.EEFS_FileDescriptorTable k).MaxFileSize = (s.EEFS_FileDescriptorTable k).MaxFileSize)
    (h2 : (s2.EEFS_FileDescriptorTable k).Mode = (s.EEFS_FileDescriptorTable k).Mode)
    (h3 : (s2.EEFS_FileDescriptorTable k).InodeTable = (s.EEFS_FileDescriptorTable k).InodeTable)
    (h4 : (s2.EEFS_FileDescriptorTable k).InodeIndex = (s.EEFS_FileDescriptorTable k).InodeIndex)
    (h5 : (s2.EEFS_FileDescriptorTable k).FileHeaderPointer
      = (s.EEFS_FileDescriptorTable k).FileHeaderPointer)
    (ho : ∀ j, j < EEFS_MAX_OPEN_FILES → fdInUse s2 j →
      (s2.EEFS_FileDescriptorTable j).InodeTable = T →
      Nat.land (s2.EEFS_FileDescriptorTable j).Mode EEFS_FCREAT ≠ 0 → j = k) :
    CreatPending s2 T k := by
  refine ⟨h.lt, hu, ?_, ?_, hin, ?_, ?_, ?_, ?_, ?_, ?_, ?_, ho⟩
  · rw [h3]; exact h.table
  · rw [h2]; exact h.creat
  · rw [ht, h5]; exact h.pointer
  · rw [ht, h4]; exact h.header
  · rw [ht, h1]; exact h.max
  · rw [h4]; exact h.index
  · rw [ht]; exact h.fat
  · rw [ht]; exact h.fits
  · rw [ht]; exact h.count

theorem only_of_kept {s s2 : State} {T k : Nat} (h : CreatPending s T k)
    (hk : DescriptorsKept s s2) :
    ∀ j, j < EEFS_MAX_OPEN_FILES → fdInUse s2 j →
      (s2.EEFS_FileDescriptorTable j).InodeTable = T →
      Nat.land (s2.EEFS_FileDescriptorTable j).Mode EEFS_FCREAT ≠ 0 → j = k := by
  intro j hj hu ht hc
  obtain ⟨hu0, hm, hti, -, -⟩ := hk j hj hu
  exact h.only j hj hu0 (by rw [← hti]; exact ht) (by rw [← hm]; exact hc)

theorem only_of_update {s s2 : State} {T k : Nat} (h : CreatPending s T k) (k2 : Nat)
    (nd : EEFS_FileDescriptor_t)
    (hfd : s2.EEFS_FileDescriptorTable = Function.update s.EEFS_FileDescriptorTable k2 nd)
    (hfree : (s.EEFS_FileDescriptorTable k2).InUse = FALSE)
    (hnew : nd.InodeTable = T → Nat.land nd.Mode EEFS_FCREAT = 0) :
    ∀ j, j < EEFS_MAX_OPEN_FILES → fdInUse s2 j →
      (s2.EEFS_FileDescriptorTable j).InodeTable = T →
      Nat.land (s2.EEFS_FileDescriptorTable j).Mode EEFS_FCREAT ≠ 0 → j = k := by
  intro j hj hu ht hc
  unfold fdInUse at hu
  rw [hfd] at hu ht hc
  by_cases hjk : j = k2
  · subst hjk
    rw [Function.update_same] at ht hc
    exact absurd (hnew ht) hc
  · rw [Function.update_noteq hjk] at hu ht hc
    exact h.only j hj hu ht hc

theorem pending_openFile {s : State} {T k : Nat} (h : CreatPending s T k)
    (env : Env) (t : Nat) (idx : Int) (Flags A : Nat)
    (hmode : t = T → Nat.land (u32 (Nat.land Flags O_ACCMODE + 1)) EEFS_FCREAT = 0) :
    CreatPending (EEFS_LibOpenFile env s t idx Flags A).2 T k := by
  have hkeep := openFile_fds_kept env s t idx Flags A k h.inuse
  rcases openFile_cases env s t idx Flags A with ⟨he, -⟩ | ⟨k2, -, hfree, hret, -, -, -, he⟩
  · rw [he]; exact h
  · obtain ⟨-, -, -, htabs, -⟩ := getFD_of_ret s k2 hret
    have hfd := setFD_getFD_fds s k2 (openedDescriptor env s t idx Flags) hret
    have hu : fdInUse (EEFS_LibOpenFile env s t idx Flags A).2 k := by
      unfold fdInUse
      rw [hkeep]
      exact h.inuse
    refine pending_transfer h ?_ hu (by rw [hkeep]; exact h.slot) (by rw [hkeep])
      (by rw [hkeep]) (by rw [hkeep]) (by rw [hkeep]) (by rw [hkeep]) ?_
    · rw [he]
      show (EEFS_LibGetFileDescriptor s).2.InodeTables T = _
      rw [htabs]
    · apply only_of_update h k2 (openedDescriptor env s t idx Flags) (by rw [he]; exact hfd)
        hfree
      intro ht
      exact hmode ht

theorem pending_creatFile {s : State} {T k : Nat} (h : CreatPending s T k)
    (env : Env) (t : Nat) (f : List Nat) (A : Nat) :
    CreatPending (EEFS_LibCreatFile env s t f A).2 T k := by
  have hkeep := creatFile_fds_kept env s t f A k h.inuse
  rcases creatFile_cases env s t f A with ⟨he, -⟩ |
    ⟨k2, -, hfree, hret, -, -, -, hoc, -, -, he⟩
  · rw [he]; exact h
  · have htT : t ≠ T := by
      intro e
      subst e
      have : EEFS_LibHasOpenCreat s t = true :=
        (hasOpenCreat_true_iff s t).2 ⟨k, h.lt, h.inuse, h.table, h.creat⟩
      rw [this] at hoc
      exact absurd hoc (by decide)
    obtain ⟨-, -, htab, htabs, -⟩ := getFD_of_ret s k2 hret
    have hu : fdInUse (EEFS_LibCreatFile env s t f A).2 k := by
      unfold fdInUse
      rw [hkeep]
      exact h.inuse
    refine pending_transfer h ?_ hu (by rw [hkeep]; exact h.slot) (by rw [hkeep])
      (by rw [hkeep]) (by rw [hkeep]) (by rw [hkeep]) (by rw [hkeep]) ?_
    · rw [he]
      simp only [setFileDescriptor, EEFS_LIB_EEPROM_FLUSH, EEFS_LIB_EEPROM_WRITE, setInodeTable,
        Function.update_noteq (Ne.symm htT), htabs]
    · apply only_of_update h k2 (createdDescriptor s t) ?_ hfree
      · intro ht
        exact absurd ht htT
      · rw [he]
        simp only [setFileDescriptor, EEFS_LIB_EEPROM_FLUSH, EEFS_LIB_EEPROM_WRITE,
          setInodeTable, htab, Function.update_idem]

theorem mode_no_creat (fl : Nat) (h : Nat.land fl O_ACCMODE ≠ Nat.lor O_WRONLY O_RDWR) :
    Nat.land (u32 (Nat.land fl O_ACCMODE + 1)) EEFS_FCREAT = 0 := by
  have hle : Nat.land fl O_ACCMODE ≤ 3 := Nat.and_le_right
  have h3 : Nat.lor O_WRONLY O_RDWR = 3 := by decide
  rw [h3] at h
  generalize Nat.land fl O_ACCMODE = x at *
  interval_cases x
  · decide
  · decide
  · decide
  · exact absurd rfl h

theorem pending_same {s s2 : State} {T k : Nat} (h : CreatPending s T k)
    (hf : s2.EEFS_FileDescriptorTable = s.EEFS_FileDescriptorTable)
    (ht : s2.InodeTables T = s.InodeTables T) : CreatPending s2 T k := by
  have hu : fdInUse s2 k := by
    unfold fdInUse
    rw [hf]
    exact h.inuse
  refine pending_transfer h ht hu (by rw [hf]; exact h.slot) (by rw [hf]) (by rw [hf])
    (by rw [hf]) (by rw [hf]) (by rw [hf]) ?_
  intro j hj hu2 ht2 hc2
  unfold fdInUse at hu2
  rw [hf] at hu2 ht2 hc2
  exact h.only j hj hu2 ht2 hc2

theorem closeBody_table {s : State} {T k : Nat} (h : CreatPending s T k) (env : Env) (j : Nat)
    (hj : j < EEFS_MAX_OPEN_FILES) (hu : fdInUse s j) (hjk : j ≠ k) :
    (closeBody env s j).InodeTables T = s.InodeTables T := by
  unfold closeBody
  split_ifs with h1 h2
  · have hne : (s.EEFS_FileDescriptorTable j).InodeTable ≠ T := by
      intro e
      exact hjk (h.only j hj hu e h1)
    rw [closeCreat_eq]
    simp only [Function.update_noteq (Ne.symm hne)]
  · rfl
  · rfl

/-- Every call that `creatingCall` admits and that leaves descriptor `k` in use keeps the
file being created as it is: its slot, the free memory of the inode table and the static
fields of the descriptor. -/
theorem pending_call {s : State} {T k : Nat} (h : CreatPending s T k) (env : Env) (c : Call)
    (hc : creatingCall T c) (hu : fdInUse (c.run env s) k) :
    CreatPending (c.run env s) T k := by
  cases c with
  | LibInit =>
    have hz : zeroFileDescriptor.InUse ≠ TRUE := by decide
    exact absurd hu hz
  | LibInitFS t b =>
    have ht : t ≠ T := hc
    show CreatPending (EEFS_LibInitFS env s t b).2 T k
    unfold EEFS_LibInitFS
    simp only []
    split_ifs
    · exact pending_same h rfl
        (by simp only [setInodeTable, Function.update_noteq (Ne.symm ht)])
    · exact h
    · exact h
  | LibFreeFS t =>
    show CreatPending (EEFS_LibFreeFS s t).2 T k
    unfold EEFS_LibFreeFS
    split_ifs with h0 hb
    · have ht : t ≠ T := by
        intro e
        subst e
        have : EEFS_LibHasOpenFiles s t = true :=
          (hasOpenFiles_true_iff s t).2 ⟨k, h.lt, h.inuse, h.table⟩
        rw [this] at hb
        exact absurd hb.1 (by decide)
      exact pending_same h rfl
        (by simp only [setInodeTable, Function.update_noteq (Ne.symm ht)])
    · exact h
    · exact h
  | LibOpen t f fl a =>
    show CreatPending (EEFS_LibOpen env s t f fl a).2 T k
    unfold EEFS_LibOpen
    simp only []
    split_ifs
    · exact pending_openFile h env t _ fl a (fun e => mode_no_creat fl (hc e))
    · exact pending_creatFile h env t _ _
    · exact h
    · exact h
    · exact h
  | LibCreat t f a =>
    show CreatPending (EEFS_LibCreat env s t f a).2 T k
    have c0 : Nat.land (u32 (Nat.land (Nat.lor O_WRONLY O_TRUNC) O_ACCMODE + 1)) EEFS_FCREAT
        = 0 := by decide
    unfold EEFS_LibCreat
    simp only []
    split_ifs
    · exact pending_openFile h env t _ _ a (fun _ => c0)
    · exact pending_creatFile h env t _ _
    · exact h
    · exact h
  | LibClose fd =>
    show CreatPending (EEFS_LibClose env s fd).2 T k
    have hu2 : fdInUse (EEFS_LibClose env s fd).2 k := hu
    have hko := only_of_kept h (kept_close env s fd)
    rw [close_eq] at hu2 hko ⊢
    by_cases hv : EEFS_LibIsValidFileDescriptor s fd = true
    · rw [if_pos hv] at hu2 hko ⊢
      obtain ⟨hj, huj, -⟩ := valid_lt s fd hv
      have hz : zeroFileDescriptor.InUse ≠ TRUE := by decide
      have hne : k ≠ fd.toNat := by
        intro e
        unfold fdInUse at hu2
        simp only [freedDescriptor, ← e, Function.update_same] at hu2
        exact absurd hu2 hz
      have hfk : (freedDescriptor (closeBody env s fd.toNat) fd.toNat).EEFS_FileDescriptorTable k
          = s.EEFS_FileDescriptorTable k := by
        simp only [freedDescriptor, Function.update_noteq hne, closeBody_fds]
      refine pending_transfer h ?_ hu2 (by rw [hfk]; exact h.slot) (by rw [hfk]) (by rw [hfk])
        (by rw [hfk]) (by rw [hfk]) (by rw [hfk]) hko
      show (closeBody env s fd.toNat).InodeTables T = _
      exact closeBody_table h env fd.toNat hj huj (Ne.symm hne)
    · rw [if_neg hv]
      exact h
  | LibRead fd b l =>
    obtain ⟨h1, h2, h3, h4, h5, h6⟩ := read_static s fd b l k
    exact pending_transfer h (by show (EEFS_LibRead s fd b l).2.2.InodeTables T = _; rw [h6]) hu
      (inSlot_read s fd b l k h.slot h.inuse).1 h1 h2 h3 h4 h5
      (only_of_kept h (kept_read s fd b l))
  | LibWrite fd b l =>
    obtain ⟨h1, h2, h3, h4, h5, h6⟩ := write_static s fd b l k
    exact pending_transfer h (by show (EEFS_LibWrite s fd b l).2.InodeTables T = _; rw [h6]) hu
      (inSlot_write s fd b l k h.slot h.inuse).1 h1 h2 h3 h4 h5
      (only_of_kept h (kept_write s fd b l))
  | LibLSeek fd o w =>
    obtain ⟨h1, h2, h3, h4, h5, h6⟩ := lseek_static s fd o w k
    exact pending_transfer h (by show (EEFS_LibLSeek s fd o w).2.InodeTables T = _; rw [h6]) hu
      (inSlot_lseek s fd o w k hc.1 hc.2 h.slot h.inuse).1 h1 h2 h3 h4 h5
      (only_of_kept h (kept_lseek s fd o w))
  | LibRemove t f =>
    show CreatPending (EEFS_LibRemove env s t f).2 T k
    unfold EEFS_LibRemove
    simp only []
    split_ifs <;> first | exact h | exact pending_same h rfl rfl
  | LibRename t f g =>
    show CreatPending (EEFS_LibRename env s t f g).2 T k
    unfold EEFS_LibRename
    simp only []
    split_ifs <;> first | exact h | exact pending_same h rfl rfl
  | LibStat t f b => exact h
  | LibFstat fd b => exact h
  | LibSetFileAttributes t f a =>
    show CreatPending (EEFS_LibSetFileAttributes env s t f a).2 T k
    unfold EEFS_LibSetFileAttributes
    simp only []
    split_ifs <;> first | exact h | exact pending_same h rfl rfl
  | LibOpenDir t =>
    show CreatPending (EEFS_LibOpenDir s t).2 T k
    unfold EEFS_LibOpenDir
    split_ifs <;> first | exact h | exact pending_same h rfl rfl
  | LibReadDir d =>
    show CreatPending (EEFS_LibReadDir env s d).2 T k
    unfold EEFS_LibReadDir
    simp only []
    split_ifs <;> first | exact h | exact pending_same h rfl rfl
  | LibCloseDir d =>
    show CreatPending (EEFS_LibCloseDir s d).2 T k
    unfold EEFS_LibCloseDir
    split_ifs <;> first | exact h | exact pending_same h rfl rfl

/-- `EEFS_LibCreat` of a name that is not found, on an inode table whose free memory lies
behind the file allocation table and ends below `2^32`, returns the descriptor of a file
being created. -/
theorem pending_created (env : Env) (s : State) (T k : Nat) (f : List Nat) (A : Nat)
    (hfat : (s.InodeTables T).BaseAddress + sizeofFileAllocationTable
      ≤ (s.InodeTables T).FreeMemoryPointer)
    (hfit : (s.InodeTables T).FreeMemoryPointer + (s.InodeTables T).FreeMemorySize < 4294967296)
    (hnew : EEFS_LibFindFile env s T f = EEFS_FILE_NOT_FOUND)
    (hk : (EEFS_LibCreat env s T (some f) A).1 = (k : Int)) :
    CreatPending (EEFS_LibCreat env s T (some f) A).2 T k := by
  obtain ⟨k2, hk2, hfree, hret, hr, -, hnum, hoc, hroom, -, he⟩ :=
    creat_new_cases env s T f A hnew (by rw [hk]; omega)
  have hkk : k2 = k := by rw [hr] at hk; exact_mod_cast hk
  subst hkk
  obtain ⟨-, -, htab, htabs, -⟩ := getFD_of_ret s k2 hret
  have hd : (EEFS_LibCreat env s T (some f) A).2.EEFS_FileDescriptorTable =
      Function.update s.EEFS_FileDescriptorTable k2 (createdDescriptor s T) := by
    rw [he]
    simp only [setFileDescriptor, EEFS_LIB_EEPROM_FLUSH, EEFS_LIB_EEPROM_WRITE, setInodeTable,
      htab, Function.update_idem]
  have ht : (EEFS_LibCreat env s T (some f) A).2.InodeTables T = createdTable (s.InodeTables T) := by
    rw [he]
    simp only [setFileDescriptor, EEFS_LIB_EEPROM_FLUSH, EEFS_LIB_EEPROM_WRITE, setInodeTable,
      Function.update_same]
  unfold EEFS_MAX_FILES at hnum
  simp only [sizeofFileHeader] at hroom
  have c : Nat.land (Nat.lor EEFS_FCREAT EEFS_FWRITE) EEFS_FCREAT ≠ 0 := by decide
  have hN : u32 ((s.InodeTables T).NumberOfFiles + 1) = (s.InodeTables T).NumberOfFiles + 1 := by
    simp only [u32]; omega
  have hdk : (EEFS_LibCreat env s T (some f) A).2.EEFS_FileDescriptorTable k2
      = createdDescriptor s T := by
    rw [hd, Function.update_same]
  constructor
  · exact hk2
  · unfold fdInUse
    rw [hdk]
    rfl
  · rw [hdk]
    rfl
  · rw [hdk]
    simp only [createdDescriptor]
    exact c
  · rw [hdk]
    unfold createdDescriptor
    refine ⟨Nat.le_refl _, Nat.zero_le _, ?_, ?_⟩
    · simp only [u32, sizeofFileHeader]
      omega
    · simp only [u32sub, sizeofFileHeader]
      omega
  · rw [hdk, ht]
    rfl
  · rw [hdk, ht]
    simp only [createdTable, createdDescriptor, Function.update_same]
  · rw [hdk, ht]
    simp only [createdTable, createdDescriptor, u32sub, sizeofFileHeader]
    omega
  · rw [hdk]
    simp only [createdDescriptor, EEFS_MAX_FILES]
    omega
  · rw [ht]
    exact hfat
  · rw [ht]
    exact hfit
  · rw [ht]
    simp only [createdTable, hN, EEFS_MAX_FILES]
    omega
  · intro j hj hu ht2 hc2
    unfold fdInUse at hu
    rw [hd] at hu ht2 hc2
    by_cases hjk : j = k2
    · exact hjk
    · rw [Function.update_noteq hjk] at hu ht2 hc2
      exact absurd (hasOpenCreat_false s T hoc j hj hu ht2) hc2

/-- In every state between the `Creat` of a new file and its `Close` the descriptor is
that of a file being created. -/
theorem creatingRun_pending {T k : Nat} {s : State} (h : CreatingRun T k s) :
    CreatPending s T k := by
  induction h with
  | created env s f A hfat hfit hnew hk => exact pending_created env s T k f A hfat hfit hnew hk
  | call env s c _ hc hu ih => exact pending_call ih env c hc hu

/-- C11 (amended). Slot sizing at close: let `EEFS_LibCreat` of a new file have returned
descriptor `k` on the inode table `T`, whose free memory lies behind the file allocation
table and ends below `2^32`, and let any public functions have been called since that
left the descriptor in use, `T` not being mounted again by `EEFS_LibInitFS` (and
`EEFS_LibOpen` on `T` not being given the access mode `O_WRONLY | O_RDWR`). Then
`EEFS_LibClose` of the descriptor, with descriptor `FileSize` `S` and inode-table
`FreeMemorySize` `F` before the close, succeeds and sets the slot's `MaxFileSize` to
`M = min (round_up_4 (S + 512)) (F - 64)`, the least multiple of 4 not below `S + 512`
being `(S + 512 + 3) / 4 * 4`; `S ≤ M`; `FreeMemoryPointer` advances by `64 + M` and
`FreeMemorySize` decreases by `64 + M`; the on-medium FAT entry of the slot decodes to
`(FileHeaderPointer - BaseAddress, M)`, the `FileHeaderPointer` of the slot being that of
the descriptor, and the FAT header to the new `FreeMemoryOffset`, `FreeMemorySize` and
`NumberOfFiles` of the table. -/
theorem close_created_slot_sizing (T k : Nat) (s : State) (hrun : CreatingRun T k s)
    (env : Env) :
    EEFS_LibIsValidFileDescriptor s (k : Int) = true ∧
    Nat.land (s.EEFS_FileDescriptorTable k).Mode EEFS_FCREAT ≠ 0 ∧
    (s.EEFS_FileDescriptorTable k).InodeTable = T ∧
    (EEFS_LibClose env s (k : Int)).1 = EEFS_SUCCESS ∧
    (((EEFS_LibClose env s (k : Int)).2.InodeTables T).File
        (s.EEFS_FileDescriptorTable k).InodeIndex).MaxFileSize
      = min (((s.EEFS_FileDescriptorTable k).FileSize + 512 + 3) / 4 * 4)
          ((s.InodeTables T).FreeMemorySize - 64) ∧
    (s.EEFS_FileDescriptorTable k).FileSize
      ≤ (((EEFS_LibClose env s (k : Int)).2.InodeTables T).File
        (s.EEFS_FileDescriptorTable k).InodeIndex).MaxFileSize ∧
    ((EEFS_LibClose env s (k : Int)).2.InodeTables T).FreeMemoryPointer
      = (s.InodeTables T).FreeMemoryPointer + (64
        + (((EEFS_LibClose env s (k : Int)).2.InodeTables T).File
          (s.EEFS_FileDescriptorTable k).InodeIndex).MaxFileSize) ∧
    ((EEFS_LibClose env s (k : Int)).2.InodeTables T).FreeMemorySize + (64
        + (((EEFS_LibClose env s (k : Int)).2.InodeTables T).File
          (s.EEFS_FileDescriptorTable k).InodeIndex).MaxFileSize)
      = (s.InodeTables T).FreeMemorySize ∧
    (((EEFS_LibClose env s (k : Int)).2.InodeTables T).File
        (s.EEFS_FileDescriptorTable k).InodeIndex).FileHeaderPointer
      = (s.EEFS_FileDescriptorTable k).FileHeaderPointer ∧
    loadFileAllocationTableEntry env (EEFS_LibClose env s (k : Int)).2.mem
        (fatEntryAddress ((EEFS_LibClose env s (k : Int)).2.InodeTables T).BaseAddress
          (s.EEFS_FileDescriptorTable k).InodeIndex)
      = ⟨(((EEFS_LibClose env s (k : Int)).2.InodeTables T).File
            (s.EEFS_FileDescriptorTable k).InodeIndex).FileHeaderPointer
          - ((EEFS_LibClose env s (k : Int)).2.InodeTables T).BaseAddress,
         (((EEFS_LibClose env s (k : Int)).2.InodeTables T).File
            (s.EEFS_FileDescriptorTable k).InodeIndex).MaxFileSize⟩ ∧
    (loadFileAllocationTableHeader env (EEFS_LibClose env s (k : Int)).2.mem
        ((EEFS_LibClose env s (k : Int)).2.InodeTables T).BaseAddress).FreeMemoryOffset
      = ((EEFS_LibClose env s (k : Int)).2.InodeTables T).FreeMemoryPointer
        - ((EEFS_LibClose env s (k : Int)).2.InodeTables T).BaseAddress ∧
    (loadFileAllocationTableHeader env (EEFS_LibClose env s (k : Int)).2.mem
        ((EEFS_LibClose env s (k : Int)).2.InodeTables T).BaseAddress).FreeMemorySize
      = ((EEFS_LibClose env s (k : Int)).2.InodeTables T).FreeMemorySize ∧
    (loadFileAllocationTableHeader env (EEFS_LibClose env s (k : Int)).2.mem
        ((EEFS_LibClose env s (k : Int)).2.InodeTables T).BaseAddress).NumberOfFiles
      = ((EEFS_LibClose env s (k : Int)).2.InodeTables T).NumberOfFiles := by
  have hp := creatingRun_pending hrun
  have hlt := hp.lt
  have hfd : EEFS_LibIsValidFileDescriptor s (k : Int) = true := by
    rw [isValid_iff]
    simp only [Int.toNat_ofNat]
    unfold EEFS_MAX_OPEN_FILES at hlt ⊢
    exact ⟨by omega, by exact_mod_cast hlt, hp.inuse⟩
  have hc : Nat.land (s.EEFS_FileDescriptorTable (k : Int).toNat).Mode EEFS_FCREAT ≠ 0 := by
    simp only [Int.toNat_ofNat]
    exact hp.creat
  refine ⟨hfd, hp.creat, hp.table, ?_⟩
  rw [close_creat_eq env s (k : Int) hfd hc]
  simp only [Int.toNat_ofNat]
  have hsize := hp.slot.size
  have hmax := hp.max
  have hfat := hp.fat
  have hfits := hp.fits
  have hcount := hp.count
  have hindex := hp.index
  have hhdr := hp.header
  have hptr := hp.pointer
  simp only [sizeofFileHeader, sizeofFileAllocationTable] at hmax hfat
  simp only [EEFS_MAX_FILES] at hcount hindex
  -- the new capacity
  have hMeq : closeCreatMaxFileSize s k
      = min (((s.EEFS_FileDescriptorTable k).FileSize + 512 + 3) / 4 * 4)
          ((s.InodeTables T).FreeMemorySize - 64) := by
    unfold closeCreatMaxFileSize EEFS_MIN
    rw [hp.table]
    have hu32 : u32 ((s.EEFS_FileDescriptorTable k).FileSize + EEFS_DEFAULT_CREAT_SPARE_BYTES)
        = (s.EEFS_FileDescriptorTable k).FileSize + 512 := by
      simp only [u32, EEFS_DEFAULT_CREAT_SPARE_BYTES]; omega
    rw [hu32, roundUp4 _ (by omega)]
    simp only [u32sub, sizeofFileHeader, Nat.min_def]
    split_ifs <;> omega
  have hMle : closeCreatMaxFileSize s k + 64 ≤ (s.InodeTables T).FreeMemorySize := by
    rw [hMeq]
    simp only [Nat.min_def]
    split_ifs <;> omega
  have hSle : (s.EEFS_FileDescriptorTable k).FileSize ≤ closeCreatMaxFileSize s k := by
    rw [hMeq]
    simp only [Nat.min_def]
    split_ifs <;> omega
  -- the inode table after the close
  have htab : (freedDescriptor (closeCreat env s k) k).InodeTables T = closeCreatTable s k := by
    rw [closeCreat_eq]
    simp only [freedDescriptor, hp.table, Function.update_same]
  have hmem : (freedDescriptor (closeCreat env s k) k).mem
      = memWrite (closeCreatMem2 env s k) (closeCreatTable s k).BaseAddress
          (fileAllocationTableHeaderBytes env.hostLittleEndian
            (EEFS_SwapFileAllocationTableHeader (closeCreatFatHeader env s k))) := by
    rw [closeCreat_eq]
    rfl
  have tB : (closeCreatTable s k).BaseAddress = (s.InodeTables T).BaseAddress := by
    simp only [closeCreatTable, hp.table]
  have tN : (closeCreatTable s k).NumberOfFiles = (s.InodeTables T).NumberOfFiles := by
    simp only [closeCreatTable, hp.table]
  have tP : (closeCreatTable s k).FreeMemoryPointer
      = (s.InodeTables T).FreeMemoryPointer + (64 + closeCreatMaxFileSize s k) := by
    simp only [closeCreatTable, hp.table, u32, sizeofFileHeader]
    omega
  have tS : (closeCreatTable s k).FreeMemorySize
      = (s.InodeTables T).FreeMemorySize - (64 + closeCreatMaxFileSize s k) := by
    simp only [closeCreatTable, hp.table, u32, u32sub, sizeofFileHeader]
    omega
  have tF : (closeCreatTable s k).File (s.EEFS_FileDescriptorTable k).InodeIndex
      = { FileHeaderPointer := (s.InodeTables T).FreeMemoryPointer
          MaxFileSize := closeCreatMaxFileSize s k } := by
    simp only [closeCreatTable, hp.table, Function.update_same, hhdr]
  -- the FAT entry and the FAT header on the medium
  have hE : loadFileAllocationTableEntry env (freedDescriptor (closeCreat env s k) k).mem
      (fatEntryAddress (s.InodeTables T).BaseAddress (s.EEFS_FileDescriptorTable k).InodeIndex)
      = ⟨(s.InodeTables T).FreeMemoryPointer - (s.InodeTables T).BaseAddress,
          closeCreatMaxFileSize s k⟩ := by
    rw [hmem, tB, loadFatEntry_frame _ _ _ _ _
      (by rw [fatHeaderBytes_length]; unfold fatEntryAddress; right; omega)]
    unfold closeCreatMem2
    rw [tB, loadFatEntry_store]
    unfold closeCreatEntry
    rw [tF, tB]
    dsimp only
    have e1 : u32sub (s.InodeTables T).FreeMemoryPointer (s.InodeTables T).BaseAddress
        % 4294967296 = (s.InodeTables T).FreeMemoryPointer - (s.InodeTables T).BaseAddress := by
      simp only [u32sub]
      omega
    have e2 : closeCreatMaxFileSize s k % 4294967296 = closeCreatMaxFileSize s k :=
      Nat.mod_eq_of_lt (by omega)
    rw [e1, e2]
  have hH := loadFatHeader_store env (closeCreatMem2 env s k) (closeCreatTable s k).BaseAddress
    (closeCreatFatHeader env s k)
  rw [← hmem, tB] at hH
  have hF1 : ((closeCreatTable s k).File (s.EEFS_FileDescriptorTable k).InodeIndex).MaxFileSize
      = closeCreatMaxFileSize s k := by rw [tF]
  have hF2 : ((closeCreatTable s k).File
      (s.EEFS_FileDescriptorTable k).InodeIndex).FileHeaderPointer
      = (s.InodeTables T).FreeMemoryPointer := by rw [tF]
  rw [htab, tB, hF1, hF2, tP, tS, tN]
  refine ⟨trivial, hMeq, hSle, rfl, ?_, ?_, hE, ?_, ?_, ?_⟩
  · omega
  · exact hptr.symm
  · rw [hH]
    simp only [closeCreatFatHeader, tP, tB, u32sub]
    omega
  · rw [hH]
    simp only [closeCreatFatHeader, tS]
    omega
  · rw [hH]
    simp only [closeCreatFatHeader, tN]
    omega

set_option maxRecDepth 100000 in
/-- C11, witness: on the empty example volume `Creat("a")` returns descriptor 0 and
`Write("hello", 5)` leaves it open; its `Close` sets the capacity of the slot to
`(5 + 512 + 3) / 4 * 4 = 520`. -/
theorem close_created_slot_sizing_witness :
    CreatingRun 1 0 (exWrite true).2 ∧
    (EEFS_LibClose (exEnv true) (exWrite true).2 ((0 : Nat) : Int)).1 = EEFS_SUCCESS ∧
    (((EEFS_LibClose (exEnv true) (exWrite true).2 ((0 : Nat) : Int)).2.InodeTables 1).File
        ((exWrite true).2.EEFS_FileDescriptorTable 0).InodeIndex).MaxFileSize
      = min ((((exWrite true).2.EEFS_FileDescriptorTable 0).FileSize + 512 + 3) / 4 * 4)
          (((exWrite true).2.InodeTables 1).FreeMemorySize - 64) ∧
    min ((((exWrite true).2.EEFS_FileDescriptorTable 0).FileSize + 512 + 3) / 4 * 4)
          (((exWrite true).2.InodeTables 1).FreeMemorySize - 64) = 520 :=
  ⟨CreatingRun.call (exEnv true) (exCreat true).2
      (Call.LibWrite (exCreat true).1 (some [104, 101, 108, 108, 111]) 5)
      (CreatingRun.created (exEnv true) (exMountedEmpty true) [97] EEFS_ATTRIBUTE_NONE
        (by decide) (by decide) (by decide) (by decide))
      trivial (by decide),
    (close_created_slot_sizing 1 0 (exWrite true).2
      (CreatingRun.call (exEnv true) (exCreat true).2
        (Call.LibWrite (exCreat true).1 (some [104, 101, 108, 108, 111]) 5)
        (CreatingRun.created (exEnv true) (exMountedEmpty true) [97] EEFS_ATTRIBUTE_NONE
          (by decide) (by decide) (by decide) (by decide))
        trivial (by decide))
      (exEnv true)).2.2.2.1,
    (close_created_slot_sizing 1 0 (exWrite true).2
      (CreatingRun.call (exEnv true) (exCreat true).2
        (Call.LibWrite (exCreat true).1 (some [104, 101, 108, 108, 111]) 5)
        (CreatingRun.created (exEnv true) (exMountedEmpty true) [97] EEFS_ATTRIBUTE_NONE
          (by decide) (by decide) (by decide) (by decide))
        trivial (by decide))
      (exEnv true)).2.2.2.2.1,
    by decide⟩

set_option maxRecDepth 100000 in
/-- C11, counterexample to the claim as stated: the inode table 1 is mounted on the empty
example volume, `Creat("b")` returns descriptor 0 with `EEFS_FCREAT`, and 40 bytes are
written, so that the descriptor has `FileSize == 40`. `EEFS_LibInitFS` then mounts the same
inode table on the one-file volume, which succeeds although the descriptor is open, and
the table has `FreeMemorySize == 100`. `EEFS_LibClose` of the descriptor succeeds and sets
the slot's `MaxFileSize` to `min (round_up_4 (40 + 512)) (100 - 64) == 36`, which is less
than the `FileSize` 40. -/
theorem close_after_remount_counterexample :
    (exCreatOther true).1 = 0 ∧
    (exCreatOtherWrite true).1 = 40 ∧
    (exCreatOtherRemount true).1 = EEFS_SUCCESS ∧
    EEFS_LibIsValidFileDescriptor (exCreatOtherRemount true).2 0 = true ∧
    Nat.land ((exCreatOtherRemount true).2.EEFS_FileDescriptorTable 0).Mode EEFS_FCREAT ≠ 0 ∧
    ((exCreatOtherRemount true).2.EEFS_FileDescriptorTable 0).InodeTable = 1 ∧
    ((exCreatOtherRemount true).2.EEFS_FileDescriptorTable 0).FileSize = 40 ∧
    ((exCreatOtherRemount true).2.InodeTables 1).FreeMemorySize = 100 ∧
    (exCreatOtherClose true).1 = EEFS_SUCCESS ∧
    (((exCreatOtherClose true).2.InodeTables 1).File
      ((exCreatOtherRemount true).2.EEFS_FileDescriptorTable 0).InodeIndex).MaxFileSize = 36 ∧
    ¬ ((exCreatOtherRemount true).2.EEFS_FileDescriptorTable 0).FileSize
      ≤ (((exCreatOtherClose true).2.InodeTables 1).File
        ((exCreatOtherRemount true).2.EEFS_FileDescriptorTable 0).InodeIndex).MaxFileSize := by
  decide

/-! ## Set attributes, remove and rename on a packed inode table -/

theorem packed_headersApart {t : EEFS_InodeTable_t} (hp : TablePacked t) : HeadersApart t := by
  intro i hi j hj hji
  have h := packed_apart hp i j hi hj hji
  simp only [sizeofFileHeader] at h ⊢
  omega

/-- What the rewrite of the file header of slot `i` with the typed header `h2` leaves, the
file headers of the inode table not overlapping. -/
theorem header_rewrite (env : Env) (s : State) (T : Nat)
    (hap : HeadersApart (s.InodeTables T))
    (i : Nat) (hi : i < (s.InodeTables T).NumberOfFiles)
    (h2 : EEFS_FileHeader_t) (s2 : State)
    (hs2 : s2 = EEFS_LIB_EEPROM_FLUSH (EEFS_LIB_EEPROM_WRITE s
      ((s.InodeTables T).File i).FileHeaderPointer
      (fileHeaderBytes env.hostLittleEndian (EEFS_SwapFileHeader h2))))
    (t1 : h2.Crc < 4294967296) (t2 : h2.InUse < 4294967296) (t3 : h2.Attributes < 4294967296)
    (t4 : h2.FileSize < 4294967296) (t5 : h2.ModificationDate < 4294967296)
    (t6 : h2.CreationDate < 4294967296) (t7 : h2.Filename.length = 40)
    (t8 : ∀ c ∈ h2.Filename, c < 256) :
    s2.mem = memWrite s.mem ((s.InodeTables T).File i).FileHeaderPointer
      (fileHeaderBytes env.hostLittleEndian (EEFS_SwapFileHeader h2)) ∧
    loadFileHeader env s2.mem ((s.InodeTables T).File i).FileHeaderPointer = h2 ∧
    (∀ a, (a < ((s.InodeTables T).File i).FileHeaderPointer ∨
        ((s.InodeTables T).File i).FileHeaderPointer + 64 ≤ a) → s2.mem a = s.mem a) ∧
    s2.InodeTables = s.InodeTables ∧
    s2.EEFS_FileDescriptorTable = s.EEFS_FileDescriptorTable ∧
    (∀ j, j < (s.InodeTables T).NumberOfFiles → j ≠ i →
      loadFileHeader env s2.mem ((s.InodeTables T).File j).FileHeaderPointer
        = loadFileHeader env s.mem ((s.InodeTables T).File j).FileHeaderPointer) := by
  obtain ⟨hmem, htabs, hfds⟩ := header_written s ((s.InodeTables T).File i).FileHeaderPointer
    (fileHeaderBytes env.hostLittleEndian (EEFS_SwapFileHeader h2))
  rw [← hs2] at hmem htabs hfds
  have hlen : (fileHeaderBytes env.hostLittleEndian (EEFS_SwapFileHeader h2)).length = 64 :=
    fileHeaderBytes_length _ _
  refine ⟨hmem, ?_, ?_, htabs, hfds, ?_⟩
  · rw [hmem]
    exact loadFileHeader_store_all env s.mem _ h2 t1 t2 t3 t4 t5 t6 t7 t8
  · intro a ha
    rw [hmem, memWrite_out _ _ _ _ (by rw [hlen]; omega)]
  · intro j hj hji
    have h := hap i hi j hj hji
    simp only [sizeofFileHeader] at h
    rw [hmem]
    apply loadFileHeader_frame
    rw [hlen]
    omega

/-- The bytes of the file allocation table and of the other slots lie outside the file
header of slot `i` of a packed inode table. -/
theorem packed_frame {t : EEFS_InodeTable_t} (hp : TablePacked t) (i : Nat)
    (hi : i < t.NumberOfFiles) :
    (∀ a, t.BaseAddress ≤ a → a < t.BaseAddress + sizeofFileAllocationTable →
      a < (t.File i).FileHeaderPointer) ∧
    (∀ j, j < t.NumberOfFiles → j ≠ i →
      ∀ a, (t.File j).FileHeaderPointer ≤ a →
        a < (t.File j).FileHeaderPointer + 64 + (t.File j).MaxFileSize →
        (a < (t.File i).FileHeaderPointer ∨ (t.File i).FileHeaderPointer + 64 ≤ a)) := by
  constructor
  · intro a h1 h2
    have := packed_behind_fat hp i hi
    omega
  · intro j hj hji a h1 h2
    have h := packed_apart hp i j hi hj hji
    simp only [sizeofFileHeader] at h
    omega

theorem findFile_found (env : Env) (s : State) (T : Nat) (f : List Nat)
    (hN : (s.InodeTables T).NumberOfFiles ≤ EEFS_MAX_FILES)
    (h : EEFS_LibFindFile env s T f ≠ EEFS_FILE_NOT_FOUND) :
    ∃ i, i < (s.InodeTables T).NumberOfFiles ∧ EEFS_LibFindFile env s T f = (i : Int) ∧
      (loadFileHeader env s.mem ((s.InodeTables T).File i).FileHeaderPointer).InUse = TRUE ∧
      findFileMatch env s.mem (s.InodeTables T) f i = true ∧
      ∀ j, j < i → findFileMatch env s.mem (s.InodeTables T) f j = false := by
  unfold EEFS_MAX_FILES at hN
  rcases findFile_cases env s T f with h0 | ⟨i, hi, he, hm⟩
  · exact absurd h0 h
  · have e : EEFS_LibFindFile env s T f = (i : Int) := by
      rw [he, toInt32_small i (by omega)]
    obtain ⟨-, -, hlow⟩ := findFile_first env s T f i (by omega) (by omega) e
    have hin : (loadFileHeader env s.mem ((s.InodeTables T).File i).FileHeaderPointer).InUse
        = TRUE := by
      unfold findFileMatch at hm
      simp only [Bool.and_eq_true, decide_eq_true_eq] at hm
      exact hm.1
    exact ⟨i, hi, e, hin, hm, hlow⟩

/-- C23 (amended). SetFileAttributes is idempotent and local. Let `T` be a non-null inode
table with at most `EEFS_MAX_FILES` slots whose file headers do not overlap, `f` a valid
name that the lookup finds, at slot `i`, and `A` one of `EEFS_ATTRIBUTE_NONE` and
`EEFS_ATTRIBUTE_READONLY`. On a medium that is not write-protected
`EEFS_LibSetFileAttributes(f, A)` returns `EEFS_SUCCESS`, the decoded header of the slot
afterwards is the one before with `Attributes` set to `A`, every medium byte outside the 64
header bytes, the inode tables and the descriptor table are unchanged, and a second call
returns `EEFS_SUCCESS` again and leaves the medium and the inode tables as the first call
left them; on a write-protected medium the call returns `EEFS_READ_ONLY_FILE_SYSTEM` and
changes nothing. For any other `A` the call returns `EEFS_INVALID_ARGUMENT` and changes
nothing. -/
theorem setFileAttributes_idempotent (env : Env) (s : State) (T : Nat) (hT : T ≠ 0)
    (hcount : (s.InodeTables T).NumberOfFiles ≤ EEFS_MAX_FILES)
    (hapart : HeadersApart (s.InodeTables T))
    (f : List Nat) (A : Nat) :
    (¬ (A = EEFS_ATTRIBUTE_NONE ∨ A = EEFS_ATTRIBUTE_READONLY) →
      EEFS_LibSetFileAttributes env s T (some f) A = (EEFS_INVALID_ARGUMENT, s)) ∧
    ((A = EEFS_ATTRIBUTE_NONE ∨ A = EEFS_ATTRIBUTE_READONLY) →
      EEFS_LibIsValidFilename (some f) = true →
      EEFS_LibFindFile env s T f ≠ EEFS_FILE_NOT_FOUND →
      (env.writeProtected = true →
        EEFS_LibSetFileAttributes env s T (some f) A = (EEFS_READ_ONLY_FILE_SYSTEM, s)) ∧
      (env.writeProtected = false →
        ∃ i, i < (s.InodeTables T).NumberOfFiles ∧ EEFS_LibFindFile env s T f = (i : Int) ∧
          (EEFS_LibSetFileAttributes env s T (some f) A).1 = EEFS_SUCCESS ∧
          loadFileHeader env (EEFS_LibSetFileAttributes env s T (some f) A).2.mem
              ((s.InodeTables T).File i).FileHeaderPointer
            = { loadFileHeader env s.mem ((s.InodeTables T).File i).FileHeaderPointer with
                Attributes := A } ∧
          (∀ a, (a < ((s.InodeTables T).File i).FileHeaderPointer ∨
              ((s.InodeTables T).File i).FileHeaderPointer + 64 ≤ a) →
            (EEFS_LibSetFileAttributes env s T (some f) A).2.mem a = s.mem a) ∧
          (EEFS_LibSetFileAttributes env s T (some f) A).2.InodeTables = s.InodeTables ∧
          (EEFS_LibSetFileAttributes env s T (some f) A).2.EEFS_FileDescriptorTable
            = s.EEFS_FileDescriptorTable ∧
          (EEFS_LibSetFileAttributes env
              (EEFS_LibSetFileAttributes env s T (some f) A).2 T (some f) A).1
            = (EEFS_LibSetFileAttributes env s T (some f) A).1 ∧
          (EEFS_LibSetFileAttributes env
              (EEFS_LibSetFileAttributes env s T (some f) A).2 T (some f) A).2.mem
            = (EEFS_LibSetFileAttributes env s T (some f) A).2.mem ∧
          (EEFS_LibSetFileAttributes env
              (EEFS_LibSetFileAttributes env s T (some f) A).2 T (some f) A).2.InodeTables
            = (EEFS_LibSetFileAttributes env s T (some f) A).2.InodeTables)) := by
  constructor
  · intro hA
    unfold EEFS_LibSetFileAttributes
    rw [if_pos hT, if_neg hA]
  intro hA hname hff
  constructor
  · intro hw
    unfold EEFS_LibSetFileAttributes
    rw [if_pos hT, if_pos hA, if_pos hname, if_neg (by rw [hw]; decide)]
  intro hw
  obtain ⟨i, hiT, e, hin, hmi, hlow⟩ := findFile_found env s T f hcount hff
  have hc := hcount
  simp only [EEFS_MAX_FILES] at hc
  have hA32 : A < 4294967296 := by
    rcases hA with hA | hA <;> rw [hA] <;> decide
  obtain ⟨t1, t2, t3, t4, t5, t6, t7, t8⟩ := loadFileHeader_typed env s.mem
    ((s.InodeTables T).File i).FileHeaderPointer
  have hcall := setAttr_success env s T f A hT hA hname hw i e
  generalize hh2 : ({ loadFileHeader env s.mem ((s.InodeTables T).File i).FileHeaderPointer with
      Attributes := A } : EEFS_FileHeader_t) = h2 at hcall
  have u1 : h2.Crc < 4294967296 := by rw [← hh2]; exact t1
  have u2 : h2.InUse < 4294967296 := by rw [← hh2]; exact t2
  have u3 : h2.Attributes < 4294967296 := by rw [← hh2]; exact hA32
  have u4 : h2.FileSize < 4294967296 := by rw [← hh2]; exact t4
  have u5 : h2.ModificationDate < 4294967296 := by rw [← hh2]; exact t5
  have u6 : h2.CreationDate < 4294967296 := by rw [← hh2]; exact t6
  have u7 : h2.Filename.length = 40 := by rw [← hh2]; exact t7
  have u8 : ∀ c ∈ h2.Filename, c < 256 := by rw [← hh2]; exact t8
  have uu : h2.InUse = TRUE := by rw [← hh2]; exact hin
  have un : h2.Filename
      = (loadFileHeader env s.mem ((s.InodeTables T).File i).FileHeaderPointer).Filename := by
    rw [← hh2]
  have ua : ({ h2 with Attributes := A } : EEFS_FileHeader_t) = h2 := by rw [← hh2]
  rw [hcall]
  simp only []
  generalize hs2 : EEFS_LIB_EEPROM_FLUSH (EEFS_LIB_EEPROM_WRITE s
      ((s.InodeTables T).File i).FileHeaderPointer
      (fileHeaderBytes env.hostLittleEndian (EEFS_SwapFileHeader h2))) = s2
  obtain ⟨hmem, hat, hframe, htabs, hfds, hoth⟩ :=
    header_rewrite env s T hapart i hiT h2 s2 hs2.symm u1 u2 u3 u4 u5 u6 u7 u8
  obtain ⟨ma, mo⟩ := match_after_update env s s2 T i h2 htabs hat hoth f
  have hfind2 : EEFS_LibFindFile env s2 T f = (i : Int) := by
    apply findFile_at env s2 T f i (by rw [htabs]; exact hiT) (by omega)
    · rw [ma, uu, un]
      unfold findFileMatch at hmi
      rw [hin] at hmi
      exact hmi
    · intro j hj
      rw [mo j (by omega) (by omega)]
      exact hlow j hj
  have hcall2 := setAttr_success env s2 T f A hT hA hname hw i hfind2
  rw [htabs, hat, ua] at hcall2
  rw [hcall2]
  simp only []
  obtain ⟨hmem2, htabs2, -⟩ := header_written s2 ((s.InodeTables T).File i).FileHeaderPointer
    (fileHeaderBytes env.hostLittleEndian (EEFS_SwapFileHeader h2))
  refine ⟨i, hiT, e, trivial, hat.trans hh2.symm, hframe, htabs, hfds, trivial, ?_, htabs2⟩
  rw [hmem2, hmem, memWrite_twice]

theorem packed_of_two (t : EEFS_InodeTable_t) (hN : t.NumberOfFiles = 2)
    (h0 : t.File 0 = ⟨4632, 1000⟩) (h1 : t.File 1 = ⟨5696, 100⟩) (hB : t.BaseAddress = 4096) :
    t.NumberOfFiles ≤ EEFS_MAX_FILES ∧ TablePacked t ∧
    (∀ i, i < t.NumberOfFiles →
      (t.File i).FileHeaderPointer + sizeofFileHeader + (t.File i).MaxFileSize
        < 4294967296) := by
  refine ⟨by rw [hN]; decide, ⟨?_, ?_⟩, ?_⟩
  · intro _
    rw [h0, hB]
    decide
  · intro i hi
    rw [hN] at hi
    obtain rfl : i = 0 := by omega
    rw [h0, h1]
    decide
  · intro i hi
    rw [hN] at hi
    have : i = 0 ∨ i = 1 := by omega
    rcases this with rfl | rfl
    · rw [h0]; decide
    · rw [h1]; decide

set_option maxRecDepth 100000 in
/-- The inode table of the mounted example volume with the files "a" and "b". -/
theorem exTwoFileMounted_packed (le : Bool) :
    ((exTwoFileMounted le [98]).InodeTables 1).NumberOfFiles ≤ EEFS_MAX_FILES ∧
    TablePacked ((exTwoFileMounted le [98]).InodeTables 1) ∧
    (∀ i, i < ((exTwoFileMounted le [98]).InodeTables 1).NumberOfFiles →
      (((exTwoFileMounted le [98]).InodeTables 1).File i).FileHeaderPointer + sizeofFileHeader
        + (((exTwoFileMounted le [98]).InodeTables 1).File i).MaxFileSize < 4294967296) :=
  packed_of_two _ (by cases le <;> decide) (by cases le <;> decide) (by cases le <;> decide)
    (by cases le <;> decide)

set_option maxRecDepth 100000 in
/-- The inode table of the mounted example volume with two files named "a". -/
theorem exTwinMounted_packed (le : Bool) :
    ((exTwoFileMounted le [97]).InodeTables 1).NumberOfFiles ≤ EEFS_MAX_FILES ∧
    TablePacked ((exTwoFileMounted le [97]).InodeTables 1) ∧
    (∀ i, i < ((exTwoFileMounted le [97]).InodeTables 1).NumberOfFiles →
      (((exTwoFileMounted le [97]).InodeTables 1).File i).FileHeaderPointer + sizeofFileHeader
        + (((exTwoFileMounted le [97]).InodeTables 1).File i).MaxFileSize < 4294967296) :=
  packed_of_two _ (by cases le <;> decide) (by cases le <;> decide) (by cases le <;> decide)
    (by cases le <;> decide)

set_option maxRecDepth 100000 in
/-- C23, witness: on the mounted example volume with the files "a" and "b" the attribute
word 2 is refused for "b" with `EEFS_INVALID_ARGUMENT`, and `EEFS_ATTRIBUTE_READONLY` is
set with `EEFS_SUCCESS` on slot 1, a second call giving the same medium. -/
theorem setFileAttributes_idempotent_witness :
    (1 : Nat) ≠ 0 ∧
    ((exTwoFileMounted true [98]).InodeTables 1).NumberOfFiles ≤ EEFS_MAX_FILES ∧
    HeadersApart ((exTwoFileMounted true [98]).InodeTables 1) ∧
    EEFS_LibSetFileAttributes (exEnv true) (exTwoFileMounted true [98]) 1 (some [98]) 2
      = (EEFS_INVALID_ARGUMENT, exTwoFileMounted true [98]) ∧
    ∃ i, i < ((exTwoFileMounted true [98]).InodeTables 1).NumberOfFiles ∧
      EEFS_LibFindFile (exEnv true) (exTwoFileMounted true [98]) 1 [98] = (i : Int) ∧
      (EEFS_LibSetFileAttributes (exEnv true) (exTwoFileMounted true [98]) 1 (some [98])
        EEFS_ATTRIBUTE_READONLY).1 = EEFS_SUCCESS ∧
      (EEFS_LibSetFileAttributes (exEnv true)
          (EEFS_LibSetFileAttributes (exEnv true) (exTwoFileMounted true [98]) 1 (some [98])
            EEFS_ATTRIBUTE_READONLY).2 1 (some [98]) EEFS_ATTRIBUTE_READONLY).2.mem
        = (EEFS_LibSetFileAttributes (exEnv true) (exTwoFileMounted true [98]) 1 (some [98])
            EEFS_ATTRIBUTE_READONLY).2.mem :=
  ⟨by decide, (exTwoFileMounted_packed true).1,
    packed_headersApart (exTwoFileMounted_packed true).2.1,
    (setFileAttributes_idempotent (exEnv true) (exTwoFileMounted true [98]) 1 (by decide)
      (exTwoFileMounted_packed true).1 (packed_headersApart (exTwoFileMounted_packed true).2.1)
      [98] 2).1 (by decide),
    match ((setFileAttributes_idempotent (exEnv true) (exTwoFileMounted true [98]) 1
      (by decide) (exTwoFileMounted_packed true).1
      (packed_headersApart (exTwoFileMounted_packed true).2.1) [98]
      EEFS_ATTRIBUTE_READONLY).2 (by decide) (by decide) (by decide)).2 (by decide) with
    | ⟨i, h1, h2, h3, _, _, _, _, _, h9, _⟩ => ⟨i, h1, h2, h3, h9⟩⟩

/-- C20 (amended). Effect of a successful remove. Let the inode table `T` have at most
`EEFS_MAX_FILES` slots and satisfy the Pack equation. When `EEFS_LibRemove` of the name `f`
returns `EEFS_SUCCESS`, `f` was found at a slot `i` of `T`; afterwards the 64 bytes of the
slot's file header are zero and every other medium byte is unchanged, in particular the
bytes of the on-medium FAT and the bytes of every other slot; the inode tables and the
descriptor table are unchanged; and if no other slot of the table holds a live file of
that name, `EEFS_LibOpen` of `f` with a flag word without `O_CREAT` and `EEFS_LibStat` of
`f` return `EEFS_FILE_NOT_FOUND`. -/
theorem remove_clears_slot (env : Env) (s : State) (T : Nat)
    (hcount : (s.InodeTables T).NumberOfFiles ≤ EEFS_MAX_FILES)
    (hpack : TablePacked (s.InodeTables T)) (f : List Nat)
    (hsucc : (EEFS_LibRemove env s T (some f)).1 = EEFS_SUCCESS) :
    ∃ i, i < (s.InodeTables T).NumberOfFiles ∧ EEFS_LibFindFile env s T f = (i : Int) ∧
      (∀ j, j < 64 → (EEFS_LibRemove env s T (some f)).2.mem
        (((s.InodeTables T).File i).FileHeaderPointer + j) = 0) ∧
      (∀ a, (a < ((s.InodeTables T).File i).FileHeaderPointer ∨
          ((s.InodeTables T).File i).FileHeaderPointer + 64 ≤ a) →
        (EEFS_LibRemove env s T (some f)).2.mem a = s.mem a) ∧
      (EEFS_LibRemove env s T (some f)).2.InodeTables = s.InodeTables ∧
      (EEFS_LibRemove env s T (some f)).2.EEFS_FileDescriptorTable
        = s.EEFS_FileDescriptorTable ∧
      (∀ a, (s.InodeTables T).BaseAddress ≤ a →
        a < (s.InodeTables T).BaseAddress + sizeofFileAllocationTable →
        (EEFS_LibRemove env s T (some f)).2.mem a = s.mem a) ∧
      (∀ j, j < (s.InodeTables T).NumberOfFiles → j ≠ i →
        ∀ a, ((s.InodeTables T).File j).FileHeaderPointer ≤ a →
          a < ((s.InodeTables T).File j).FileHeaderPointer + 64
            + ((s.InodeTables T).File j).MaxFileSize →
          (EEFS_LibRemove env s T (some f)).2.mem a = s.mem a) ∧
      ((∀ j, j < (s.InodeTables T).NumberOfFiles → j ≠ i →
          findFileMatch env s.mem (s.InodeTables T) f j = false) →
        (∀ Flags A : Nat, Nat.land Flags O_CREAT = 0 →
          EEFS_LibOpen env (EEFS_LibRemove env s T (some f)).2 T (some f) Flags A
            = (EEFS_FILE_NOT_FOUND, (EEFS_LibRemove env s T (some f)).2)) ∧
        (∀ x : EEFS_Stat_t,
          EEFS_LibStat env (EEFS_LibRemove env s T (some f)).2 T (some f) (some x)
            = (EEFS_FILE_NOT_FOUND, some x))) := by
  have hT : T ≠ 0 := by
    intro e
    unfold EEFS_LibRemove at hsucc
    rw [if_neg (fun h => h e)] at hsucc
    simp only [EEFS_SUCCESS, EEFS_INVALID_ARGUMENT] at hsucc
    omega
  obtain ⟨hname, hff, hfm, hst⟩ := remove_success env s T f hsucc
  obtain ⟨i, hiT, e, hin, -, -⟩ := findFile_found env s T f hcount hff
  rw [e, Int.toNat_ofNat] at hst
  obtain ⟨hmem, htabs, hfds⟩ := header_written s ((s.InodeTables T).File i).FileHeaderPointer
    (fileHeaderBytes env.hostLittleEndian (EEFS_SwapFileHeader zeroFileHeader))
  rw [← hst] at hmem htabs hfds
  generalize (EEFS_LibRemove env s T (some f)).2 = s2 at *
  have hlen : (fileHeaderBytes env.hostLittleEndian
      (EEFS_SwapFileHeader zeroFileHeader)).length = 64 := fileHeaderBytes_length _ _
  have hframe : ∀ a, (a < ((s.InodeTables T).File i).FileHeaderPointer ∨
      ((s.InodeTables T).File i).FileHeaderPointer + 64 ≤ a) → s2.mem a = s.mem a := by
    intro a ha
    rw [hmem, memWrite_out _ _ _ _ (by rw [hlen]; omega)]
  obtain ⟨pf1, pf2⟩ := packed_frame hpack i hiT
  have hap := packed_headersApart hpack
  refine ⟨i, hiT, e, ?_, hframe, htabs, hfds, ?_, ?_, ?_⟩
  · intro j hj
    rw [hmem, memWrite_in _ _ _ _ (by omega) (by rw [hlen]; omega), zero_header_bytes]
    have e2 : ((s.InodeTables T).File i).FileHeaderPointer + j
        - ((s.InodeTables T).File i).FileHeaderPointer = j := by omega
    rw [e2, List.getD_eq_getElem?_getD, List.getElem?_replicate, if_pos hj]
    rfl
  · intro a h1 h2
    exact hframe a (Or.inl (pf1 a h1 h2))
  · intro j hj hji a h1 h2
    exact hframe a (pf2 j hj hji a h1 h2)
  · intro huniq
    have hnone : EEFS_LibFindFile env s2 T f = EEFS_FILE_NOT_FOUND := by
      apply findFile_none
      rw [htabs]
      intro j hj
      by_cases hji : j = i
      · subst hji
        unfold findFileMatch
        rw [hmem, (loadFileHeader_store env _ _ _).1]
        rfl
      · have h3 := hap i hiT j hj hji
        simp only [sizeofFileHeader] at h3
        have hh : loadFileHeader env s2.mem ((s.InodeTables T).File j).FileHeaderPointer
            = loadFileHeader env s.mem ((s.InodeTables T).File j).FileHeaderPointer := by
          rw [hmem]
          apply loadFileHeader_frame
          rw [hlen]
          omega
        have := huniq j hj hji
        unfold findFileMatch at this ⊢
        rw [hh]
        exact this
    constructor
    · intro Flags A hfl
      unfold EEFS_LibOpen
      rw [if_pos hT, if_pos hname]
      simp only [Option.getD_some]
      rw [hnone, if_neg (fun h => h rfl), if_neg (fun h => h hfl)]
    · intro x
      unfold EEFS_LibStat
      rw [if_pos hT, if_pos (by simp), if_pos hname]
      simp only [Option.getD_some]
      rw [hnone, if_neg (fun h => h rfl)]

set_option maxRecDepth 100000 in
/-- C20, witness: on the mounted example volume with the files "a" and "b",
`EEFS_LibRemove("b")` succeeds; the file was at slot 1, no other slot holds a live file
named "b", and `EEFS_LibOpen("b", O_RDONLY)` then returns `EEFS_FILE_NOT_FOUND`. -/
theorem remove_clears_slot_witness :
    ((exTwoFileMounted true [98]).InodeTables 1).NumberOfFiles ≤ EEFS_MAX_FILES ∧
    TablePacked ((exTwoFileMounted true [98]).InodeTables 1) ∧
    (EEFS_LibRemove (exEnv true) (exTwoFileMounted true [98]) 1 (some [98])).1
      = EEFS_SUCCESS ∧
    EEFS_LibFindFile (exEnv true) (exTwoFileMounted true [98]) 1 [98] = ((1 : Nat) : Int) ∧
    (EEFS_LibOpen (exEnv true)
        (EEFS_LibRemove (exEnv true) (exTwoFileMounted true [98]) 1 (some [98])).2 1
        (some [98]) O_RDONLY 0).1 = EEFS_FILE_NOT_FOUND :=
  ⟨(exTwoFileMounted_packed true).1, (exTwoFileMounted_packed true).2.1, by decide, by decide,
    match remove_clears_slot (exEnv true) (exTwoFileMounted true [98]) 1
      (exTwoFileMounted_packed true).1 (exTwoFileMounted_packed true).2.1 [98] (by decide) with
    | ⟨i, _, h2, _, _, _, _, _, _, h9⟩ =>
      have hi : i = 1 := by
        have h3 : EEFS_LibFindFile (exEnv true) (exTwoFileMounted true [98]) 1 [98]
            = ((1 : Nat) : Int) := by decide
        rw [h3] at h2
        exact_mod_cast h2.symm
      have hu : ∀ j, j < ((exTwoFileMounted true [98]).InodeTables 1).NumberOfFiles → j ≠ i →
          findFileMatch (exEnv true) (exTwoFileMounted true [98]).mem
            ((exTwoFileMounted true [98]).InodeTables 1) [98] j = false := by
        intro j hj hji
        have hN : ((exTwoFileMounted true [98]).InodeTables 1).NumberOfFiles = 2 := by decide
        rw [hN] at hj
        rw [hi] at hji
        obtain rfl : j = 0 := by omega
        decide
      by rw [(h9 hu).1 O_RDONLY 0 (by decide)]⟩

set_option maxRecDepth 100000 in
/-- C20, counterexample to the claim as stated: the mounted example volume holds two live
files named "a", in the slots 0 and 1 of a packed inode table. `EEFS_LibRemove("a")`
returns `EEFS_SUCCESS` and clears slot 0; afterwards the lookup of "a" finds slot 1,
`EEFS_LibOpen("a", O_RDONLY)` returns the descriptor 0 and `EEFS_LibStat("a")` returns
`EEFS_SUCCESS`, neither `EEFS_FILE_NOT_FOUND`. -/
theorem remove_twin_counterexample :
    ((exTwoFileMounted true [97]).InodeTables 1).NumberOfFiles ≤ EEFS_MAX_FILES ∧
    TablePacked ((exTwoFileMounted true [97]).InodeTables 1) ∧
    EEFS_LibFindFile (exEnv true) (exTwoFileMounted true [97]) 1 [97] = 0 ∧
    findFileMatch (exEnv true) (exTwoFileMounted true [97]).mem
      ((exTwoFileMounted true [97]).InodeTables 1) [97] 1 = true ∧
    (EEFS_LibRemove (exEnv true) (exTwoFileMounted true [97]) 1 (some [97])).1
      = EEFS_SUCCESS ∧
    EEFS_LibFindFile (exEnv true)
      (EEFS_LibRemove (exEnv true) (exTwoFileMounted true [97]) 1 (some [97])).2 1 [97] = 1 ∧
    (EEFS_LibOpen (exEnv true)
      (EEFS_LibRemove (exEnv true) (exTwoFileMounted true [97]) 1 (some [97])).2 1
      (some [97]) O_RDONLY 0).1 = 0 ∧
    (EEFS_LibOpen (exEnv true)
      (EEFS_LibRemove (exEnv true) (exTwoFileMounted true [97]) 1 (some [97])).2 1
      (some [97]) O_RDONLY 0).1 ≠ EEFS_FILE_NOT_FOUND ∧
    (EEFS_LibStat (exEnv true)
      (EEFS_LibRemove (exEnv true) (exTwoFileMounted true [97]) 1 (some [97])).2 1
      (some [97]) (some ⟨0, 0, 0, 0, 0, 0, []⟩)).1 = EEFS_SUCCESS ∧
    (EEFS_LibStat (exEnv true)
      (EEFS_LibRemove (exEnv true) (exTwoFileMounted true [97]) 1 (some [97])).2 1
      (some [97]) (some ⟨0, 0, 0, 0, 0, 0, []⟩)).1 ≠ EEFS_FILE_NOT_FOUND :=
  ⟨(exTwinMounted_packed true).1, (exTwinMounted_packed true).2.1, by decide, by decide,
    by decide, by decide, by decide, by decide, by decide, by decide⟩

/-- C22 (amended). Rename preserves the file. Let the inode table `T` have at most
`EEFS_MAX_FILES` slots, satisfy the Pack equation and have every slot end below `2^32`.
When `EEFS_LibRename(old, new)` returns `EEFS_SUCCESS` (the name bytes of `new` being
bytes), `old` was found at a slot `i`; afterwards the decoded header of the slot is the
one before with the 40-byte `Filename` holding `new` followed by zero bytes, so `InUse`,
`Attributes`, `FileSize`, the dates and `Crc` are unchanged; every medium byte outside the
64 header bytes is unchanged, in particular the payload, the FAT and every other slot; the
inode tables and the descriptor table are unchanged; the lookup of `new` yields `i`; if no
other slot of the table holds a live file named `old`, the lookup of `old` yields
`EEFS_FILE_NOT_FOUND`; and `EEFS_LibOpen(new, O_RDONLY)` returns what
`EEFS_LibOpen(old, O_RDONLY)` returned before the rename, a following `EEFS_LibRead`
giving the same count and the same bytes. -/
theorem rename_keeps_file (env : Env) (s : State) (T : Nat)
    (hcount : (s.InodeTables T).NumberOfFiles ≤ EEFS_MAX_FILES)
    (hpack : TablePacked (s.InodeTables T))
    (hend : ∀ i, i < (s.InodeTables T).NumberOfFiles →
      ((s.InodeTables T).File i).FileHeaderPointer + sizeofFileHeader
        + ((s.InodeTables T).File i).MaxFileSize < 4294967296)
    (old new : List Nat) (hbytes : ∀ c ∈ new, c < 256)
    (hsucc : (EEFS_LibRename env s T (some old) (some new)).1 = EEFS_SUCCESS) :
    ∃ i, i < (s.InodeTables T).NumberOfFiles ∧ EEFS_LibFindFile env s T old = (i : Int) ∧
      loadFileHeader env (EEFS_LibRename env s T (some old) (some new)).2.mem
          ((s.InodeTables T).File i).FileHeaderPointer
        = { loadFileHeader env s.mem ((s.InodeTables T).File i).FileHeaderPointer with
            Filename := cstr new ++ List.replicate (EEFS_MAX_FILENAME_SIZE - strlen new) 0 } ∧
      (∀ a, (a < ((s.InodeTables T).File i).FileHeaderPointer ∨
          ((s.InodeTables T).File i).FileHeaderPointer + 64 ≤ a) →
        (EEFS_LibRename env s T (some old) (some new)).2.mem a = s.mem a) ∧
      (EEFS_LibRename env s T (some old) (some new)).2.InodeTables = s.InodeTables ∧
      (EEFS_LibRename env s T (some old) (some new)).2.EEFS_FileDescriptorTable
        = s.EEFS_FileDescriptorTable ∧
      (∀ a, (s.InodeTables T).BaseAddress ≤ a →
        a < (s.InodeTables T).BaseAddress + sizeofFileAllocationTable →
        (EEFS_LibRename env s T (some old) (some new)).2.mem a = s.mem a) ∧
      (∀ j, j < (s.InodeTables T).NumberOfFiles → j ≠ i →
        ∀ a, ((s.InodeTables T).File j).FileHeaderPointer ≤ a →
          a < ((s.InodeTables T).File j).FileHeaderPointer + 64
            + ((s.InodeTables T).File j).MaxFileSize →
          (EEFS_LibRename env s T (some old) (some new)).2.mem a = s.mem a) ∧
      EEFS_LibFindFile env (EEFS_LibRename env s T (some old) (some new)).2 T new
        = (i : Int) ∧
      ((∀ j, j < (s.InodeTables T).NumberOfFiles → j ≠ i →
          findFileMatch env s.mem (s.InodeTables T) old j = false) →
        EEFS_LibFindFile env (EEFS_LibRename env s T (some old) (some new)).2 T old
          = EEFS_FILE_NOT_FOUND) ∧
      (∀ (A : Nat) (buf : Option (List Nat)) (len : Nat),
        (EEFS_LibOpen env (EEFS_LibRename env s T (some old) (some new)).2 T (some new)
            O_RDONLY A).1
          = (EEFS_LibOpen env s T (some old) O_RDONLY A).1 ∧
        (EEFS_LibRead
            (EEFS_LibOpen env (EEFS_LibRename env s T (some old) (some new)).2 T (some new)
              O_RDONLY A).2
            (EEFS_LibOpen env (EEFS_LibRename env s T (some old) (some new)).2 T (some new)
              O_RDONLY A).1 buf len).1
          = (EEFS_LibRead (EEFS_LibOpen env s T (some old) O_RDONLY A).2
              (EEFS_LibOpen env s T (some old) O_RDONLY A).1 buf len).1 ∧
        (EEFS_LibRead
            (EEFS_LibOpen env (EEFS_LibRename env s T (some old) (some new)).2 T (some new)
              O_RDONLY A).2
            (EEFS_LibOpen env (EEFS_LibRename env s T (some old) (some new)).2 T (some new)
              O_RDONLY A).1 buf len).2.1
          = (EEFS_LibRead (EEFS_LibOpen env s T (some old) O_RDONLY A).2
              (EEFS_LibOpen env s T (some old) O_RDONLY A).1 buf len).2.1) := by
  obtain ⟨hT, hvo, hvn, hnf, hff, hst⟩ := rename_success env s T old new hsucc
  obtain ⟨i, hiT, e, hin, hmi, hlow⟩ := findFile_found env s T old hcount hff
  rw [e, Int.toNat_ofNat] at hst
  have hc := hcount
  simp only [EEFS_MAX_FILES] at hc
  have hN : (s.InodeTables T).NumberOfFiles ≤ 2147483648 := by omega
  have hnew := findFile_absent env s T new hN hnf
  obtain ⟨t1, t2, t3, t4, t5, t6, t7, t8⟩ := loadFileHeader_typed env s.mem
    ((s.InodeTables T).File i).FileHeaderPointer
  have hp32 : ((s.InodeTables T).File i).FileHeaderPointer + 64 < 4294967296 := by
    have := hend i hiT
    simp only [sizeofFileHeader] at this
    omega
  -- the old name matches the stored name, the new one does not
  have hmo : strncmpEq old (loadFileHeader env s.mem
      ((s.InodeTables T).File i).FileHeaderPointer).Filename EEFS_MAX_FILENAME_SIZE = true := by
    unfold findFileMatch at hmi
    rw [hin] at hmi
    exact hmi
  have hmn : strncmpEq new (loadFileHeader env s.mem
      ((s.InodeTables T).File i).FileHeaderPointer).Filename EEFS_MAX_FILENAME_SIZE
      = false := by
    have := hnew i hiT
    unfold findFileMatch at this
    rw [hin] at this
    exact this
  generalize hh2 : ({ loadFileHeader env s.mem ((s.InodeTables T).File i).FileHeaderPointer with
      Filename := strncpy new EEFS_MAX_FILENAME_SIZE } : EEFS_FileHeader_t) = h2 at hst
  have u1 : h2.Crc < 4294967296 := by rw [← hh2]; exact t1
  have u2 : h2.InUse < 4294967296 := by rw [← hh2]; exact t2
  have u3 : h2.Attributes < 4294967296 := by rw [← hh2]; exact t3
  have u4 : h2.FileSize < 4294967296 := by rw [← hh2]; exact t4
  have u5 : h2.ModificationDate < 4294967296 := by rw [← hh2]; exact t5
  have u6 : h2.CreationDate < 4294967296 := by rw [← hh2]; exact t6
  have u7 : h2.Filename.length = 40 := by rw [← hh2]; exact strncpy_length _ _
  have u8 : ∀ c ∈ h2.Filename, c < 256 := by rw [← hh2]; exact strncpy_lt _ _ hbytes
  have uu : h2.InUse = TRUE := by rw [← hh2]; exact hin
  have un : h2.Filename = strncpy new EEFS_MAX_FILENAME_SIZE := by rw [← hh2]
  have ua : h2.Attributes = (loadFileHeader env s.mem
      ((s.InodeTables T).File i).FileHeaderPointer).Attributes := by rw [← hh2]
  have uz : h2.FileSize = (loadFileHeader env s.mem
      ((s.InodeTables T).File i).FileHeaderPointer).FileSize := by rw [← hh2]
  generalize (EEFS_LibRename env s T (some old) (some new)).2 = s2 at hst ⊢
  obtain ⟨hmem, hat, hframe, htabs, hfds, hoth⟩ :=
    header_rewrite env s T (packed_headersApart hpack) i hiT h2 s2 hst u1 u2 u3 u4 u5 u6 u7 u8
  obtain ⟨pf1, pf2⟩ := packed_frame hpack i hiT
  obtain ⟨man, mon⟩ := match_after_update env s s2 T i h2 htabs hat hoth new
  obtain ⟨mao, moo⟩ := match_after_update env s s2 T i h2 htabs hat hoth old
  have hfind2 : EEFS_LibFindFile env s2 T new = (i : Int) := by
    apply findFile_at env s2 T new i (by rw [htabs]; exact hiT) (by omega)
    · rw [man, uu, un, strncmpEq_strncpy, strncmpEq_self]
      rfl
    · intro j hj
      rw [mon j (by omega) (by omega)]
      exact hnew j (by omega)
  refine ⟨i, hiT, e, ?_, hframe, htabs, hfds, ?_, ?_, hfind2, ?_, ?_⟩
  · rw [hat, ← hh2, strncpy_valid new hvn]
  · intro a h1 h2
    exact hframe a (Or.inl (pf1 a h1 h2))
  · intro j hj hji a h1 h2
    exact hframe a (pf2 j hj hji a h1 h2)
  · intro huniq
    apply findFile_none
    rw [htabs]
    intro j hj
    by_cases hji : j = i
    · subst hji
      rw [← htabs, mao, un, strncmpEq_strncpy,
        strncmpEq_trans_false old new _ _ hmo hmn, Bool.and_false]
    · rw [← htabs, moo j hj hji]
      exact huniq j hj hji
  · intro A buf len
    rw [open_found env s T old i O_RDONLY A hT hvo e,
      open_found env s2 T new i O_RDONLY A hT hvn hfind2]
    have hidx : ((i : Int)).toNat = i := Int.toNat_ofNat i
    obtain ⟨c1, c2⟩ := openFile_congr env s s2 T (i : Int) O_RDONLY A htabs hfds
      (by rw [hidx, hat, ua]) (by rw [hidx, hat, uz])
    obtain ⟨r1, r2, r3⟩ := openFile_result env s T (i : Int) O_RDONLY A
    obtain ⟨q1, q2, q3⟩ := openFile_result env s2 T (i : Int) O_RDONLY A
    refine ⟨c1, ?_⟩
    rw [c1]
    apply read_congr _ _ _ buf len c2
    intro hv a ha
    obtain ⟨k, hk, hk20, hku⟩ := valid_nat _ _ hv
    obtain ⟨-, htab⟩ := r3 k hk
    rw [q1, r1]
    apply hframe
    right
    rw [hk, Int.toNat_ofNat, htab, Function.update_same] at ha
    have hdp : (openedDescriptor env s T (i : Int) O_RDONLY).FileDataPointer
        = ((s.InodeTables T).File i).FileHeaderPointer + 64 := by
      simp only [openedDescriptor, hidx, sizeofFileHeader, u32]
      omega
    rw [hdp] at ha
    exact ha

set_option maxRecDepth 100000 in
/-- C22, witness: on the mounted example volume with the files "a" and "b",
`EEFS_LibRename("b", "c")` succeeds; "b" was at slot 1, where "c" is found afterwards, no
other slot holds a live file named "b", and the lookup of "b" then yields
`EEFS_FILE_NOT_FOUND`. -/
theorem rename_keeps_file_witness :
    ((exTwoFileMounted true [98]).InodeTables 1).NumberOfFiles ≤ EEFS_MAX_FILES ∧
    TablePacked ((exTwoFileMounted true [98]).InodeTables 1) ∧
    (∀ c ∈ [99], c < 256) ∧
    (EEFS_LibRename (exEnv true) (exTwoFileMounted true [98]) 1 (some [98]) (some [99])).1
      = EEFS_SUCCESS ∧
    EEFS_LibFindFile (exEnv true) (exTwoFileMounted true [98]) 1 [98] = ((1 : Nat) : Int) ∧
    EEFS_LibFindFile (exEnv true)
      (EEFS_LibRename (exEnv true) (exTwoFileMounted true [98]) 1 (some [98]) (some [99])).2
      1 [99] = ((1 : Nat) : Int) ∧
    EEFS_LibFindFile (exEnv true)
      (EEFS_LibRename (exEnv true) (exTwoFileMounted true [98]) 1 (some [98]) (some [99])).2
      1 [98] = EEFS_FILE_NOT_FOUND :=
  match rename_keeps_file (exEnv true) (exTwoFileMounted true [98]) 1
    (exTwoFileMounted_packed true).1 (exTwoFileMounted_packed true).2.1
    (exTwoFileMounted_packed true).2.2 [98] [99] (by decide) (by decide) with
  | ⟨i, _, h2, _, _, _, _, _, _, h9, h10, _⟩ =>
    have h3 : EEFS_LibFindFile (exEnv true) (exTwoFileMounted true [98]) 1 [98]
        = ((1 : Nat) : Int) := by decide
    have hi : i = 1 := by
      rw [h3] at h2
      exact_mod_cast h2.symm
    have hu : ∀ j, j < ((exTwoFileMounted true [98]).InodeTables 1).NumberOfFiles → j ≠ i →
        findFileMatch (exEnv true) (exTwoFileMounted true [98]).mem
          ((exTwoFileMounted true [98]).InodeTables 1) [98] j = false := by
      intro j hj hji
      have hN : ((exTwoFileMounted true [98]).InodeTables 1).NumberOfFiles = 2 := by decide
      rw [hN] at hj
      rw [hi] at hji
      obtain rfl : j = 0 := by omega
      decide
    ⟨(exTwoFileMounted_packed true).1, (exTwoFileMounted_packed true).2.1, by decide,
      by decide, h3, by rw [h9, hi], h10 hu⟩

set_option maxRecDepth 100000 in
/-- C22, counterexample to the claim as stated: the mounted example volume holds two live
files named "a", in the slots 0 and 1 of a packed inode table. `EEFS_LibRename("a", "b")`
returns `EEFS_SUCCESS` and renames slot 0; afterwards the lookup of "a" yields slot 1, not
`EEFS_FILE_NOT_FOUND`. -/
theorem rename_twin_counterexample :
    ((exTwoFileMounted true [97]).InodeTables 1).NumberOfFiles ≤ EEFS_MAX_FILES ∧
    TablePacked ((exTwoFileMounted true [97]).InodeTables 1) ∧
    EEFS_LibFindFile (exEnv true) (exTwoFileMounted true [97]) 1 [97] = 0 ∧
    findFileMatch (exEnv true) (exTwoFileMounted true [97]).mem
      ((exTwoFileMounted true [97]).InodeTables 1) [97] 1 = true ∧
    (EEFS_LibRename (exEnv true) (exTwoFileMounted true [97]) 1 (some [97]) (some [98])).1
      = EEFS_SUCCESS ∧
    EEFS_LibFindFile (exEnv true)
      (EEFS_LibRename (exEnv true) (exTwoFileMounted true [97]) 1 (some [97]) (some [98])).2
      1 [98] = 0 ∧
    EEFS_LibFindFile (exEnv true)
      (EEFS_LibRename (exEnv true) (exTwoFileMounted true [97]) 1 (some [97]) (some [98])).2
      1 [97] = 1 ∧
    EEFS_LibFindFile (exEnv true)
      (EEFS_LibRename (exEnv true) (exTwoFileMounted true [97]) 1 (some [97]) (some [98])).2
      1 [97] ≠ EEFS_FILE_NOT_FOUND :=
  ⟨(exTwinMounted_packed true).1, (exTwinMounted_packed true).2.1, by decide, by decide,
    by decide, by decide, by decide, by decide⟩

/-! ## Remount equivalence -/

theorem initFS_mem (env : Env) (s : State) (t b : Nat) :
    (EEFS_LibInitFS env s t b).2.mem = s.mem := by
  unfold EEFS_LibInitFS
  simp only []
  split_ifs <;> rfl

/-- `EEFS_LibWrite` changes no byte outside the `Length` bytes at the data pointer. -/
theorem write_far (s : State) (fd : Int) (b : Option (List Nat)) (l : Nat) (a : Nat)
    (ha : a < (s.EEFS_FileDescriptorTable fd.toNat).FileDataPointer ∨
      (s.EEFS_FileDescriptorTable fd.toNat).FileDataPointer + l ≤ a) :
    (EEFS_LibWrite s fd b l).2.mem a = s.mem a := by
  have hn : EEFS_MIN (u32sub (s.EEFS_FileDescriptorTable fd.toNat).MaxFileSize
      (s.EEFS_FileDescriptorTable fd.toNat).ByteOffset) l ≤ l := by
    simp only [EEFS_MIN]
    split_ifs <;> omega
  unfold EEFS_LibWrite
  simp only []
  split_ifs <;>
    first
    | rfl
    | (show memWrite s.mem _ _ a = s.mem a
       apply memWrite_out
       rw [List.length_map, List.length_range]
       omega)

set_option maxRecDepth 100000 in
theorem exTwoVolumes_ok : VolumeOK (exEnv true) (exTwoVolumes true).mem exBase2 4096 :=
  ⟨by decide, by decide, by decide, by decide, by decide, by decide, by decide,
    by decide, by decide⟩

set_option maxRecDepth 100000 in
theorem exTwoMounted_run : MountedRun true 1 exBase2 4096 (exTwoMounted true) := by
  apply MountedRun.other (exEnv true) _ (Call.LibOpen 2 (some [97]) O_RDWR 0)
  · apply MountedRun.other (exEnv true) _ (Call.LibInitFS 2 exBase)
    · exact MountedRun.mount (exEnv true) (exTwoVolumes true) rfl (by decide) exTwoVolumes_ok
        (by decide)
    · show (2 : Nat) ≠ 1
      decide
    · intro a _ _
      show (EEFS_LibInitFS _ _ _ _).2.mem a = _
      rw [initFS_mem]
  · show (2 : Nat) ≠ 1
    decide
  · intro a _ _
    show (EEFS_LibOpen _ _ _ _ _ _).2.mem a = _
    rw [open_found _ _ 2 [97] 0 O_RDWR 0 (by decide) (by decide) (by decide),
      (openFile_tables _ _ _ _ _ _).2]

set_option maxRecDepth 100000 in
theorem exTwoWritten_run : MountedRun true 1 exBase2 4096 (exTwoWritten true) := by
  apply MountedRun.call (exEnv true) _ (Call.LibWrite 1 (some [104, 101, 108, 108, 111]) 5)
  · apply MountedRun.other (exEnv true) _ (Call.LibWrite 0 (some [120, 121, 122]) 3)
    · exact MountedRun.call (exEnv true) _ (Call.LibCreat 1 (some [98]) EEFS_ATTRIBUTE_NONE)
        exTwoMounted_run rfl rfl
    · intro _
      decide
    · intro a h1 _
      have e : (((Call.LibCreat 1 (some [98]) EEFS_ATTRIBUTE_NONE).run (exEnv true)
          (exTwoMounted true)).EEFS_FileDescriptorTable (0 : Int).toNat).FileDataPointer
          = 4696 := by decide
      show (EEFS_LibWrite _ _ _ _).2.mem a = _
      apply write_far
      rw [e]
      simp only [exBase2] at h1
      omega
  · rfl
  · intro _
    decide

set_option maxRecDepth 100000 in
theorem exTwoSession_run : MountedRun true 1 exBase2 4096 (exTwoSession true) :=
  MountedRun.call (exEnv true) _ (Call.LibClose 1) exTwoWritten_run rfl (fun _ => by decide)

/-- C9 (amended). Remount equivalence: in every state of a session on the inode table `T`
mounted on a well-formed volume at `B`, whenever no descriptor with `EEFS_FCREAT` is open
on `T`, `EEFS_LibInitFS` of any inode table `T2` at the same base address over the
current medium succeeds and yields a table equal to `T` in `BaseAddress`,
`FreeMemoryPointer`, `FreeMemorySize`, `NumberOfFiles` and `File[i]` for every
`i < NumberOfFiles`. The session starts in any state of the engine with `EEFS_LibInitFS`
of `T` while no descriptor of `T` is open. It continues with the public functions on `T`
and its descriptors, `EEFS_LibInit` and a remount of `T` at `B` being made while no
descriptor with `EEFS_FCREAT` is open on `T`, `EEFS_LibFreeFS` of `T` while it is
refused, `EEFS_LibOpen` on `T` with an access mode other than `O_WRONLY | O_RDWR` and
`EEFS_LibLSeek` with an `int32` offset; and with the public functions on other inode
tables and their descriptors, the other volumes being mounted, written and unmounted, as
long as such a call changes no byte of the volume of `T`. The host byte order is the same
throughout. -/
theorem remount_equivalence (le : Bool) (T B V : Nat) (s : State)
    (hrun : MountedRun le T B V s) (env : Env) (henv : env.hostLittleEndian = le)
    (hidle : EEFS_LibHasOpenCreat s T = false) (T2 : Nat) (hT2 : T2 ≠ 0) :
    (EEFS_LibInitFS env s T2 B).1 = EEFS_SUCCESS ∧
    ((EEFS_LibInitFS env s T2 B).2.InodeTables T2).BaseAddress
      = (s.InodeTables T).BaseAddress ∧
    ((EEFS_LibInitFS env s T2 B).2.InodeTables T2).FreeMemoryPointer
      = (s.InodeTables T).FreeMemoryPointer ∧
    ((EEFS_LibInitFS env s T2 B).2.InodeTables T2).FreeMemorySize
      = (s.InodeTables T).FreeMemorySize ∧
    ((EEFS_LibInitFS env s T2 B).2.InodeTables T2).NumberOfFiles
      = (s.InodeTables T).NumberOfFiles ∧
    ∀ i, i < (s.InodeTables T).NumberOfFiles →
      ((EEFS_LibInitFS env s T2 B).2.InodeTables T2).File i = (s.InodeTables T).File i := by
  have h := mounted_run hrun env henv
  have hfit := h.vol.fits
  have htail := h.vol.tail
  have hn := h.idle hidle
  rw [initFS_eq h.vol T2 hT2]
  simp only [setInodeTable, Function.update_same]
  refine ⟨trivial, h.base.symm, ?_, h.fms.symm, hn.symm, ?_⟩
  · rw [h.fmp]; simp only [u32]; omega
  · intro i hi
    rw [hn] at hi
    obtain ⟨f1, f2⟩ := h.files i hi
    have hs := h.vol.slot i hi
    simp only [sizeofFileHeader] at hs
    rw [initFS_file, if_pos hi]
    apply inodeTableEntry_ext
    · rw [f1]; simp only [u32]; omega
    · rw [f2]

set_option maxRecDepth 100000 in
/-- C9, witness: table 1 is mounted on the empty volume at `exBase2` and table 2 on the
one-file volume at `exBase`; "a" is opened and written through table 2, "b" is created,
written and closed through table 1. Table 1 then has one file, and a remount on table 3
at `exBase2` yields the same table. -/
theorem remount_equivalence_witness :
    MountedRun true 1 exBase2 4096 (exTwoSession true) ∧
    EEFS_LibHasOpenCreat (exTwoSession true) 1 = false ∧
    ((exTwoSession true).InodeTables 1).NumberOfFiles = 1 ∧
    ((EEFS_LibInitFS (exEnv true) (exTwoSession true) 3 exBase2).1 = EEFS_SUCCESS ∧
    ((EEFS_LibInitFS (exEnv true) (exTwoSession true) 3 exBase2).2.InodeTables 3).BaseAddress
      = ((exTwoSession true).InodeTables 1).BaseAddress ∧
    ((EEFS_LibInitFS (exEnv true) (exTwoSession true) 3 exBase2).2.InodeTables
        3).FreeMemoryPointer
      = ((exTwoSession true).InodeTables 1).FreeMemoryPointer ∧
    ((EEFS_LibInitFS (exEnv true) (exTwoSession true) 3 exBase2).2.InodeTables
        3).FreeMemorySize
      = ((exTwoSession true).InodeTables 1).FreeMemorySize ∧
    ((EEFS_LibInitFS (exEnv true) (exTwoSession true) 3 exBase2).2.InodeTables
        3).NumberOfFiles
      = ((exTwoSession true).InodeTables 1).NumberOfFiles ∧
    ∀ i, i < ((exTwoSession true).InodeTables 1).NumberOfFiles →
      ((EEFS_LibInitFS (exEnv true) (exTwoSession true) 3 exBase2).2.InodeTables 3).File i
        = ((exTwoSession true).InodeTables 1).File i) :=
  ⟨exTwoSession_run, by decide, by decide,
    remount_equivalence true 1 exBase2 4096 (exTwoSession true) exTwoSession_run
      (exEnv true) rfl (by decide) 3 (by decide)⟩

set_option maxRecDepth 100000 in
/-- C9, counterexample to the claim as stated (little-endian host), in four runs that
start with table 1 mounted on an example volume; in the end state of each no descriptor
with `EEFS_FCREAT` is open on table 1. After `Creat("a")` and `EEFS_LibInit`,
`EEFS_LibInitFS` of table 2 at the same base address succeeds, and table 1 has one file
where the remounted table has none. After `EEFS_LibFreeFS` of table 1 its base address is
0 and `EEFS_LibInitFS` at that address fails. After table 2 is mounted on the same volume
and "b" is created and closed through it, table 1 has no file where a table remounted at
the same base address has one. After table 1 is mounted again while a descriptor of it is
open for writing, on a volume that lies in the payload of the open file, a write through
the descriptor changes the `FreeMemorySize` that a remount at the same base address
yields, from the 0 of table 1 to 16843009. -/
theorem remount_equivalence_counterexample :
    (EEFS_LibHasOpenCreat (exCreatThenInit true) 1 = false ∧
      (EEFS_LibInitFS (exEnv true) (exCreatThenInit true) 2 exBase).1 = EEFS_SUCCESS ∧
      ((exCreatThenInit true).InodeTables 1).BaseAddress = exBase ∧
      ((exCreatThenInit true).InodeTables 1).NumberOfFiles = 1 ∧
      ((EEFS_LibInitFS (exEnv true) (exCreatThenInit true) 2 exBase).2.InodeTables
        2).NumberOfFiles = 0) ∧
    ((EEFS_LibFreeFS (exMountedEmpty true) 1).1 = EEFS_SUCCESS ∧
      EEFS_LibHasOpenCreat (EEFS_LibFreeFS (exMountedEmpty true) 1).2 1 = false ∧
      ((EEFS_LibFreeFS (exMountedEmpty true) 1).2.InodeTables 1).BaseAddress = 0 ∧
      (EEFS_LibInitFS (exEnv true) (EEFS_LibFreeFS (exMountedEmpty true) 1).2 2 0).1
        = EEFS_NO_SUCH_DEVICE) ∧
    (EEFS_LibHasOpenCreat (exTwoTables true) 1 = false ∧
      (EEFS_LibInitFS (exEnv true) (exTwoTables true) 3 exBase).1 = EEFS_SUCCESS ∧
      ((exTwoTables true).InodeTables 1).BaseAddress = exBase ∧
      ((exTwoTables true).InodeTables 1).NumberOfFiles = 0 ∧
      ((EEFS_LibInitFS (exEnv true) (exTwoTables true) 3 exBase).2.InodeTables
        3).NumberOfFiles = 1) ∧
    ((exNestedMount true).1 = EEFS_SUCCESS ∧
      EEFS_LibIsValidFileDescriptor (exNestedMount true).2 0 = true ∧
      ((exNestedMount true).2.EEFS_FileDescriptorTable 0).InodeTable = 1 ∧
      EEFS_LibHasOpenCreat (exNestedWrite true) 1 = false ∧
      ((exNestedWrite true).InodeTables 1).BaseAddress = exBase + 600 ∧
      (EEFS_LibInitFS (exEnv true) (exNestedWrite true) 2 (exBase + 600)).1 = EEFS_SUCCESS ∧
      ((exNestedWrite true).InodeTables 1).FreeMemorySize = 0 ∧
      ((EEFS_LibInitFS (exEnv true) (exNestedWrite true) 2 (exBase + 600)).2.InodeTables
        2).FreeMemorySize = 16843009) := by
  decide

end EEFS
